import Mathlib

/-!
# Clock appliance: mode state machine and serial update protocol

Shallow embedding of `Bai5_UART/Core/Src/clock_fsm.c` (the Lab 5 clock FSM) and of
`Bai5_UART/Core/Src/uart.c`: the functions the FSM calls, the receive ring and the line
reassembler.  Two smaller embeddings follow the definitions of Lab 5: the mode switch and
the update handler of `Bai4_I2C_Realtimeclock/Core/Src/clock_fsm.c` (Lab 4, namespace
`ClockFsm.Lab4`) and the traffic-light FSM `Bai3_Lcd_button/Core/Src/traffic_fsm.c`
(Lab 3, namespace `TrafficFsm`).

Conventions of the embedding

* The file-level `static` variables of `clock_fsm.c` are the fields of `State`, under
  their source names.  The seven `temp_*` bytes are grouped in a `TimeRec` (`s.temp.hour`
  is `temp_hour`, `s.temp.day` is `temp_day`, the weekday, `s.temp.date` is `temp_date`,
  the day of the month), and so are the `ds3231_*` globals of the RTC driver.
* Machine integers are `Nat`; a reduction modulo `2^8` is written where the C code can
  wrap (`temp_day - 1` and friends on `uint8_t`).
* Collaborators whose code is not part of the sources (RTC driver, button scanner, HAL
  UART) are modelled by what the FSM can observe of them: `button_count_*` are the four
  counters the FSM reads, `rtc_now` is what `ds3231_ReadTime` would read, and every call
  that leaves the FSM is appended to `trace` in program order.
* Display calls (`lcd_Fill`, `lcd_ShowStr`, `lcd_ShowIntNum`, `displayTime`,
  `display_mode_status`) change no variable of the FSM and are not recorded, with one
  exception: the prompt line `"Updating ... (Try %d/3)"` is recorded as
  `Effect.lcdPrompt` because it shows the retry counter.
* A C string is the list of its bytes before the terminating NUL.
-/

namespace ClockFsm

/-! ## Data model -/

/-- System modes, `ClockMode_t`. -/
inductive ClockMode
  | MODE_VIEW_TIME
  | MODE_SET_TIME
  | MODE_SET_ALARM
  | MODE_UPDATE_VIA_UART
  | MODE_MESSAGE_DISPLAY
  deriving DecidableEq, Repr

/-- Numeric value of a `ClockMode_t` enumerator. -/
def modeToNat : ClockMode → Nat
  | .MODE_VIEW_TIME => 0
  | .MODE_SET_TIME => 1
  | .MODE_SET_ALARM => 2
  | .MODE_UPDATE_VIA_UART => 3
  | .MODE_MESSAGE_DISPLAY => 4

/-- Enumerator of a numeric value (values above 4 do not occur). -/
def modeOfNat : Nat → ClockMode
  | 0 => .MODE_VIEW_TIME
  | 1 => .MODE_SET_TIME
  | 2 => .MODE_SET_ALARM
  | 3 => .MODE_UPDATE_VIA_UART
  | _ => .MODE_MESSAGE_DISPLAY

/-! `SetTimeParam_t` and `SetAlarmParam_t` are kept as numbers: the code does raw
arithmetic on them (`uart_update_param++`, `set_time_param + 1`). -/

@[reducible] def SET_HOUR : Nat := 0
@[reducible] def SET_MIN : Nat := 1
@[reducible] def SET_SEC : Nat := 2
@[reducible] def SET_DAY : Nat := 3
@[reducible] def SET_DATE : Nat := 4
@[reducible] def SET_MONTH : Nat := 5
@[reducible] def SET_YEAR : Nat := 6

@[reducible] def SET_ALARM_HOUR : Nat := 0
@[reducible] def SET_ALARM_MIN : Nat := 1
@[reducible] def SET_ALARM_ENABLE : Nat := 2

@[reducible] def LONG_PRESS_DURATION : Nat := 40
@[reducible] def AUTO_INCREMENT_PERIOD : Nat := 4
@[reducible] def UART_TIMEOUT_PERIOD : Nat := 200
@[reducible] def UART_MAX_RETRIES : Nat := 3
@[reducible] def MESSAGE_DISPLAY_PERIOD : Nat := 60
@[reducible] def RESET_LONG_PRESS_DURATION : Nat := 60

/-- Colours stored in `message_color` (constants of `lcd.h`). -/
inductive Color
  | GREEN
  | RED
  deriving DecidableEq, Repr

/-- Register addresses of the RTC (constants `ADDRESS_*` of `ds3231.h`). -/
inductive RtcAddr
  | ADDRESS_SEC
  | ADDRESS_MIN
  | ADDRESS_HOUR
  | ADDRESS_DAY
  | ADDRESS_DATE
  | ADDRESS_MONTH
  | ADDRESS_YEAR
  deriving DecidableEq, Repr

/-- Seven time and date bytes: `day` is the weekday, `date` the day of the month. -/
structure TimeRec where
  hour : Nat
  min : Nat
  sec : Nat
  day : Nat
  date : Nat
  month : Nat
  year : Nat
  deriving DecidableEq, Repr

/-- Calls that leave the FSM, in program order. -/
inductive Effect
  | rtcWrite (addr : RtcAddr) (value : Nat)
  | rtcRead
  | uartSend (str : List Nat)
  | uartListen
  | uartStop
  | lcdPrompt (param : Nat) (attempt : Nat)
  deriving DecidableEq, Repr

/-- Variables of `uart.c`: receive ring, command buffer and flags.  `listening` is
whether the receive interrupt is armed (`HAL_UART_Receive_IT` armed it and
`HAL_UART_AbortReceive_IT` has not cancelled it since). -/
structure Uart where
  rx_buffer : List Nat
  rx_head : Nat
  rx_tail : Nat
  uart_rx_flag : Nat
  uart_cmd_buffer : List Nat
  uart_cmd_index : Nat
  uart_cmd_ready_flag : Nat
  listening : Bool
  deriving DecidableEq, Repr

/-- All variables the clock FSM reads or writes. -/
structure State where
  current_mode : ClockMode
  set_time_param : Nat
  set_alarm_param : Nat
  temp : TimeRec
  alarm_hour : Nat
  alarm_min : Nat
  alarm_enabled : Nat
  alarm_triggered : Nat
  alarm_display_counter : Nat
  blink_counter : Nat
  blink_flag : Nat
  uart_update_param : Nat
  uart_data_requested : Nat
  uart_rx_buffer : List Nat
  uart_timeout_counter : Nat
  uart_retry_count : Nat
  message_display_counter : Nat
  message_buffer : List Nat
  message_color : Color
  mode_btn_last_count : Nat
  button_count_mode : Nat
  button_count_up : Nat
  button_count_down : Nat
  button_count_save : Nat
  ds3231 : TimeRec
  rtc_now : TimeRec
  uart : Uart
  trace : List Effect
  deriving DecidableEq, Repr

/-! ## Strings -/

/-- Bytes of a string literal. -/
def bytes (s : String) : List Nat := s.toList.map Char.toNat

/-- The C string held in a byte buffer: the bytes before the first NUL. -/
def cstr (buf : List Nat) : List Nat := buf.takeWhile (fun b => b != 0)

/-- Day names lookup table, `day_names[8]`. -/
def day_names : List (List Nat) :=
  [bytes "", bytes "Mon", bytes "Tue", bytes "Wed", bytes "Thu", bytes "Fri", bytes "Sat",
   bytes "Sun"]

/-- White space as `isspace` of the C locale sees it. -/
def isspace (c : Nat) : Bool := c == 32 || (9 ≤ c && c ≤ 13)

/-- Decimal digit. -/
def isdigit (c : Nat) : Bool := 48 ≤ c && c ≤ 57

/-- Value of a run of decimal digits. -/
def digitsValue (ds : List Nat) : Nat := ds.foldl (fun acc c => acc * 10 + (c - 48)) 0

/-- The libc `atoi` on a C string: leading white space is skipped, an optional sign is
read, then the longest run of decimal digits; no digits give 0.  A value that does not fit
`int` is saturated, as `strtol` does. -/
def atoi (str : List Nat) : Int :=
  let rest := str.dropWhile isspace
  let neg := rest.head? == some 45
  let body := if rest.head? == some 45 || rest.head? == some 43 then rest.tail else rest
  let n : Int := digitsValue (body.takeWhile isdigit)
  let v : Int := if neg then -n else n
  if v < -2147483648 then -2147483648 else if v > 2147483647 then 2147483647 else v

/-- Parser of `uart.c`: `uart_parse_num_from_string` is `atoi`. -/
def uart_parse_num_from_string (str : List Nat) : Int := atoi str

/-! ## Collaborators -/

/-- Record a call that leaves the FSM. -/
def emit (e : Effect) (s : State) : State := { s with trace := s.trace ++ [e] }

/-- RTC driver, `ds3231_Write(address, value)`: one register write. -/
def ds3231_Write (addr : RtcAddr) (value : Nat) (s : State) : State :=
  emit (Effect.rtcWrite addr value) s

/-- RTC driver, `ds3231_ReadTime()`: loads the `ds3231_*` globals from the device. -/
def ds3231_ReadTime (s : State) : State :=
  emit Effect.rtcRead { s with ds3231 := s.rtc_now }

/-- Transmit a C string, `uart_Rs232SendString`. -/
def uart_Rs232SendString (str : List Nat) (s : State) : State :=
  emit (Effect.uartSend str) s

/-- Arm the receive interrupt, `uart_init_rs232`. -/
def uart_init_rs232 (s : State) : State :=
  emit Effect.uartListen { s with uart := { s.uart with listening := true } }

/-- Cancel the receive interrupt, `uart_stop_listening`. -/
def uart_stop_listening (s : State) : State :=
  emit Effect.uartStop { s with uart := { s.uart with listening := false } }

/-- Hand a completed command over, `uart_get_command(buffer)`: when the ready flag is set
the command buffer is copied (`strcpy`) into `buffer`, the flag is cleared and 1 is
returned; otherwise 0 is returned.  The result is (return value, buffer, uart). -/
def uart_get_command (u : Uart) (buffer : List Nat) : Nat × List Nat × Uart :=
  if u.uart_cmd_ready_flag ≠ 0 then
    (1, cstr u.uart_cmd_buffer, { u with uart_cmd_ready_flag := 0 })
  else
    (0, buffer, u)

/-! ## Message mode -/

/-- Switch the FSM to the message display, `enter_message_display_mode`. -/
def enter_message_display_mode (lcd_msg : List Nat) (color : Color)
    (uart_msg : Option (List Nat)) (s : State) : State :=
  let s1 := { s with message_buffer := lcd_msg, message_color := color }
  let s2 := match uart_msg with
    | some m => uart_Rs232SendString m s1
    | none => s1
  { s2 with message_display_counter := MESSAGE_DISPLAY_PERIOD,
            current_mode := ClockMode.MODE_MESSAGE_DISPLAY }

/-- Per-tick logic of the message display, `handle_message_display_mode`. -/
def handle_message_display_mode (s : State) : State :=
  if s.message_display_counter > 0 then
    { s with message_display_counter := s.message_display_counter - 1 }
  else
    { s with current_mode := ClockMode.MODE_VIEW_TIME }

/-! ## Setting arithmetic -/

/-- Number of days of a month, `get_max_date(month, year)`. -/
def get_max_date (month year : Nat) : Nat :=
  if month = 2 then
    if year % 4 = 0 then 29 else 28
  else if month = 4 ∨ month = 6 ∨ month = 9 ∨ month = 11 then 30
  else 31

/-- Step the selected time field up, `increment_setting`. -/
def increment_setting (s : State) : State :=
  let t := s.temp
  match s.set_time_param with
  | 0 => { s with temp := { t with hour := (t.hour + 1) % 24 } }
  | 1 => { s with temp := { t with min := (t.min + 1) % 60 } }
  | 2 => { s with temp := { t with sec := (t.sec + 1) % 60 } }
  | 3 => { s with temp := { t with day := (t.day % 7) + 1 } }
  | 4 => { s with temp := { t with date := (t.date % get_max_date t.month t.year) + 1 } }
  | 5 => { s with temp := { t with month := (t.month % 12) + 1 } }
  | 6 => { s with temp := { t with year := (t.year + 1) % 100 } }
  | _ => s

/-- Unsigned byte decrement followed by the test `< 1`, as in
`x = (x - 1); if (x < 1) x = wrap;` for a `uint8_t`. -/
def dec_wrap (x wrap : Nat) : Nat :=
  let y := (x + 256 - 1) % 256
  if y < 1 then wrap else y

/-- Step the selected time field down, `decrement_setting`. -/
def decrement_setting (s : State) : State :=
  let t := s.temp
  match s.set_time_param with
  | 0 => { s with temp := { t with hour := (t.hour + 24 - 1) % 24 } }
  | 1 => { s with temp := { t with min := (t.min + 60 - 1) % 60 } }
  | 2 => { s with temp := { t with sec := (t.sec + 60 - 1) % 60 } }
  | 3 => { s with temp := { t with day := dec_wrap t.day 7 } }
  | 4 => { s with temp := { t with date := dec_wrap t.date (get_max_date t.month t.year) } }
  | 5 => { s with temp := { t with month := dec_wrap t.month 12 } }
  | 6 => { s with temp := { t with year := (t.year + 100 - 1) % 100 } }
  | _ => s

/-- Logical negation of a C value, `!x`. -/
def lnot (x : Nat) : Nat := if x = 0 then 1 else 0

/-- Step the selected alarm field up, `increment_alarm_setting`. -/
def increment_alarm_setting (s : State) : State :=
  match s.set_alarm_param with
  | 0 => { s with alarm_hour := (s.alarm_hour + 1) % 24 }
  | 1 => { s with alarm_min := (s.alarm_min + 1) % 60 }
  | 2 => { s with alarm_enabled := lnot s.alarm_enabled }
  | _ => s

/-- Step the selected alarm field down, `decrement_alarm_setting`. -/
def decrement_alarm_setting (s : State) : State :=
  match s.set_alarm_param with
  | 0 => { s with alarm_hour := (s.alarm_hour + 24 - 1) % 24 }
  | 1 => { s with alarm_min := (s.alarm_min + 60 - 1) % 60 }
  | 2 => { s with alarm_enabled := lnot s.alarm_enabled }
  | _ => s

/-! ## Mode switch -/

/-- The seven register writes of a commit of the temporary record, in the order of the
source: hour, minute, second, weekday, date, month, year. -/
def write_temp (s : State) : State :=
  let s1 := ds3231_Write RtcAddr.ADDRESS_HOUR s.temp.hour s
  let s2 := ds3231_Write RtcAddr.ADDRESS_MIN s1.temp.min s1
  let s3 := ds3231_Write RtcAddr.ADDRESS_SEC s2.temp.sec s2
  let s4 := ds3231_Write RtcAddr.ADDRESS_DAY s3.temp.day s3
  let s5 := ds3231_Write RtcAddr.ADDRESS_DATE s4.temp.date s4
  let s6 := ds3231_Write RtcAddr.ADDRESS_MONTH s5.temp.month s5
  ds3231_Write RtcAddr.ADDRESS_YEAR s6.temp.year s6

/-- Entry banner of the update mode. -/
def banner_update : List Nat := bytes "\r\n--- ENTERING UART UPDATE MODE ---\r\n"

/-- Mode switch on a short press, `handle_mode_switch`. -/
def handle_mode_switch (s : State) : State :=
  let s1 := if s.current_mode = ClockMode.MODE_SET_TIME then write_temp s else s
  let s2 := if s1.alarm_triggered ≠ 0 then { s1 with alarm_triggered := 0 } else s1
  let s3 := { s2 with current_mode := modeOfNat ((modeToNat s2.current_mode + 1) % 4) }
  if s3.current_mode = ClockMode.MODE_SET_TIME then
    let s4 := ds3231_ReadTime s3
    { s4 with temp := s4.ds3231, set_time_param := SET_HOUR }
  else if s3.current_mode = ClockMode.MODE_SET_ALARM then
    { s3 with set_alarm_param := SET_ALARM_HOUR }
  else if s3.current_mode = ClockMode.MODE_UPDATE_VIA_UART then
    let s4 := ds3231_ReadTime s3
    let s5 := { s4 with temp := s4.ds3231, uart_update_param := SET_HOUR,
                        uart_data_requested := 0, uart_retry_count := 0,
                        uart_timeout_counter := UART_TIMEOUT_PERIOD }
    uart_Rs232SendString banner_update s5
  else
    s3

/-! ## Per-mode tick handlers -/

/-- Tick in the view mode, `handle_view_time_mode`. -/
def handle_view_time_mode (s : State) : State :=
  let s1 :=
    if s.alarm_triggered ≠ 0 ∧
        (s.button_count_up = 1 ∨ s.button_count_down = 1 ∨ s.button_count_save = 1) then
      { s with alarm_triggered := 0 }
    else s
  if s1.alarm_triggered ≠ 0 then
    if s1.alarm_display_counter > 0 then
      { s1 with alarm_display_counter := s1.alarm_display_counter - 1 }
    else
      { s1 with alarm_triggered := 0 }
  else
    let s2 := ds3231_ReadTime s1
    if s2.alarm_enabled ≠ 0 ∧ s2.alarm_triggered = 0 ∧ s2.ds3231.hour = s2.alarm_hour ∧
        s2.ds3231.min = s2.alarm_min ∧ s2.ds3231.sec = 0 then
      { s2 with alarm_triggered := 1, alarm_display_counter := 200 }
    else s2

/-- The button pattern shared by UP and DOWN in both edit modes:
`if (count == 1) f(); else if (count > LONG_PRESS_DURATION) { if (count %
AUTO_INCREMENT_PERIOD == 0) f(); }`. -/
def on_button (count : Nat) (f : State → State) (s : State) : State :=
  if count = 1 then f s
  else if count > LONG_PRESS_DURATION then
    if count % AUTO_INCREMENT_PERIOD = 0 then f s else s
  else s

/-- Tick in the set-time mode, `handle_set_time_mode`. -/
def handle_set_time_mode (s : State) : State :=
  let s1 := on_button s.button_count_up increment_setting s
  let s2 := on_button s1.button_count_down decrement_setting s1
  if s2.button_count_save = 1 then
    if s2.set_time_param + 1 > SET_YEAR then { s2 with set_time_param := SET_HOUR }
    else { s2 with set_time_param := s2.set_time_param + 1 }
  else s2

/-- Tick in the set-alarm mode, `handle_set_alarm_mode`. -/
def handle_set_alarm_mode (s : State) : State :=
  let s0 := ds3231_ReadTime s
  let s1 := on_button s0.button_count_up increment_alarm_setting s0
  let s2 := on_button s1.button_count_down decrement_alarm_setting s1
  if s2.button_count_save = 1 then
    { s2 with set_alarm_param := (s2.set_alarm_param + 1) % 3 }
  else s2

/-! ## Update session over the serial line -/

/-- Serial prompt of a field; the weekday prompt is sent as two strings. -/
def uart_send_prompt (s : State) : State :=
  match s.uart_update_param with
  | 0 => uart_Rs232SendString (bytes "Hours (0-23): ") s
  | 1 => uart_Rs232SendString (bytes "Minutes (0-59): ") s
  | 2 => uart_Rs232SendString (bytes "Seconds (0-59): ") s
  | 3 => uart_Rs232SendString (bytes "Day: ")
          (uart_Rs232SendString (bytes "Enter 3 letters (e.g. Mon, Tue, Wed):\r\n") s)
  | 4 => uart_Rs232SendString (bytes "Date (1-31): ") s
  | 5 => uart_Rs232SendString (bytes "Month (1-12): ") s
  | 6 => uart_Rs232SendString (bytes "Year (0-99): ") s
  | _ => s

/-- Step 1 of `handle_uart_update_mode` once the retry check has passed: count the
attempt, restart the timeout, prompt on the serial line and on the display, arm the
receiver and mark the request as outstanding. -/
def uart_send_request (s : State) : State :=
  let s1 := { s with uart_retry_count := (s.uart_retry_count + 1) % 256,
                     uart_timeout_counter := UART_TIMEOUT_PERIOD }
  let s2 := uart_send_prompt s1
  let s3 := emit (Effect.lcdPrompt s2.uart_update_param s2.uart_retry_count) s2
  let s4 := uart_init_rs232 s3
  { s4 with uart_data_requested := 1 }

/-- The loop over `day_names[1..7]`: index of the first name equal to the line
(`strcmp(...) == 0`). -/
def day_lookup (buf : List Nat) : Option Nat :=
  (List.range' 1 7).find? (fun i => day_names.getD i [] == buf)

/-- Step 3 of `handle_uart_update_mode`: parse the received line for the field under
the cursor and store it when it is acceptable.  The result is (state, `data_is_valid`). -/
def uart_store_value (s : State) : State × Nat :=
  if s.uart_update_param = SET_DAY then
    match day_lookup s.uart_rx_buffer with
    | some i => ({ s with temp := { s.temp with day := i } }, 1)
    | none => (s, 0)
  else
    let val := uart_parse_num_from_string s.uart_rx_buffer
    match s.uart_update_param with
    | 0 => if 0 ≤ val ∧ val ≤ 23 then
        ({ s with temp := { s.temp with hour := val.toNat } }, 1) else (s, 0)
    | 1 => if 0 ≤ val ∧ val ≤ 59 then
        ({ s with temp := { s.temp with min := val.toNat } }, 1) else (s, 0)
    | 2 => if 0 ≤ val ∧ val ≤ 59 then
        ({ s with temp := { s.temp with sec := val.toNat } }, 1) else (s, 0)
    | 4 => if 1 ≤ val ∧ val ≤ 31 then
        ({ s with temp := { s.temp with date := val.toNat } }, 1) else (s, 0)
    | 5 => if 1 ≤ val ∧ val ≤ 12 then
        ({ s with temp := { s.temp with month := val.toNat } }, 1) else (s, 0)
    | 6 => if 0 ≤ val ∧ val ≤ 99 then
        ({ s with temp := { s.temp with year := val.toNat } }, 1) else (s, 0)
    | _ => (s, 0)

/-- Steps 4 and 5 of `handle_uart_update_mode`: answer an accepted value by an echo,
advance the cursor and commit after the last field; answer a rejected value by a notice.
Either way the request is no longer outstanding. -/
def uart_respond (s : State) (data_is_valid : Nat) : State :=
  if data_is_valid ≠ 0 then
    let s3 := uart_Rs232SendString (bytes "Received: ") s
    let s4 := uart_Rs232SendString s3.uart_rx_buffer s3
    let s5 := uart_Rs232SendString (bytes "\r\n") s4
    let s6 := { s5 with uart_update_param := s5.uart_update_param + 1,
                        uart_data_requested := 0, uart_retry_count := 0 }
    if s6.uart_update_param > SET_YEAR then
      enter_message_display_mode (bytes "Update Complete!") Color.GREEN
        (some (bytes "\r\nUpdate Complete! Returning...\r\n")) (write_temp s6)
    else s6
  else
    let s3 := uart_Rs232SendString (bytes "\r\nInvalid data. Please try again.\r\n") s
    { s3 with uart_data_requested := 0 }

/-- Step 2 of `handle_uart_update_mode`: poll the serial line; on a command stop
listening, then validate and respond (steps 3 to 5); with no command count the timeout
down and, once it has run out, stop listening and give the request up. -/
def uart_check_command (s : State) : State :=
  let r := uart_get_command s.uart s.uart_rx_buffer
  let s0 := { s with uart_rx_buffer := r.2.1, uart := r.2.2 }
  if r.1 ≠ 0 then
    let s1 := uart_stop_listening s0
    let v := uart_store_value s1
    uart_respond v.1 v.2
  else
    if s0.uart_timeout_counter > 0 then
      { s0 with uart_timeout_counter := s0.uart_timeout_counter - 1 }
    else
      let s1 := uart_stop_listening s0
      let s2 := uart_Rs232SendString (bytes "\r\nTimeout. Retrying...\r\n") s1
      { s2 with uart_data_requested := 0 }

/-- Tick in the update mode, `handle_uart_update_mode`. -/
def handle_uart_update_mode (s : State) : State :=
  if s.uart_data_requested = 0 then
    if s.uart_retry_count ≥ UART_MAX_RETRIES then
      enter_message_display_mode (bytes "UART Timeout!") Color.RED
        (some (bytes "\r\nERROR: No response after 3 tries. Exiting.\r\n")) s
    else
      uart_check_command (uart_send_request s)
  else
    uart_check_command s

/-! ## The tick -/

/-- The seven register writes of the reset, in the order of the source. -/
def write_defaults (s : State) : State :=
  let s1 := ds3231_Write RtcAddr.ADDRESS_YEAR 25 s
  let s2 := ds3231_Write RtcAddr.ADDRESS_MONTH 11 s1
  let s3 := ds3231_Write RtcAddr.ADDRESS_DATE 5 s2
  let s4 := ds3231_Write RtcAddr.ADDRESS_DAY 3 s3
  let s5 := ds3231_Write RtcAddr.ADDRESS_HOUR 10 s4
  let s6 := ds3231_Write RtcAddr.ADDRESS_MIN 21 s5
  ds3231_Write RtcAddr.ADDRESS_SEC 0 s6

/-- True when this tick sees the mode button released: the count is 0 and was not 0 at
the previous tick. -/
def mode_released (s : State) : Prop :=
  s.button_count_mode = 0 ∧ s.mode_btn_last_count > 0

instance (s : State) : Decidable (mode_released s) := by
  unfold mode_released; infer_instance

/-- Main FSM step, `clock_fsm_run`, called once per 50 ms tick. -/
def clock_fsm_run (s : State) : State :=
  let mode_btn_current_count := s.button_count_mode
  if mode_btn_current_count > RESET_LONG_PRESS_DURATION then
    let s1 := { s with button_count_mode := 0, mode_btn_last_count := 0 }
    let s2 := write_defaults s1
    let s3 := { s2 with alarm_hour := 6, alarm_min := 0, alarm_enabled := 0 }
    enter_message_display_mode (bytes "System Reset!") Color.GREEN none s3
  else if s.current_mode = ClockMode.MODE_MESSAGE_DISPLAY then
    let s1 :=
      if mode_released s then
        { s with current_mode := ClockMode.MODE_VIEW_TIME, mode_btn_last_count := 0 }
      else
        { s with mode_btn_last_count := mode_btn_current_count }
    handle_message_display_mode s1
  else
    let s1 := if mode_released s then handle_mode_switch s else s
    let s2 := { s1 with mode_btn_last_count := mode_btn_current_count }
    let s3 := { s2 with blink_counter := (s2.blink_counter + 1) % 10 }
    let s4 := { s3 with blink_flag := if s3.blink_counter < 5 then 1 else 0 }
    match s4.current_mode with
    | ClockMode.MODE_VIEW_TIME => handle_view_time_mode s4
    | ClockMode.MODE_SET_TIME => handle_set_time_mode s4
    | ClockMode.MODE_SET_ALARM => handle_set_alarm_mode s4
    | ClockMode.MODE_UPDATE_VIA_UART => handle_uart_update_mode s4
    | ClockMode.MODE_MESSAGE_DISPLAY => s4

/-! ## Environment and runs -/

/-- What the collaborators present to one tick: the four button counters, the reading the
RTC would return, and the command line, if any, that the line reassembler completed
since the previous tick. -/
structure Input where
  button_count_mode : Nat
  button_count_up : Nat
  button_count_down : Nat
  button_count_save : Nat
  rtc_now : TimeRec
  line : Option (List Nat)
  deriving DecidableEq, Repr

/-- The collaborators update what the FSM will observe.  A completed line is stored as
a C string in the command buffer and raises the ready flag; with no completed line the
command buffer and the flag stay as the previous tick left them. -/
def feed (i : Input) (s : State) : State :=
  let u := match i.line with
    | some l => { s.uart with
        uart_cmd_buffer := l ++ [0] ++ s.uart.uart_cmd_buffer.drop (l.length + 1),
        uart_cmd_ready_flag := 1 }
    | none => s.uart
  { s with button_count_mode := i.button_count_mode, button_count_up := i.button_count_up,
           button_count_down := i.button_count_down, button_count_save := i.button_count_save,
           rtc_now := i.rtc_now, uart := u }

/-- One period of the main loop: the collaborators run, then the FSM step. -/
def tick (s : State) (i : Input) : State := clock_fsm_run (feed i s)

/-- A run of ticks. -/
def run (s : State) (is : List Input) : State := is.foldl tick s

/-- A time record of zeros. -/
def TimeRec.zero : TimeRec := ⟨0, 0, 0, 0, 0, 0, 0⟩

/-- The state after program start: the static initialisers of `clock_fsm.c` and
`uart.c`; variables without an initialiser are zero. -/
def init : State :=
  { current_mode := ClockMode.MODE_VIEW_TIME, set_time_param := SET_HOUR,
    set_alarm_param := SET_ALARM_HOUR, temp := TimeRec.zero,
    alarm_hour := 6, alarm_min := 0, alarm_enabled := 0, alarm_triggered := 0,
    alarm_display_counter := 0, blink_counter := 0, blink_flag := 0,
    uart_update_param := SET_HOUR, uart_data_requested := 0, uart_rx_buffer := [],
    uart_timeout_counter := 0, uart_retry_count := 0, message_display_counter := 0,
    message_buffer := [], message_color := Color.GREEN, mode_btn_last_count := 0,
    button_count_mode := 0, button_count_up := 0, button_count_down := 0,
    button_count_save := 0, ds3231 := TimeRec.zero, rtc_now := TimeRec.zero,
    uart := { rx_buffer := List.replicate 64 0, rx_head := 0, rx_tail := 0,
              uart_rx_flag := 0, uart_cmd_buffer := List.replicate 32 0,
              uart_cmd_index := 0, uart_cmd_ready_flag := 0, listening := false },
    trace := [] }

/-- States the program can be in at a tick boundary. -/
inductive Reachable : State → Prop
  | start : Reachable init
  | step (s : State) (i : Input) : Reachable s → Reachable (tick s i)

/-! ## Observations on traces -/

/-- The register writes of a trace, in order. -/
def rtcWrites : List Effect → List (RtcAddr × Nat)
  | [] => []
  | Effect.rtcWrite a v :: t => (a, v) :: rtcWrites t
  | _ :: t => rtcWrites t

/-- The prompts of a trace as (field, attempt number shown), in order. -/
def prompts : List Effect → List (Nat × Nat)
  | [] => []
  | Effect.lcdPrompt p n :: t => (p, n) :: prompts t
  | _ :: t => prompts t

/-- The register writes of a commit of the record `t`. -/
def commitWrites (t : TimeRec) : List (RtcAddr × Nat) :=
  [(RtcAddr.ADDRESS_HOUR, t.hour), (RtcAddr.ADDRESS_MIN, t.min), (RtcAddr.ADDRESS_SEC, t.sec),
   (RtcAddr.ADDRESS_DAY, t.day), (RtcAddr.ADDRESS_DATE, t.date),
   (RtcAddr.ADDRESS_MONTH, t.month), (RtcAddr.ADDRESS_YEAR, t.year)]

/-! ## Auxiliary definitions used in the proofs -/

/-- The state with everything the three local handlers (view, set-time, set-alarm) may
change blanked out; two states with equal erasure agree on every other variable. -/
def eraseEdit (s : State) : State :=
  { s with temp := TimeRec.zero, set_time_param := 0, set_alarm_param := 0, alarm_hour := 0,
           alarm_min := 0, alarm_enabled := 0, alarm_triggered := 0,
           alarm_display_counter := 0, ds3231 := TimeRec.zero, trace := [] }

/-- The state handed to validation when a command is pending: the command has been
copied, the ready flag cleared and the receiver stopped. -/
def with_command (s : State) : State :=
  { s with uart_rx_buffer := cstr s.uart.uart_cmd_buffer,
           uart := { s.uart with uart_cmd_ready_flag := 0, listening := false },
           trace := s.trace ++ [Effect.uartStop] }

/-- The serial transmissions of the prompt of a field. -/
def promptSends (param : Nat) : List Effect :=
  match param with
  | 0 => [Effect.uartSend (bytes "Hours (0-23): ")]
  | 1 => [Effect.uartSend (bytes "Minutes (0-59): ")]
  | 2 => [Effect.uartSend (bytes "Seconds (0-59): ")]
  | 3 => [Effect.uartSend (bytes "Enter 3 letters (e.g. Mon, Tue, Wed):\r\n"),
          Effect.uartSend (bytes "Day: ")]
  | 4 => [Effect.uartSend (bytes "Date (1-31): ")]
  | 5 => [Effect.uartSend (bytes "Month (1-12): ")]
  | 6 => [Effect.uartSend (bytes "Year (0-99): ")]
  | _ => []

/-- The part of `clock_fsm_run` between the mode-switch check and the dispatch on the
mode: the button tracker and the blink flag are updated. -/
def tick_prologue (mode_btn_current_count : Nat) (s : State) : State :=
  { s with mode_btn_last_count := mode_btn_current_count,
           blink_counter := (s.blink_counter + 1) % 10,
           blink_flag := if (s.blink_counter + 1) % 10 < 5 then 1 else 0 }

/-- The three transmissions of the echo of an accepted line. -/
def echoSends (line : List Nat) : List Effect :=
  [Effect.uartSend (bytes "Received: "), Effect.uartSend line, Effect.uartSend (bytes "\r\n")]

/-! ## Vocabulary of the specification -/

/-- Bounds of the numeric fields as the specification's data model gives them: hour
0..23, minute and second 0..59, day of the month 1..31, month 1..12, year 0..99.  The
weekday (cursor 3) is not numeric. -/
def in_bounds (param : Nat) (v : Int) : Prop :=
  match param with
  | 0 => 0 ≤ v ∧ v ≤ 23
  | 1 => 0 ≤ v ∧ v ≤ 59
  | 2 => 0 ≤ v ∧ v ≤ 59
  | 4 => 1 ≤ v ∧ v ≤ 31
  | 5 => 1 ≤ v ∧ v ≤ 12
  | 6 => 0 ≤ v ∧ v ≤ 99
  | _ => False

instance (param : Nat) (v : Int) : Decidable (in_bounds param v) := by
  unfold in_bounds; split <;> infer_instance

/-- A line is acceptable for a field: for the weekday it is one of the seven names of the
table, for a numeric field its parsed value lies within the bounds of the field. -/
def acceptable (param : Nat) (line : List Nat) : Prop :=
  if param = 3 then line ∈ day_names.tail else in_bounds param (atoi line)

instance (param : Nat) (line : List Nat) : Decidable (acceptable param line) := by
  unfold acceptable; infer_instance

/-- The value a line stands for: the 1-based index of a day name, or the parsed number. -/
def line_value (param : Nat) (line : List Nat) : Nat :=
  if param = 3 then day_names.indexOf line else (atoi line).toNat

/-- The record with the field under cursor `param` replaced by `v`. -/
def setField (param : Nat) (v : Nat) (t : TimeRec) : TimeRec :=
  match param with
  | 0 => { t with hour := v }
  | 1 => { t with min := v }
  | 2 => { t with sec := v }
  | 3 => { t with day := v }
  | 4 => { t with date := v }
  | 5 => { t with month := v }
  | 6 => { t with year := v }
  | _ => t

/-! ## Outcomes of the command poll, written out -/

/-- Outcome of a poll that finds no command while the timeout is still running. -/
def after_idle (s : State) : State :=
  { s with uart_timeout_counter := s.uart_timeout_counter - 1 }

/-- Outcome of a poll that finds no command when the timeout has run out. -/
def after_timeout (s : State) : State :=
  { s with uart_data_requested := 0,
           uart := { s.uart with listening := false },
           trace := s.trace ++ [Effect.uartStop,
             Effect.uartSend (bytes "\r\nTimeout. Retrying...\r\n")] }

/-- Outcome of a poll that finds a line that is not acceptable. -/
def after_reject (s : State) : State :=
  { with_command s with
      uart_data_requested := 0,
      trace := (with_command s).trace ++
        [Effect.uartSend (bytes "\r\nInvalid data. Please try again.\r\n")] }

/-- The temporary record after the pending line has been stored in the field under the
cursor. -/
def stored_temp (s : State) : TimeRec :=
  setField s.uart_update_param (line_value s.uart_update_param (cstr s.uart.uart_cmd_buffer))
    s.temp

/-- Outcome of a poll that finds an acceptable line for a field before the last. -/
def after_accept (s : State) : State :=
  { with_command s with
      temp := stored_temp s,
      uart_update_param := s.uart_update_param + 1,
      uart_data_requested := 0,
      uart_retry_count := 0,
      trace := (with_command s).trace ++ echoSends (cstr s.uart.uart_cmd_buffer) }

/-- The effects of a commit of the record `t`: seven register writes, then the success
notice on the serial line. -/
def commitEffects (t : TimeRec) : List Effect :=
  [Effect.rtcWrite RtcAddr.ADDRESS_HOUR t.hour, Effect.rtcWrite RtcAddr.ADDRESS_MIN t.min,
   Effect.rtcWrite RtcAddr.ADDRESS_SEC t.sec, Effect.rtcWrite RtcAddr.ADDRESS_DAY t.day,
   Effect.rtcWrite RtcAddr.ADDRESS_DATE t.date, Effect.rtcWrite RtcAddr.ADDRESS_MONTH t.month,
   Effect.rtcWrite RtcAddr.ADDRESS_YEAR t.year,
   Effect.uartSend (bytes "\r\nUpdate Complete! Returning...\r\n")]

/-- Outcome of a poll that finds an acceptable line for the last field. -/
def after_commit (s : State) : State :=
  { with_command s with
      temp := stored_temp s,
      uart_update_param := s.uart_update_param + 1,
      uart_data_requested := 0,
      uart_retry_count := 0,
      message_buffer := bytes "Update Complete!",
      message_color := Color.GREEN,
      message_display_counter := MESSAGE_DISPLAY_PERIOD,
      current_mode := ClockMode.MODE_MESSAGE_DISPLAY,
      trace := (with_command s).trace ++ echoSends (cstr s.uart.uart_cmd_buffer) ++
        commitEffects (stored_temp s) }

/-- Outcome of the request step. -/
def after_request (s : State) : State :=
  { s with uart_retry_count := (s.uart_retry_count + 1) % 256,
           uart_timeout_counter := UART_TIMEOUT_PERIOD,
           uart_data_requested := 1,
           uart := { s.uart with listening := true },
           trace := s.trace ++ promptSends s.uart_update_param ++
             [Effect.lcdPrompt s.uart_update_param ((s.uart_retry_count + 1) % 256),
              Effect.uartListen] }

/-- Outcome of the retry check when the budget is used up. -/
def after_abort (s : State) : State :=
  { s with message_buffer := bytes "UART Timeout!", message_color := Color.RED,
           message_display_counter := MESSAGE_DISPLAY_PERIOD,
           current_mode := ClockMode.MODE_MESSAGE_DISPLAY,
           trace := s.trace ++
             [Effect.uartSend (bytes "\r\nERROR: No response after 3 tries. Exiting.\r\n")] }

/-- The dispatch on the mode at the end of `clock_fsm_run`. -/
def dispatch (s : State) : State :=
  match s.current_mode with
  | ClockMode.MODE_VIEW_TIME => handle_view_time_mode s
  | ClockMode.MODE_SET_TIME => handle_set_time_mode s
  | ClockMode.MODE_SET_ALARM => handle_set_alarm_mode s
  | ClockMode.MODE_UPDATE_VIA_UART => handle_uart_update_mode s
  | ClockMode.MODE_MESSAGE_DISPLAY => s

/-- The mode cycle of the specification: `ViewTime → SetTime → SetAlarm → Update →
ViewTime`; Message is not part of it. -/
def next_mode : ClockMode → ClockMode
  | ClockMode.MODE_VIEW_TIME => ClockMode.MODE_SET_TIME
  | ClockMode.MODE_SET_TIME => ClockMode.MODE_SET_ALARM
  | ClockMode.MODE_SET_ALARM => ClockMode.MODE_UPDATE_VIA_UART
  | ClockMode.MODE_UPDATE_VIA_UART => ClockMode.MODE_VIEW_TIME
  | ClockMode.MODE_MESSAGE_DISPLAY => ClockMode.MODE_MESSAGE_DISPLAY

/-- The register writes of the reset: the fixed default time 10:21:00, weekday 3,
5/11/25, in the order in which `clock_fsm_run` writes them. -/
def resetWrites : List (RtcAddr × Nat) :=
  [(RtcAddr.ADDRESS_YEAR, 25), (RtcAddr.ADDRESS_MONTH, 11), (RtcAddr.ADDRESS_DATE, 5),
   (RtcAddr.ADDRESS_DAY, 3), (RtcAddr.ADDRESS_HOUR, 10), (RtcAddr.ADDRESS_MIN, 21),
   (RtcAddr.ADDRESS_SEC, 0)]

/-- The effects of one tick: what `clock_fsm_run` appends to the trace. -/
def tickEffects (s : State) : List Effect := (clock_fsm_run s).trace.drop s.trace.length

/-- The seven register addresses. -/
def allAddrs : List RtcAddr :=
  [RtcAddr.ADDRESS_HOUR, RtcAddr.ADDRESS_MIN, RtcAddr.ADDRESS_SEC, RtcAddr.ADDRESS_DAY,
   RtcAddr.ADDRESS_DATE, RtcAddr.ADDRESS_MONTH, RtcAddr.ADDRESS_YEAR]

/-- The state on which `clock_fsm_run` dispatches when the tick is neither a reset nor
spent in the message display: after the mode switch, if the button was released, and
after the update of the button tracker and of the blink flag. -/
def pre_dispatch (s : State) : State :=
  tick_prologue s.button_count_mode (if mode_released s then handle_mode_switch s else s)

/-! ## The three entries into the message display -/

/-- Entry (a): the long-press reset fired in this tick; payload "System Reset!". -/
def EntersByReset (s : State) : Prop :=
  RESET_LONG_PRESS_DURATION < s.button_count_mode ∧
    (clock_fsm_run s).message_buffer = bytes "System Reset!"

/-- Entry (b): the mode was Update, the cursor was on Year, a line was pending and
acceptable, and this tick committed the record with that year; payload
"Update Complete!". -/
def EntersByCommit (s : State) : Prop :=
  s.current_mode = ClockMode.MODE_UPDATE_VIA_UART ∧ s.uart_update_param = SET_YEAR ∧
    s.uart.uart_cmd_ready_flag ≠ 0 ∧ acceptable SET_YEAR (cstr s.uart.uart_cmd_buffer) ∧
    rtcWrites (tickEffects s) = commitWrites (stored_temp s) ∧
    (clock_fsm_run s).message_buffer = bytes "Update Complete!"

/-- Entry (c): the mode was Update, no request was outstanding and the retry budget was
used up; payload "UART Timeout!". -/
def EntersByTimeout (s : State) : Prop :=
  s.current_mode = ClockMode.MODE_UPDATE_VIA_UART ∧ s.uart_data_requested = 0 ∧
    UART_MAX_RETRIES ≤ s.uart_retry_count ∧
    (clock_fsm_run s).message_buffer = bytes "UART Timeout!"

/-! ## Concrete states -/

/-- An update session waiting for the hour: first request outstanding, 150 ticks left. -/
def awaiting_hour : State :=
  { init with current_mode := ClockMode.MODE_UPDATE_VIA_UART, uart_data_requested := 1,
              uart_retry_count := 1, uart_timeout_counter := 150 }

/-- The session of `awaiting_hour` with the mode button held for exactly 60 ticks. -/
def held_sixty : State :=
  { awaiting_hour with button_count_mode := 60, mode_btn_last_count := 59 }

/-- The session of `awaiting_hour` with the mode button held for 61 ticks. -/
def held_sixty_one : State :=
  { awaiting_hour with button_count_mode := 61, mode_btn_last_count := 60 }

/-- The alarm editor at the tick that sees the mode button released after 5 ticks. -/
def alarm_released : State :=
  { init with current_mode := ClockMode.MODE_SET_ALARM, set_alarm_param := 2,
              mode_btn_last_count := 5 }

/-- An update session on the hour whose three attempts are used up. -/
def retries_spent : State :=
  { init with current_mode := ClockMode.MODE_UPDATE_VIA_UART, uart_data_requested := 0,
              uart_retry_count := 3, uart_timeout_counter := 0 }

/-- A message display, entered from an update session, with 10 ticks left at the tick that
sees the mode button released. -/
def message_released : State :=
  { init with current_mode := ClockMode.MODE_MESSAGE_DISPLAY, message_display_counter := 10,
              message_buffer := bytes "Update Complete!", uart_update_param := 7,
              mode_btn_last_count := 4 }

/-! ## Update sessions -/

/-- The update session is in progress with the cursor on `p`, the awaiting flag `req`,
`r` attempts used and `c` ticks of timeout left; no command is pending and the mode button
is at rest. -/
structure Sess (s : State) (p req r c : Nat) : Prop where
  mode : s.current_mode = ClockMode.MODE_UPDATE_VIA_UART
  param : s.uart_update_param = p
  requested : s.uart_data_requested = req
  retry : s.uart_retry_count = r
  counter : s.uart_timeout_counter = c
  flag : s.uart.uart_cmd_ready_flag = 0
  last : s.mode_btn_last_count = 0

/-- An input that leaves the mode button alone and brings no command. -/
def Quiet (i : Input) : Prop := i.button_count_mode = 0 ∧ i.line = none

instance (i : Input) : Decidable (Quiet i) := by
  unfold Quiet; infer_instance

/-- The session state created on entering Update, as `handle_mode_switch` leaves it, with
the button tracker already at rest. -/
def entry_state (s : State) : State :=
  { handle_mode_switch s with mode_btn_last_count := 0 }

/-- The answer to one prompt: the inputs of the ticks spent waiting, then the input of the
tick on which the line `line` has been completed. -/
structure Answer where
  wait : List Input
  reply : Input
  line : List Nat

/-- The inputs of an answer, in order. -/
def Answer.inputs (a : Answer) : List Input := a.wait ++ [a.reply]

/-- The answer comes before the timeout of its prompt, brings an acceptable line for the
field `p`, and leaves the mode button alone: the waiting ticks are quiet and at most
`UART_TIMEOUT_PERIOD` many, and the line is a C string (no NUL byte). -/
def Answer.ok (p : Nat) (a : Answer) : Prop :=
  (∀ i ∈ a.wait, Quiet i) ∧ a.wait.length ≤ UART_TIMEOUT_PERIOD ∧
    a.reply.button_count_mode = 0 ∧ a.reply.line = some a.line ∧ 0 ∉ a.line ∧
    acceptable p a.line

/-- The inputs of a whole session answered field by field. -/
def session_inputs (a0 a1 a2 a3 a4 a5 a6 : Answer) : List Input :=
  a0.inputs ++ a1.inputs ++ a2.inputs ++ a3.inputs ++ a4.inputs ++ a5.inputs ++ a6.inputs

/-- The record the seven answers stand for. -/
def session_record (a0 a1 a2 a3 a4 a5 a6 : Answer) : TimeRec :=
  { hour := line_value SET_HOUR a0.line, min := line_value SET_MIN a1.line,
    sec := line_value SET_SEC a2.line, day := line_value SET_DAY a3.line,
    date := line_value SET_DATE a4.line, month := line_value SET_MONTH a5.line,
    year := line_value SET_YEAR a6.line }

/-- An input with all buttons at rest and no command. -/
def quiet_input : Input :=
  { button_count_mode := 0, button_count_up := 0, button_count_down := 0,
    button_count_save := 0, rtc_now := TimeRec.zero, line := none }

/-- An input with all buttons at rest that brings the line `str`. -/
def line_input (str : String) : Input :=
  { quiet_input with line := some (bytes str) }

/-- The line `str` after `n` quiet ticks. -/
def answer_after (n : Nat) (str : String) : Answer :=
  { wait := List.replicate n quiet_input, reply := line_input str, line := bytes str }

/-- The session state on entering Update from the start state. -/
def session_start : State :=
  { init with current_mode := ClockMode.MODE_UPDATE_VIA_UART,
              uart_timeout_counter := UART_TIMEOUT_PERIOD }

/-- The command buffer of `uart.c` holding the C string `str`. -/
def cmd_buffer_of (str : String) : List Nat :=
  bytes str ++ List.replicate (32 - (bytes str).length) 0

/-- An update session waiting for the hour, first request outstanding, at the tick on
which the line "99" has been completed. -/
def hour_ninety_nine : State :=
  { awaiting_hour with
      uart := { init.uart with uart_cmd_buffer := cmd_buffer_of "99", uart_cmd_ready_flag := 1 } }

/-- An input with the mode button in its first tick of being held. -/
def press_input : Input := { quiet_input with button_count_mode := 1 }

/-- The state reached from program start by three short presses of the mode button
(ViewTime, SetTime, SetAlarm, Update) and one more quiet tick. -/
def reached_update : State :=
  run init [press_input, quiet_input, press_input, quiet_input, press_input, quiet_input,
    quiet_input]

/-! ## Setting arithmetic on the record alone -/

/-- All seven fields of a record within their ranges, the day of the month within the
days of its month and year. -/
def in_range (t : TimeRec) : Prop :=
  t.hour ≤ 23 ∧ t.min ≤ 59 ∧ t.sec ≤ 59 ∧ (1 ≤ t.day ∧ t.day ≤ 7) ∧
    (1 ≤ t.date ∧ t.date ≤ get_max_date t.month t.year) ∧ (1 ≤ t.month ∧ t.month ≤ 12) ∧
    t.year ≤ 99

instance (t : TimeRec) : Decidable (in_range t) := by
  unfold in_range; infer_instance

/-- What `increment_setting` does to the record, by cursor. -/
def inc_temp (param : Nat) (t : TimeRec) : TimeRec :=
  match param with
  | 0 => { t with hour := (t.hour + 1) % 24 }
  | 1 => { t with min := (t.min + 1) % 60 }
  | 2 => { t with sec := (t.sec + 1) % 60 }
  | 3 => { t with day := (t.day % 7) + 1 }
  | 4 => { t with date := (t.date % get_max_date t.month t.year) + 1 }
  | 5 => { t with month := (t.month % 12) + 1 }
  | 6 => { t with year := (t.year + 1) % 100 }
  | _ => t

/-- What `decrement_setting` does to the record, by cursor. -/
def dec_temp (param : Nat) (t : TimeRec) : TimeRec :=
  match param with
  | 0 => { t with hour := (t.hour + 24 - 1) % 24 }
  | 1 => { t with min := (t.min + 60 - 1) % 60 }
  | 2 => { t with sec := (t.sec + 60 - 1) % 60 }
  | 3 => { t with day := dec_wrap t.day 7 }
  | 4 => { t with date := dec_wrap t.date (get_max_date t.month t.year) }
  | 5 => { t with month := dec_wrap t.month 12 }
  | 6 => { t with year := (t.year + 100 - 1) % 100 }
  | _ => t

/-- The field under the cursor is within its range. -/
def field_ok (param : Nat) (t : TimeRec) : Prop :=
  match param with
  | 0 => t.hour ≤ 23
  | 1 => t.min ≤ 59
  | 2 => t.sec ≤ 59
  | 3 => 1 ≤ t.day ∧ t.day ≤ 7
  | 4 => 1 ≤ t.date ∧ t.date ≤ get_max_date t.month t.year
  | 5 => 1 ≤ t.month ∧ t.month ≤ 12
  | 6 => t.year ≤ 99
  | _ => True

/-- The set-time editor on 31 January 2025 with the cursor on the month. -/
def january_31 : State :=
  { init with current_mode := ClockMode.MODE_SET_TIME, set_time_param := SET_MONTH,
              temp := ⟨10, 21, 0, 5, 31, 1, 25⟩ }

/-- The set-time editor on 5 November 2025 with the cursor on the month. -/
def november_5 : State :=
  { init with current_mode := ClockMode.MODE_SET_TIME, set_time_param := SET_MONTH,
              temp := ⟨10, 21, 0, 3, 5, 11, 25⟩ }

/-- The seven day names of the table, Monday first. -/
def week_names : List (List Nat) :=
  [bytes "Mon", bytes "Tue", bytes "Wed", bytes "Thu", bytes "Fri", bytes "Sat", bytes "Sun"]

/-- An update session that has accepted hour, minute and second and waits for the
weekday, at the tick that sees the mode button released. -/
def update_released : State :=
  { awaiting_hour with uart_update_param := SET_DAY, temp := ⟨10, 21, 0, 0, 0, 0, 0⟩,
                       mode_btn_last_count := 5 }

/-- An update session on the weekday that has just copied the line "Wed". -/
def weekday_wed : State :=
  { awaiting_hour with uart_update_param := SET_DAY, uart_rx_buffer := bytes "Wed" }

/-- An update session on the day of the month that has just copied the line "abc". -/
def date_abc : State :=
  { awaiting_hour with uart_update_param := SET_DATE, uart_rx_buffer := bytes "abc",
                       temp := ⟨10, 21, 0, 3, 5, 11, 25⟩ }

/-- The clock reading 06:00:00 on Wednesday 5/11/25. -/
def six_sharp : TimeRec := ⟨6, 0, 0, 3, 5, 11, 25⟩

/-- ViewTime with the alarm enabled at 06:00 and ringing, 150 ticks of display left, at a
tick in which the clock reads 06:00:00 and UP has just been pressed. -/
def ringing_pressed : State :=
  { init with alarm_enabled := 1, alarm_triggered := 1, alarm_display_counter := 150,
              button_count_up := 1, rtc_now := six_sharp, ds3231 := six_sharp }

/-! ## The alarm in ViewTime -/

/-- ViewTime with the alarm enabled at `h`:`m` and the mode button at rest. -/
structure Watching (s : State) (h m : Nat) : Prop where
  mode : s.current_mode = ClockMode.MODE_VIEW_TIME
  last : s.mode_btn_last_count = 0
  enabled : s.alarm_enabled ≠ 0
  hour : s.alarm_hour = h
  min : s.alarm_min = m

/-- An input in which no button is held. -/
def NoButtons (i : Input) : Prop :=
  i.button_count_mode = 0 ∧ i.button_count_up = 0 ∧ i.button_count_down = 0 ∧
    i.button_count_save = 0

instance (i : Input) : Decidable (NoButtons i) := by
  unfold NoButtons; infer_instance

/-- The RTC reports `h`:`m`:`sec` at this tick. -/
def reads (i : Input) (h m sec : Nat) : Prop :=
  i.rtc_now.hour = h ∧ i.rtc_now.min = m ∧ i.rtc_now.sec = sec

instance (i : Input) (h m sec : Nat) : Decidable (reads i h m sec) := by
  unfold reads; infer_instance

/-- The alarm-active flag goes from inactive to active in the tick from `s` on `i`. -/
def fires (s : State) (i : Input) : Bool :=
  decide (s.alarm_triggered = 0) && decide ((tick s i).alarm_triggered ≠ 0)

/-- The tick from `s` on `i` fires the alarm and arms the display countdown, which the
code sets to 200 ticks in the same block and nowhere else. -/
def arms (s : State) (i : Input) : Bool :=
  fires s i && decide ((tick s i).alarm_display_counter = 200)

/-- Number of ticks of a run in which the alarm fires. -/
def fire_count : State → List Input → Nat
  | _, [] => 0
  | s, i :: is => (if fires s i then 1 else 0) + fire_count (tick s i) is

/-- Number of ticks of a run in which the display countdown is armed. -/
def arm_count : State → List Input → Nat
  | _, [] => 0
  | s, i :: is => (if arms s i then 1 else 0) + arm_count (tick s i) is

/-- An input with all buttons at rest at which the RTC reports `h`:`m`:`sec`. -/
def clock_input (h m sec : Nat) : Input :=
  { quiet_input with rtc_now := ⟨h, m, sec, 3, 5, 11, 25⟩ }

/-- ViewTime after program start with the alarm enabled at its initial time 06:00. -/
def alarm_set : State := { init with alarm_enabled := 1 }

/-- A clock that reports 06:00:00 on 203 consecutive ticks and then 06:00:01. -/
def stuck_minute : List Input :=
  List.replicate 203 (clock_input 6 0 0) ++ [clock_input 6 0 1]

/-- The seconds 1 .. 59 of the minute `h`:`m`, `k` ticks each. -/
def rest_of_minute (h m k : Nat) : List Input :=
  (List.range 59).flatMap (fun j => List.replicate k (clock_input h m (j + 1)))

/-! ## Receive ring and line reassembly, `uart.c` -/

@[reducible] def UART_BUFFER_SIZE : Nat := 64
@[reducible] def UART_CMD_BUFFER_SIZE : Nat := 32

/-- Receive interrupt, `HAL_UART_RxCpltCallback`, for the byte `receive_buffer1`: the
byte is stored at the head unless the next head would meet the tail; the receive interrupt
is armed again. -/
def HAL_UART_RxCpltCallback (receive_buffer1 : Nat) (u : Uart) : Uart :=
  let next_head := (u.rx_head + 1) % UART_BUFFER_SIZE
  let u1 :=
    if next_head ≠ u.rx_tail then
      { u with rx_buffer := u.rx_buffer.set u.rx_head receive_buffer1,
               rx_head := next_head, uart_rx_flag := 1 }
    else u
  { u1 with listening := true }

/-- Consumer of the ring, `uart_ReadByte`: -1 when head and tail meet, otherwise the byte
at the tail, which then advances. -/
def uart_ReadByte (u : Uart) : Int × Uart :=
  if u.rx_head = u.rx_tail then
    (-1, { u with uart_rx_flag := 0 })
  else
    let data := u.rx_buffer.getD u.rx_tail 0
    let u1 := { u with rx_tail := (u.rx_tail + 1) % UART_BUFFER_SIZE }
    let u2 := if u1.rx_head = u1.rx_tail then { u1 with uart_rx_flag := 0 } else u1
    ((data : Int), u2)

/-- The `while(1)` loop of `uart_process_incoming_data`, one iteration per unit of fuel;
`none` when the fuel runs out before a `break`. -/
def process_loop : Nat → Uart → Option Uart
  | 0, _ => none
  | fuel + 1, u =>
    let r := uart_ReadByte u
    let byte := r.1
    let u1 := r.2
    if byte = -1 then some u1
    else if byte = 13 ∨ byte = 10 then
      if u1.uart_cmd_index > 0 then
        some { u1 with uart_cmd_buffer := u1.uart_cmd_buffer.set u1.uart_cmd_index 0,
                       uart_cmd_ready_flag := 1, uart_cmd_index := 0 }
      else process_loop fuel u1
    else if u1.uart_cmd_index < UART_CMD_BUFFER_SIZE - 1 then
      process_loop fuel
        { u1 with uart_cmd_buffer := u1.uart_cmd_buffer.set u1.uart_cmd_index (byte % 256).toNat,
                  uart_cmd_index := u1.uart_cmd_index + 1 }
    else process_loop fuel u1

/-- Line reassembler, `uart_process_incoming_data`.  A ring whose indices are below 64
holds at most 63 bytes, so 65 iterations reach a `break`. -/
def uart_process_incoming_data (u : Uart) : Option Uart :=
  process_loop (UART_BUFFER_SIZE + 1) u

/-- The bytes the ring holds, oldest first: from the tail up to the head. -/
def buffered (u : Uart) : List Nat :=
  (List.range ((u.rx_head + UART_BUFFER_SIZE - u.rx_tail) % UART_BUFFER_SIZE)).map
    (fun k => u.rx_buffer.getD ((u.rx_tail + k) % UART_BUFFER_SIZE) 0)

/-- The ring is well formed: 64 cells and both indices inside. -/
def ring_ok (u : Uart) : Prop :=
  u.rx_buffer.length = UART_BUFFER_SIZE ∧ u.rx_head < UART_BUFFER_SIZE ∧
    u.rx_tail < UART_BUFFER_SIZE

instance (u : Uart) : Decidable (ring_ok u) := by
  unfold ring_ok; infer_instance

/-- An operation on the ring: the interrupt delivers a byte, or the consumer reads. -/
inductive RingOp where
  | write (b : Nat)
  | read
  deriving DecidableEq, Repr

/-- One operation on the ring of the code; a read also gives the value returned. -/
def ring_step (u : Uart) : RingOp → Uart × Option Int
  | RingOp.write b => (HAL_UART_RxCpltCallback b u, none)
  | RingOp.read => ((uart_ReadByte u).2, some (uart_ReadByte u).1)

/-- The FIFO queue of capacity 63 of the specification: a write is accepted when fewer
than 63 bytes are queued and dropped otherwise; a read of the empty queue gives -1,
otherwise the oldest byte, which is removed. -/
def fifo_step (q : List Nat) : RingOp → List Nat × Option Int
  | RingOp.write b => (if q.length < 63 then q ++ [b] else q, none)
  | RingOp.read =>
    match q with
    | [] => ([], some (-1))
    | b :: t => (t, some (b : Int))

/-- A sequence of operations on the ring of the code, with the values of the reads. -/
def ring_run : Uart → List RingOp → Uart × List Int
  | u, [] => (u, [])
  | u, op :: ops =>
    let r := ring_step u op
    let rest := ring_run r.1 ops
    (rest.1, r.2.toList ++ rest.2)

/-- The same sequence of operations on the FIFO queue of the specification. -/
def fifo_run : List Nat → List RingOp → List Nat × List Int
  | q, [] => (q, [])
  | q, op :: ops =>
    let r := fifo_step q op
    let rest := fifo_run r.1 ops
    (rest.1, r.2.toList ++ rest.2)

/-- The interrupt delivers the bytes `bs` one after the other. -/
def arrive (bs : List Nat) (u : Uart) : Uart :=
  bs.foldl (fun v b => HAL_UART_RxCpltCallback b v) u

/-- A ring holding three bytes after the tail has advanced twice. -/
def ring_three : Uart :=
  (uart_ReadByte (uart_ReadByte (arrive [65, 66, 67, 68, 69] init.uart)).2).2

/-- Line feed or carriage return. -/
def is_delimiter (b : Nat) : Bool := b == 13 || b == 10

/-- The ring of the start state after the bytes of `str` have arrived. -/
def received (str : String) : Uart := arrive (bytes str) init.uart

/-- The line "Hello" is completed and left pending; the bytes "ab" of the next line
arrive without a delimiter; the reassembler runs again and the command is fetched. -/
def fetch_after_partial : Option (Nat × List Nat) :=
  (uart_process_incoming_data (received "Hello\r")).bind fun v =>
    (uart_process_incoming_data (arrive (bytes "ab") v)).map fun w =>
      ((uart_get_command w []).1, (uart_get_command w []).2.1)

/-- The line "Hello" is completed and fetched at once. -/
def fetch_at_once : Option (Nat × List Nat) :=
  (uart_process_incoming_data (received "Hello\r")).map fun v =>
    ((uart_get_command v []).1, (uart_get_command v []).2.1)

/-! ## Projections and further concrete states -/

/-- The alarm configuration: hour, minute and the enabled flag. -/
def alarm_config (s : State) : Nat × Nat × Nat := (s.alarm_hour, s.alarm_min, s.alarm_enabled)

/-- The blink counter and the blink flag. -/
def blink (s : State) : Nat × Nat := (s.blink_counter, s.blink_flag)

/-- The cursors of the two local editors. -/
def edit_cursors (s : State) : Nat × Nat := (s.set_time_param, s.set_alarm_param)

/-- The set-time editor holding a record that is out of range in several fields (hour
99, weekday 0, 31 February), at the tick that sees the mode button released. -/
def set_time_released : State :=
  { init with current_mode := ClockMode.MODE_SET_TIME, temp := ⟨99, 21, 0, 0, 31, 2, 25⟩,
              mode_btn_last_count := 5 }

/-- An update session waiting for the hour at the tick on which the line "10" has been
completed. -/
def hour_pending : State :=
  { awaiting_hour with
      uart := { init.uart with uart_cmd_buffer := cmd_buffer_of "10", uart_cmd_ready_flag := 1 } }

/-- An update session waiting for the year, the earlier fields accepted, at the tick on
which the line "25" has been completed. -/
def year_pending : State :=
  { awaiting_hour with
      uart_update_param := SET_YEAR, temp := ⟨10, 21, 0, 3, 5, 11, 0⟩,
      uart := { init.uart with uart_cmd_buffer := cmd_buffer_of "25", uart_cmd_ready_flag := 1 } }

/-- What the view, set-time and update handlers leave alone among the variables of the
editors and of the blink: alarm configuration, blink, and the cursors of the two local
editors. -/
def kept (s : State) : (Nat × Nat × Nat) × (Nat × Nat) × (Nat × Nat) :=
  (alarm_config s, blink s, edit_cursors s)

/-- The mode on which a tick that is not a reset runs its handler: Message when the tick
starts in Message, otherwise the mode after the mode switch, if any, of that tick. -/
def dispatched_mode (s : State) : ClockMode :=
  if s.current_mode = ClockMode.MODE_MESSAGE_DISPLAY then ClockMode.MODE_MESSAGE_DISPLAY
  else (pre_dispatch s).current_mode

/-- The cursors hold members of their enumerations, except that the cursor of the update
session may stand one past Year when the mode is not Update. -/
structure CursorsOk (s : State) : Prop where
  set_time : s.set_time_param ≤ SET_YEAR
  set_alarm : s.set_alarm_param ≤ 2
  update : s.uart_update_param ≤ SET_YEAR + 1
  in_update : s.current_mode = ClockMode.MODE_UPDATE_VIA_UART → s.uart_update_param ≤ SET_YEAR

/-- Number of ticks of a run that end with the blink flag on. -/
def flags_on : State → List Input → Nat
  | _, [] => 0
  | s, i :: is => (if (tick s i).blink_flag ≠ 0 then 1 else 0) + flags_on (tick s i) is

/-- Every tick of the run is neither a long-press reset nor spent in the message
display. -/
def normal_run : State → List Input → Bool
  | _, [] => true
  | s, i :: is =>
    decide (i.button_count_mode ≤ RESET_LONG_PRESS_DURATION) &&
      decide (s.current_mode ≠ ClockMode.MODE_MESSAGE_DISPLAY) && normal_run (tick s i) is

/-- Of `n` consecutive values of a counter that advances by one modulo 10 from `c`, the
number that are below 5. -/
def on_count : Nat → Nat → Nat
  | _, 0 => 0
  | c, n + 1 => (if (c + 1) % 10 < 5 then 1 else 0) + on_count ((c + 1) % 10) n

/-- A message display with 60 ticks left and the blink flag on. -/
def message_showing : State :=
  { init with current_mode := ClockMode.MODE_MESSAGE_DISPLAY, message_display_counter := 60,
              message_buffer := bytes "System Reset!", blink_counter := 2, blink_flag := 1 }

/-- ViewTime after program start with the clock at 12:00:00, alarm disabled. -/
def viewing : State := { init with rtc_now := ⟨12, 0, 0, 3, 5, 11, 25⟩ }

/-- The run from program start that enters Update by three short presses of the mode
button and answers the seven prompts with "10", "21", "0", "Wed", "5", "11", "25". -/
def full_session : List Input :=
  [press_input, quiet_input, press_input, quiet_input, press_input, quiet_input, quiet_input,
   line_input "10", line_input "21", line_input "0", line_input "Wed", line_input "5",
   line_input "11", line_input "25"]

/-! ## Duration of a field slot -/

/-- An input that does not answer the prompt for field `p`: the mode button is at rest
and the line, if one has been completed, is a C string that is not acceptable for `p`. -/
def Unanswered (p : Nat) (i : Input) : Prop :=
  i.button_count_mode = 0 ∧
    match i.line with
    | none => True
    | some l => 0 ∉ l ∧ ¬ acceptable p l

instance (p : Nat) (i : Input) : Decidable (Unanswered p i) := by
  unfold Unanswered; split <;> infer_instance

/-- The update session is in progress on field `p` at a tick boundary: no command is
pending, the mode button is at rest and the awaiting flag is 0 or 1. -/
structure Slot (s : State) (p : Nat) : Prop where
  mode : s.current_mode = ClockMode.MODE_UPDATE_VIA_UART
  param : s.uart_update_param = p
  flag : s.uart.uart_cmd_ready_flag = 0
  last : s.mode_btn_last_count = 0
  requested : s.uart_data_requested = 0 ∨ s.uart_data_requested = 1

/-- Number of ticks after which an unanswered field has been given up at the latest: the
rest of the running timeout and its timeout tick, 201 ticks for each attempt not yet
made, and the tick of the retry check. -/
def slot_bound (s : State) : Nat :=
  if s.uart_data_requested = 0 then (3 - s.uart_retry_count) * 201 + 1
  else s.uart_timeout_counter + 1 + (3 - s.uart_retry_count) * 201 + 1

/-- 302 quiet ticks followed by 302 ticks that each bring the line "99". -/
def silence_then_garbage : List Input :=
  List.replicate 302 quiet_input ++ List.replicate 302 (line_input "99")

/-! ## Listener discipline -/

/-- The string is the entry banner of Update or one of the serial prompts of a field. -/
def is_prompt (str : List Nat) : Bool :=
  str == banner_update ||
    (List.range 7).any (fun p => (promptSends p).contains (Effect.uartSend str))

/-- The listener discipline on a trace, from the listener state `listening`: the receiver
is armed by `uart_init_rs232` and stopped by `uart_stop_listening`, and it is not armed at
any transmission of the entry banner or of a prompt. -/
def listener_closed_at_prompts : Bool → List Effect → Bool
  | _, [] => true
  | _, Effect.uartListen :: t => listener_closed_at_prompts true t
  | _, Effect.uartStop :: t => listener_closed_at_prompts false t
  | listening, Effect.uartSend str :: t =>
    !(listening && is_prompt str) && listener_closed_at_prompts listening t
  | listening, _ :: t => listener_closed_at_prompts listening t

/-- From program start: Update is entered by three short presses, the session is left by
a fourth while the first response is awaited, and Update is entered again by three
more. -/
def abandon_and_reenter : List Input :=
  [press_input, quiet_input, press_input, quiet_input, press_input, quiet_input,
   press_input, quiet_input,
   press_input, quiet_input, press_input, quiet_input, press_input, quiet_input]

/-- An input with the mode button held for 61 ticks. -/
def held_input : Input := { quiet_input with button_count_mode := 61 }

/-- From program start: Update is entered by three short presses, a long press resets
while the first response is awaited, the message is dismissed by a short press, and Update
is entered again by three more. -/
def reset_and_reenter : List Input :=
  [press_input, quiet_input, press_input, quiet_input, press_input, quiet_input,
   held_input, press_input, quiet_input,
   press_input, quiet_input, press_input, quiet_input, press_input, quiet_input]

/-- The session of `session_start` answered at once with "10", "21", "0", "Wed", "31",
"2", "25". -/
def february_answers : List Input :=
  [line_input "10", line_input "21", line_input "0", line_input "Wed", line_input "31",
   line_input "2", line_input "25"]

/-! ## Editors, reset and message: further vocabulary -/

/-- The field of a record under the cursor `param`. -/
def getField (param : Nat) (t : TimeRec) : Nat :=
  match param with
  | 0 => t.hour
  | 1 => t.min
  | 2 => t.sec
  | 3 => t.day
  | 4 => t.date
  | 5 => t.month
  | 6 => t.year
  | _ => 0

/-- The held-count `c` of UP or DOWN makes a step in this tick: the first tick of a press,
or a multiple of the auto-repeat period beyond the long-press threshold. -/
def steps (c : Nat) : Prop :=
  c = 1 ∨ (LONG_PRESS_DURATION < c ∧ c % AUTO_INCREMENT_PERIOD = 0)

instance (c : Nat) : Decidable (steps c) := by
  unfold steps; infer_instance

/-- The editing part of a tick as the specification words it: one step up when the
held-count of UP makes a step, then one step down when that of DOWN does. -/
def edit_step (up down : Nat) (inc dec : State → State) (s : State) : State :=
  let s1 := if steps up then inc s else s
  if steps down then dec s1 else s1

/-- The alarm configuration (hour, minute, enabled) with the field under the cursor
`param` stepped up once: the hour modulo 24, the minute modulo 60, the enable flag
toggled. -/
def alarm_inc (param : Nat) (c : Nat × Nat × Nat) : Nat × Nat × Nat :=
  match param with
  | 0 => ((c.1 + 1) % 24, c.2.1, c.2.2)
  | 1 => (c.1, (c.2.1 + 1) % 60, c.2.2)
  | 2 => (c.1, c.2.1, if c.2.2 = 0 then 1 else 0)
  | _ => c

/-- The alarm configuration with the field under the cursor `param` stepped down once:
the hour from 0 to 23, the minute from 0 to 59, the enable flag toggled. -/
def alarm_dec (param : Nat) (c : Nat × Nat × Nat) : Nat × Nat × Nat :=
  match param with
  | 0 => ((c.1 + 24 - 1) % 24, c.2.1, c.2.2)
  | 1 => (c.1, (c.2.1 + 60 - 1) % 60, c.2.2)
  | 2 => (c.1, c.2.1, if c.2.2 = 0 then 1 else 0)
  | _ => c

/-- The temporary record after a tick of SetTime as the claim words it, for held-counts
`up` and `down` and cursor `param`: stepped up once when the count of UP makes a step,
then stepped down once when the count of DOWN does. -/
def stepped_time (up down param : Nat) (t : TimeRec) : TimeRec :=
  let t1 := if steps up then inc_temp param t else t
  if steps down then dec_temp param t1 else t1

/-- The alarm configuration after a tick of SetAlarm as the claim words it. -/
def stepped_alarm (up down param : Nat) (c : Nat × Nat × Nat) : Nat × Nat × Nat :=
  let c1 := if steps up then alarm_inc param c else c
  if steps down then alarm_dec param c1 else c1

/-- The alarm editor, alarm 06:59 off, cursor on the minute, UP held for `up` ticks and
DOWN for `down`. -/
def alarm_held (up down : Nat) : State :=
  { init with current_mode := ClockMode.MODE_SET_ALARM, set_alarm_param := SET_ALARM_MIN,
              alarm_min := 59, button_count_up := up, button_count_down := down }

/-- The set-time editor on 10:21:59, 5 November 2025, cursor on the second, UP held for
`up` ticks and DOWN for `down`. -/
def second_held (up down : Nat) : State :=
  { init with current_mode := ClockMode.MODE_SET_TIME, set_time_param := SET_SEC,
              temp := ⟨10, 21, 59, 3, 5, 11, 25⟩, button_count_up := up,
              button_count_down := down }

/-- The state with everything the long-press reset may change blanked out: mode, message
payload and countdown, alarm configuration, the tracking of the mode button and the
trace. -/
def eraseReset (s : State) : State :=
  { s with current_mode := ClockMode.MODE_VIEW_TIME, message_buffer := [],
           message_color := Color.GREEN, message_display_counter := 0,
           alarm_hour := 0, alarm_min := 0, alarm_enabled := 0,
           button_count_mode := 0, mode_btn_last_count := 0, trace := [] }

/-- An input with CONFIRM in its first tick of being held. -/
def confirm_input : Input := { quiet_input with button_count_save := 1 }

/-- The set-time editor on 28 February 2025 with the cursor on the day of the month. -/
def february_28 : State :=
  { init with current_mode := ClockMode.MODE_SET_TIME, set_time_param := SET_DATE,
              temp := ⟨10, 21, 0, 5, 28, 2, 25⟩ }

/-- The set-time editor on 5 November 2025 with the cursor on the second. -/
def editing_second : State :=
  { init with current_mode := ClockMode.MODE_SET_TIME, set_time_param := SET_SEC,
              temp := ⟨10, 21, 0, 3, 5, 11, 25⟩ }

/-- The alarm editor with the cursor on the minute. -/
def editing_alarm_minute : State :=
  { init with current_mode := ClockMode.MODE_SET_ALARM, set_alarm_param := SET_ALARM_MIN }

/-- A session in Update with a request outstanding, the alarm ringing and the editors
left on the month and on the enable flag, at a tick with the mode button held for 61
ticks. -/
def busy_reset : State :=
  { init with current_mode := ClockMode.MODE_UPDATE_VIA_UART, uart_data_requested := 1,
              uart_retry_count := 2, uart_timeout_counter := 77, uart_update_param := SET_DATE,
              temp := ⟨10, 21, 0, 3, 5, 11, 25⟩, set_time_param := SET_MONTH,
              set_alarm_param := SET_ALARM_ENABLE, alarm_enabled := 1, alarm_hour := 7,
              alarm_triggered := 1, alarm_display_counter := 150, blink_counter := 7,
              button_count_mode := 61, mode_btn_last_count := 60 }

/-- The message display as the retry check enters it: 60 ticks on the countdown. -/
def message_entered : State :=
  { init with current_mode := ClockMode.MODE_MESSAGE_DISPLAY,
              message_display_counter := MESSAGE_DISPLAY_PERIOD,
              message_buffer := bytes "UART Timeout!", message_color := Color.RED }

/-- What the cursor logic of a tick in an editor reads, with both cursors: the held-count
of CONFIRM, the mode, the tracked count of the mode button and the two cursors. -/
def nav (s : State) : Nat × ClockMode × Nat × Nat × Nat :=
  (s.button_count_save, s.current_mode, s.mode_btn_last_count, s.set_time_param,
    s.set_alarm_param)

/-- Number of ticks of a run that see CONFIRM in its first tick of being held. -/
def confirm_presses (is : List Input) : Nat :=
  is.countP (fun j => decide (j.button_count_save = 1))

/-- Seven presses of CONFIRM, each held for two ticks and released for one. -/
def seven_confirms : List Input :=
  (List.replicate 7
    [confirm_input, { quiet_input with button_count_save := 2 }, quiet_input]).flatten

/-- The long press that resets, followed by `n` ticks with all buttons at rest. -/
def reset_then_rest (n : Nat) : List Input := held_input :: List.replicate n quiet_input

/-! ## Line reassembly on the bytes of the ring -/

/-- The store branch of `uart_process_incoming_data` on the command buffer and its index:
`if (uart_cmd_index < UART_CMD_BUFFER_SIZE - 1) uart_cmd_buffer[uart_cmd_index++] = byte`,
and nothing when the buffer is full. -/
def store_byte (c : List Nat × Nat) (b : Nat) : List Nat × Nat :=
  if c.2 < UART_CMD_BUFFER_SIZE - 1 then (c.1.set c.2 (b % 256), c.2 + 1) else c

/-- The delimiters a call passes over before it collects: the leading ones when no line
has been started (index 0), none otherwise. -/
def skipped (idx : Nat) (q : List Nat) : List Nat :=
  if idx = 0 then q.takeWhile is_delimiter else []

/-- The buffered bytes after the delimiters passed over. -/
def after_skip (idx : Nat) (q : List Nat) : List Nat :=
  if idx = 0 then q.dropWhile is_delimiter else q

/-- The bytes a call collects: those up to the next delimiter. -/
def line_body (idx : Nat) (q : List Nat) : List Nat :=
  (after_skip idx q).takeWhile (fun b => !is_delimiter b)

/-- The bytes from the delimiter that completes the line on; empty when the buffered
bytes hold no such delimiter. -/
def line_tail (idx : Nat) (q : List Nat) : List Nat :=
  (after_skip idx q).dropWhile (fun b => !is_delimiter b)

/-- Command buffer and index after the collected bytes have gone through the store
branch. -/
def stored (cmd : List Nat) (idx : Nat) (q : List Nat) : List Nat × Nat :=
  (line_body idx q).foldl store_byte (cmd, idx)

/-- States of `uart.c` reachable from program start by arrivals of bytes, calls of
`uart_process_incoming_data` that return, and calls of `uart_get_command`. -/
inductive UartReachable : Uart → Prop
  | start : UartReachable init.uart
  | arrival (u : Uart) (b : Nat) :
      UartReachable u → b < 256 → UartReachable (HAL_UART_RxCpltCallback b u)
  | process (u v : Uart) :
      UartReachable u → uart_process_incoming_data u = some v → UartReachable v
  | fetch (u : Uart) (buffer : List Nat) :
      UartReachable u → UartReachable (uart_get_command u buffer).2.2

/-- The command buffer is sound: 32 cells, index at most 31, NUL in the last cell, and
no cell holds a carriage return or a line feed. -/
def CmdOk (cmd : List Nat) (idx : Nat) : Prop :=
  cmd.length = UART_CMD_BUFFER_SIZE ∧ idx ≤ UART_CMD_BUFFER_SIZE - 1 ∧
    cmd.getD (UART_CMD_BUFFER_SIZE - 1) 1 = 0 ∧ ∀ b ∈ cmd, is_delimiter b = false

/-- Invariant of `uart.c`: the ring is well formed and holds bytes, and the command
buffer is sound. -/
def UartInv (u : Uart) : Prop :=
  ring_ok u ∧ (∀ b ∈ u.rx_buffer, b < 256) ∧ CmdOk u.uart_cmd_buffer u.uart_cmd_index

/-- A line of 32 bytes and its delimiter. -/
def line_of_32 : String := "0123456789abcdefghijklmnopqrstuv\r"

/-- Two empty lines, a line of 40 bytes and the first bytes of the next line. -/
def line_of_40 : String := "\r\n0123456789abcdefghijklmnopqrstuvwxyzABCD\nnext"

/-- Size of `uart_rx_buffer`, the buffer of `clock_fsm.c` the command is copied into. -/
@[reducible] def UART_RX_BUFFER_SIZE : Nat := 32

/-- The state of `uart.c` after the bytes "Hi" CR have arrived and the reassembler has
run. -/
def hi_completed : Uart := (uart_process_incoming_data (received "Hi\r")).getD init.uart

/-! ## Runs of `uart.c`: arrivals, polls and fetches -/

/-- The body of the loop of `uart_process_incoming_data` for a byte `b` read from the
ring, on the command buffer, its index and the ready flag: a delimiter completes the
command when the index is above 0 and is passed over otherwise; any other byte is stored
while the index is below 31 and is lost when the buffer is full. -/
def consume_byte (c : List Nat × Nat × Nat) (b : Nat) : List Nat × Nat × Nat :=
  if is_delimiter b then
    if c.2.1 > 0 then (c.1.set c.2.1 0, 0, 1) else c
  else if c.2.1 < UART_CMD_BUFFER_SIZE - 1 then (c.1.set c.2.1 (b % 256), c.2.1 + 1, c.2.2)
  else c

/-- Command buffer, index and ready flag of a state. -/
def cmd_state (u : Uart) : List Nat × Nat × Nat :=
  (u.uart_cmd_buffer, u.uart_cmd_index, u.uart_cmd_ready_flag)

/-- What happens to `uart.c`: the interrupt delivers a byte, the main loop calls
`uart_process_incoming_data` (a poll), or the FSM calls `uart_get_command`. -/
inductive UartEvent where
  | arrival (b : Nat)
  | poll
  | fetch
  deriving DecidableEq, Repr

/-- The byte of an arrival is a byte. -/
def UartEvent.typed : UartEvent → Bool
  | UartEvent.arrival b => decide (b < 256)
  | _ => true

/-- The bytes a poll has read from the ring: those buffered before the call that are no
longer buffered after it. -/
def consumed_by (u v : Uart) : List Nat :=
  (buffered u).take ((buffered u).length - (buffered v).length)

/-- A run of events from the state `u`; the result is the state reached and `acc`
followed by the bytes the polls have read from the ring, in order.  `none` when a poll
does not return. -/
def uart_events : Uart → List Nat → List UartEvent → Option (Uart × List Nat)
  | u, acc, [] => some (u, acc)
  | u, acc, UartEvent.arrival b :: es => uart_events (HAL_UART_RxCpltCallback b u) acc es
  | u, acc, UartEvent.poll :: es =>
    match uart_process_incoming_data u with
    | some v => uart_events v (acc ++ consumed_by u v) es
    | none => none
  | u, acc, UartEvent.fetch :: es => uart_events (uart_get_command u []).2.2 acc es

/-- A line can start after the bytes `before`: nothing has been read yet, or the last
byte read is a delimiter. -/
def line_start (before : List Nat) : Bool :=
  match before.getLast? with
  | none => true
  | some b => is_delimiter b

/-- The arrivals of the bytes `bs`, in order. -/
def arrivals (bs : List Nat) : List UartEvent := bs.map UartEvent.arrival

/-- A line of 70 bytes. -/
def line_of_70 : List Nat :=
  bytes "0123456789abcdefghijklmnopqrstuvwxyzABCDEFGHIJKLMNOPQRSTUVWXYZ01234567"

/-- An empty line arrives and is polled; the line of 70 bytes arrives in two halves,
each followed by a poll, with a fetch in between, and the delimiter arrives and is
polled. -/
def long_line_run : List UartEvent :=
  arrivals [13] ++ [UartEvent.poll] ++ arrivals (line_of_70.take 35) ++
    [UartEvent.poll, UartEvent.fetch] ++ arrivals (line_of_70.drop 35) ++
    [UartEvent.poll] ++ arrivals [10] ++ [UartEvent.poll]

/-- The line "a", NUL, "b" and its delimiter. -/
def line_with_nul : List Nat := [97, 0, 98, 13]

/-! ## Lab 4: the clock FSM before retries, timeouts and the message display

`Bai4_I2C_Realtimeclock/Core/Src/clock_fsm.c` has the four modes ViewTime, SetTime,
SetAlarm and Update and the variables of Lab 5 except those of the retry, the timeout,
the message display and the tracking of the mode button; the state record is shared and
those fields are left alone.  The handlers of ViewTime, SetTime and SetAlarm and the
setting arithmetic are those of Lab 5 word for word but for comments. -/

namespace Lab4

/-- Modelled from the spec: `uart.c` of Lab 4 is not among the sources.  Its
`uart_get_command` is taken to hand a completed line over as the specification describes
the hand-over and as Lab 5 does it: when a command is ready it is copied into `buffer`,
the flag is cleared and 1 is returned, otherwise 0. -/
def uart_get_command (u : Uart) (buffer : List Nat) : Nat × List Nat × Uart :=
  ClockFsm.uart_get_command u buffer

/-- Modelled from the spec: `uart.c` of Lab 4 is not among the sources.  Its
`uart_parse_num_from_string` is taken to parse permissively, as the specification has it
(a decimal integer, 0 when the text does not start with one) and as Lab 5 does with
`atoi`. -/
def uart_parse_num_from_string (str : List Nat) : Int := atoi str

/-- Mode switch, `handle_mode_switch` of Lab 4: it acts on the first tick of a press of
the mode button, not on its release. -/
def handle_mode_switch (s : State) : State :=
  if s.button_count_mode = 1 then
    let s1 := if s.current_mode = ClockMode.MODE_SET_TIME then write_temp s else s
    let s2 := if s1.alarm_triggered ≠ 0 then { s1 with alarm_triggered := 0 } else s1
    let s3 := { s2 with current_mode := modeOfNat ((modeToNat s2.current_mode + 1) % 4) }
    if s3.current_mode = ClockMode.MODE_SET_TIME then
      let s4 := ds3231_ReadTime s3
      { s4 with temp := s4.ds3231, set_time_param := SET_HOUR }
    else if s3.current_mode = ClockMode.MODE_SET_ALARM then
      { s3 with set_alarm_param := SET_ALARM_HOUR }
    else if s3.current_mode = ClockMode.MODE_UPDATE_VIA_UART then
      let s4 := ds3231_ReadTime s3
      let s5 := { s4 with temp := s4.ds3231, uart_update_param := SET_HOUR,
                          uart_data_requested := 0 }
      uart_Rs232SendString banner_update s5
    else
      s3
  else s

/-- Serial prompt of a field in Lab 4; the weekday is asked for as a number. -/
def uart_send_prompt (s : State) : State :=
  match s.uart_update_param with
  | 0 => uart_Rs232SendString (bytes "Hours (0-23): ") s
  | 1 => uart_Rs232SendString (bytes "Minutes (0-59): ") s
  | 2 => uart_Rs232SendString (bytes "Seconds (0-59): ") s
  | 3 => uart_Rs232SendString (bytes "Day (1=Mon - 7=Sun): ") s
  | 4 => uart_Rs232SendString (bytes "Date (1-31): ") s
  | 5 => uart_Rs232SendString (bytes "Month (1-12): ") s
  | 6 => uart_Rs232SendString (bytes "Year (0-99): ") s
  | _ => s

/-- Step 3 of `handle_uart_update_mode` of Lab 4: the parsed value is stored in the field
under the cursor when it lies within the bounds of the field. -/
def uart_store_value (val : Int) (s : State) : State :=
  match s.uart_update_param with
  | 0 => if 0 ≤ val ∧ val ≤ 23 then { s with temp := { s.temp with hour := val.toNat } } else s
  | 1 => if 0 ≤ val ∧ val ≤ 59 then { s with temp := { s.temp with min := val.toNat } } else s
  | 2 => if 0 ≤ val ∧ val ≤ 59 then { s with temp := { s.temp with sec := val.toNat } } else s
  | 3 => if 1 ≤ val ∧ val ≤ 7 then { s with temp := { s.temp with day := val.toNat } } else s
  | 4 => if 1 ≤ val ∧ val ≤ 31 then { s with temp := { s.temp with date := val.toNat } } else s
  | 5 => if 1 ≤ val ∧ val ≤ 12 then { s with temp := { s.temp with month := val.toNat } } else s
  | 6 => if 0 ≤ val ∧ val ≤ 99 then { s with temp := { s.temp with year := val.toNat } } else s
  | _ => s

/-- Steps 3 to 5 of `handle_uart_update_mode` of Lab 4 on a received command: store the
value when it is in range, echo the line, advance the cursor, and after the last field
write the record to the RTC and return to ViewTime. -/
def uart_take_command (s : State) : State :=
  let val := uart_parse_num_from_string s.uart_rx_buffer
  let s1 := uart_store_value val s
  let s2 := uart_Rs232SendString (bytes "Received: ") s1
  let s3 := uart_Rs232SendString s2.uart_rx_buffer s2
  let s4 := uart_Rs232SendString (bytes "\r\n") s3
  let s5 := { s4 with uart_update_param := s4.uart_update_param + 1,
                      uart_data_requested := 0 }
  if s5.uart_update_param > SET_YEAR then
    let s6 := write_temp s5
    let s7 := uart_Rs232SendString
      (bytes "Update Complete! Returning to VIEW_TIME mode.\r\n") s6
    { s7 with current_mode := ClockMode.MODE_VIEW_TIME }
  else s5

/-- Tick in the update mode, `handle_uart_update_mode` of Lab 4: prompt once per field,
then poll the serial line. -/
def handle_uart_update_mode (s : State) : State :=
  let s1 :=
    if s.uart_data_requested = 0 then
      { uart_send_prompt s with uart_data_requested := 1 }
    else s
  let r := uart_get_command s1.uart s1.uart_rx_buffer
  if r.1 ≠ 0 then
    uart_take_command { s1 with uart_rx_buffer := r.2.1, uart := r.2.2 }
  else s1

/-- Main FSM step, `clock_fsm_run` of Lab 4: blink, mode switch, then the handler of the
mode. -/
def clock_fsm_run (s : State) : State :=
  let s1 := { s with blink_counter := (s.blink_counter + 1) % 10 }
  let s2 := { s1 with blink_flag := if s1.blink_counter < 5 then 1 else 0 }
  let s3 := handle_mode_switch s2
  match s3.current_mode with
  | ClockMode.MODE_VIEW_TIME => handle_view_time_mode s3
  | ClockMode.MODE_SET_TIME => handle_set_time_mode s3
  | ClockMode.MODE_SET_ALARM => handle_set_alarm_mode s3
  | ClockMode.MODE_UPDATE_VIA_UART => handle_uart_update_mode s3
  | ClockMode.MODE_MESSAGE_DISPLAY => s3

/-- The blink update that opens `clock_fsm_run` of Lab 4. -/
def blink_update (s : State) : State :=
  { s with blink_counter := (s.blink_counter + 1) % 10,
           blink_flag := if (s.blink_counter + 1) % 10 < 5 then 1 else 0 }

/-- One period of the main loop of Lab 4. -/
def tick (s : State) (i : Input) : State := clock_fsm_run (feed i s)

/-- A run of ticks of Lab 4. -/
def run (s : State) (is : List Input) : State := is.foldl tick s

/-- An update session of Lab 4 with the cursor on `p` and the request flag `q`, no
command pending. -/
def Sess (s : State) (p q : Nat) : Prop :=
  s.current_mode = ClockMode.MODE_UPDATE_VIA_UART ∧ s.uart_update_param = p ∧
    s.uart_data_requested = q ∧ s.uart.uart_cmd_ready_flag = 0

/-- The effects of the commit of Lab 4 for the record `t`: seven register writes, then
the notice on the serial line. -/
def commitEffects4 (t : TimeRec) : List Effect :=
  [Effect.rtcWrite RtcAddr.ADDRESS_HOUR t.hour, Effect.rtcWrite RtcAddr.ADDRESS_MIN t.min,
   Effect.rtcWrite RtcAddr.ADDRESS_SEC t.sec, Effect.rtcWrite RtcAddr.ADDRESS_DAY t.day,
   Effect.rtcWrite RtcAddr.ADDRESS_DATE t.date, Effect.rtcWrite RtcAddr.ADDRESS_MONTH t.month,
   Effect.rtcWrite RtcAddr.ADDRESS_YEAR t.year,
   Effect.uartSend (bytes "Update Complete! Returning to VIEW_TIME mode.\r\n")]

/-- The bounds of Lab 4 on the parsed value, by field; the weekday is a number 1..7. -/
def in_bounds (param : Nat) (v : Int) : Prop :=
  match param with
  | 0 => 0 ≤ v ∧ v ≤ 23
  | 1 => 0 ≤ v ∧ v ≤ 59
  | 2 => 0 ≤ v ∧ v ≤ 59
  | 3 => 1 ≤ v ∧ v ≤ 7
  | 4 => 1 ≤ v ∧ v ≤ 31
  | 5 => 1 ≤ v ∧ v ≤ 12
  | 6 => 0 ≤ v ∧ v ≤ 99
  | _ => False

instance (param : Nat) (v : Int) : Decidable (in_bounds param v) := by
  unfold in_bounds; split <;> infer_instance

/-- The record after the line `l` has been received for the field `p`: the field takes
the parsed value when it is in bounds and the record is left alone otherwise. -/
def store_line (p : Nat) (t : TimeRec) (l : List Nat) : TimeRec :=
  if in_bounds p (atoi l) then setField p (atoi l).toNat t else t

/-- The record after the lines `ls` have been received for the fields from `p` on. -/
def record_after : Nat → TimeRec → List (List Nat) → TimeRec
  | _, t, [] => t
  | p, t, l :: ls => record_after (p + 1) (store_line p t l) ls

/-- The lines a run of inputs brings, in order. -/
def lines (is : List Input) : List (List Nat) := is.filterMap (fun i => i.line)

/-- Inputs of a session: no new press of the mode button, and lines without NUL. -/
def Plain (i : Input) : Prop :=
  i.button_count_mode ≠ 1 ∧
    match i.line with
    | some l => 0 ∉ l
    | none => True

instance (i : Input) : Decidable (Plain i) := by
  unfold Plain; split <;> infer_instance

/-- The session of Lab 4 on entering Update from the start state, the RTC reading
12:34:56, weekday 3, 15 June 2024. -/
def session_start : State :=
  { init with current_mode := ClockMode.MODE_UPDATE_VIA_UART,
              temp := ⟨12, 34, 56, 3, 15, 6, 24⟩ }

/-- Six lines, each after two ticks without one: "abc", "75", "-1", "9", "0", "13"; then
two more ticks without a line. -/
def garbage_head : List Input :=
  ["abc", "75", "-1", "9", "0", "13"].flatMap
      (fun str => [quiet_input, quiet_input, line_input str]) ++
    [quiet_input, quiet_input]

end Lab4

end ClockFsm

/-! ## Lab 3: the traffic-light FSM, `Bai3_Lcd_button/Core/Src/traffic_fsm.c`

The variables are C `int`s; they are integers here and every addition and subtraction
is wrapped to 32 bits.  Output to the LCD and the LEDs is not modelled. -/

namespace TrafficFsm

/-- The values `current_mode` takes: the four modes of `System_Mode_t`, numbered 1 to 4,
and `UNSET` for the value 0, which is no enumerator and is what the static holds before
`fsm_traffic_init`. -/
inductive System_Mode_t where
  | UNSET
  | MODE_NORMAL
  | MODE_MODIFY_RED
  | MODE_MODIFY_GREEN
  | MODE_MODIFY_YELLOW
  deriving DecidableEq, Repr

/-- The six states of the lights, `Traffic_State_t`. -/
inductive Traffic_State_t where
  | STATE_R1_GREEN_R2_RED
  | STATE_R1_YELLOW_R2_RED
  | STATE_ALL_RED_1
  | STATE_R1_RED_R2_GREEN
  | STATE_R1_RED_R2_YELLOW
  | STATE_ALL_RED_2
  deriving DecidableEq, Repr

/-- The statics of `traffic_fsm.c` and the three button counters it reads. -/
structure Vars where
  current_mode : System_Mode_t
  traffic_state : Traffic_State_t
  period_green : Int
  period_yellow : Int
  period_red : Int
  temp_period_value : Int
  r1_timer : Int
  r2_timer : Int
  second_counter : Int
  blink_counter : Int
  blink_state : Int
  button_mode : Nat
  button_adjust : Nat
  button_confirm : Nat
  deriving DecidableEq, Repr

/-- The value of an `int` expression: the result wrapped to 32 bits, two's complement. -/
def wrap32 (x : Int) : Int := (x + 2147483648) % 4294967296 - 2147483648

/-- The state at program start: the static initialisers; the two statics without one
start at 0, which is `UNSET` for the mode and the first state of the lights. -/
def boot : Vars :=
  { current_mode := System_Mode_t.UNSET,
    traffic_state := Traffic_State_t.STATE_R1_GREEN_R2_RED,
    period_green := 5, period_yellow := 2, period_red := 2, temp_period_value := 0,
    r1_timer := 5, r2_timer := 9, second_counter := 0, blink_counter := 0, blink_state := 0,
    button_mode := 0, button_adjust := 0, button_confirm := 0 }

/-- Initialisation, `fsm_traffic_init`. -/
def fsm_traffic_init (s : Vars) : Vars :=
  { s with current_mode := System_Mode_t.MODE_NORMAL,
           traffic_state := Traffic_State_t.STATE_R1_GREEN_R2_RED,
           r1_timer := s.period_green,
           r2_timer := wrap32 (wrap32 (s.period_green + s.period_yellow) + s.period_red),
           second_counter := 0, blink_counter := 0, blink_state := 0 }

/-- The two decrements of `fsm_normal_mode_run`: `r1_timer--; r2_timer--`. -/
def count_down (s : Vars) : Vars :=
  { s with r1_timer := wrap32 (s.r1_timer - 1), r2_timer := wrap32 (s.r2_timer - 1) }

/-- The `switch` of `fsm_normal_mode_run`: the transition taken when the timer of the
state has reached 0. -/
def transition (s : Vars) : Vars :=
  match s.traffic_state with
  | Traffic_State_t.STATE_R1_GREEN_R2_RED =>
    if s.r1_timer = 0 then
      { s with traffic_state := Traffic_State_t.STATE_R1_YELLOW_R2_RED,
               r1_timer := s.period_yellow }
    else s
  | Traffic_State_t.STATE_R1_YELLOW_R2_RED =>
    if s.r1_timer = 0 then
      { s with traffic_state := Traffic_State_t.STATE_ALL_RED_1, r1_timer := s.period_red }
    else s
  | Traffic_State_t.STATE_ALL_RED_1 =>
    if s.r1_timer = 0 then
      { s with traffic_state := Traffic_State_t.STATE_R1_RED_R2_GREEN,
               r1_timer := wrap32 (wrap32 (s.period_green + s.period_yellow) + s.period_red),
               r2_timer := s.period_green }
    else s
  | Traffic_State_t.STATE_R1_RED_R2_GREEN =>
    if s.r2_timer = 0 then
      { s with traffic_state := Traffic_State_t.STATE_R1_RED_R2_YELLOW,
               r2_timer := s.period_yellow }
    else s
  | Traffic_State_t.STATE_R1_RED_R2_YELLOW =>
    if s.r2_timer = 0 then
      { s with traffic_state := Traffic_State_t.STATE_ALL_RED_2, r2_timer := s.period_red }
    else s
  | Traffic_State_t.STATE_ALL_RED_2 =>
    if s.r2_timer = 0 then
      { s with traffic_state := Traffic_State_t.STATE_R1_GREEN_R2_RED,
               r1_timer := s.period_green,
               r2_timer := wrap32 (wrap32 (s.period_green + s.period_yellow) + s.period_red) }
    else s

/-- Normal mode, `fsm_normal_mode_run`: nothing until 1000 ms have been counted; then the
counter restarts, both timers step down and the transition of the state is taken. -/
def fsm_normal_mode_run (s : Vars) : Vars :=
  if s.second_counter < 1000 then s
  else transition (count_down { s with second_counter := 0 })

/-- Modify modes, `fsm_modify_mode_run`: ADJUST steps the temporary value, 99 wrapping
to 1; CONFIRM saves it to the period of the mode. -/
def fsm_modify_mode_run (s : Vars) : Vars :=
  let s1 :=
    if s.button_adjust = 1 then
      let s0 := { s with temp_period_value := wrap32 (s.temp_period_value + 1) }
      if s0.temp_period_value > 99 then { s0 with temp_period_value := 1 } else s0
    else s
  if s1.button_confirm = 1 then
    match s1.current_mode with
    | System_Mode_t.MODE_MODIFY_RED => { s1 with period_red := s1.temp_period_value }
    | System_Mode_t.MODE_MODIFY_GREEN => { s1 with period_green := s1.temp_period_value }
    | System_Mode_t.MODE_MODIFY_YELLOW => { s1 with period_yellow := s1.temp_period_value }
    | System_Mode_t.MODE_NORMAL => s1
    | System_Mode_t.UNSET => s1
  else s1

/-- The mode after `current_mode++` with the wrap from MODIFY_YELLOW to NORMAL. -/
def next_mode : System_Mode_t → System_Mode_t
  | System_Mode_t.UNSET => System_Mode_t.MODE_NORMAL
  | System_Mode_t.MODE_NORMAL => System_Mode_t.MODE_MODIFY_RED
  | System_Mode_t.MODE_MODIFY_RED => System_Mode_t.MODE_MODIFY_GREEN
  | System_Mode_t.MODE_MODIFY_GREEN => System_Mode_t.MODE_MODIFY_YELLOW
  | System_Mode_t.MODE_MODIFY_YELLOW => System_Mode_t.MODE_NORMAL

/-- The mode switch of `fsm_traffic_run` on a press of the mode button. -/
def switch_mode (s : Vars) : Vars :=
  let s1 := { s with current_mode := next_mode s.current_mode, blink_counter := 0,
                     blink_state := 1 }
  match s1.current_mode with
  | System_Mode_t.MODE_NORMAL =>
    { s1 with traffic_state := Traffic_State_t.STATE_R1_GREEN_R2_RED,
              r1_timer := s1.period_green,
              r2_timer := wrap32 (wrap32 (s1.period_green + s1.period_yellow) + s1.period_red),
              second_counter := 0 }
  | System_Mode_t.MODE_MODIFY_RED => { s1 with temp_period_value := s1.period_red }
  | System_Mode_t.MODE_MODIFY_GREEN => { s1 with temp_period_value := s1.period_green }
  | System_Mode_t.MODE_MODIFY_YELLOW => { s1 with temp_period_value := s1.period_yellow }
  | System_Mode_t.UNSET => s1

/-- The step of the FSM, `fsm_traffic_run`, called every 50 ms. -/
def fsm_traffic_run (s : Vars) : Vars :=
  let s1 := { s with blink_counter := wrap32 (s.blink_counter + 50),
                     second_counter := wrap32 (s.second_counter + 50) }
  let s2 :=
    if s1.blink_counter ≥ 250 then
      { s1 with blink_counter := 0, blink_state := if s1.blink_state = 0 then 1 else 0 }
    else s1
  let s3 := if s2.button_mode = 1 then switch_mode s2 else s2
  if s3.current_mode = System_Mode_t.MODE_NORMAL then fsm_normal_mode_run s3
  else fsm_modify_mode_run s3

/-- One period of the main loop with no button held: the button scan leaves the three
counters at 0, then the FSM steps. -/
def idle_tick (s : Vars) : Vars :=
  fsm_traffic_run { s with button_mode := 0, button_adjust := 0, button_confirm := 0 }

/-- The ticks of one second: 20 periods of 50 ms with no button held. -/
def one_second (s : Vars) : Vars := Nat.iterate idle_tick 20 s

/-- The state after `n` seconds with no button held. -/
def seconds (n : Nat) (s : Vars) : Vars := Nat.iterate one_second n s

/-- What the lights show: the state and the two countdowns. -/
def lights (s : Vars) : Traffic_State_t × Int × Int :=
  (s.traffic_state, s.r1_timer, s.r2_timer)

/-- The cycle the claim describes, for periods `G`, `Y`, `R`, as state and countdowns
`k` seconds into the cycle: green for `G` seconds, yellow for `Y` and all red for `R` on
route 1, then the same on route 2. -/
def expected (G Y R k : Int) : Traffic_State_t × Int × Int :=
  if k < G then (Traffic_State_t.STATE_R1_GREEN_R2_RED, G - k, G + Y + R - k)
  else if k < G + Y then (Traffic_State_t.STATE_R1_YELLOW_R2_RED, G + Y - k, G + Y + R - k)
  else if k < G + Y + R then (Traffic_State_t.STATE_ALL_RED_1, G + Y + R - k, G + Y + R - k)
  else if k < G + Y + R + G then
    (Traffic_State_t.STATE_R1_RED_R2_GREEN, 2 * (G + Y + R) - k, G + Y + R + G - k)
  else if k < G + Y + R + G + Y then
    (Traffic_State_t.STATE_R1_RED_R2_YELLOW, 2 * (G + Y + R) - k, G + Y + R + G + Y - k)
  else (Traffic_State_t.STATE_ALL_RED_2, 2 * (G + Y + R) - k, 2 * (G + Y + R) - k)

/-- The FSM is in normal mode at the start of a second, with periods `G`, `Y`, `R`, and
the lights are `k` seconds into the cycle. -/
def Cycling (s : Vars) (G Y R k : Int) : Prop :=
  s.current_mode = System_Mode_t.MODE_NORMAL ∧ s.second_counter = 0 ∧
    s.period_green = G ∧ s.period_yellow = Y ∧ s.period_red = R ∧
    lights s = expected G Y R k

end TrafficFsm

namespace ClockFsm

/-! ## Traces -/

theorem rtcWrites_append (a b : List Effect) :
    rtcWrites (a ++ b) = rtcWrites a ++ rtcWrites b := by
  induction a with
  | nil => rfl
  | cons e t ih => cases e <;> simp [rtcWrites, ih]

theorem prompts_append (a b : List Effect) : prompts (a ++ b) = prompts a ++ prompts b := by
  induction a with
  | nil => rfl
  | cons e t ih => cases e <;> simp [prompts, ih]

/-! ## The local handlers touch only their own variables -/

theorem eraseEdit_increment_setting (s : State) :
    eraseEdit (increment_setting s) = eraseEdit s := by
  unfold increment_setting; split <;> rfl

theorem eraseEdit_decrement_setting (s : State) :
    eraseEdit (decrement_setting s) = eraseEdit s := by
  unfold decrement_setting; split <;> rfl

theorem eraseEdit_increment_alarm_setting (s : State) :
    eraseEdit (increment_alarm_setting s) = eraseEdit s := by
  unfold increment_alarm_setting; split <;> rfl

theorem eraseEdit_decrement_alarm_setting (s : State) :
    eraseEdit (decrement_alarm_setting s) = eraseEdit s := by
  unfold decrement_alarm_setting; split <;> rfl

theorem trace_increment_setting (s : State) : (increment_setting s).trace = s.trace := by
  unfold increment_setting; split <;> rfl

theorem trace_decrement_setting (s : State) : (decrement_setting s).trace = s.trace := by
  unfold decrement_setting; split <;> rfl

theorem trace_increment_alarm_setting (s : State) :
    (increment_alarm_setting s).trace = s.trace := by
  unfold increment_alarm_setting; split <;> rfl

theorem trace_decrement_alarm_setting (s : State) :
    (decrement_alarm_setting s).trace = s.trace := by
  unfold decrement_alarm_setting; split <;> rfl

theorem eraseEdit_on_button (count : Nat) (f : State → State)
    (hf : ∀ s, eraseEdit (f s) = eraseEdit s) (s : State) :
    eraseEdit (on_button count f s) = eraseEdit s := by
  unfold on_button; split_ifs <;> first | rfl | exact hf s

theorem trace_on_button (count : Nat) (f : State → State)
    (hf : ∀ s, (f s).trace = s.trace) (s : State) :
    (on_button count f s).trace = s.trace := by
  unfold on_button; split_ifs <;> first | rfl | exact hf s

theorem eraseEdit_handle_set_time_mode (s : State) :
    eraseEdit (handle_set_time_mode s) = eraseEdit s := by
  have h1 := eraseEdit_on_button s.button_count_up increment_setting
    eraseEdit_increment_setting s
  have h2 := eraseEdit_on_button
    (on_button s.button_count_up increment_setting s).button_count_down decrement_setting
    eraseEdit_decrement_setting (on_button s.button_count_up increment_setting s)
  simp only [handle_set_time_mode]
  split_ifs <;> exact h2.trans h1

theorem trace_handle_set_time_mode (s : State) : (handle_set_time_mode s).trace = s.trace := by
  have h1 := trace_on_button s.button_count_up increment_setting trace_increment_setting s
  have h2 := trace_on_button
    (on_button s.button_count_up increment_setting s).button_count_down decrement_setting
    trace_decrement_setting (on_button s.button_count_up increment_setting s)
  simp only [handle_set_time_mode]
  split_ifs <;> exact h2.trans h1

theorem eraseEdit_handle_set_alarm_mode (s : State) :
    eraseEdit (handle_set_alarm_mode s) = eraseEdit s := by
  have h0 : eraseEdit (ds3231_ReadTime s) = eraseEdit s := rfl
  have h1 := eraseEdit_on_button (ds3231_ReadTime s).button_count_up increment_alarm_setting
    eraseEdit_increment_alarm_setting (ds3231_ReadTime s)
  have h2 := eraseEdit_on_button
    (on_button (ds3231_ReadTime s).button_count_up increment_alarm_setting
      (ds3231_ReadTime s)).button_count_down decrement_alarm_setting
    eraseEdit_decrement_alarm_setting
    (on_button (ds3231_ReadTime s).button_count_up increment_alarm_setting (ds3231_ReadTime s))
  simp only [handle_set_alarm_mode]
  split_ifs <;> exact h2.trans (h1.trans h0)

theorem trace_handle_set_alarm_mode (s : State) :
    (handle_set_alarm_mode s).trace = s.trace ++ [Effect.rtcRead] := by
  have h0 : (ds3231_ReadTime s).trace = s.trace ++ [Effect.rtcRead] := rfl
  have h1 := trace_on_button (ds3231_ReadTime s).button_count_up increment_alarm_setting
    trace_increment_alarm_setting (ds3231_ReadTime s)
  have h2 := trace_on_button
    (on_button (ds3231_ReadTime s).button_count_up increment_alarm_setting
      (ds3231_ReadTime s)).button_count_down decrement_alarm_setting
    trace_decrement_alarm_setting
    (on_button (ds3231_ReadTime s).button_count_up increment_alarm_setting (ds3231_ReadTime s))
  simp only [handle_set_alarm_mode]
  split_ifs <;> exact h2.trans (h1.trans h0)

theorem eraseEdit_handle_view_time_mode (s : State) :
    eraseEdit (handle_view_time_mode s) = eraseEdit s := by
  simp only [handle_view_time_mode]
  split_ifs <;> rfl

theorem trace_handle_view_time_mode (s : State) :
    (handle_view_time_mode s).trace = s.trace ∨
      (handle_view_time_mode s).trace = s.trace ++ [Effect.rtcRead] := by
  simp only [handle_view_time_mode]
  split_ifs <;> first | exact Or.inl rfl | exact Or.inr rfl

/-! ## Validation of a received line -/

theorem day_lookup_of_mem (line : List Nat) (h : line ∈ day_names.tail) :
    day_lookup line = some (day_names.indexOf line) := by
  have h2 : line = bytes "Mon" ∨ line = bytes "Tue" ∨ line = bytes "Wed" ∨ line = bytes "Thu" ∨
      line = bytes "Fri" ∨ line = bytes "Sat" ∨ line = bytes "Sun" := by
    simpa [day_names] using h
  rcases h2 with h | h | h | h | h | h | h <;> subst h <;> decide

theorem day_lookup_of_not_mem (line : List Nat) (h : line ∉ day_names.tail) :
    day_lookup line = none := by
  have h2 : ¬ (line = bytes "Mon" ∨ line = bytes "Tue" ∨ line = bytes "Wed" ∨
      line = bytes "Thu" ∨ line = bytes "Fri" ∨ line = bytes "Sat" ∨ line = bytes "Sun") := by
    simpa [day_names] using h
  simp only [not_or] at h2
  obtain ⟨h1, h2, h3, h4, h5, h6, h7⟩ := h2
  have e : List.range' 1 7 = [1, 2, 3, 4, 5, 6, 7] := by decide
  simp only [day_lookup, e, day_names, List.find?, List.getD_cons_succ, List.getD_cons_zero]
  have b1 : (bytes "Mon" == line) = false := beq_eq_false_iff_ne.mpr (Ne.symm h1)
  have b2 : (bytes "Tue" == line) = false := beq_eq_false_iff_ne.mpr (Ne.symm h2)
  have b3 : (bytes "Wed" == line) = false := beq_eq_false_iff_ne.mpr (Ne.symm h3)
  have b4 : (bytes "Thu" == line) = false := beq_eq_false_iff_ne.mpr (Ne.symm h4)
  have b5 : (bytes "Fri" == line) = false := beq_eq_false_iff_ne.mpr (Ne.symm h5)
  have b6 : (bytes "Sat" == line) = false := beq_eq_false_iff_ne.mpr (Ne.symm h6)
  have b7 : (bytes "Sun" == line) = false := beq_eq_false_iff_ne.mpr (Ne.symm h7)
  simp only [b1, b2, b3, b4, b5, b6, b7]

theorem uart_store_value_accept (s : State)
    (h : acceptable s.uart_update_param s.uart_rx_buffer) :
    uart_store_value s =
      ({ s with temp := setField s.uart_update_param
                  (line_value s.uart_update_param s.uart_rx_buffer) s.temp }, 1) := by
  unfold acceptable at h
  unfold uart_store_value line_value
  by_cases h3 : s.uart_update_param = 3
  · simp only [h3, if_true] at h ⊢
    simp only [SET_DAY, if_true, day_lookup_of_mem _ h, setField]
  · simp only [h3, if_false] at h ⊢
    simp only [SET_DAY, h3, if_false, uart_parse_num_from_string]
    unfold in_bounds at h
    unfold setField
    split at h <;> simp_all

theorem uart_store_value_reject (s : State)
    (h : ¬ acceptable s.uart_update_param s.uart_rx_buffer) :
    uart_store_value s = (s, 0) := by
  unfold acceptable at h
  unfold uart_store_value
  by_cases h3 : s.uart_update_param = 3
  · simp only [h3, if_true] at h ⊢
    simp only [SET_DAY, if_true, day_lookup_of_not_mem _ h]
  · simp only [h3, if_false] at h ⊢
    simp only [SET_DAY, h3, if_false, uart_parse_num_from_string]
    unfold in_bounds at h
    split at h <;> simp_all

/-! ## The update handler, branch by branch -/

theorem rtcWrites_promptSends (p : Nat) : rtcWrites (promptSends p) = [] := by
  unfold promptSends; split <;> rfl

theorem prompts_promptSends (p : Nat) : prompts (promptSends p) = [] := by
  unfold promptSends; split <;> rfl

theorem uart_send_prompt_eq (s : State) :
    uart_send_prompt s = { s with trace := s.trace ++ promptSends s.uart_update_param } := by
  unfold uart_send_prompt promptSends
  split <;> simp [uart_Rs232SendString, emit]

theorem uart_send_request_eq (s : State) : uart_send_request s = after_request s := by
  simp [uart_send_request, uart_send_prompt_eq, uart_init_rs232, emit, after_request]

theorem uart_check_command_idle (s : State) (hf : s.uart.uart_cmd_ready_flag = 0)
    (hc : 0 < s.uart_timeout_counter) : uart_check_command s = after_idle s := by
  simp [uart_check_command, uart_get_command, hf, hc, after_idle]

theorem uart_check_command_timeout (s : State) (hf : s.uart.uart_cmd_ready_flag = 0)
    (hc : s.uart_timeout_counter = 0) : uart_check_command s = after_timeout s := by
  simp [uart_check_command, uart_get_command, hf, hc, uart_stop_listening,
    uart_Rs232SendString, emit, after_timeout]

theorem uart_check_command_cmd (s : State) (hf : s.uart.uart_cmd_ready_flag ≠ 0) :
    uart_check_command s =
      uart_respond (uart_store_value (with_command s)).1 (uart_store_value (with_command s)).2 := by
  simp [uart_check_command, uart_get_command, hf, uart_stop_listening, emit, with_command]

theorem uart_respond_invalid (s : State) :
    uart_respond s 0 =
      { s with uart_data_requested := 0,
               trace := s.trace ++
                 [Effect.uartSend (bytes "\r\nInvalid data. Please try again.\r\n")] } := by
  simp [uart_respond, uart_Rs232SendString, emit]

theorem uart_respond_next (s : State) (v : Nat) (hv : v ≠ 0) (hp : s.uart_update_param < 6) :
    uart_respond s v =
      { s with uart_update_param := s.uart_update_param + 1, uart_data_requested := 0,
               uart_retry_count := 0,
               trace := s.trace ++ echoSends s.uart_rx_buffer } := by
  have h : ¬ (SET_YEAR < s.uart_update_param + 1) := by simp only [SET_YEAR]; omega
  simp [uart_respond, hv, uart_Rs232SendString, emit, h, echoSends]

theorem uart_respond_commit (s : State) (v : Nat) (hv : v ≠ 0) (hp : 6 ≤ s.uart_update_param) :
    uart_respond s v =
      { s with uart_update_param := s.uart_update_param + 1, uart_data_requested := 0,
               uart_retry_count := 0,
               message_buffer := bytes "Update Complete!", message_color := Color.GREEN,
               message_display_counter := MESSAGE_DISPLAY_PERIOD,
               current_mode := ClockMode.MODE_MESSAGE_DISPLAY,
               trace := s.trace ++ echoSends s.uart_rx_buffer ++ commitEffects s.temp } := by
  have h : SET_YEAR < s.uart_update_param + 1 := by simp only [SET_YEAR]; omega
  simp [uart_respond, hv, uart_Rs232SendString, emit, h, echoSends, write_temp, ds3231_Write,
    enter_message_display_mode, commitEffects]

theorem uart_check_command_reject (s : State) (hf : s.uart.uart_cmd_ready_flag ≠ 0)
    (h : ¬ acceptable s.uart_update_param (cstr s.uart.uart_cmd_buffer)) :
    uart_check_command s = after_reject s := by
  have hs := uart_store_value_reject (with_command s) h
  rw [uart_check_command_cmd s hf, hs]
  exact uart_respond_invalid _

theorem uart_check_command_accept (s : State) (hf : s.uart.uart_cmd_ready_flag ≠ 0)
    (h : acceptable s.uart_update_param (cstr s.uart.uart_cmd_buffer))
    (hp : s.uart_update_param < 6) :
    uart_check_command s = after_accept s := by
  have hs := uart_store_value_accept (with_command s) h
  rw [uart_check_command_cmd s hf, hs]
  exact uart_respond_next _ 1 (by decide) hp

theorem uart_check_command_commit (s : State) (hf : s.uart.uart_cmd_ready_flag ≠ 0)
    (h : acceptable s.uart_update_param (cstr s.uart.uart_cmd_buffer))
    (hp : 6 ≤ s.uart_update_param) :
    uart_check_command s = after_commit s := by
  have hs := uart_store_value_accept (with_command s) h
  rw [uart_check_command_cmd s hf, hs]
  exact uart_respond_commit _ 1 (by decide) hp

theorem acceptable_le (p : Nat) (line : List Nat) (h : acceptable p line) : p ≤ 6 := by
  unfold acceptable at h
  by_cases h3 : p = 3
  · omega
  · simp only [h3, if_false] at h
    unfold in_bounds at h
    split at h <;> first | omega | exact absurd h id

/-- The five outcomes of the command poll. -/
theorem uart_check_command_cases (s : State) :
    (s.uart.uart_cmd_ready_flag = 0 ∧ 0 < s.uart_timeout_counter ∧
        uart_check_command s = after_idle s) ∨
    (s.uart.uart_cmd_ready_flag = 0 ∧ s.uart_timeout_counter = 0 ∧
        uart_check_command s = after_timeout s) ∨
    (s.uart.uart_cmd_ready_flag ≠ 0 ∧
        ¬ acceptable s.uart_update_param (cstr s.uart.uart_cmd_buffer) ∧
        uart_check_command s = after_reject s) ∨
    (s.uart.uart_cmd_ready_flag ≠ 0 ∧
        acceptable s.uart_update_param (cstr s.uart.uart_cmd_buffer) ∧
        s.uart_update_param < 6 ∧ uart_check_command s = after_accept s) ∨
    (s.uart.uart_cmd_ready_flag ≠ 0 ∧
        acceptable s.uart_update_param (cstr s.uart.uart_cmd_buffer) ∧
        s.uart_update_param = 6 ∧ uart_check_command s = after_commit s) := by
  by_cases hf : s.uart.uart_cmd_ready_flag = 0
  · by_cases hc : 0 < s.uart_timeout_counter
    · exact Or.inl ⟨hf, hc, uart_check_command_idle s hf hc⟩
    · have hc0 : s.uart_timeout_counter = 0 := by omega
      exact Or.inr (Or.inl ⟨hf, hc0, uart_check_command_timeout s hf hc0⟩)
  · by_cases ha : acceptable s.uart_update_param (cstr s.uart.uart_cmd_buffer)
    · have hle := acceptable_le _ _ ha
      by_cases hp : s.uart_update_param < 6
      · exact Or.inr (Or.inr (Or.inr (Or.inl
          ⟨hf, ha, hp, uart_check_command_accept s hf ha hp⟩)))
      · have hp6 : s.uart_update_param = 6 := by omega
        exact Or.inr (Or.inr (Or.inr (Or.inr
          ⟨hf, ha, hp6, uart_check_command_commit s hf ha (by omega)⟩)))
    · exact Or.inr (Or.inr (Or.inl ⟨hf, ha, uart_check_command_reject s hf ha⟩))

theorem handle_uart_update_mode_abort (s : State) (hq : s.uart_data_requested = 0)
    (hr : 3 ≤ s.uart_retry_count) : handle_uart_update_mode s = after_abort s := by
  simp [handle_uart_update_mode, hq, hr, enter_message_display_mode, uart_Rs232SendString, emit,
    after_abort]

theorem handle_uart_update_mode_request (s : State) (hq : s.uart_data_requested = 0)
    (hr : s.uart_retry_count < 3) :
    handle_uart_update_mode s = uart_check_command (after_request s) := by
  have h : ¬ (3 ≤ s.uart_retry_count) := by omega
  simp [handle_uart_update_mode, hq, h, uart_send_request_eq]

theorem handle_uart_update_mode_waiting (s : State) (hq : s.uart_data_requested ≠ 0) :
    handle_uart_update_mode s = uart_check_command s := by
  simp [handle_uart_update_mode, hq]

/-! ## The tick, branch by branch -/

theorem clock_fsm_run_reset (s : State) (h : 60 < s.button_count_mode) :
    clock_fsm_run s =
      { s with button_count_mode := 0, mode_btn_last_count := 0,
               alarm_hour := 6, alarm_min := 0, alarm_enabled := 0,
               message_buffer := bytes "System Reset!", message_color := Color.GREEN,
               message_display_counter := MESSAGE_DISPLAY_PERIOD,
               current_mode := ClockMode.MODE_MESSAGE_DISPLAY,
               trace := s.trace ++
                 [Effect.rtcWrite RtcAddr.ADDRESS_YEAR 25, Effect.rtcWrite RtcAddr.ADDRESS_MONTH 11,
                  Effect.rtcWrite RtcAddr.ADDRESS_DATE 5, Effect.rtcWrite RtcAddr.ADDRESS_DAY 3,
                  Effect.rtcWrite RtcAddr.ADDRESS_HOUR 10, Effect.rtcWrite RtcAddr.ADDRESS_MIN 21,
                  Effect.rtcWrite RtcAddr.ADDRESS_SEC 0] } := by
  simp [clock_fsm_run, h, write_defaults, ds3231_Write, emit, enter_message_display_mode]

theorem clock_fsm_run_message (s : State) (h : s.button_count_mode ≤ 60)
    (hm : s.current_mode = ClockMode.MODE_MESSAGE_DISPLAY) :
    clock_fsm_run s =
      handle_message_display_mode
        (if mode_released s then
          { s with current_mode := ClockMode.MODE_VIEW_TIME, mode_btn_last_count := 0 }
        else { s with mode_btn_last_count := s.button_count_mode }) := by
  have h1 : ¬ (60 < s.button_count_mode) := by omega
  simp [clock_fsm_run, h1, hm]

theorem clock_fsm_run_normal (s : State) (h : s.button_count_mode ≤ 60)
    (hm : s.current_mode ≠ ClockMode.MODE_MESSAGE_DISPLAY) :
    clock_fsm_run s =
      dispatch (tick_prologue s.button_count_mode
        (if mode_released s then handle_mode_switch s else s)) := by
  have h1 : ¬ (60 < s.button_count_mode) := by omega
  simp only [clock_fsm_run, RESET_LONG_PRESS_DURATION, h1, hm, if_false, dispatch, tick_prologue]

/-! ## Mode switch -/

theorem handle_mode_switch_view (s : State) (h : s.current_mode = ClockMode.MODE_VIEW_TIME) :
    handle_mode_switch s =
      { s with alarm_triggered := 0, current_mode := ClockMode.MODE_SET_TIME,
               ds3231 := s.rtc_now, temp := s.rtc_now, set_time_param := SET_HOUR,
               trace := s.trace ++ [Effect.rtcRead] } := by
  by_cases ha : s.alarm_triggered = 0 <;>
    simp [handle_mode_switch, h, ha, modeToNat, modeOfNat, ds3231_ReadTime, emit]

theorem handle_mode_switch_set_time (s : State) (h : s.current_mode = ClockMode.MODE_SET_TIME) :
    handle_mode_switch s =
      { s with alarm_triggered := 0, current_mode := ClockMode.MODE_SET_ALARM,
               set_alarm_param := SET_ALARM_HOUR,
               trace := s.trace ++
                 [Effect.rtcWrite RtcAddr.ADDRESS_HOUR s.temp.hour,
                  Effect.rtcWrite RtcAddr.ADDRESS_MIN s.temp.min,
                  Effect.rtcWrite RtcAddr.ADDRESS_SEC s.temp.sec,
                  Effect.rtcWrite RtcAddr.ADDRESS_DAY s.temp.day,
                  Effect.rtcWrite RtcAddr.ADDRESS_DATE s.temp.date,
                  Effect.rtcWrite RtcAddr.ADDRESS_MONTH s.temp.month,
                  Effect.rtcWrite RtcAddr.ADDRESS_YEAR s.temp.year] } := by
  by_cases ha : s.alarm_triggered = 0 <;>
    simp [handle_mode_switch, h, ha, modeToNat, modeOfNat, write_temp, ds3231_Write, emit]

theorem handle_mode_switch_set_alarm (s : State) (h : s.current_mode = ClockMode.MODE_SET_ALARM) :
    handle_mode_switch s =
      { s with alarm_triggered := 0, current_mode := ClockMode.MODE_UPDATE_VIA_UART,
               ds3231 := s.rtc_now, temp := s.rtc_now, uart_update_param := SET_HOUR,
               uart_data_requested := 0, uart_retry_count := 0,
               uart_timeout_counter := UART_TIMEOUT_PERIOD,
               trace := s.trace ++ [Effect.rtcRead, Effect.uartSend banner_update] } := by
  by_cases ha : s.alarm_triggered = 0 <;>
    simp [handle_mode_switch, h, ha, modeToNat, modeOfNat, ds3231_ReadTime,
      uart_Rs232SendString, emit]

theorem handle_mode_switch_update (s : State)
    (h : s.current_mode = ClockMode.MODE_UPDATE_VIA_UART) :
    handle_mode_switch s =
      { s with alarm_triggered := 0, current_mode := ClockMode.MODE_VIEW_TIME } := by
  by_cases ha : s.alarm_triggered = 0 <;>
    simp [handle_mode_switch, h, ha, modeToNat, modeOfNat]

/-! ## What the handlers leave alone -/

theorem dispatch_local (s : State) (h : s.current_mode ≠ ClockMode.MODE_UPDATE_VIA_UART) :
    eraseEdit (dispatch s) = eraseEdit s ∧
      ((dispatch s).trace = s.trace ∨ (dispatch s).trace = s.trace ++ [Effect.rtcRead]) := by
  unfold dispatch
  split
  · exact ⟨eraseEdit_handle_view_time_mode s, trace_handle_view_time_mode s⟩
  · exact ⟨eraseEdit_handle_set_time_mode s, Or.inl (trace_handle_set_time_mode s)⟩
  · exact ⟨eraseEdit_handle_set_alarm_mode s, Or.inr (trace_handle_set_alarm_mode s)⟩
  · rename_i hm; exact absurd hm h
  · exact ⟨rfl, Or.inl rfl⟩

theorem dispatch_update (s : State) (h : s.current_mode = ClockMode.MODE_UPDATE_VIA_UART) :
    dispatch s = handle_uart_update_mode s := by
  unfold dispatch; rw [h]


/-! ## Summary of one call of the update handler -/

theorem rtcWrites_commitEffects (t : TimeRec) : rtcWrites (commitEffects t) = commitWrites t :=
  rfl

theorem prompts_commitEffects (t : TimeRec) : prompts (commitEffects t) = [] := rfl

theorem rtcWrites_echoSends (l : List Nat) : rtcWrites (echoSends l) = [] := rfl

theorem prompts_echoSends (l : List Nat) : prompts (echoSends l) = [] := rfl

/-- What a command poll does to the variables the claims speak about: it issues no
prompt, never raises the retry count, and either leaves the mode and the message alone
and writes no register, or accepts the line for the last field and commits. -/
theorem uart_check_command_summary (m : State) :
    ∃ es, (uart_check_command m).trace = m.trace ++ es ∧ prompts es = [] ∧
      (uart_check_command m).uart_retry_count ≤ m.uart_retry_count ∧
      ((((uart_check_command m).current_mode = m.current_mode ∧
          (uart_check_command m).message_buffer = m.message_buffer) ∧ rtcWrites es = []) ∨
       (m.uart.uart_cmd_ready_flag ≠ 0 ∧ m.uart_update_param = 6 ∧
          acceptable 6 (cstr m.uart.uart_cmd_buffer) ∧
          (uart_check_command m).current_mode = ClockMode.MODE_MESSAGE_DISPLAY ∧
          (uart_check_command m).message_buffer = bytes "Update Complete!" ∧
          (uart_check_command m).temp = stored_temp m ∧
          rtcWrites es = commitWrites (stored_temp m))) := by
  rcases uart_check_command_cases m with ⟨_, _, h⟩ | ⟨_, _, h⟩ | ⟨_, _, h⟩ | ⟨_, _, _, h⟩ |
      ⟨hf, ha, hp, h⟩
  · rw [h]
    exact ⟨[], by simp [after_idle], rfl, Nat.le_refl _, Or.inl ⟨⟨rfl, rfl⟩, rfl⟩⟩
  · rw [h]
    exact ⟨_, rfl, rfl, Nat.le_refl _, Or.inl ⟨⟨rfl, rfl⟩, rfl⟩⟩
  · rw [h]
    refine ⟨[Effect.uartStop,
      Effect.uartSend (bytes "\r\nInvalid data. Please try again.\r\n")], ?_, rfl,
      Nat.le_refl _, Or.inl ⟨⟨rfl, rfl⟩, rfl⟩⟩
    simp [after_reject, with_command]
  · rw [h]
    refine ⟨Effect.uartStop :: echoSends (cstr m.uart.uart_cmd_buffer), ?_, rfl,
      Nat.zero_le _, Or.inl ⟨⟨rfl, rfl⟩, rfl⟩⟩
    simp [after_accept, with_command]
  · rw [h]
    refine ⟨Effect.uartStop :: (echoSends (cstr m.uart.uart_cmd_buffer) ++
      commitEffects (stored_temp m)), ?_, rfl, Nat.zero_le _,
      Or.inr ⟨hf, hp, hp ▸ ha, rfl, rfl, rfl, rfl⟩⟩
    simp [after_commit, with_command]

/-- The three ways through the update handler. -/
theorem handle_uart_update_mode_cases (s : State) :
    (s.uart_data_requested = 0 ∧ 3 ≤ s.uart_retry_count ∧
        handle_uart_update_mode s = after_abort s) ∨
    (s.uart_data_requested = 0 ∧ s.uart_retry_count < 3 ∧
        handle_uart_update_mode s = uart_check_command (after_request s)) ∨
    (s.uart_data_requested ≠ 0 ∧ handle_uart_update_mode s = uart_check_command s) := by
  by_cases hq : s.uart_data_requested = 0
  · by_cases hr : 3 ≤ s.uart_retry_count
    · exact Or.inl ⟨hq, hr, handle_uart_update_mode_abort s hq hr⟩
    · exact Or.inr (Or.inl ⟨hq, by omega, handle_uart_update_mode_request s hq (by omega)⟩)
  · exact Or.inr (Or.inr ⟨hq, handle_uart_update_mode_waiting s hq⟩)


/-- What one call of the update handler does to the variables the claims speak about. -/
theorem handle_uart_update_mode_summary (s : State) :
    ∃ es, (handle_uart_update_mode s).trace = s.trace ++ es ∧
      (prompts es = [] ∨
        (s.uart_data_requested = 0 ∧ s.uart_retry_count < 3 ∧
          prompts es = [(s.uart_update_param, s.uart_retry_count + 1)])) ∧
      (s.uart_retry_count ≤ 3 → (handle_uart_update_mode s).uart_retry_count ≤ 3) ∧
      ((((handle_uart_update_mode s).current_mode = s.current_mode ∧
          (handle_uart_update_mode s).message_buffer = s.message_buffer) ∧
          rtcWrites es = []) ∨
       (s.uart_data_requested = 0 ∧ 3 ≤ s.uart_retry_count ∧
          (handle_uart_update_mode s).current_mode = ClockMode.MODE_MESSAGE_DISPLAY ∧
          (handle_uart_update_mode s).message_buffer = bytes "UART Timeout!" ∧
          rtcWrites es = []) ∨
       (¬ (s.uart_data_requested = 0 ∧ 3 ≤ s.uart_retry_count) ∧
          s.uart.uart_cmd_ready_flag ≠ 0 ∧ s.uart_update_param = 6 ∧
          acceptable 6 (cstr s.uart.uart_cmd_buffer) ∧
          (handle_uart_update_mode s).current_mode = ClockMode.MODE_MESSAGE_DISPLAY ∧
          (handle_uart_update_mode s).message_buffer = bytes "Update Complete!" ∧
          (handle_uart_update_mode s).temp = stored_temp s ∧
          rtcWrites es = commitWrites (stored_temp s))) := by
  rcases handle_uart_update_mode_cases s with ⟨hq, hr, h⟩ | ⟨hq, hr, h⟩ | ⟨hq, h⟩
  · rw [h]
    exact ⟨_, rfl, Or.inl rfl, fun h3 => h3, Or.inr (Or.inl ⟨hq, hr, rfl, rfl, rfl⟩)⟩
  · rw [h]
    obtain ⟨es, ht, hp, hle, hc⟩ := uart_check_command_summary (after_request s)
    have hmod : (s.uart_retry_count + 1) % 256 = s.uart_retry_count + 1 := by omega
    have hreq : (after_request s).uart_retry_count = s.uart_retry_count + 1 := hmod
    refine ⟨promptSends s.uart_update_param ++
      [Effect.lcdPrompt s.uart_update_param (s.uart_retry_count + 1), Effect.uartListen] ++ es,
      ?_, Or.inr ⟨hq, hr, ?_⟩, fun _ => by omega, ?_⟩
    · rw [ht]; simp [after_request, hmod]
    · simp [prompts_append, prompts_promptSends, hp, prompts]
    · have hw : rtcWrites (promptSends s.uart_update_param ++
          [Effect.lcdPrompt s.uart_update_param (s.uart_retry_count + 1),
            Effect.uartListen] ++ es) = rtcWrites es := by
        simp [rtcWrites_append, rtcWrites_promptSends, rtcWrites]
      rw [hw]
      rcases hc with ⟨⟨hm, hb⟩, hw0⟩ | ⟨hf, hp6, ha, hm, hb, htemp, hw7⟩
      · exact Or.inl ⟨⟨hm, hb⟩, hw0⟩
      · exact Or.inr (Or.inr ⟨fun hh => by omega, hf, hp6, ha, hm, hb, htemp, hw7⟩)
  · rw [h]
    obtain ⟨es, ht, hp, hle, hc⟩ := uart_check_command_summary s
    refine ⟨es, ht, Or.inl hp, fun h3 => Nat.le_trans hle h3, ?_⟩
    rcases hc with ⟨⟨hm, hb⟩, hw0⟩ | ⟨hf, hp6, ha, hm, hb, htemp, hw7⟩
    · exact Or.inl ⟨⟨hm, hb⟩, hw0⟩
    · exact Or.inr (Or.inr ⟨fun hh => hq hh.1, hf, hp6, ha, hm, hb, htemp, hw7⟩)

/-- The state on which the tick dispatches, relative to the state at the start of the
tick: either no mode switch happened and nothing the claims speak about has changed, or
the button was released and the mode advanced one step. -/
theorem pre_dispatch_summary (s : State)
    (hm : s.current_mode ≠ ClockMode.MODE_MESSAGE_DISPLAY) :
    (¬ mode_released s ∧ pre_dispatch s = tick_prologue s.button_count_mode s) ∨
    (mode_released s ∧ (pre_dispatch s).current_mode = next_mode s.current_mode ∧
        (pre_dispatch s).message_buffer = s.message_buffer ∧
        (pre_dispatch s).uart_retry_count ≤ s.uart_retry_count ∧
        ((pre_dispatch s).current_mode = ClockMode.MODE_UPDATE_VIA_UART →
          (pre_dispatch s).uart_update_param = 0 ∧ (pre_dispatch s).uart_data_requested = 0 ∧
          (pre_dispatch s).uart_retry_count = 0) ∧
        ∃ es, (pre_dispatch s).trace = s.trace ++ es ∧ prompts es = [] ∧
          ((rtcWrites es = [] ∧ s.current_mode ≠ ClockMode.MODE_SET_TIME) ∨
           (rtcWrites es = commitWrites s.temp ∧
              s.current_mode = ClockMode.MODE_SET_TIME))) := by
  by_cases hr : mode_released s
  · right
    refine ⟨hr, ?_⟩
    unfold pre_dispatch
    rw [if_pos hr]
    cases hc : s.current_mode
    · rw [handle_mode_switch_view s hc]
      exact ⟨rfl, rfl, Nat.le_refl _, fun h => by simp [tick_prologue] at h,
        ⟨[Effect.rtcRead], rfl, rfl, Or.inl ⟨rfl, by simp⟩⟩⟩
    · rw [handle_mode_switch_set_time s hc]
      exact ⟨rfl, rfl, Nat.le_refl _, fun h => by simp [tick_prologue] at h,
        ⟨_, rfl, rfl, Or.inr ⟨rfl, rfl⟩⟩⟩
    · rw [handle_mode_switch_set_alarm s hc]
      exact ⟨rfl, rfl, Nat.zero_le _, fun _ => ⟨rfl, rfl, rfl⟩,
        ⟨[Effect.rtcRead, Effect.uartSend banner_update], rfl, rfl, Or.inl ⟨rfl, by simp⟩⟩⟩
    · rw [handle_mode_switch_update s hc]
      exact ⟨rfl, rfl, Nat.le_refl _, fun h => by simp [tick_prologue] at h,
        ⟨[], by simp [tick_prologue], rfl, Or.inl ⟨rfl, by simp⟩⟩⟩
    · exact absurd hc hm
  · left
    unfold pre_dispatch
    rw [if_neg hr]
    exact ⟨hr, rfl⟩


/-! ## Summary of one tick -/

theorem retry_of_eraseEdit (a b : State) (h : eraseEdit a = eraseEdit b) :
    a.uart_retry_count = b.uart_retry_count := by
  have e := congrArg (fun x : State => x.uart_retry_count) h
  exact e

theorem mode_of_eraseEdit (a b : State) (h : eraseEdit a = eraseEdit b) :
    a.current_mode = b.current_mode := by
  have e := congrArg (fun x : State => x.current_mode) h
  exact e

theorem message_of_eraseEdit (a b : State) (h : eraseEdit a = eraseEdit b) :
    a.message_buffer = b.message_buffer := by
  have e := congrArg (fun x : State => x.message_buffer) h
  exact e

/-- Dispatch on any state: the effects appended, the prompts among them, the retry
bound, and whether the mode changed. -/
theorem dispatch_summary (x : State) :
    ∃ es, (dispatch x).trace = x.trace ++ es ∧
      (prompts es = [] ∨
        (x.current_mode = ClockMode.MODE_UPDATE_VIA_UART ∧ x.uart_data_requested = 0 ∧
          x.uart_retry_count < 3 ∧ prompts es = [(x.uart_update_param, x.uart_retry_count + 1)])) ∧
      (x.uart_retry_count ≤ 3 → (dispatch x).uart_retry_count ≤ 3) ∧
      ((((dispatch x).current_mode = x.current_mode ∧
          (dispatch x).message_buffer = x.message_buffer) ∧ rtcWrites es = []) ∨
       (x.current_mode = ClockMode.MODE_UPDATE_VIA_UART ∧
          x.uart_data_requested = 0 ∧ 3 ≤ x.uart_retry_count ∧
          (dispatch x).current_mode = ClockMode.MODE_MESSAGE_DISPLAY ∧
          (dispatch x).message_buffer = bytes "UART Timeout!" ∧ rtcWrites es = []) ∨
       (x.current_mode = ClockMode.MODE_UPDATE_VIA_UART ∧
          ¬ (x.uart_data_requested = 0 ∧ 3 ≤ x.uart_retry_count) ∧
          x.uart.uart_cmd_ready_flag ≠ 0 ∧ x.uart_update_param = 6 ∧
          acceptable 6 (cstr x.uart.uart_cmd_buffer) ∧
          (dispatch x).current_mode = ClockMode.MODE_MESSAGE_DISPLAY ∧
          (dispatch x).message_buffer = bytes "Update Complete!" ∧
          (dispatch x).temp = stored_temp x ∧
          rtcWrites es = commitWrites (stored_temp x))) := by
  by_cases hu : x.current_mode = ClockMode.MODE_UPDATE_VIA_UART
  · rw [dispatch_update x hu]
    obtain ⟨es, ht, hp, hr, hc⟩ := handle_uart_update_mode_summary x
    refine ⟨es, ht, ?_, hr, ?_⟩
    · rcases hp with hp | ⟨h1, h2, h3⟩
      · exact Or.inl hp
      · exact Or.inr ⟨hu, h1, h2, h3⟩
    · rcases hc with h | ⟨h1, h2, h3, h4, h5⟩ | ⟨h1, h2, h3, h4, h5, h6, h7, h8⟩
      · exact Or.inl h
      · exact Or.inr (Or.inl ⟨hu, h1, h2, h3, h4, h5⟩)
      · exact Or.inr (Or.inr ⟨hu, h1, h2, h3, h4, h5, h6, h7, h8⟩)
  · obtain ⟨he, ht⟩ := dispatch_local x hu
    have hkeep : ((dispatch x).current_mode = x.current_mode ∧
        (dispatch x).message_buffer = x.message_buffer) :=
      ⟨mode_of_eraseEdit _ _ he, message_of_eraseEdit _ _ he⟩
    have hret : x.uart_retry_count ≤ 3 → (dispatch x).uart_retry_count ≤ 3 := by
      intro h; rw [retry_of_eraseEdit _ _ he]; exact h
    rcases ht with ht | ht
    · exact ⟨[], by simp [ht], Or.inl rfl, hret, Or.inl ⟨hkeep, rfl⟩⟩
    · exact ⟨[Effect.rtcRead], ht, Or.inl rfl, hret, Or.inl ⟨hkeep, rfl⟩⟩

theorem handle_message_display_mode_frame (s : State) :
    (handle_message_display_mode s).trace = s.trace ∧
      (handle_message_display_mode s).uart_retry_count = s.uart_retry_count := by
  unfold handle_message_display_mode
  split_ifs <;> exact ⟨rfl, rfl⟩

/-- One tick: the effects appended to the trace, the register writes and the prompts
among them, and the retry bound. -/
theorem clock_fsm_run_summary (s : State) :
    ∃ es, (clock_fsm_run s).trace = s.trace ++ es ∧
      (rtcWrites es = [] ∨ rtcWrites es = resetWrites ∨ ∃ t, rtcWrites es = commitWrites t) ∧
      (prompts es = [] ∨
        ((pre_dispatch s).uart_retry_count < 3 ∧
          prompts es = [((pre_dispatch s).uart_update_param,
            (pre_dispatch s).uart_retry_count + 1)])) ∧
      (s.uart_retry_count ≤ 3 → (clock_fsm_run s).uart_retry_count ≤ 3) := by
  by_cases hb : 60 < s.button_count_mode
  · rw [clock_fsm_run_reset s hb]
    exact ⟨_, rfl, Or.inr (Or.inl rfl), Or.inl rfl, fun h => h⟩
  · have hb2 : s.button_count_mode ≤ 60 := by omega
    by_cases hm : s.current_mode = ClockMode.MODE_MESSAGE_DISPLAY
    · rw [clock_fsm_run_message s hb2 hm]
      obtain ⟨h1, h2⟩ := handle_message_display_mode_frame
        (if mode_released s then
          { s with current_mode := ClockMode.MODE_VIEW_TIME, mode_btn_last_count := 0 }
        else { s with mode_btn_last_count := s.button_count_mode })
      refine ⟨[], ?_, Or.inl rfl, Or.inl rfl, ?_⟩
      · rw [h1]; split_ifs <;> simp
      · rw [h2]; split_ifs <;> exact fun h => h
    · rw [clock_fsm_run_normal s hb2 hm]
      change ∃ es, (dispatch (pre_dispatch s)).trace = s.trace ++ es ∧ _ ∧ _ ∧
        (s.uart_retry_count ≤ 3 → (dispatch (pre_dispatch s)).uart_retry_count ≤ 3)
      obtain ⟨es, ht, hp, hr, hc⟩ := dispatch_summary (pre_dispatch s)
      have hp2 : prompts es = [] ∨
          ((pre_dispatch s).uart_retry_count < 3 ∧
            prompts es = [((pre_dispatch s).uart_update_param,
              (pre_dispatch s).uart_retry_count + 1)]) := by
        rcases hp with hp | ⟨_, _, h3, h4⟩
        · exact Or.inl hp
        · exact Or.inr ⟨h3, h4⟩
      have hw2 : rtcWrites es = [] ∨ ∃ t, rtcWrites es = commitWrites t := by
        rcases hc with ⟨_, h⟩ | ⟨_, _, _, _, _, h⟩ | ⟨_, _, _, _, _, _, _, _, h⟩
        · exact Or.inl h
        · exact Or.inl h
        · exact Or.inr ⟨_, h⟩
      rcases pre_dispatch_summary s hm with ⟨_, he⟩ | ⟨_, hmode, _, hret, hupd, es0, ht0, hp0, hw0⟩
      · have e1 : (pre_dispatch s).trace = s.trace := by rw [he]; rfl
        have e2 : (pre_dispatch s).uart_retry_count = s.uart_retry_count := by rw [he]; rfl
        refine ⟨es, by rw [ht, e1], ?_, hp2, fun h => hr (by rw [e2]; exact h)⟩
        rcases hw2 with h | h
        · exact Or.inl h
        · exact Or.inr (Or.inr h)
      · refine ⟨es0 ++ es, by rw [ht, ht0, List.append_assoc], ?_, ?_,
          fun h => hr (Nat.le_trans hret h)⟩
        · rw [rtcWrites_append]
          rcases hw0 with ⟨hw0, _⟩ | ⟨hw0, hst⟩
          · rw [hw0, List.nil_append]
            rcases hc with ⟨_, h⟩ | ⟨_, _, _, _, _, h⟩ | ⟨hu, _, _, h6, _⟩
            · exact Or.inl h
            · exact Or.inl h
            · have := (hupd hu).1
              omega
          · rw [hw0]
            rcases hc with ⟨_, h⟩ | ⟨_, _, _, _, _, h⟩ | ⟨hu, _⟩
            · rw [h, List.append_nil]; exact Or.inr (Or.inr ⟨_, rfl⟩)
            · rw [h, List.append_nil]; exact Or.inr (Or.inr ⟨_, rfl⟩)
            · rw [hmode, hst] at hu
              exact absurd hu (by simp [next_mode])
        · rw [prompts_append, hp0, List.nil_append]; exact hp2


/-! ## Claims about a single tick -/

/-- C5: commits are all-or-nothing.  For every state, the effects of one tick of
`clock_fsm_run` contain either no register write at all or exactly seven, one to each of
the seven field addresses. -/
theorem commit_all_or_nothing (s : State) :
    (clock_fsm_run s).trace = s.trace ++ tickEffects s ∧
      (rtcWrites (tickEffects s) = [] ∨
        ((rtcWrites (tickEffects s)).length = 7 ∧
          ((rtcWrites (tickEffects s)).map Prod.fst).Perm allAddrs)) := by
  obtain ⟨es, ht, hw, _, _⟩ := clock_fsm_run_summary s
  have he : tickEffects s = es := by
    unfold tickEffects; rw [ht]; exact List.drop_left _ _
  rw [he]
  refine ⟨ht, ?_⟩
  rcases hw with h | h | ⟨t, h⟩
  · exact Or.inl h
  · rw [h]; exact Or.inr ⟨rfl, by decide⟩
  · rw [h]; exact Or.inr ⟨rfl, List.Perm.refl _⟩

/-- C6: a short press of the mode button advances the mode exactly one step in the cycle.
For every state whose mode is not Message, whatever the cursors and the update session,
a tick that sees the mode button released (count 0 after a count that was not 0) ends in
the next mode of the cycle, and never in Message. -/
theorem short_press_advances_one_step (s : State)
    (hm : s.current_mode ≠ ClockMode.MODE_MESSAGE_DISPLAY)
    (h0 : s.button_count_mode = 0) (h1 : 0 < s.mode_btn_last_count) :
    (clock_fsm_run s).current_mode = next_mode s.current_mode ∧
      (clock_fsm_run s).current_mode ≠ ClockMode.MODE_MESSAGE_DISPLAY := by
  have hrel : mode_released s := ⟨h0, h1⟩
  have hstep : (clock_fsm_run s).current_mode = next_mode s.current_mode := by
    rw [clock_fsm_run_normal s (by omega) hm]
    change (dispatch (pre_dispatch s)).current_mode = _
    obtain ⟨es, _, _, _, hc⟩ := dispatch_summary (pre_dispatch s)
    rcases pre_dispatch_summary s hm with ⟨hn, _⟩ | ⟨_, hmode, _, _, hupd, _⟩
    · exact absurd hrel hn
    · rcases hc with ⟨⟨h, _⟩, _⟩ | ⟨hu, _, h3, _⟩ | ⟨hu, _, _, h6, _⟩
      · rw [h, hmode]
      · have := (hupd hu).2.2
        omega
      · have := (hupd hu).1
        omega
  refine ⟨hstep, ?_⟩
  rw [hstep]
  cases hc : s.current_mode <;> simp [next_mode]
  exact hm hc

/-- Witness of C6: from the alarm editor, with the alarm cursor on its last field, the
tick that sees the release ends in Update. -/
theorem short_press_advances_one_step_witness :
    alarm_released.current_mode ≠ ClockMode.MODE_MESSAGE_DISPLAY ∧
      alarm_released.button_count_mode = 0 ∧ 0 < alarm_released.mode_btn_last_count ∧
      (clock_fsm_run alarm_released).current_mode = ClockMode.MODE_UPDATE_VIA_UART :=
  ⟨by decide, by decide, by decide,
    (short_press_advances_one_step alarm_released (by decide) (by decide) (by decide)).1⟩

/-- Counterexample to C7 as stated: with the mode button held for exactly 60 ticks, which
is "at least the reset threshold", the tick does not reset; the update session goes on. -/
theorem no_reset_at_threshold :
    RESET_LONG_PRESS_DURATION ≤ held_sixty.button_count_mode ∧
      (clock_fsm_run held_sixty).current_mode = ClockMode.MODE_UPDATE_VIA_UART ∧
      rtcWrites (clock_fsm_run held_sixty).trace = [] := by
  decide

/-- C7, amended: for every state, in any mode, a tick in which the held count of the mode
button is strictly above the reset threshold of 60 ticks ends in Message with the payload
"System Reset!", with the alarm configuration at its defaults (6, 0, disabled), and its
effects are exactly the seven register writes of the default time. -/
theorem long_press_resets (s : State) (h : RESET_LONG_PRESS_DURATION < s.button_count_mode) :
    (clock_fsm_run s).current_mode = ClockMode.MODE_MESSAGE_DISPLAY ∧
      (clock_fsm_run s).message_buffer = bytes "System Reset!" ∧
      (clock_fsm_run s).alarm_hour = 6 ∧ (clock_fsm_run s).alarm_min = 0 ∧
      (clock_fsm_run s).alarm_enabled = 0 ∧
      rtcWrites (tickEffects s) = resetWrites ∧
      resetWrites.Perm (commitWrites ⟨10, 21, 0, 3, 5, 11, 25⟩) := by
  have hw : rtcWrites (tickEffects s) = resetWrites := by
    unfold tickEffects
    rw [clock_fsm_run_reset s h]
    simp only [List.drop_left]
    rfl
  rw [clock_fsm_run_reset s h] at *
  exact ⟨rfl, rfl, rfl, rfl, rfl, hw, by decide⟩

/-- Witness of C7, amended: the reset interrupts an update session whose request is
outstanding when the count reaches 61. -/
theorem long_press_resets_witness :
    RESET_LONG_PRESS_DURATION < held_sixty_one.button_count_mode ∧
      held_sixty_one.current_mode = ClockMode.MODE_UPDATE_VIA_UART ∧
      held_sixty_one.uart_data_requested = 1 ∧
      (clock_fsm_run held_sixty_one).current_mode = ClockMode.MODE_MESSAGE_DISPLAY ∧
      rtcWrites (tickEffects held_sixty_one) = resetWrites :=
  ⟨by decide, by decide, by decide, (long_press_resets held_sixty_one (by decide)).1,
    (long_press_resets held_sixty_one (by decide)).2.2.2.2.2.1⟩

/-- C9: Message is left only for ViewTime.  For every tick that starts in Message and is
not a reset, the mode at the end is Message or ViewTime; a release of the mode button
leads to ViewTime, and so does a countdown that has run out. -/
theorem message_exits_to_view (s : State)
    (hm : s.current_mode = ClockMode.MODE_MESSAGE_DISPLAY)
    (hb : s.button_count_mode ≤ RESET_LONG_PRESS_DURATION) :
    ((clock_fsm_run s).current_mode = ClockMode.MODE_MESSAGE_DISPLAY ∨
        (clock_fsm_run s).current_mode = ClockMode.MODE_VIEW_TIME) ∧
      (mode_released s → (clock_fsm_run s).current_mode = ClockMode.MODE_VIEW_TIME) ∧
      (s.message_display_counter = 0 →
        (clock_fsm_run s).current_mode = ClockMode.MODE_VIEW_TIME) := by
  rw [clock_fsm_run_message s hb hm]
  unfold handle_message_display_mode
  by_cases hr : mode_released s
  · simp only [hr, if_true]
    split_ifs <;> simp
  · simp only [hr, if_false]
    split_ifs with hc
    · refine ⟨Or.inl hm, fun h => h.elim, fun h => ?_⟩
      simp only at hc
      omega
    · exact ⟨Or.inr rfl, fun _ => rfl, fun _ => rfl⟩

/-- Witness of C9: a message shown after an update session, left by a release of the mode
button with 10 ticks still to go, returns to ViewTime. -/
theorem message_exits_to_view_witness :
    message_released.current_mode = ClockMode.MODE_MESSAGE_DISPLAY ∧
      message_released.button_count_mode ≤ RESET_LONG_PRESS_DURATION ∧
      mode_released message_released ∧
      (clock_fsm_run message_released).current_mode = ClockMode.MODE_VIEW_TIME :=
  ⟨by decide, by decide, by decide,
    (message_exits_to_view message_released (by decide) (by decide)).2.1 (by decide)⟩

/-- C10: `get_max_date` gives 29 for February of a year divisible by 4 and 28 for the
other years, 30 for April, June, September and November, and 31 for every other month
value; the result for February depends on the year only through `year % 4`, for every
year and so for 0..99, without a century correction. -/
theorem get_max_date_values (month year : Nat) :
    (month = 2 → year % 4 = 0 → get_max_date month year = 29) ∧
      (month = 2 → year % 4 ≠ 0 → get_max_date month year = 28) ∧
      (month = 4 ∨ month = 6 ∨ month = 9 ∨ month = 11 → get_max_date month year = 30) ∧
      (month ≠ 2 → month ≠ 4 → month ≠ 6 → month ≠ 9 → month ≠ 11 →
        get_max_date month year = 31) := by
  unfold get_max_date
  refine ⟨?_, ?_, ?_, ?_⟩
  · intro h1 h2; simp [h1, h2]
  · intro h1 h2; simp [h1, h2]
  · intro h; rcases h with h | h | h | h <;> simp [h]
  · intro h2 h4 h6 h9 h11; simp [h2, h4, h6, h9, h11]


theorem tickEffects_eq (s : State) (es : List Effect)
    (h : (clock_fsm_run s).trace = s.trace ++ es) : tickEffects s = es := by
  unfold tickEffects; rw [h]; exact List.drop_left _ _

/-- Every tick that takes the FSM into the message display is a reset, a commit of the
last field, or an abort of the update session. -/
theorem enters_message_cases (s : State)
    (hm : s.current_mode ≠ ClockMode.MODE_MESSAGE_DISPLAY)
    (ht : (clock_fsm_run s).current_mode = ClockMode.MODE_MESSAGE_DISPLAY) :
    EntersByReset s ∨ EntersByCommit s ∨ EntersByTimeout s := by
  by_cases hb : 60 < s.button_count_mode
  · left
    refine ⟨hb, ?_⟩
    rw [clock_fsm_run_reset s hb]
  · have hb2 : s.button_count_mode ≤ 60 := by omega
    have hrun := clock_fsm_run_normal s hb2 hm
    have hrun2 : clock_fsm_run s = dispatch (pre_dispatch s) := hrun
    rw [hrun2] at ht
    obtain ⟨es, htr, _, _, hc⟩ := dispatch_summary (pre_dispatch s)
    rcases pre_dispatch_summary s hm with ⟨_, he⟩ | ⟨_, hmode, _, _, hupd, _⟩
    · have e1 : (pre_dispatch s).current_mode = s.current_mode := by rw [he]; rfl
      have e2 : (pre_dispatch s).uart_data_requested = s.uart_data_requested := by rw [he]; rfl
      have e3 : (pre_dispatch s).uart_retry_count = s.uart_retry_count := by rw [he]; rfl
      have e4 : (pre_dispatch s).uart_update_param = s.uart_update_param := by rw [he]; rfl
      have e5 : (pre_dispatch s).uart = s.uart := by rw [he]; rfl
      have e6 : stored_temp (pre_dispatch s) = stored_temp s := by rw [he]; rfl
      have e7 : (pre_dispatch s).trace = s.trace := by rw [he]; rfl
      rcases hc with ⟨⟨h, _⟩, _⟩ | ⟨hu, h2, h3, _, h5, _⟩ | ⟨hu, _, hf, h6, ha, _, h8, _, hw⟩
      · rw [h, e1] at ht
        exact absurd ht hm
      · right; right
        refine ⟨e1 ▸ hu, e2 ▸ h2, e3 ▸ h3, ?_⟩
        rw [hrun2]; exact h5
      · right; left
        refine ⟨e1 ▸ hu, e4 ▸ h6, e5 ▸ hf, e5 ▸ ha, ?_, ?_⟩
        · have hte : tickEffects s = es := by
            apply tickEffects_eq
            rw [hrun2, htr, e7]
          rw [hte, hw, e6]
        · rw [hrun2]; exact h8
    · rcases hc with ⟨⟨h, _⟩, _⟩ | ⟨hu, _, h3, _⟩ | ⟨hu, _, _, h6, _⟩
      · rw [h, hmode] at ht
        cases hc : s.current_mode <;> simp [hc, next_mode] at ht
        exact absurd hc hm
      · have := (hupd hu).2.2
        omega
      · have := (hupd hu).1
        omega

/-- C8: Message is entered in exactly three ways.  For every tick that starts in a mode
other than Message and ends in Message, exactly one of the following holds: (a) the long
press reset fired (payload "System Reset!"); (b) the mode was Update, the line for
Year was accepted and the record committed in this tick (payload "Update Complete!");
(c) the mode was Update with no request outstanding and the retries used up (payload
"UART Timeout!"). -/
theorem message_entered_three_ways (s : State)
    (hm : s.current_mode ≠ ClockMode.MODE_MESSAGE_DISPLAY)
    (ht : (clock_fsm_run s).current_mode = ClockMode.MODE_MESSAGE_DISPLAY) :
    (EntersByReset s ∧ ¬ EntersByCommit s ∧ ¬ EntersByTimeout s) ∨
      (¬ EntersByReset s ∧ EntersByCommit s ∧ ¬ EntersByTimeout s) ∨
      (¬ EntersByReset s ∧ ¬ EntersByCommit s ∧ EntersByTimeout s) := by
  have d1 : bytes "System Reset!" ≠ bytes "Update Complete!" := by decide
  have d2 : bytes "System Reset!" ≠ bytes "UART Timeout!" := by decide
  have d3 : bytes "Update Complete!" ≠ bytes "UART Timeout!" := by decide
  rcases enters_message_cases s hm ht with h | h | h
  · refine Or.inl ⟨h, fun hb => ?_, fun hc => ?_⟩
    · exact d1 (h.2.symm.trans hb.2.2.2.2.2)
    · exact d2 (h.2.symm.trans hc.2.2.2)
  · refine Or.inr (Or.inl ⟨fun ha => ?_, h, fun hc => ?_⟩)
    · exact d1 (ha.2.symm.trans h.2.2.2.2.2)
    · exact d3 (h.2.2.2.2.2.symm.trans hc.2.2.2)
  · refine Or.inr (Or.inr ⟨fun ha => ?_, fun hb => ?_, h⟩)
    · exact d2 (ha.2.symm.trans h.2.2.2)
    · exact d3 (hb.2.2.2.2.2.symm.trans h.2.2.2)

/-- Witness of C8: an update session whose three attempts are used up enters Message by
way (c) and by no other. -/
theorem message_entered_three_ways_witness :
    retries_spent.current_mode ≠ ClockMode.MODE_MESSAGE_DISPLAY ∧
      (clock_fsm_run retries_spent).current_mode = ClockMode.MODE_MESSAGE_DISPLAY ∧
      ((EntersByReset retries_spent ∧ ¬ EntersByCommit retries_spent ∧
          ¬ EntersByTimeout retries_spent) ∨
        (¬ EntersByReset retries_spent ∧ EntersByCommit retries_spent ∧
          ¬ EntersByTimeout retries_spent) ∨
        (¬ EntersByReset retries_spent ∧ ¬ EntersByCommit retries_spent ∧
          EntersByTimeout retries_spent)) :=
  ⟨by decide, by decide, message_entered_three_ways retries_spent (by decide) (by decide)⟩

/-! ## Ticks of an update session -/

theorem clock_fsm_run_update (s : State)
    (hm : s.current_mode = ClockMode.MODE_UPDATE_VIA_UART) (hb : s.button_count_mode ≤ 60)
    (hr : ¬ mode_released s) :
    clock_fsm_run s = handle_uart_update_mode (tick_prologue s.button_count_mode s) := by
  have hm2 : s.current_mode ≠ ClockMode.MODE_MESSAGE_DISPLAY := by rw [hm]; decide
  rw [clock_fsm_run_normal s hb hm2, if_neg hr]
  exact dispatch_update _ hm

theorem feed_frame (i : Input) (s : State) :
    (feed i s).current_mode = s.current_mode ∧
      (feed i s).uart_update_param = s.uart_update_param ∧
      (feed i s).uart_data_requested = s.uart_data_requested ∧
      (feed i s).uart_retry_count = s.uart_retry_count ∧
      (feed i s).uart_timeout_counter = s.uart_timeout_counter ∧
      (feed i s).mode_btn_last_count = s.mode_btn_last_count ∧
      (feed i s).temp = s.temp ∧ (feed i s).trace = s.trace ∧
      (feed i s).message_buffer = s.message_buffer ∧
      (feed i s).button_count_mode = i.button_count_mode :=
  ⟨rfl, rfl, rfl, rfl, rfl, rfl, rfl, rfl, rfl, rfl⟩

theorem feed_uart_none (i : Input) (s : State) (h : i.line = none) :
    (feed i s).uart = s.uart := by
  unfold feed; rw [h]

theorem cstr_line (l rest : List Nat) (h : 0 ∉ l) : cstr (l ++ [0] ++ rest) = l := by
  unfold cstr
  induction l with
  | nil => simp [List.takeWhile]
  | cons a t ih =>
    have ha : a ≠ 0 := fun e => h (by simp [e])
    have ht : 0 ∉ t := fun e => h (by simp [e])
    have hb : (a != 0) = true := by simpa using ha
    have e := ih ht
    simp only [List.cons_append, List.takeWhile_cons, hb, if_true]
    simp only [List.append_assoc, List.singleton_append] at e ⊢
    rw [e]

theorem feed_uart_some (i : Input) (s : State) (l : List Nat) (h : i.line = some l)
    (h0 : 0 ∉ l) :
    (feed i s).uart.uart_cmd_ready_flag = 1 ∧ cstr (feed i s).uart.uart_cmd_buffer = l := by
  unfold feed; rw [h]
  exact ⟨rfl, cstr_line l _ h0⟩

/-- A tick of the session when the mode button is at rest. -/
theorem tick_session (s : State) (i : Input)
    (hm : s.current_mode = ClockMode.MODE_UPDATE_VIA_UART) (hl : s.mode_btn_last_count = 0)
    (hb : i.button_count_mode = 0) :
    tick s i = handle_uart_update_mode (tick_prologue 0 (feed i s)) := by
  unfold tick
  have h1 : (feed i s).button_count_mode = 0 := hb
  have hr : ¬ mode_released (feed i s) := by
    intro h
    have h2 : 0 < s.mode_btn_last_count := h.2
    omega
  rw [clock_fsm_run_update (feed i s) hm (by omega) hr, h1]

/-- A quiet tick that issues a request. -/
theorem tick_request (s : State) (i : Input) (p r c : Nat) (hs : Sess s p 0 r c)
    (hr : r < 3) (hq : Quiet i) :
    Sess (tick s i) p 1 (r + 1) 199 ∧ (tick s i).temp = s.temp ∧
      rtcWrites (tick s i).trace = rtcWrites s.trace ∧
      prompts (tick s i).trace = prompts s.trace ++ [(p, r + 1)] := by
  obtain ⟨hm, hp, hreq, hret, hc, hf, hl⟩ := hs
  have hu := feed_uart_none i s hq.2
  rw [tick_session s i hm hl hq.1,
    handle_uart_update_mode_request _ (by exact hreq) (by show s.uart_retry_count < 3; omega),
    uart_check_command_idle _ (by show (feed i s).uart.uart_cmd_ready_flag = 0; rw [hu]; exact hf)
      (by show 0 < 200; decide)]
  have hmod : (s.uart_retry_count + 1) % 256 = r + 1 := by omega
  refine ⟨⟨hm, hp, rfl, hmod, rfl, ?_, rfl⟩, rfl, ?_, ?_⟩
  · show (feed i s).uart.uart_cmd_ready_flag = 0
    rw [hu]; exact hf
  · show rtcWrites (s.trace ++ promptSends s.uart_update_param ++ _) = _
    simp [rtcWrites_append, rtcWrites_promptSends, rtcWrites]
  · show prompts (s.trace ++ promptSends s.uart_update_param ++ _) = _
    simp [prompts_append, prompts_promptSends, prompts]
    exact ⟨hp, hmod⟩

/-- A quiet tick spent waiting. -/
theorem tick_wait (s : State) (i : Input) (p r c : Nat) (hs : Sess s p 1 r (c + 1))
    (hq : Quiet i) :
    Sess (tick s i) p 1 r c ∧ (tick s i).temp = s.temp ∧ (tick s i).trace = s.trace := by
  obtain ⟨hm, hp, hreq, hret, hc, hf, hl⟩ := hs
  have hu := feed_uart_none i s hq.2
  rw [tick_session s i hm hl hq.1,
    handle_uart_update_mode_waiting _ (by show s.uart_data_requested ≠ 0; omega),
    uart_check_command_idle _ (by show (feed i s).uart.uart_cmd_ready_flag = 0; rw [hu]; exact hf)
      (by show 0 < s.uart_timeout_counter; omega)]
  refine ⟨⟨hm, hp, hreq, hret, ?_, ?_, rfl⟩, rfl, rfl⟩
  · show s.uart_timeout_counter - 1 = c
    omega
  · show (feed i s).uart.uart_cmd_ready_flag = 0
    rw [hu]; exact hf

/-- A quiet tick on which the timeout runs out. -/
theorem tick_timeout (s : State) (i : Input) (p r : Nat) (hs : Sess s p 1 r 0)
    (hq : Quiet i) :
    Sess (tick s i) p 0 r 0 ∧ (tick s i).temp = s.temp ∧
      rtcWrites (tick s i).trace = rtcWrites s.trace ∧
      prompts (tick s i).trace = prompts s.trace := by
  obtain ⟨hm, hp, hreq, hret, hc, hf, hl⟩ := hs
  have hu := feed_uart_none i s hq.2
  rw [tick_session s i hm hl hq.1,
    handle_uart_update_mode_waiting _ (by show s.uart_data_requested ≠ 0; omega),
    uart_check_command_timeout _
      (by show (feed i s).uart.uart_cmd_ready_flag = 0; rw [hu]; exact hf) (by exact hc)]
  refine ⟨⟨hm, hp, rfl, hret, hc, ?_, rfl⟩, rfl, ?_, ?_⟩
  · show (feed i s).uart.uart_cmd_ready_flag = 0
    rw [hu]; exact hf
  · show rtcWrites (s.trace ++ _) = _
    simp [rtcWrites_append, rtcWrites]
  · show prompts (s.trace ++ _) = _
    simp [prompts_append, prompts]

/-- A quiet tick on which the session is given up. -/
theorem tick_abort (s : State) (i : Input) (p r c : Nat) (hs : Sess s p 0 r c)
    (hr : 3 ≤ r) (hq : Quiet i) :
    (tick s i).current_mode = ClockMode.MODE_MESSAGE_DISPLAY ∧
      (tick s i).message_buffer = bytes "UART Timeout!" ∧ (tick s i).temp = s.temp ∧
      rtcWrites (tick s i).trace = rtcWrites s.trace ∧
      prompts (tick s i).trace = prompts s.trace := by
  obtain ⟨hm, hp, hreq, hret, hc, hf, hl⟩ := hs
  rw [tick_session s i hm hl hq.1,
    handle_uart_update_mode_abort _ (by exact hreq) (by show 3 ≤ s.uart_retry_count; omega)]
  refine ⟨rfl, rfl, rfl, ?_, ?_⟩
  · show rtcWrites (s.trace ++ _) = _
    simp [rtcWrites_append, rtcWrites]
  · show prompts (s.trace ++ _) = _
    simp [prompts_append, prompts]


/-! ## Runs -/

theorem run_nil (s : State) : run s [] = s := rfl

theorem run_cons (s : State) (i : Input) (is : List Input) :
    run s (i :: is) = run (tick s i) is := rfl

theorem run_append (s : State) (a b : List Input) : run s (a ++ b) = run (run s a) b := by
  unfold run; exact List.foldl_append _ _ _ _

theorem run_take_drop (s : State) (is : List Input) (n : Nat) :
    run s is = run (run s (is.take n)) (is.drop n) := by
  rw [← run_append, List.take_append_drop]

theorem quiet_take (is : List Input) (n : Nat) (h : ∀ i ∈ is, Quiet i) :
    ∀ i ∈ is.take n, Quiet i := fun i hi => h i (List.mem_of_mem_take hi)

theorem quiet_drop (is : List Input) (n : Nat) (h : ∀ i ∈ is, Quiet i) :
    ∀ i ∈ is.drop n, Quiet i := fun i hi => h i (List.mem_of_mem_drop hi)

/-- The trace only grows along a run. -/
theorem run_trace_grows (is : List Input) :
    ∀ s : State, ∃ es, (run s is).trace = s.trace ++ es := by
  induction is with
  | nil => intro s; exact ⟨[], by simp [run_nil]⟩
  | cons i t ih =>
    intro s
    obtain ⟨es2, h2⟩ := ih (tick s i)
    obtain ⟨es1, h1, _⟩ := clock_fsm_run_summary (feed i s)
    refine ⟨es1 ++ es2, ?_⟩
    rw [run_cons, h2]
    unfold tick
    rw [h1, (feed_frame i s).2.2.2.2.2.2.2.1, List.append_assoc]

/-- A run that ends without a register write has none at any earlier tick either. -/
theorem no_write_before (s : State) (is : List Input)
    (h : rtcWrites (run s is).trace = rtcWrites s.trace) (n : Nat) :
    rtcWrites (run s (is.take n)).trace = rtcWrites s.trace := by
  obtain ⟨es1, h1⟩ := run_trace_grows (is.take n) s
  obtain ⟨es2, h2⟩ := run_trace_grows (is.drop n) (run s (is.take n))
  rw [run_take_drop s is n, h2, h1, rtcWrites_append, rtcWrites_append] at h
  rw [h1, rtcWrites_append]
  have hlen := congrArg List.length h
  simp only [List.length_append] at hlen
  have h0 : rtcWrites es1 = [] := List.length_eq_zero.mp (by omega)
  rw [h0, List.append_nil]

/-- Quiet ticks spent waiting for a response, as long as the timeout allows. -/
theorem wait_run (p r : Nat) (is : List Input) :
    ∀ (s : State) (c : Nat), Sess s p 1 r c → (∀ i ∈ is, Quiet i) → is.length ≤ c →
      Sess (run s is) p 1 r (c - is.length) ∧ (run s is).temp = s.temp ∧
        (run s is).trace = s.trace := by
  induction is with
  | nil => intro s c hs _ _; exact ⟨hs, rfl, rfl⟩
  | cons i t ih =>
    intro s c hs hq hlen
    simp only [List.length_cons] at hlen
    obtain ⟨c1, rfl⟩ : ∃ c1, c = c1 + 1 := ⟨c - 1, by omega⟩
    obtain ⟨h1, h2, h3⟩ := tick_wait s i p r c1 hs (hq i (List.mem_cons_self _ _))
    obtain ⟨h4, h5, h6⟩ := ih (tick s i) c1 h1
      (fun j hj => hq j (List.mem_cons_of_mem _ hj)) (by omega)
    rw [run_cons]
    refine ⟨?_, h5.trans h2, h6.trans h3⟩
    have e : c1 + 1 - (t.length + 1) = c1 - t.length := by omega
    simp only [List.length_cons, e]
    exact h4

/-- One unanswered attempt: the request, 199 ticks of waiting and the tick on which the
timeout runs out, 201 ticks in all. -/
theorem attempt_run (s : State) (p r c : Nat) (is : List Input) (hs : Sess s p 0 r c)
    (hr : r < 3) (hq : ∀ i ∈ is, Quiet i) (hlen : is.length = 201) :
    Sess (run s is) p 0 (r + 1) 0 ∧ (run s is).temp = s.temp ∧
      rtcWrites (run s is).trace = rtcWrites s.trace ∧
      prompts (run s is).trace = prompts s.trace ++ [(p, r + 1)] := by
  match is, hlen with
  | i :: rest, hlen =>
    simp only [List.length_cons] at hlen
    obtain ⟨a1, a2, a3, a4⟩ := tick_request s i p r c hs hr (hq i (List.mem_cons_self _ _))
    have hqr : ∀ j ∈ rest, Quiet j := fun j hj => hq j (List.mem_cons_of_mem _ hj)
    obtain ⟨b1, b2, b3⟩ := wait_run p (r + 1) (rest.take 199) (tick s i) 199 a1
      (quiet_take rest 199 hqr) (by rw [List.length_take]; omega)
    have hl1 : (rest.take 199).length = 199 := by rw [List.length_take]; omega
    rw [hl1] at b1
    have hl2 : (rest.drop 199).length = 1 := by rw [List.length_drop]; omega
    obtain ⟨j, hj⟩ := List.length_eq_one.mp hl2
    have hqj : Quiet j := by
      apply quiet_drop rest 199 hqr
      rw [hj]; exact List.mem_singleton_self j
    obtain ⟨c1, c2, c3, c4⟩ := tick_timeout _ j p (r + 1) b1 hqj
    rw [run_cons, run_take_drop (tick s i) rest 199, hj, run_cons, run_nil]
    refine ⟨c1, c2.trans (b2.trans a2), ?_, ?_⟩
    · rw [c3, b3, a3]
    · rw [c4, b3, a4]

/-- The attempt numbers shown by `k` successive prompts for field `p` after `r` used
attempts. -/
theorem attempts_run (p : Nat) (k : Nat) :
    ∀ (s : State) (r c : Nat) (is : List Input), Sess s p 0 r c → r + k ≤ 3 →
      (∀ i ∈ is, Quiet i) → is.length = 201 * k →
      (∃ c2, Sess (run s is) p 0 (r + k) c2) ∧ (run s is).temp = s.temp ∧
        rtcWrites (run s is).trace = rtcWrites s.trace ∧
        prompts (run s is).trace =
          prompts s.trace ++ (List.range k).map (fun j => (p, r + j + 1)) := by
  induction k with
  | zero =>
    intro s r c is hs _ _ hlen
    have : is = [] := List.length_eq_zero.mp (by omega)
    subst this
    exact ⟨⟨c, hs⟩, rfl, rfl, by simp [run_nil]⟩
  | succ k ih =>
    intro s r c is hs hr hq hlen
    have hl1 : (is.take 201).length = 201 := by rw [List.length_take]; omega
    have hl2 : (is.drop 201).length = 201 * k := by rw [List.length_drop]; omega
    obtain ⟨a1, a2, a3, a4⟩ := attempt_run s p r c (is.take 201) hs (by omega)
      (quiet_take is 201 hq) hl1
    obtain ⟨b1, b2, b3, b4⟩ := ih (run s (is.take 201)) (r + 1) 0 (is.drop 201) a1 (by omega)
      (quiet_drop is 201 hq) hl2
    rw [run_take_drop s is 201]
    refine ⟨?_, b2.trans a2, by rw [b3, a3], ?_⟩
    · have e : r + (k + 1) = r + 1 + k := by omega
      rw [e]; exact b1
    · rw [b4, a4, List.range_succ_eq_map, List.map_cons, List.map_map, List.append_assoc]
      congr 1
      simp only [List.singleton_append, Nat.add_zero, List.cons.injEq, true_and]
      apply List.map_congr_left
      intro j _
      simp only [Function.comp, Nat.succ_eq_add_one]
      congr 1
      omega


/-- C2: a silent update session.  From the session state created on entering Update, with
no command ever available and the mode button untouched, the 604th tick ends in Message
with the payload "UART Timeout!"; exactly three prompts have been issued, all for the
hour, numbered 1, 2, 3; after 603 ticks, when the third timeout has just run out, the
mode is still Update with three attempts used; and no register is written at any tick. -/
theorem silent_session_times_out (s : State) (is : List Input)
    (hs : Sess s SET_HOUR 0 0 UART_TIMEOUT_PERIOD) (hq : ∀ i ∈ is, Quiet i)
    (hlen : is.length = 604) :
    (run s is).current_mode = ClockMode.MODE_MESSAGE_DISPLAY ∧
      (run s is).message_buffer = bytes "UART Timeout!" ∧
      prompts (run s is).trace =
        prompts s.trace ++ [(SET_HOUR, 1), (SET_HOUR, 2), (SET_HOUR, 3)] ∧
      rtcWrites (run s is).trace = rtcWrites s.trace ∧
      (∀ n, rtcWrites (run s (is.take n)).trace = rtcWrites s.trace) ∧
      (run s (is.take 603)).current_mode = ClockMode.MODE_UPDATE_VIA_UART ∧
      (run s (is.take 603)).uart_retry_count = UART_MAX_RETRIES ∧
      (run s (is.take 603)).uart_data_requested = 0 := by
  have hl1 : (is.take 603).length = 201 * 3 := by rw [List.length_take]; omega
  have hl2 : (is.drop 603).length = 1 := by rw [List.length_drop]; omega
  obtain ⟨⟨c2, a1⟩, _, a3, a4⟩ := attempts_run SET_HOUR 3 s 0 UART_TIMEOUT_PERIOD (is.take 603)
    hs (by omega) (quiet_take is 603 hq) hl1
  obtain ⟨k, hk⟩ := List.length_eq_one.mp hl2
  have hqk : Quiet k := by
    apply quiet_drop is 603 hq
    rw [hk]; exact List.mem_singleton_self k
  obtain ⟨b1, b2, _, b4, b5⟩ := tick_abort _ k SET_HOUR (0 + 3) c2 a1 (by omega) hqk
  have hrun : run s is = tick (run s (is.take 603)) k := by
    rw [run_take_drop s is 603, hk, run_cons, run_nil]
  have hw : rtcWrites (run s is).trace = rtcWrites s.trace := by rw [hrun, b4, a3]
  refine ⟨by rw [hrun]; exact b1, by rw [hrun]; exact b2, ?_, hw,
    fun n => no_write_before s is hw n, a1.mode, a1.retry, a1.requested⟩
  rw [hrun, b5, a4]
  rfl

/-- Witness of C2: 604 quiet ticks from the session state entered from program start. -/
theorem silent_session_times_out_witness :
    Sess session_start SET_HOUR 0 0 UART_TIMEOUT_PERIOD ∧
      (∀ i ∈ List.replicate 604 quiet_input, Quiet i) ∧
      (run session_start (List.replicate 604 quiet_input)).current_mode =
        ClockMode.MODE_MESSAGE_DISPLAY ∧
      prompts (run session_start (List.replicate 604 quiet_input)).trace =
        prompts session_start.trace ++ [(SET_HOUR, 1), (SET_HOUR, 2), (SET_HOUR, 3)] ∧
      rtcWrites (run session_start (List.replicate 604 quiet_input)).trace =
        rtcWrites session_start.trace :=
  have hs : Sess session_start SET_HOUR 0 0 UART_TIMEOUT_PERIOD :=
    ⟨rfl, rfl, rfl, rfl, rfl, rfl, rfl⟩
  have hq : ∀ i ∈ List.replicate 604 quiet_input, Quiet i :=
    fun i hi => by rw [List.eq_of_mem_replicate hi]; decide
  have h := silent_session_times_out session_start (List.replicate 604 quiet_input) hs hq
    (List.length_replicate _ _)
  ⟨hs, hq, h.1, h.2.2.1, h.2.2.2.1⟩

/-! ## Ticks that receive an acceptable line -/

/-- An acceptable line for a field before the last arrives while a response is awaited. -/
theorem tick_accept_waiting (s : State) (i : Input) (p r c : Nat) (l : List Nat)
    (hs : Sess s p 1 r c) (hb : i.button_count_mode = 0) (hl : i.line = some l)
    (h0 : 0 ∉ l) (ha : acceptable p l) (hp : p < 6) :
    Sess (tick s i) (p + 1) 0 0 c ∧ (tick s i).temp = setField p (line_value p l) s.temp ∧
      rtcWrites (tick s i).trace = rtcWrites s.trace ∧
      prompts (tick s i).trace = prompts s.trace := by
  obtain ⟨hm, hpp, hreq, hret, hc, hf, hlast⟩ := hs
  obtain ⟨u1, u2⟩ := feed_uart_some i s l hl h0
  have hx : uart_check_command (tick_prologue 0 (feed i s)) =
      after_accept (tick_prologue 0 (feed i s)) := by
    apply uart_check_command_accept
    · show (feed i s).uart.uart_cmd_ready_flag ≠ 0
      rw [u1]; decide
    · show acceptable s.uart_update_param (cstr (feed i s).uart.uart_cmd_buffer)
      rw [u2, hpp]; exact ha
    · show s.uart_update_param < 6
      omega
  rw [tick_session s i hm hlast hb,
    handle_uart_update_mode_waiting _ (by show s.uart_data_requested ≠ 0; omega), hx]
  refine ⟨⟨hm, ?_, rfl, rfl, hc, rfl, rfl⟩, ?_, ?_, ?_⟩
  · show s.uart_update_param + 1 = p + 1
    omega
  · show setField s.uart_update_param
      (line_value s.uart_update_param (cstr (feed i s).uart.uart_cmd_buffer)) s.temp = _
    rw [u2, hpp]
  · show rtcWrites (s.trace ++ [Effect.uartStop] ++ echoSends _) = _
    simp [rtcWrites_append, rtcWrites_echoSends, rtcWrites]
  · show prompts (s.trace ++ [Effect.uartStop] ++ echoSends _) = _
    simp [prompts_append, prompts_echoSends, prompts]

/-- An acceptable line for a field before the last is already pending on the tick that
issues the request. -/
theorem tick_accept_request (s : State) (i : Input) (p r c : Nat) (l : List Nat)
    (hs : Sess s p 0 r c) (hr : r < 3) (hb : i.button_count_mode = 0) (hl : i.line = some l)
    (h0 : 0 ∉ l) (ha : acceptable p l) (hp : p < 6) :
    Sess (tick s i) (p + 1) 0 0 UART_TIMEOUT_PERIOD ∧
      (tick s i).temp = setField p (line_value p l) s.temp ∧
      rtcWrites (tick s i).trace = rtcWrites s.trace ∧
      prompts (tick s i).trace = prompts s.trace ++ [(p, r + 1)] := by
  obtain ⟨hm, hpp, hreq, hret, hc, hf, hlast⟩ := hs
  obtain ⟨u1, u2⟩ := feed_uart_some i s l hl h0
  have hx : uart_check_command (after_request (tick_prologue 0 (feed i s))) =
      after_accept (after_request (tick_prologue 0 (feed i s))) := by
    apply uart_check_command_accept
    · show (feed i s).uart.uart_cmd_ready_flag ≠ 0
      rw [u1]; decide
    · show acceptable s.uart_update_param (cstr (feed i s).uart.uart_cmd_buffer)
      rw [u2, hpp]; exact ha
    · show s.uart_update_param < 6
      omega
  have hmod : (s.uart_retry_count + 1) % 256 = r + 1 := by omega
  rw [tick_session s i hm hlast hb,
    handle_uart_update_mode_request _ (by exact hreq) (by show s.uart_retry_count < 3; omega),
    hx]
  refine ⟨⟨hm, ?_, rfl, rfl, rfl, rfl, rfl⟩, ?_, ?_, ?_⟩
  · show s.uart_update_param + 1 = p + 1
    omega
  · show setField s.uart_update_param
      (line_value s.uart_update_param (cstr (feed i s).uart.uart_cmd_buffer)) s.temp = _
    rw [u2, hpp]
  · show rtcWrites (s.trace ++ promptSends s.uart_update_param ++ _ ++ [Effect.uartStop] ++
      echoSends _) = _
    simp [rtcWrites_append, rtcWrites_echoSends, rtcWrites_promptSends, rtcWrites]
  · show prompts (s.trace ++ promptSends s.uart_update_param ++ _ ++ [Effect.uartStop] ++
      echoSends _) = _
    simp [prompts_append, prompts_echoSends, prompts_promptSends, prompts]
    exact ⟨hpp, hmod⟩

/-- An acceptable line for the last field arrives while a response is awaited. -/
theorem tick_commit_waiting (s : State) (i : Input) (r c : Nat) (l : List Nat)
    (hs : Sess s 6 1 r c) (hb : i.button_count_mode = 0) (hl : i.line = some l)
    (h0 : 0 ∉ l) (ha : acceptable 6 l) :
    (tick s i).current_mode = ClockMode.MODE_MESSAGE_DISPLAY ∧
      (tick s i).message_buffer = bytes "Update Complete!" ∧
      (tick s i).temp = setField 6 (line_value 6 l) s.temp ∧
      rtcWrites (tick s i).trace =
        rtcWrites s.trace ++ commitWrites (setField 6 (line_value 6 l) s.temp) ∧
      prompts (tick s i).trace = prompts s.trace := by
  obtain ⟨hm, hpp, hreq, hret, hc, hf, hlast⟩ := hs
  obtain ⟨u1, u2⟩ := feed_uart_some i s l hl h0
  have hx : uart_check_command (tick_prologue 0 (feed i s)) =
      after_commit (tick_prologue 0 (feed i s)) := by
    apply uart_check_command_commit
    · show (feed i s).uart.uart_cmd_ready_flag ≠ 0
      rw [u1]; decide
    · show acceptable s.uart_update_param (cstr (feed i s).uart.uart_cmd_buffer)
      rw [u2, hpp]; exact ha
    · show 6 ≤ s.uart_update_param
      omega
  have hst : stored_temp (tick_prologue 0 (feed i s)) = setField 6 (line_value 6 l) s.temp := by
    show setField s.uart_update_param
      (line_value s.uart_update_param (cstr (feed i s).uart.uart_cmd_buffer)) s.temp = _
    rw [u2, hpp]
  rw [tick_session s i hm hlast hb,
    handle_uart_update_mode_waiting _ (by show s.uart_data_requested ≠ 0; omega), hx]
  refine ⟨rfl, rfl, hst, ?_, ?_⟩
  · show rtcWrites (s.trace ++ [Effect.uartStop] ++ echoSends _ ++ commitEffects _) = _
    rw [hst]
    simp [rtcWrites_append, rtcWrites_echoSends, rtcWrites_commitEffects, rtcWrites]
    rfl
  · show prompts (s.trace ++ [Effect.uartStop] ++ echoSends _ ++ commitEffects _) = _
    simp [prompts_append, prompts_echoSends, prompts_commitEffects, prompts]

/-- An acceptable line for the last field is already pending on the tick that issues the
request. -/
theorem tick_commit_request (s : State) (i : Input) (r c : Nat) (l : List Nat)
    (hs : Sess s 6 0 r c) (hr : r < 3) (hb : i.button_count_mode = 0) (hl : i.line = some l)
    (h0 : 0 ∉ l) (ha : acceptable 6 l) :
    (tick s i).current_mode = ClockMode.MODE_MESSAGE_DISPLAY ∧
      (tick s i).message_buffer = bytes "Update Complete!" ∧
      (tick s i).temp = setField 6 (line_value 6 l) s.temp ∧
      rtcWrites (tick s i).trace =
        rtcWrites s.trace ++ commitWrites (setField 6 (line_value 6 l) s.temp) ∧
      prompts (tick s i).trace = prompts s.trace ++ [(6, r + 1)] := by
  obtain ⟨hm, hpp, hreq, hret, hc, hf, hlast⟩ := hs
  obtain ⟨u1, u2⟩ := feed_uart_some i s l hl h0
  have hx : uart_check_command (after_request (tick_prologue 0 (feed i s))) =
      after_commit (after_request (tick_prologue 0 (feed i s))) := by
    apply uart_check_command_commit
    · show (feed i s).uart.uart_cmd_ready_flag ≠ 0
      rw [u1]; decide
    · show acceptable s.uart_update_param (cstr (feed i s).uart.uart_cmd_buffer)
      rw [u2, hpp]; exact ha
    · show 6 ≤ s.uart_update_param
      omega
  have hst : stored_temp (after_request (tick_prologue 0 (feed i s))) =
      setField 6 (line_value 6 l) s.temp := by
    show setField s.uart_update_param
      (line_value s.uart_update_param (cstr (feed i s).uart.uart_cmd_buffer)) s.temp = _
    rw [u2, hpp]
  have hmod : (s.uart_retry_count + 1) % 256 = r + 1 := by omega
  rw [tick_session s i hm hlast hb,
    handle_uart_update_mode_request _ (by exact hreq) (by show s.uart_retry_count < 3; omega),
    hx]
  refine ⟨rfl, rfl, hst, ?_, ?_⟩
  · show rtcWrites (s.trace ++ promptSends s.uart_update_param ++ _ ++ [Effect.uartStop] ++
      echoSends _ ++ commitEffects _) = _
    rw [hst]
    simp [rtcWrites_append, rtcWrites_echoSends, rtcWrites_commitEffects,
      rtcWrites_promptSends, rtcWrites]
    rfl
  · show prompts (s.trace ++ promptSends s.uart_update_param ++ _ ++ [Effect.uartStop] ++
      echoSends _ ++ commitEffects _) = _
    simp [prompts_append, prompts_echoSends, prompts_commitEffects, prompts_promptSends,
      prompts]
    exact ⟨hpp, hmod⟩


/-! ## Answered prompts -/

/-- The quiet ticks before an answer: the request is issued on the first of them and is
still outstanding after the last; nothing is written. -/
theorem wait_before_answer (s : State) (p c : Nat) (i : Input) (w : List Input)
    (hs : Sess s p 0 0 c) (hq : ∀ j ∈ i :: w, Quiet j) (hlen : (i :: w).length ≤ 200) :
    Sess (run s (i :: w)) p 1 1 (199 - w.length) ∧ (run s (i :: w)).temp = s.temp ∧
      rtcWrites (run s (i :: w)).trace = rtcWrites s.trace ∧
      prompts (run s (i :: w)).trace = prompts s.trace ++ [(p, 1)] := by
  simp only [List.length_cons] at hlen
  obtain ⟨a1, a2, a3, a4⟩ := tick_request s i p 0 c hs (by decide) (hq i (List.mem_cons_self _ _))
  obtain ⟨b1, b2, b3⟩ := wait_run p 1 w (tick s i) 199 a1
    (fun j hj => hq j (List.mem_cons_of_mem _ hj)) (by omega)
  rw [run_cons]
  exact ⟨b1, b2.trans a2, by rw [b3, a3], by rw [b3, a4]⟩

/-- An answered prompt for a field before the last: the cursor advances, the value is
stored, the retry count is back at 0, and no register is written. -/
theorem answer_run (s : State) (p c : Nat) (a : Answer) (hs : Sess s p 0 0 c)
    (ha : a.ok p) (hp : p < 6) :
    (∃ c2, Sess (run s a.inputs) (p + 1) 0 0 c2) ∧
      (run s a.inputs).temp = setField p (line_value p a.line) s.temp ∧
      rtcWrites (run s a.inputs).trace = rtcWrites s.trace ∧
      prompts (run s a.inputs).trace = prompts s.trace ++ [(p, 1)] := by
  obtain ⟨hq, hlen, hb, hl, h0, hacc⟩ := ha
  unfold Answer.inputs
  rw [run_append, run_cons, run_nil]
  cases hw : a.wait with
  | nil =>
    rw [run_nil]
    obtain ⟨a1, a2, a3, a4⟩ := tick_accept_request s a.reply p 0 c a.line hs (by decide) hb hl
      h0 hacc hp
    exact ⟨⟨_, a1⟩, a2, a3, a4⟩
  | cons i w =>
    rw [hw] at hq hlen
    obtain ⟨a1, a2, a3, a4⟩ := wait_before_answer s p c i w hs hq hlen
    obtain ⟨b1, b2, b3, b4⟩ := tick_accept_waiting _ a.reply p 1 _ a.line a1 hb hl h0 hacc hp
    exact ⟨⟨_, b1⟩, by rw [b2, a2], by rw [b3, a3], by rw [b4, a4]⟩

/-- The answered prompt for the last field: the record is committed and the FSM shows
"Update Complete!"; up to the tick before the answer nothing is written. -/
theorem answer_commit (s : State) (c : Nat) (a : Answer) (hs : Sess s 6 0 0 c) (ha : a.ok 6) :
    (run s a.inputs).current_mode = ClockMode.MODE_MESSAGE_DISPLAY ∧
      (run s a.inputs).message_buffer = bytes "Update Complete!" ∧
      (run s a.inputs).temp = setField 6 (line_value 6 a.line) s.temp ∧
      rtcWrites (run s a.inputs).trace =
        rtcWrites s.trace ++ commitWrites (setField 6 (line_value 6 a.line) s.temp) ∧
      prompts (run s a.inputs).trace = prompts s.trace ++ [(6, 1)] ∧
      rtcWrites (run s a.wait).trace = rtcWrites s.trace := by
  obtain ⟨hq, hlen, hb, hl, h0, hacc⟩ := ha
  unfold Answer.inputs
  rw [run_append, run_cons, run_nil]
  cases hw : a.wait with
  | nil =>
    rw [run_nil]
    obtain ⟨a1, a2, a3, a4, a5⟩ := tick_commit_request s a.reply 0 c a.line hs (by decide) hb hl
      h0 hacc
    exact ⟨a1, a2, a3, a4, a5, rfl⟩
  | cons i w =>
    rw [hw] at hq hlen
    obtain ⟨a1, a2, a3, a4⟩ := wait_before_answer s 6 c i w hs hq hlen
    obtain ⟨b1, b2, b3, b4, b5⟩ := tick_commit_waiting _ a.reply 1 _ a.line a1 hb hl h0 hacc
    exact ⟨b1, b2, by rw [b3, a2], by rw [b4, a3, a2], by rw [b5, a4], a3⟩

/-- C1: the happy path of an update session.  From the session state created on entering
Update, if the seven prompts are answered in the order hour, minute, second, weekday,
day, month, year, each before its timeout and by a line acceptable for its field, then
the run ends in Message with the payload "Update Complete!"; the register writes of the
whole run are exactly the seven of one commit, with the values the lines stand for (the
weekday as the 1-based index of its name); no register is written at any tick before the
last; and each field has been prompted once. -/
theorem update_session_commits_once (s : State) (a0 a1 a2 a3 a4 a5 a6 : Answer)
    (hs : Sess s SET_HOUR 0 0 UART_TIMEOUT_PERIOD)
    (h0 : a0.ok SET_HOUR) (h1 : a1.ok SET_MIN) (h2 : a2.ok SET_SEC) (h3 : a3.ok SET_DAY)
    (h4 : a4.ok SET_DATE) (h5 : a5.ok SET_MONTH) (h6 : a6.ok SET_YEAR) :
    (run s (session_inputs a0 a1 a2 a3 a4 a5 a6)).current_mode =
        ClockMode.MODE_MESSAGE_DISPLAY ∧
      (run s (session_inputs a0 a1 a2 a3 a4 a5 a6)).message_buffer =
        bytes "Update Complete!" ∧
      rtcWrites (run s (session_inputs a0 a1 a2 a3 a4 a5 a6)).trace =
        rtcWrites s.trace ++ commitWrites (session_record a0 a1 a2 a3 a4 a5 a6) ∧
      (∀ n, n < (session_inputs a0 a1 a2 a3 a4 a5 a6).length →
        rtcWrites (run s ((session_inputs a0 a1 a2 a3 a4 a5 a6).take n)).trace =
          rtcWrites s.trace) ∧
      prompts (run s (session_inputs a0 a1 a2 a3 a4 a5 a6)).trace =
        prompts s.trace ++ [(SET_HOUR, 1), (SET_MIN, 1), (SET_SEC, 1), (SET_DAY, 1),
          (SET_DATE, 1), (SET_MONTH, 1), (SET_YEAR, 1)] := by
  obtain ⟨⟨c1, s1⟩, t1, w1, p1⟩ := answer_run s 0 _ a0 hs h0 (by decide)
  obtain ⟨⟨c2, s2⟩, t2, w2, p2⟩ := answer_run _ 1 _ a1 s1 h1 (by decide)
  obtain ⟨⟨c3, s3⟩, t3, w3, p3⟩ := answer_run _ 2 _ a2 s2 h2 (by decide)
  obtain ⟨⟨c4, s4⟩, t4, w4, p4⟩ := answer_run _ 3 _ a3 s3 h3 (by decide)
  obtain ⟨⟨c5, s5⟩, t5, w5, p5⟩ := answer_run _ 4 _ a4 s4 h4 (by decide)
  obtain ⟨⟨c6, s6⟩, t6, w6, p6⟩ := answer_run _ 5 _ a5 s5 h5 (by decide)
  obtain ⟨m7, b7, t7, w7, p7, n7⟩ := answer_commit _ _ a6 s6 h6
  have hfront : run s (a0.inputs ++ a1.inputs ++ a2.inputs ++ a3.inputs ++ a4.inputs ++
      a5.inputs) = run (run (run (run (run (run s a0.inputs) a1.inputs) a2.inputs) a3.inputs)
        a4.inputs) a5.inputs := by
    simp only [run_append]
  have hall : run s (session_inputs a0 a1 a2 a3 a4 a5 a6) =
      run (run (run (run (run (run (run s a0.inputs) a1.inputs) a2.inputs) a3.inputs)
        a4.inputs) a5.inputs) a6.inputs := by
    unfold session_inputs
    simp only [run_append]
  have hrec : setField 6 (line_value 6 a6.line)
      (run (run (run (run (run (run s a0.inputs) a1.inputs) a2.inputs) a3.inputs)
        a4.inputs) a5.inputs).temp = session_record a0 a1 a2 a3 a4 a5 a6 := by
    rw [t6, t5, t4, t3, t2, t1]
    rfl
  have hw6 : rtcWrites (run (run (run (run (run (run s a0.inputs) a1.inputs) a2.inputs)
      a3.inputs) a4.inputs) a5.inputs).trace = rtcWrites s.trace := by
    rw [w6, w5, w4, w3, w2, w1]
  refine ⟨by rw [hall]; exact m7, by rw [hall]; exact b7, ?_, ?_, ?_⟩
  · rw [hall, w7, hrec, hw6]
  · intro n hn
    have hsplit : session_inputs a0 a1 a2 a3 a4 a5 a6 =
        (a0.inputs ++ a1.inputs ++ a2.inputs ++ a3.inputs ++ a4.inputs ++ a5.inputs ++
          a6.wait) ++ [a6.reply] := by
      unfold session_inputs
      rw [List.append_assoc _ a6.wait]
      rfl
    have hnw : rtcWrites (run s (a0.inputs ++ a1.inputs ++ a2.inputs ++ a3.inputs ++
        a4.inputs ++ a5.inputs ++ a6.wait)).trace = rtcWrites s.trace := by
      rw [run_append, hfront, n7, hw6]
    rw [hsplit] at hn ⊢
    rw [List.length_append, List.length_singleton] at hn
    rw [List.take_append_of_le_length (by omega)]
    exact no_write_before s _ hnw n
  · rw [hall, p7, p6, p5, p4, p3, p2, p1]
    simp


/-- Witness of C1: the lines "10", "21", "0", "Wed", "5", "11", "25", some at once and
some after a wait of up to 200 ticks, commit 10:21:00, weekday 3, 5/11/25. -/
theorem update_session_commits_once_witness :
    Sess session_start SET_HOUR 0 0 UART_TIMEOUT_PERIOD ∧
      (answer_after 3 "10").ok SET_HOUR ∧ (answer_after 0 "21").ok SET_MIN ∧
      (answer_after 200 "0").ok SET_SEC ∧ (answer_after 1 "Wed").ok SET_DAY ∧
      (answer_after 0 "5").ok SET_DATE ∧ (answer_after 10 "11").ok SET_MONTH ∧
      (answer_after 2 "25").ok SET_YEAR ∧
      (run session_start (session_inputs (answer_after 3 "10") (answer_after 0 "21")
        (answer_after 200 "0") (answer_after 1 "Wed") (answer_after 0 "5")
        (answer_after 10 "11") (answer_after 2 "25"))).current_mode =
          ClockMode.MODE_MESSAGE_DISPLAY ∧
      rtcWrites (run session_start (session_inputs (answer_after 3 "10") (answer_after 0 "21")
        (answer_after 200 "0") (answer_after 1 "Wed") (answer_after 0 "5")
        (answer_after 10 "11") (answer_after 2 "25"))).trace =
          commitWrites ⟨10, 21, 0, 3, 5, 11, 25⟩ :=
  have hs : Sess session_start SET_HOUR 0 0 UART_TIMEOUT_PERIOD :=
    ⟨rfl, rfl, rfl, rfl, rfl, rfl, rfl⟩
  have hok : ∀ (n : Nat) (str : String) (p : Nat), n ≤ 200 → 0 ∉ bytes str →
      acceptable p (bytes str) → (answer_after n str).ok p :=
    fun n str p hn h0 ha =>
      ⟨fun i hi => by rw [List.eq_of_mem_replicate hi]; decide,
        by show (List.replicate n quiet_input).length ≤ 200; rw [List.length_replicate]; exact hn,
        rfl, rfl, h0, ha⟩
  have k0 := hok 3 "10" 0 (by decide) (by decide) (by decide)
  have k1 := hok 0 "21" 1 (by decide) (by decide) (by decide)
  have k2 := hok 200 "0" 2 (by decide) (by decide) (by decide)
  have k3 := hok 1 "Wed" 3 (by decide) (by decide) (by decide)
  have k4 := hok 0 "5" 4 (by decide) (by decide) (by decide)
  have k5 := hok 10 "11" 5 (by decide) (by decide) (by decide)
  have k6 := hok 2 "25" 6 (by decide) (by decide) (by decide)
  have h := update_session_commits_once session_start (answer_after 3 "10")
    (answer_after 0 "21") (answer_after 200 "0") (answer_after 1 "Wed") (answer_after 0 "5")
    (answer_after 10 "11") (answer_after 2 "25") hs k0 k1 k2 k3 k4 k5 k6
  ⟨hs, k0, k1, k2, k3, k4, k5, k6, h.1, h.2.2.1.trans (by decide)⟩

/-! ## Rejection and re-prompt -/

/-- The tick that follows a rejection or a timeout: with attempts left, the same field is
prompted again and the prompt shows the next attempt number. -/
theorem reprompt_tick (t : State) (hm : t.current_mode = ClockMode.MODE_UPDATE_VIA_UART)
    (hb : t.button_count_mode ≤ 60) (hr : ¬ mode_released t)
    (hq : t.uart_data_requested = 0) (hlt : t.uart_retry_count < 3) :
    prompts (tickEffects t) = [(t.uart_update_param, t.uart_retry_count + 1)] ∧
      (t.uart.uart_cmd_ready_flag = 0 →
        (clock_fsm_run t).current_mode = ClockMode.MODE_UPDATE_VIA_UART ∧
        (clock_fsm_run t).uart_update_param = t.uart_update_param ∧
        (clock_fsm_run t).temp = t.temp ∧
        (clock_fsm_run t).uart_retry_count = t.uart_retry_count + 1 ∧
        (clock_fsm_run t).uart_data_requested = 1) := by
  have hrun := clock_fsm_run_update t hm hb hr
  have hreq := handle_uart_update_mode_request (tick_prologue t.button_count_mode t) hq hlt
  have hmod : (t.uart_retry_count + 1) % 256 = t.uart_retry_count + 1 := by omega
  constructor
  · obtain ⟨es, ht, hp, _⟩ := uart_check_command_summary
      (after_request (tick_prologue t.button_count_mode t))
    have he : tickEffects t = promptSends t.uart_update_param ++
        [Effect.lcdPrompt t.uart_update_param (t.uart_retry_count + 1), Effect.uartListen] ++
        es := by
      apply tickEffects_eq
      rw [hrun, hreq, ht]
      show t.trace ++ promptSends t.uart_update_param ++
        [Effect.lcdPrompt t.uart_update_param ((t.uart_retry_count + 1) % 256),
          Effect.uartListen] ++ es = _
      rw [hmod]
      simp
    rw [he]
    simp [prompts_append, prompts_promptSends, prompts, hp]
  · intro hf
    rw [hrun, hreq, uart_check_command_idle _ (by exact hf) (by show 0 < 200; decide)]
    exact ⟨hm, rfl, rfl, hmod, rfl⟩

/-- C3, counterexample to the claim as stated: "99" for the hour is rejected with one
attempt used; on the following tick the line "10" is already pending.  The hour is
prompted again as attempt 2, and the same call accepts "10": the tick ends with the retry
count at 0, not at 2, and with the cursor on the minute. -/
theorem pending_line_resets_retries_after_rejection :
    (clock_fsm_run hour_ninety_nine).current_mode = ClockMode.MODE_UPDATE_VIA_UART ∧
      (clock_fsm_run hour_ninety_nine).uart_update_param = SET_HOUR ∧
      (clock_fsm_run hour_ninety_nine).uart_retry_count = 1 ∧
      (clock_fsm_run hour_ninety_nine).uart_data_requested = 0 ∧
      prompts (tickEffects (feed (line_input "10") (clock_fsm_run hour_ninety_nine))) =
        [(SET_HOUR, 2)] ∧
      (tick (clock_fsm_run hour_ninety_nine) (line_input "10")).uart_retry_count = 0 ∧
      (tick (clock_fsm_run hour_ninety_nine) (line_input "10")).uart_update_param = SET_MIN ∧
      (tick (clock_fsm_run hour_ninety_nine) (line_input "10")).temp.hour = 10 := by
  decide

/-- C3, as the code has it: rejection in the update session.  For every field, on a tick
of the session in which a response is awaited and a line arrives that is not acceptable
for the field (a number outside the bounds, or no day name), the cursor and the temporary
record are unchanged, the retry count is not reset, and the request is no longer
outstanding.  On the following tick, whatever the input as long as the mode button does
not switch or reset, if fewer than three attempts are used the same field is prompted
again and the prompt shows attempt number `retries_used + 1`; when no further line is
pending on that tick it ends with the retry count one higher, the same cursor and record,
and a request outstanding. -/
theorem rejected_line_is_reprompted (s : State)
    (hm : s.current_mode = ClockMode.MODE_UPDATE_VIA_UART)
    (hb : s.button_count_mode ≤ RESET_LONG_PRESS_DURATION) (hr : ¬ mode_released s)
    (hq : s.uart_data_requested ≠ 0) (hf : s.uart.uart_cmd_ready_flag ≠ 0)
    (hbad : ¬ acceptable s.uart_update_param (cstr s.uart.uart_cmd_buffer)) :
    (clock_fsm_run s).current_mode = ClockMode.MODE_UPDATE_VIA_UART ∧
      (clock_fsm_run s).uart_update_param = s.uart_update_param ∧
      (clock_fsm_run s).temp = s.temp ∧
      (clock_fsm_run s).uart_retry_count = s.uart_retry_count ∧
      (clock_fsm_run s).uart_data_requested = 0 ∧
      (s.uart_retry_count < UART_MAX_RETRIES → ∀ i : Input,
        i.button_count_mode ≤ RESET_LONG_PRESS_DURATION →
        ¬ mode_released (feed i (clock_fsm_run s)) →
        prompts (tickEffects (feed i (clock_fsm_run s))) =
            [(s.uart_update_param, s.uart_retry_count + 1)] ∧
          (i.line = none →
            (tick (clock_fsm_run s) i).current_mode = ClockMode.MODE_UPDATE_VIA_UART ∧
            (tick (clock_fsm_run s) i).uart_update_param = s.uart_update_param ∧
            (tick (clock_fsm_run s) i).temp = s.temp ∧
            (tick (clock_fsm_run s) i).uart_retry_count = s.uart_retry_count + 1 ∧
            (tick (clock_fsm_run s) i).uart_data_requested = 1)) := by
  have hrun : clock_fsm_run s = after_reject (tick_prologue s.button_count_mode s) := by
    rw [clock_fsm_run_update s hm hb hr, handle_uart_update_mode_waiting _ (by exact hq)]
    exact uart_check_command_reject _ (by exact hf) (by exact hbad)
  have e1 : (clock_fsm_run s).current_mode = ClockMode.MODE_UPDATE_VIA_UART := by
    rw [hrun]; exact hm
  have e2 : (clock_fsm_run s).uart_update_param = s.uart_update_param := by rw [hrun]; rfl
  have e3 : (clock_fsm_run s).temp = s.temp := by rw [hrun]; rfl
  have e4 : (clock_fsm_run s).uart_retry_count = s.uart_retry_count := by rw [hrun]; rfl
  have e5 : (clock_fsm_run s).uart_data_requested = 0 := by rw [hrun]; rfl
  have e6 : (clock_fsm_run s).uart.uart_cmd_ready_flag = 0 := by rw [hrun]; rfl
  refine ⟨e1, e2, e3, e4, e5, ?_⟩
  intro hlt i hbi hri
  obtain ⟨f1, f2, f3, f4, _, _, f7, _, _, f10⟩ := feed_frame i (clock_fsm_run s)
  obtain ⟨g1, g2⟩ := reprompt_tick (feed i (clock_fsm_run s)) (f1.trans e1)
    (by rw [f10]; exact hbi) hri (f3.trans e5) (by rw [f4, e4]; exact hlt)
  rw [f2, f4, e2, e4] at g1
  refine ⟨g1, fun hn => ?_⟩
  have hu := feed_uart_none i (clock_fsm_run s) hn
  obtain ⟨k1, k2, k3, k4, k5⟩ := g2 (by rw [hu]; exact e6)
  unfold tick
  exact ⟨k1, by rw [k2, f2, e2], by rw [k3, f7, e3], by rw [k4, f4, e4], k5⟩

/-- Witness of C3: "99" for the hour is rejected; hour, cursor and retry count stay,
and the next tick prompts for the hour again as attempt 2. -/
theorem rejected_line_is_reprompted_witness :
    hour_ninety_nine.uart_update_param = SET_HOUR ∧
      cstr hour_ninety_nine.uart.uart_cmd_buffer = bytes "99" ∧
      ¬ acceptable SET_HOUR (bytes "99") ∧
      (clock_fsm_run hour_ninety_nine).uart_update_param = SET_HOUR ∧
      (clock_fsm_run hour_ninety_nine).uart_retry_count = 1 ∧
      prompts (tickEffects (feed quiet_input (clock_fsm_run hour_ninety_nine))) =
        [(SET_HOUR, 2)] ∧
      (tick (clock_fsm_run hour_ninety_nine) quiet_input).uart_retry_count = 2 :=
  have h := rejected_line_is_reprompted hour_ninety_nine (by decide) (by decide) (by decide)
    (by decide) (by decide) (by decide)
  have h2 := h.2.2.2.2.2 (by decide) quiet_input (by decide) (by decide)
  ⟨by decide, by decide, by decide, h.2.1, h.2.2.2.1, h2.1, (h2.2 rfl).2.2.2.1⟩


/-! ## Reachable states -/

theorem reachable_run (is : List Input) : ∀ s : State, Reachable s → Reachable (run s is) := by
  induction is with
  | nil => intro s h; exact h
  | cons i t ih => intro s h; exact ih (tick s i) (Reachable.step s i h)

/-- The tick that enters Update behaves as a session tick from the session state that
`handle_mode_switch` creates: the first prompt is issued in the entering tick itself. -/
theorem entering_tick (s : State) (hm : s.current_mode = ClockMode.MODE_SET_ALARM)
    (hb : s.button_count_mode = 0) (hl : 0 < s.mode_btn_last_count) :
    clock_fsm_run s = clock_fsm_run (entry_state s) ∧
      (entry_state s).current_mode = ClockMode.MODE_UPDATE_VIA_UART ∧
      (entry_state s).uart_update_param = SET_HOUR ∧
      (entry_state s).uart_data_requested = 0 ∧ (entry_state s).uart_retry_count = 0 ∧
      (entry_state s).uart_timeout_counter = UART_TIMEOUT_PERIOD ∧
      (entry_state s).mode_btn_last_count = 0 ∧ (entry_state s).uart = s.uart := by
  have hsw := handle_mode_switch_set_alarm s hm
  have hm2 : s.current_mode ≠ ClockMode.MODE_MESSAGE_DISPLAY := by rw [hm]; decide
  have hrel : mode_released s := ⟨hb, hl⟩
  have e1 : (entry_state s).current_mode = ClockMode.MODE_UPDATE_VIA_UART := by
    unfold entry_state; rw [hsw]
  have e2 : (entry_state s).button_count_mode = 0 := by
    unfold entry_state; rw [hsw]; exact hb
  have e3 : (entry_state s).mode_btn_last_count = 0 := rfl
  have e4 : ¬ mode_released (entry_state s) := by
    intro h
    have h2 : 0 < (entry_state s).mode_btn_last_count := h.2
    rw [e3] at h2
    omega
  refine ⟨?_, e1, ?_, ?_, ?_, ?_, e3, ?_⟩
  · rw [clock_fsm_run_update (entry_state s) e1 (by omega) e4,
      clock_fsm_run_normal s (by omega) hm2, if_pos hrel, e2, hb]
    have e5 : (tick_prologue 0 (handle_mode_switch s)).current_mode =
        ClockMode.MODE_UPDATE_VIA_UART := by
      show (handle_mode_switch s).current_mode = _
      rw [hsw]
    rw [dispatch_update _ e5]
    rfl
  all_goals (unfold entry_state; rw [hsw])

/-- C4: the retry count never exceeds the maximum, and there is no fourth attempt.  In
every state reachable from program start by any sequence of ticks with any button
counts, clock readings and command lines, `uart_retry_count` is at most
`UART_MAX_RETRIES` = 3; every prompt issued so far shows an attempt number between 1 and
3; and in the next tick, whatever its input, a prompt is issued only if the retry count
on entry to the update handler is below 3, the prompt then showing that count plus one,
and at most one prompt is issued. -/
theorem retries_never_exceed_maximum (s : State) (h : Reachable s) :
    s.uart_retry_count ≤ UART_MAX_RETRIES ∧
      (∀ pn ∈ prompts s.trace, 1 ≤ pn.2 ∧ pn.2 ≤ UART_MAX_RETRIES) ∧
      (∀ i : Input, prompts (tickEffects (feed i s)) = [] ∨
        ((pre_dispatch (feed i s)).uart_retry_count < UART_MAX_RETRIES ∧
          prompts (tickEffects (feed i s)) =
            [((pre_dispatch (feed i s)).uart_update_param,
              (pre_dispatch (feed i s)).uart_retry_count + 1)])) := by
  have hnext : ∀ (x : State) (i : Input), prompts (tickEffects (feed i x)) = [] ∨
      ((pre_dispatch (feed i x)).uart_retry_count < UART_MAX_RETRIES ∧
        prompts (tickEffects (feed i x)) =
          [((pre_dispatch (feed i x)).uart_update_param,
            (pre_dispatch (feed i x)).uart_retry_count + 1)]) := by
    intro x i
    obtain ⟨es, ht, _, hp, _⟩ := clock_fsm_run_summary (feed i x)
    rw [tickEffects_eq _ es ht]
    exact hp
  have hinv : s.uart_retry_count ≤ UART_MAX_RETRIES ∧
      (∀ pn ∈ prompts s.trace, 1 ≤ pn.2 ∧ pn.2 ≤ UART_MAX_RETRIES) := by
    induction h with
    | start => exact ⟨by decide, fun pn hpn => by simp [init, prompts] at hpn⟩
    | step s i _ ih =>
      obtain ⟨ih1, ih2⟩ := ih
      obtain ⟨es, ht, _, hp, hr⟩ := clock_fsm_run_summary (feed i s)
      refine ⟨hr ih1, ?_⟩
      intro pn hpn
      unfold tick at hpn
      rw [ht, prompts_append] at hpn
      rcases List.mem_append.mp hpn with hpn | hpn
      · exact ih2 pn hpn
      · rcases hp with hp | ⟨hlt, hp⟩
        · rw [hp] at hpn; exact absurd hpn (List.not_mem_nil _)
        · rw [hp] at hpn
          have e := List.mem_singleton.mp hpn
          subst e
          simp only [UART_MAX_RETRIES] at hlt ⊢
          constructor <;> omega
  exact ⟨hinv.1, hinv.2, hnext s⟩

/-- Witness of C4: the state reached from program start by three short presses of the
mode button is in Update with the first attempt counted. -/
theorem retries_never_exceed_maximum_witness :
    Reachable reached_update ∧
      reached_update.current_mode = ClockMode.MODE_UPDATE_VIA_UART ∧
      reached_update.uart_retry_count = 1 ∧ prompts reached_update.trace = [(SET_HOUR, 1)] ∧
      reached_update.uart_retry_count ≤ UART_MAX_RETRIES :=
  ⟨reachable_run _ init Reachable.start, by decide, by decide, by decide,
    (retries_never_exceed_maximum reached_update (reachable_run _ init Reachable.start)).1⟩

/-! ## Stepping a setting up and down -/

theorem increment_setting_frame (s : State) :
    increment_setting s = { s with temp := (increment_setting s).temp } := by
  unfold increment_setting; split <;> rfl

theorem decrement_setting_frame (s : State) :
    decrement_setting s = { s with temp := (decrement_setting s).temp } := by
  unfold decrement_setting; split <;> rfl

theorem temp_increment_setting (s : State) :
    (increment_setting s).temp = inc_temp s.set_time_param s.temp := by
  unfold increment_setting inc_temp
  split <;> rename_i h <;> simp only [h]

theorem temp_decrement_setting (s : State) :
    (decrement_setting s).temp = dec_temp s.set_time_param s.temp := by
  unfold decrement_setting dec_temp
  split <;> rename_i h <;> simp only [h]

theorem increment_setting_eq (s : State) :
    increment_setting s = { s with temp := inc_temp s.set_time_param s.temp } := by
  rw [← temp_increment_setting]; exact increment_setting_frame s

theorem decrement_setting_eq (s : State) :
    decrement_setting s = { s with temp := dec_temp s.set_time_param s.temp } := by
  rw [← temp_decrement_setting]; exact decrement_setting_frame s

theorem get_max_date_cases (month year : Nat) :
    get_max_date month year = 28 ∨ get_max_date month year = 29 ∨
      get_max_date month year = 30 ∨ get_max_date month year = 31 := by
  unfold get_max_date
  split_ifs <;> simp

theorem field_ok_of_in_range (p : Nat) (t : TimeRec) (h : in_range t) : field_ok p t := by
  obtain ⟨h1, h2, h3, h4, h5, h6, h7⟩ := h
  unfold field_ok
  split <;> first | assumption | trivial

theorem field_ok_inc (p : Nat) (t : TimeRec) (h : field_ok p t) : field_ok p (inc_temp p t) := by
  unfold field_ok inc_temp at *
  split at h <;> simp only at * <;>
    first
      | omega
      | (rcases get_max_date_cases t.month t.year with e | e | e | e <;> rw [e] at h ⊢ <;> omega)

theorem field_ok_dec (p : Nat) (t : TimeRec) (h : field_ok p t) : field_ok p (dec_temp p t) := by
  unfold field_ok dec_temp dec_wrap at *
  split at h <;> simp only at * <;>
    first
      | omega
      | (split_ifs <;> omega)

theorem dec_inc_temp (p : Nat) (t : TimeRec) (h : field_ok p t) :
    dec_temp p (inc_temp p t) = t := by
  obtain ⟨hour, min, sec, day, date, month, year⟩ := t
  unfold field_ok at h
  unfold dec_temp inc_temp dec_wrap
  split at h <;> simp only at * <;> (try simp only [TimeRec.mk.injEq, true_and, and_true]) <;>
    first
      | rfl
      | omega
      | (split_ifs <;> omega)
      | (rcases get_max_date_cases month year with e | e | e | e <;> rw [e] at h ⊢ <;>
          split_ifs <;> omega)

theorem inc_dec_temp (p : Nat) (t : TimeRec) (h : field_ok p t) :
    inc_temp p (dec_temp p t) = t := by
  obtain ⟨hour, min, sec, day, date, month, year⟩ := t
  unfold field_ok at h
  unfold dec_temp inc_temp dec_wrap
  split at h <;> simp only at * <;> (try simp only [TimeRec.mk.injEq, true_and, and_true]) <;>
    first
      | rfl
      | omega
      | (split_ifs <;> omega)
      | (rcases get_max_date_cases month year with e | e | e | e <;> rw [e] at h ⊢ <;>
          split_ifs <;> omega)

theorem field_ok_increment_setting (s : State) (h : field_ok s.set_time_param s.temp) :
    field_ok (increment_setting s).set_time_param (increment_setting s).temp := by
  rw [increment_setting_eq]; exact field_ok_inc _ _ h

theorem field_ok_decrement_setting (s : State) (h : field_ok s.set_time_param s.temp) :
    field_ok (decrement_setting s).set_time_param (decrement_setting s).temp := by
  rw [decrement_setting_eq]; exact field_ok_dec _ _ h

theorem decrement_increment_setting (s : State) (h : field_ok s.set_time_param s.temp) :
    decrement_setting (increment_setting s) = s := by
  rw [increment_setting_eq, decrement_setting_eq]
  show { s with temp := dec_temp s.set_time_param (inc_temp s.set_time_param s.temp) } = s
  rw [dec_inc_temp _ _ h]

theorem increment_decrement_setting (s : State) (h : field_ok s.set_time_param s.temp) :
    increment_setting (decrement_setting s) = s := by
  rw [decrement_setting_eq, increment_setting_eq]
  show { s with temp := inc_temp s.set_time_param (dec_temp s.set_time_param s.temp) } = s
  rw [inc_dec_temp _ _ h]

/-- Stepping `n` times one way and `n` times back is the identity, for two steps that
undo each other on states whose selected field is in range. -/
theorem iterate_round_trip (f g : State → State)
    (hf : ∀ s, field_ok s.set_time_param s.temp → field_ok (f s).set_time_param (f s).temp)
    (hgf : ∀ s, field_ok s.set_time_param s.temp → g (f s) = s) (n : Nat) :
    ∀ s, field_ok s.set_time_param s.temp → Nat.iterate g n (Nat.iterate f n s) = s := by
  induction n with
  | zero => intro s _; rfl
  | succ n ih =>
    intro s h
    rw [Function.iterate_succ_apply f n s, Function.iterate_succ_apply' g n, ih (f s) (hf s h)]
    exact hgf s h

/-- C11: modular round trip.  For every position of the cursor in SetTime, every `n` and
every state whose temporary record is in range (hour 0..23, minute and second 0..59,
weekday 1..7, day 1..`get_max_date month year`, month 1..12, year 0..99), `n`
applications of `increment_setting` followed by `n` of `decrement_setting` give back
the state, record included, and so do `n` decrements followed by `n` increments. -/
theorem setting_round_trip (s : State) (n : Nat) (h : in_range s.temp) :
    Nat.iterate decrement_setting n (Nat.iterate increment_setting n s) = s ∧
      Nat.iterate increment_setting n (Nat.iterate decrement_setting n s) = s :=
  ⟨iterate_round_trip increment_setting decrement_setting field_ok_increment_setting
      decrement_increment_setting n s (field_ok_of_in_range _ _ h),
    iterate_round_trip decrement_setting increment_setting field_ok_decrement_setting
      increment_decrement_setting n s (field_ok_of_in_range _ _ h)⟩

/-- Witness of C11: twelve steps of the month up and twelve down, and the other way
round, from 5 November. -/
theorem setting_round_trip_witness :
    in_range november_5.temp ∧
      Nat.iterate decrement_setting 12 (Nat.iterate increment_setting 12 november_5) =
        november_5 ∧
      Nat.iterate increment_setting 12 (Nat.iterate decrement_setting 12 november_5) =
        november_5 :=
  ⟨by decide, setting_round_trip november_5 12 (by decide)⟩

/-- C12, counterexample to the claim as stated: the record 31 January 2025 is in range;
with the cursor on the month, a step up gives month 2 with the day still 31, above the 28
days of February 2025, so the record is no longer in range. -/
theorem month_step_leaves_day_out_of_range :
    in_range january_31.temp ∧ january_31.set_time_param = SET_MONTH ∧
      (increment_setting january_31).temp.month = 2 ∧
      (increment_setting january_31).temp.date = 31 ∧
      get_max_date (increment_setting january_31).temp.month
        (increment_setting january_31).temp.year = 28 ∧
      ¬ in_range (increment_setting january_31).temp := by
  decide

/-- C12, amended: a step of the month or of the year changes that field only, and the
field stays in range; the day of the month is not looked at.  For a record in range
before the step, after it the month is in 1..12, the year in 0..99, every other field,
the day included, is as before; the record is in range again exactly when the unchanged
day does not exceed the days of the new month and year, which is always so for a day up
to 28. -/
theorem month_year_step_keeps_day (s : State) (f : State → State)
    (hf : f = increment_setting ∨ f = decrement_setting)
    (hc : s.set_time_param = SET_MONTH ∨ s.set_time_param = SET_YEAR)
    (h : in_range s.temp) :
    (f s).temp.date = s.temp.date ∧ (f s).temp.hour = s.temp.hour ∧
      (f s).temp.min = s.temp.min ∧ (f s).temp.sec = s.temp.sec ∧
      (f s).temp.day = s.temp.day ∧
      (1 ≤ (f s).temp.month ∧ (f s).temp.month ≤ 12) ∧ (f s).temp.year ≤ 99 ∧
      (s.set_time_param = SET_MONTH → (f s).temp.year = s.temp.year) ∧
      (s.set_time_param = SET_YEAR → (f s).temp.month = s.temp.month) ∧
      (in_range (f s).temp ↔
        (f s).temp.date ≤ get_max_date (f s).temp.month (f s).temp.year) ∧
      (s.temp.date ≤ 28 → in_range (f s).temp) := by
  obtain ⟨h1, h2, h3, h4, h5, h6, h7⟩ := h
  have key : ∀ t : TimeRec, (t = inc_temp s.set_time_param s.temp ∨
      t = dec_temp s.set_time_param s.temp) →
      t.date = s.temp.date ∧ t.hour = s.temp.hour ∧ t.min = s.temp.min ∧
      t.sec = s.temp.sec ∧ t.day = s.temp.day ∧ (1 ≤ t.month ∧ t.month ≤ 12) ∧
      t.year ≤ 99 ∧ (s.set_time_param = SET_MONTH → t.year = s.temp.year) ∧
      (s.set_time_param = SET_YEAR → t.month = s.temp.month) := by
    intro t ht
    rcases hc with hc | hc <;> rcases ht with ht | ht <;> rw [ht, hc] <;>
      refine ⟨rfl, rfl, rfl, rfl, rfl, ?_, ?_, ?_, ?_⟩ <;>
      first
        | (intro _; rfl)
        | (intro hh; exact absurd hh (by decide))
        | (simp only [inc_temp, dec_temp, dec_wrap]; omega)
        | (simp only [inc_temp, dec_temp, dec_wrap]; split_ifs <;> omega)
  have ht : (f s).temp = inc_temp s.set_time_param s.temp ∨
      (f s).temp = dec_temp s.set_time_param s.temp := by
    rcases hf with hf | hf <;> rw [hf]
    · exact Or.inl (temp_increment_setting s)
    · exact Or.inr (temp_decrement_setting s)
  obtain ⟨k1, k2, k3, k4, k5, k6, k7, k8, k9⟩ := key _ ht
  have hiff : in_range (f s).temp ↔
      (f s).temp.date ≤ get_max_date (f s).temp.month (f s).temp.year := by
    unfold in_range
    rw [k1, k2, k3, k4, k5]
    constructor
    · intro hh; exact hh.2.2.2.2.1.2
    · intro hh; exact ⟨h1, h2, h3, h4, ⟨h5.1, hh⟩, k6, k7⟩
  refine ⟨k1, k2, k3, k4, k5, k6, k7, k8, k9, hiff, ?_⟩
  intro h28
  rw [hiff, k1]
  rcases get_max_date_cases (f s).temp.month (f s).temp.year with e | e | e | e <;> omega

/-- Witness of C12, amended: the month step from 5 November leaves the day at 5 and the
record in range. -/
theorem month_year_step_keeps_day_witness :
    in_range november_5.temp ∧ november_5.set_time_param = SET_MONTH ∧
      (increment_setting november_5).temp.date = 5 ∧
      (increment_setting november_5).temp.month = 12 ∧
      in_range (increment_setting november_5).temp :=
  have h := month_year_step_keeps_day november_5 increment_setting (Or.inl rfl) (Or.inl rfl)
    (by decide)
  ⟨by decide, rfl, h.1, by decide, h.2.2.2.2.2.2.2.2.2.2 (by decide)⟩

/-! ## The alarm in ViewTime -/

theorem handle_view_time_mode_idle (x : State) (h : x.alarm_triggered = 0) :
    handle_view_time_mode x =
      if x.alarm_enabled ≠ 0 ∧ x.rtc_now.hour = x.alarm_hour ∧ x.rtc_now.min = x.alarm_min ∧
          x.rtc_now.sec = 0 then
        { ds3231_ReadTime x with alarm_triggered := 1, alarm_display_counter := 200 }
      else ds3231_ReadTime x := by
  unfold handle_view_time_mode
  simp only [h, ne_eq, not_true_eq_false, false_and, if_false, ds3231_ReadTime, emit, true_and]

theorem handle_view_time_mode_ringing (x : State) (h : x.alarm_triggered ≠ 0)
    (hb : ¬ (x.button_count_up = 1 ∨ x.button_count_down = 1 ∨ x.button_count_save = 1)) :
    handle_view_time_mode x =
      if x.alarm_display_counter > 0 then
        { x with alarm_display_counter := x.alarm_display_counter - 1 }
      else { x with alarm_triggered := 0 } := by
  unfold handle_view_time_mode
  simp only [hb, and_false, if_false, h, ne_eq, not_false_eq_true, if_true]

theorem handle_view_time_mode_pressed (x : State) (h : x.alarm_triggered ≠ 0)
    (hb : x.button_count_up = 1 ∨ x.button_count_down = 1 ∨ x.button_count_save = 1) :
    handle_view_time_mode x = handle_view_time_mode { x with alarm_triggered := 0 } := by
  unfold handle_view_time_mode
  simp only [hb, and_true, h, ne_eq, not_false_eq_true, if_true, not_true_eq_false, false_and,
    if_false]

/-- A tick in ViewTime that sees no activity of the mode button is the ViewTime handler
after the prologue. -/
theorem tick_view (s : State) (i : Input) (hm : s.current_mode = ClockMode.MODE_VIEW_TIME)
    (hl : s.mode_btn_last_count = 0) (hb : i.button_count_mode = 0) :
    tick s i = handle_view_time_mode (tick_prologue 0 (feed i s)) := by
  have hmode : (feed i s).current_mode = ClockMode.MODE_VIEW_TIME := hm
  have hcount : (feed i s).button_count_mode = 0 := hb
  have hrel : ¬ mode_released (feed i s) := by
    intro hh
    have h2 : (feed i s).mode_btn_last_count > 0 := hh.2
    have h3 : (feed i s).mode_btn_last_count = 0 := hl
    omega
  unfold tick
  rw [clock_fsm_run_normal (feed i s) (by rw [hcount]; decide) (by rw [hmode]; decide)]
  rw [if_neg hrel, hcount]
  have hd : (tick_prologue 0 (feed i s)).current_mode = ClockMode.MODE_VIEW_TIME := hm
  unfold dispatch
  rw [hd]

/-- One tick of the alarm watch: the configuration is kept; an inactive alarm fires, with
the countdown at 200, exactly on a reading of `h`:`m`:00; an active alarm counts down and
is cleared at the tick that finds the countdown at 0. -/
theorem view_step (s : State) (h m : Nat) (i : Input) (hw : Watching s h m)
    (hb : NoButtons i) :
    Watching (tick s i) h m ∧
      (s.alarm_triggered = 0 → reads i h m 0 →
        (tick s i).alarm_triggered = 1 ∧ (tick s i).alarm_display_counter = 200) ∧
      (s.alarm_triggered = 0 → ¬ reads i h m 0 → (tick s i).alarm_triggered = 0) ∧
      (s.alarm_triggered ≠ 0 → 0 < s.alarm_display_counter →
        (tick s i).alarm_triggered = s.alarm_triggered ∧
          (tick s i).alarm_display_counter = s.alarm_display_counter - 1) ∧
      (s.alarm_triggered ≠ 0 → s.alarm_display_counter = 0 →
        (tick s i).alarm_triggered = 0) := by
  obtain ⟨hmode, hlast, hen, hh, hmin⟩ := hw
  obtain ⟨b0, b1, b2, b3⟩ := hb
  have ht := tick_view s i hmode hlast b0
  have fx_trig : (tick_prologue 0 (feed i s)).alarm_triggered = s.alarm_triggered := rfl
  have fx_cnt : (tick_prologue 0 (feed i s)).alarm_display_counter =
      s.alarm_display_counter := rfl
  have fx_en : (tick_prologue 0 (feed i s)).alarm_enabled = s.alarm_enabled := rfl
  have fx_h : (tick_prologue 0 (feed i s)).alarm_hour = s.alarm_hour := rfl
  have fx_m : (tick_prologue 0 (feed i s)).alarm_min = s.alarm_min := rfl
  have fx_now : (tick_prologue 0 (feed i s)).rtc_now = i.rtc_now := rfl
  have fx_up : (tick_prologue 0 (feed i s)).button_count_up = i.button_count_up := rfl
  have fx_down : (tick_prologue 0 (feed i s)).button_count_down = i.button_count_down := rfl
  have fx_save : (tick_prologue 0 (feed i s)).button_count_save = i.button_count_save := rfl
  have fx_mode : (tick_prologue 0 (feed i s)).current_mode = s.current_mode := rfl
  have fx_last : (tick_prologue 0 (feed i s)).mode_btn_last_count = 0 := rfl
  have hnb : ¬ ((tick_prologue 0 (feed i s)).button_count_up = 1 ∨
      (tick_prologue 0 (feed i s)).button_count_down = 1 ∨
      (tick_prologue 0 (feed i s)).button_count_save = 1) := by
    rw [fx_up, fx_down, fx_save, b1, b2, b3]; decide
  generalize tick_prologue 0 (feed i s) = x at *
  by_cases htr : s.alarm_triggered = 0
  · have hx : x.alarm_triggered = 0 := by rw [fx_trig]; exact htr
    rw [handle_view_time_mode_idle x hx] at ht
    by_cases hr : reads i h m 0
    · have hc : x.alarm_enabled ≠ 0 ∧ x.rtc_now.hour = x.alarm_hour ∧
          x.rtc_now.min = x.alarm_min ∧ x.rtc_now.sec = 0 := by
        rw [fx_en, fx_now, fx_h, fx_m, hh, hmin]; exact ⟨hen, hr.1, hr.2.1, hr.2.2⟩
      rw [if_pos hc] at ht
      rw [ht]
      refine ⟨⟨?_, ?_, ?_, ?_, ?_⟩, fun _ _ => ⟨rfl, rfl⟩, fun _ hn => absurd hr hn,
        fun hn => absurd htr hn, fun hn => absurd htr hn⟩
      · exact fx_mode.trans hmode
      · exact fx_last
      · exact fx_en ▸ hen
      · exact fx_h.trans hh
      · exact fx_m.trans hmin
    · have hc : ¬ (x.alarm_enabled ≠ 0 ∧ x.rtc_now.hour = x.alarm_hour ∧
          x.rtc_now.min = x.alarm_min ∧ x.rtc_now.sec = 0) := by
        rw [fx_en, fx_now, fx_h, fx_m, hh, hmin]
        intro hc; exact hr ⟨hc.2.1, hc.2.2.1, hc.2.2.2⟩
      rw [if_neg hc] at ht
      rw [ht]
      refine ⟨⟨?_, ?_, ?_, ?_, ?_⟩, fun _ hy => absurd hy hr, fun _ _ => hx,
        fun hn => absurd htr hn, fun hn => absurd htr hn⟩
      · exact fx_mode.trans hmode
      · exact fx_last
      · exact fx_en ▸ hen
      · exact fx_h.trans hh
      · exact fx_m.trans hmin
  · have hx : x.alarm_triggered ≠ 0 := by rw [fx_trig]; exact htr
    rw [handle_view_time_mode_ringing x hx hnb] at ht
    by_cases hcnt : 0 < s.alarm_display_counter
    · have hc : x.alarm_display_counter > 0 := by rw [fx_cnt]; exact hcnt
      rw [if_pos hc] at ht
      rw [ht]
      refine ⟨⟨?_, ?_, ?_, ?_, ?_⟩, fun hy => absurd hy htr, fun hy => absurd hy htr,
        fun _ _ => ⟨fx_trig, ?_⟩, fun _ hz => by omega⟩
      · exact fx_mode.trans hmode
      · exact fx_last
      · exact fx_en ▸ hen
      · exact fx_h.trans hh
      · exact fx_m.trans hmin
      · show x.alarm_display_counter - 1 = s.alarm_display_counter - 1
        rw [fx_cnt]
    · have hc : ¬ x.alarm_display_counter > 0 := by rw [fx_cnt]; exact hcnt
      rw [if_neg hc] at ht
      rw [ht]
      refine ⟨⟨?_, ?_, ?_, ?_, ?_⟩, fun hy => absurd hy htr, fun hy => absurd hy htr,
        fun _ hz => absurd hz hcnt, fun _ _ => rfl⟩
      · exact fx_mode.trans hmode
      · exact fx_last
      · exact fx_en ▸ hen
      · exact fx_h.trans hh
      · exact fx_m.trans hmin

theorem fires_iff (s : State) (h m : Nat) (i : Input) (hw : Watching s h m)
    (hb : NoButtons i) :
    (fires s i = true ↔ s.alarm_triggered = 0 ∧ reads i h m 0) ∧ arms s i = fires s i := by
  obtain ⟨_, h1, h2, h3, h4⟩ := view_step s h m i hw hb
  have hiff : fires s i = true ↔ s.alarm_triggered = 0 ∧ reads i h m 0 := by
    unfold fires
    simp only [Bool.and_eq_true, decide_eq_true_eq]
    constructor
    · rintro ⟨h0, hne⟩
      refine ⟨h0, ?_⟩
      by_contra hr
      exact hne (h2 h0 hr)
    · rintro ⟨h0, hr⟩
      refine ⟨h0, ?_⟩
      rw [(h1 h0 hr).1]
      decide
  refine ⟨hiff, ?_⟩
  unfold arms
  by_cases hf : fires s i = true
  · obtain ⟨h0, hr⟩ := hiff.mp hf
    rw [hf, (h1 h0 hr).2]
    rfl
  · have hf2 : fires s i = false := by simpa using hf
    rw [hf2]
    rfl

theorem fire_count_append (s : State) (a b : List Input) :
    fire_count s (a ++ b) = fire_count s a + fire_count (run s a) b := by
  induction a generalizing s with
  | nil => simp [fire_count, run_nil]
  | cons i t ih =>
    rw [List.cons_append]
    simp only [fire_count, run_cons]
    rw [ih (tick s i)]
    omega

theorem arm_count_append (s : State) (a b : List Input) :
    arm_count s (a ++ b) = arm_count s a + arm_count (run s a) b := by
  induction a generalizing s with
  | nil => simp [arm_count, run_nil]
  | cons i t ih =>
    rw [List.cons_append]
    simp only [arm_count, run_cons]
    rw [ih (tick s i)]
    omega

/-- A tick that does not fire adds nothing to either count. -/
theorem counts_cons_silent (s : State) (h m : Nat) (i : Input) (is : List Input)
    (hw : Watching s h m) (hb : NoButtons i) (hn : ¬ (s.alarm_triggered = 0 ∧ reads i h m 0)) :
    fire_count s (i :: is) = fire_count (tick s i) is ∧
      arm_count s (i :: is) = arm_count (tick s i) is := by
  obtain ⟨hiff, harm⟩ := fires_iff s h m i hw hb
  have hf : fires s i = false := by
    cases hv : fires s i with
    | false => rfl
    | true => exact absurd (hiff.mp hv) hn
  simp only [fire_count, arm_count, harm, hf, Bool.false_eq_true, if_false, Nat.zero_add,
    and_self]

/-- A tick that fires adds one to each count. -/
theorem counts_cons_firing (s : State) (h m : Nat) (i : Input) (is : List Input)
    (hw : Watching s h m) (hb : NoButtons i) (h0 : s.alarm_triggered = 0)
    (hr : reads i h m 0) :
    fire_count s (i :: is) = 1 + fire_count (tick s i) is ∧
      arm_count s (i :: is) = 1 + arm_count (tick s i) is := by
  obtain ⟨hiff, harm⟩ := fires_iff s h m i hw hb
  have hf : fires s i = true := hiff.mpr ⟨h0, hr⟩
  simp only [fire_count, arm_count, harm, hf, if_true, and_self]

/-- While the clock reports anything but `h`:`m`:00 the alarm does not fire, whether it is
ringing or not. -/
theorem silent_run (h m : Nat) (is : List Input) :
    ∀ s : State, Watching s h m → (∀ i ∈ is, NoButtons i ∧ ¬ reads i h m 0) →
      fire_count s is = 0 ∧ arm_count s is = 0 ∧ Watching (run s is) h m := by
  induction is with
  | nil => intro s hw _; exact ⟨rfl, rfl, hw⟩
  | cons i t ih =>
    intro s hw hall
    obtain ⟨hb, hr⟩ := hall i (List.mem_cons_self _ _)
    obtain ⟨hw2, _⟩ := view_step s h m i hw hb
    obtain ⟨hf, ha⟩ := counts_cons_silent s h m i t hw hb (fun hh => hr hh.2)
    obtain ⟨i1, i2, i3⟩ := ih (tick s i) hw2 (fun j hj => hall j (List.mem_cons_of_mem _ hj))
    exact ⟨hf.trans i1, ha.trans i2, by rw [run_cons]; exact i3⟩

/-- While the alarm rings it does not fire: over at most `c + 1` ticks from a countdown
of `c` the counts stay 0; after exactly `c + 1` ticks the flag is clear. -/
theorem ringing_run (h m : Nat) (c : Nat) :
    ∀ (is : List Input) (s : State), Watching s h m → s.alarm_triggered ≠ 0 →
      s.alarm_display_counter = c → is.length ≤ c + 1 → (∀ i ∈ is, NoButtons i) →
      fire_count s is = 0 ∧ arm_count s is = 0 ∧ Watching (run s is) h m ∧
        (is.length = c + 1 → (run s is).alarm_triggered = 0) := by
  induction c with
  | zero =>
    intro is s hw ht hc hlen hall
    match is, hlen, hall with
    | [], _, _ => exact ⟨rfl, rfl, hw, fun hh => absurd hh (by decide)⟩
    | [i], _, hall =>
      have hb := hall i (List.mem_cons_self _ _)
      obtain ⟨hw2, _, _, _, h4⟩ := view_step s h m i hw hb
      obtain ⟨hf, ha⟩ := counts_cons_silent s h m i [] hw hb (fun hh => ht hh.1)
      exact ⟨hf, ha, hw2, fun _ => h4 ht hc⟩
    | _ :: _ :: _, hlen, _ => simp at hlen
  | succ c ih =>
    intro is s hw ht hc hlen hall
    match is, hlen, hall with
    | [], _, _ => exact ⟨rfl, rfl, hw, fun hh => absurd hh (by simp)⟩
    | i :: t, hlen, hall =>
      have hb := hall i (List.mem_cons_self _ _)
      obtain ⟨hw2, _, _, h3, _⟩ := view_step s h m i hw hb
      obtain ⟨hf, ha⟩ := counts_cons_silent s h m i t hw hb (fun hh => ht hh.1)
      obtain ⟨k1, k2⟩ := h3 ht (by omega)
      have hlen2 : t.length ≤ c + 1 := by simp only [List.length_cons] at hlen; omega
      obtain ⟨i1, i2, i3, i4⟩ := ih t (tick s i) hw2 (by rw [k1]; exact ht)
        (by rw [k2, hc]; rfl) hlen2 (fun j hj => hall j (List.mem_cons_of_mem _ hj))
      refine ⟨hf.trans i1, ha.trans i2, by rw [run_cons]; exact i3, ?_⟩
      intro hh
      rw [run_cons]
      apply i4
      simp only [List.length_cons] at hh
      omega

/-- A clock that stays on `h`:`m`:00 for 203 ticks fires the alarm a second time: the
first tick fires, the next 201 spend the countdown and clear the flag, and the 203rd
finds the alarm inactive at `h`:`m`:00 again. -/
theorem stuck_clock_fires_twice (s : State) (h m : Nat) (z z2 : Input) (zs rest : List Input)
    (hw : Watching s h m) (h0 : s.alarm_triggered = 0)
    (hz : NoButtons z ∧ reads z h m 0) (hzs : ∀ i ∈ zs, NoButtons i)
    (hlen : zs.length = 201) (hz2 : NoButtons z2 ∧ reads z2 h m 0)
    (hrest : ∀ i ∈ rest, NoButtons i ∧ ¬ reads i h m 0) :
    fire_count s (z :: (zs ++ z2 :: rest)) = 2 ∧ arm_count s (z :: (zs ++ z2 :: rest)) = 2 := by
  obtain ⟨hw1, h1, _⟩ := view_step s h m z hw hz.1
  obtain ⟨t1, c1⟩ := h1 h0 hz.2
  obtain ⟨f1, a1⟩ := counts_cons_firing s h m z (zs ++ z2 :: rest) hw hz.1 h0 hz.2
  obtain ⟨f2, a2, hw2, hclear⟩ := ringing_run h m 200 zs (tick s z) hw1
    (by rw [t1]; decide) c1 (by omega) hzs
  have hidle := hclear hlen
  obtain ⟨f3, a3⟩ := counts_cons_firing (run (tick s z) zs) h m z2 rest hw2 hz2.1 hidle hz2.2
  obtain ⟨hw3, _⟩ := view_step (run (tick s z) zs) h m z2 hw2 hz2.1
  obtain ⟨f4, a4, _⟩ := silent_run h m rest (tick (run (tick s z) zs) z2) hw3 hrest
  rw [f1, a1, fire_count_append, arm_count_append, f2, a2, f3, a3, f4, a4]
  exact ⟨rfl, rfl⟩

theorem mem_rest_of_minute (h m k : Nat) (i : Input) (hi : i ∈ rest_of_minute h m k) :
    NoButtons i ∧ ¬ reads i h m 0 := by
  unfold rest_of_minute at hi
  rw [List.mem_flatMap] at hi
  obtain ⟨j, _, hj⟩ := hi
  rw [List.mem_replicate] at hj
  rw [hj.2]
  refine ⟨⟨rfl, rfl, rfl, rfl⟩, ?_⟩
  intro hr
  have h3 : (clock_input h m (j + 1)).rtc_now.sec = 0 := hr.2.2
  exact absurd h3 (Nat.succ_ne_zero j)

/-- C13, counterexample to the claim as stated: with the alarm enabled at 06:00 and
inactive in ViewTime and no button touched, a run in which the clock reports 06:00:00 on
203 consecutive ticks and then 06:00:01 raises the flag twice and arms the countdown
twice. -/
theorem alarm_fires_twice_on_stuck_clock :
    Watching alarm_set 6 0 ∧ alarm_set.alarm_triggered = 0 ∧
      stuck_minute = List.replicate 203 (clock_input 6 0 0) ++ [clock_input 6 0 1] ∧
      NoButtons (clock_input 6 0 0) ∧ NoButtons (clock_input 6 0 1) ∧
      reads (clock_input 6 0 0) 6 0 0 ∧ reads (clock_input 6 0 1) 6 0 1 ∧
      fire_count alarm_set stuck_minute = 2 ∧ arm_count alarm_set stuck_minute = 2 := by
  have hw : Watching alarm_set 6 0 := ⟨rfl, rfl, by decide, rfl, rfl⟩
  have hshape : stuck_minute =
      clock_input 6 0 0 :: (List.replicate 201 (clock_input 6 0 0) ++
        clock_input 6 0 0 :: [clock_input 6 0 1]) := by
    unfold stuck_minute
    rw [show (203 : Nat) = 1 + (201 + 1) from rfl, List.replicate_add, List.replicate_add]
    simp only [List.replicate_one, List.append_assoc, List.singleton_append, List.cons_append,
      List.nil_append]
  have hz : NoButtons (clock_input 6 0 0) ∧ reads (clock_input 6 0 0) 6 0 0 := by decide
  have hall : ∀ i ∈ List.replicate 201 (clock_input 6 0 0), NoButtons i := by
    intro i hi
    rw [(List.mem_replicate.mp hi).2]
    exact hz.1
  have hrest : ∀ i ∈ [clock_input 6 0 1], NoButtons i ∧ ¬ reads i 6 0 0 := by
    intro i hi
    rw [List.mem_singleton.mp hi]
    decide
  have h2 := stuck_clock_fires_twice alarm_set 6 0 (clock_input 6 0 0) (clock_input 6 0 0)
    (List.replicate 201 (clock_input 6 0 0)) [clock_input 6 0 1] hw rfl hz hall
    (List.length_replicate _ _) hz hrest
  rw [← hshape] at h2
  exact ⟨hw, rfl, rfl, by decide, by decide, by decide, by decide, h2.1, h2.2⟩

/-- C13, amended: in ViewTime with the alarm enabled at `h`:`m`, not active, and no
button input, a tick raises the alarm-active flag if and only if the clock reads
`h`:`m`:00, and the countdown is then at 200; over a run in which the clock reports
`h`:`m`:00 on at most 202 consecutive ticks and then other readings, such as
`h`:`m`:01 .. `h`:`m`:59, the flag goes from inactive to active exactly once and the
countdown is armed exactly once. -/
theorem alarm_fires_once (s : State) (h m : Nat) (z : Input) (zs rest : List Input)
    (hw : Watching s h m) (h0 : s.alarm_triggered = 0)
    (hz : NoButtons z ∧ reads z h m 0)
    (hzs : ∀ i ∈ zs, NoButtons i ∧ reads i h m 0) (hlen : zs.length ≤ 201)
    (hrest : ∀ i ∈ rest, NoButtons i ∧ ¬ reads i h m 0) :
    (∀ i, NoButtons i → ((tick s i).alarm_triggered ≠ 0 ↔ reads i h m 0)) ∧
      (∀ i, NoButtons i → reads i h m 0 → (tick s i).alarm_display_counter = 200) ∧
      fire_count s (z :: (zs ++ rest)) = 1 ∧ arm_count s (z :: (zs ++ rest)) = 1 := by
  refine ⟨?_, ?_, ?_⟩
  · intro i hb
    obtain ⟨_, h1, h2, _⟩ := view_step s h m i hw hb
    constructor
    · intro hne
      by_contra hr
      exact hne (h2 h0 hr)
    · intro hr
      rw [(h1 h0 hr).1]
      decide
  · intro i hb hr
    obtain ⟨_, h1, _⟩ := view_step s h m i hw hb
    exact (h1 h0 hr).2
  · obtain ⟨hw1, h1, _⟩ := view_step s h m z hw hz.1
    obtain ⟨t1, c1⟩ := h1 h0 hz.2
    obtain ⟨f1, a1⟩ := counts_cons_firing s h m z (zs ++ rest) hw hz.1 h0 hz.2
    obtain ⟨f2, a2, hw2, _⟩ := ringing_run h m 200 zs (tick s z) hw1
      (by rw [t1]; decide) c1 (by omega) (fun i hi => (hzs i hi).1)
    obtain ⟨f3, a3, _⟩ := silent_run h m rest (run (tick s z) zs) hw2 hrest
    rw [f1, a1, fire_count_append, arm_count_append, f2, a2, f3, a3]
    exact ⟨rfl, rfl⟩

/-- Witness of C13: alarm enabled at 06:00; the clock reports 06:00:00 for 20 ticks and
then each of 06:00:01 .. 06:00:59 for 20 ticks; the alarm fires once. -/
theorem alarm_fires_once_witness :
    Watching alarm_set 6 0 ∧ alarm_set.alarm_triggered = 0 ∧
      fire_count alarm_set
        (clock_input 6 0 0 :: (List.replicate 19 (clock_input 6 0 0) ++
          rest_of_minute 6 0 20)) = 1 ∧
      arm_count alarm_set
        (clock_input 6 0 0 :: (List.replicate 19 (clock_input 6 0 0) ++
          rest_of_minute 6 0 20)) = 1 :=
  have hw : Watching alarm_set 6 0 := ⟨rfl, rfl, by decide, rfl, rfl⟩
  have h := alarm_fires_once alarm_set 6 0 (clock_input 6 0 0)
    (List.replicate 19 (clock_input 6 0 0)) (rest_of_minute 6 0 20) hw rfl (by decide)
    (fun i hi => by rw [(List.mem_replicate.mp hi).2]; decide)
    (by rw [List.length_replicate]; decide) (mem_rest_of_minute 6 0 20)
  ⟨hw, rfl, h.2.2.1, h.2.2.2⟩

/-! ## Silencing the alarm -/

/-- A press of UP, DOWN or CONFIRM while the alarm rings, in ViewTime with the mode button
at rest: after the tick the alarm is active exactly when it is enabled and the clock
reads the alarm time at second 0. -/
theorem press_clears_unless_alarm_second (s : State) (i : Input)
    (hm : s.current_mode = ClockMode.MODE_VIEW_TIME) (hl : s.mode_btn_last_count = 0)
    (hb : i.button_count_mode = 0) (ht : s.alarm_triggered ≠ 0)
    (hp : i.button_count_up = 1 ∨ i.button_count_down = 1 ∨ i.button_count_save = 1) :
    (tick s i).alarm_triggered =
      if s.alarm_enabled ≠ 0 ∧ i.rtc_now.hour = s.alarm_hour ∧ i.rtc_now.min = s.alarm_min ∧
        i.rtc_now.sec = 0 then 1 else 0 := by
  rw [tick_view s i hm hl hb]
  have hx : (tick_prologue 0 (feed i s)).alarm_triggered ≠ 0 := ht
  have hpx : (tick_prologue 0 (feed i s)).button_count_up = 1 ∨
      (tick_prologue 0 (feed i s)).button_count_down = 1 ∨
      (tick_prologue 0 (feed i s)).button_count_save = 1 := hp
  rw [handle_view_time_mode_pressed _ hx hpx, handle_view_time_mode_idle _ rfl]
  by_cases hc : s.alarm_enabled ≠ 0 ∧ i.rtc_now.hour = s.alarm_hour ∧
      i.rtc_now.min = s.alarm_min ∧ i.rtc_now.sec = 0
  · rw [if_pos hc]
    have hc2 : ({ tick_prologue 0 (feed i s) with alarm_triggered := 0 } : State).alarm_enabled ≠ 0 ∧
        ({ tick_prologue 0 (feed i s) with alarm_triggered := 0 } : State).rtc_now.hour =
          ({ tick_prologue 0 (feed i s) with alarm_triggered := 0 } : State).alarm_hour ∧
        ({ tick_prologue 0 (feed i s) with alarm_triggered := 0 } : State).rtc_now.min =
          ({ tick_prologue 0 (feed i s) with alarm_triggered := 0 } : State).alarm_min ∧
        ({ tick_prologue 0 (feed i s) with alarm_triggered := 0 } : State).rtc_now.sec = 0 := hc
    rw [if_pos hc2]
  · rw [if_neg hc]
    have hc2 : ¬ (({ tick_prologue 0 (feed i s) with alarm_triggered := 0 } : State).alarm_enabled ≠ 0 ∧
        ({ tick_prologue 0 (feed i s) with alarm_triggered := 0 } : State).rtc_now.hour =
          ({ tick_prologue 0 (feed i s) with alarm_triggered := 0 } : State).alarm_hour ∧
        ({ tick_prologue 0 (feed i s) with alarm_triggered := 0 } : State).rtc_now.min =
          ({ tick_prologue 0 (feed i s) with alarm_triggered := 0 } : State).alarm_min ∧
        ({ tick_prologue 0 (feed i s) with alarm_triggered := 0 } : State).rtc_now.sec = 0) := hc
    rw [if_neg hc2]
    rfl

/-- C14, the code at the failing input: the alarm is ringing, the clock reads 06:00:00,
the alarm is enabled at 06:00 and UP has just been pressed; the tick clears the flag and
raises it again, so it ends with the alarm active and the countdown back at 200. -/
theorem silenced_alarm_fires_again :
    ringing_pressed.current_mode = ClockMode.MODE_VIEW_TIME ∧
      ringing_pressed.alarm_triggered ≠ 0 ∧ ringing_pressed.button_count_up = 1 ∧
      (clock_fsm_run ringing_pressed).alarm_triggered = 1 ∧
      (clock_fsm_run ringing_pressed).alarm_display_counter = 200 := by
  decide

/-! ## The receive ring is a FIFO queue -/

theorem buffered_length (u : Uart) :
    (buffered u).length = (u.rx_head + 64 - u.rx_tail) % 64 := by
  unfold buffered
  rw [List.length_map, List.length_range]

theorem buffered_length_lt (u : Uart) : (buffered u).length < 64 := by
  rw [buffered_length]; omega

theorem buffered_eq_nil_iff (u : Uart) (h : ring_ok u) :
    buffered u = [] ↔ u.rx_head = u.rx_tail := by
  obtain ⟨_, h1, h2⟩ := h
  simp only [UART_BUFFER_SIZE] at h1 h2
  rw [← List.length_eq_zero, buffered_length]
  omega

/-- A write into a ring with room: the byte joins the queue at the end. -/
theorem callback_accept (b : Nat) (u : Uart) (h : ring_ok u) (hlt : (buffered u).length < 63) :
    ring_ok (HAL_UART_RxCpltCallback b u) ∧
      buffered (HAL_UART_RxCpltCallback b u) = buffered u ++ [b] := by
  obtain ⟨h0, h1, h2⟩ := h
  simp only [UART_BUFFER_SIZE] at h0 h1 h2
  rw [buffered_length] at hlt
  have hne : (u.rx_head + 1) % 64 ≠ u.rx_tail := by omega
  have hcb : HAL_UART_RxCpltCallback b u =
      { u with rx_buffer := u.rx_buffer.set u.rx_head b, rx_head := (u.rx_head + 1) % 64,
               uart_rx_flag := 1, listening := true } := by
    simp only [HAL_UART_RxCpltCallback, UART_BUFFER_SIZE, hne, ne_eq, not_false_eq_true, if_true]
  rw [hcb]
  refine ⟨⟨?_, ?_, h2⟩, ?_⟩
  · show (u.rx_buffer.set u.rx_head b).length = 64
    rw [List.length_set]; exact h0
  · show (u.rx_head + 1) % 64 < 64
    omega
  · unfold buffered
    simp only [UART_BUFFER_SIZE]
    have hn : ((u.rx_head + 1) % 64 + 64 - u.rx_tail) % 64 =
        (u.rx_head + 64 - u.rx_tail) % 64 + 1 := by omega
    rw [hn, List.range_succ, List.map_append]
    congr 1
    · apply List.map_congr_left
      intro k hk
      rw [List.mem_range] at hk
      have hk2 : (u.rx_tail + k) % 64 ≠ u.rx_head := by omega
      rw [List.getD_eq_getElem?_getD, List.getD_eq_getElem?_getD,
        List.getElem?_set_ne (Ne.symm hk2)]
    · have hk : (u.rx_tail + (u.rx_head + 64 - u.rx_tail) % 64) % 64 = u.rx_head := by omega
      simp only [List.map_cons, List.map_nil, hk]
      rw [List.getD_eq_getElem?_getD, List.getElem?_set_self (by omega)]
      rfl

/-- A write into a full ring: the byte is dropped and the ring is as before. -/
theorem callback_drop (b : Nat) (u : Uart) (h : ring_ok u)
    (hge : 63 ≤ (buffered u).length) :
    HAL_UART_RxCpltCallback b u = { u with listening := true } := by
  obtain ⟨h0, h1, h2⟩ := h
  simp only [UART_BUFFER_SIZE] at h0 h1 h2
  rw [buffered_length] at hge
  have heq : (u.rx_head + 1) % 64 = u.rx_tail := by omega
  simp only [HAL_UART_RxCpltCallback, UART_BUFFER_SIZE, heq, ne_eq, not_true_eq_false, if_false]

/-- A read of the empty ring. -/
theorem read_empty (u : Uart) (h : u.rx_head = u.rx_tail) :
    uart_ReadByte u = (-1, { u with uart_rx_flag := 0 }) := by
  simp only [uart_ReadByte, h, if_true]

/-- A read of a ring that holds bytes: the oldest is returned and leaves the queue; the
command buffer is not touched. -/
theorem read_some (u : Uart) (h : ring_ok u) (b : Nat) (t : List Nat)
    (hq : buffered u = b :: t) :
    (uart_ReadByte u).1 = (b : Int) ∧ ring_ok (uart_ReadByte u).2 ∧
      buffered (uart_ReadByte u).2 = t ∧
      (uart_ReadByte u).2.uart_cmd_buffer = u.uart_cmd_buffer ∧
      (uart_ReadByte u).2.uart_cmd_index = u.uart_cmd_index ∧
      (uart_ReadByte u).2.uart_cmd_ready_flag = u.uart_cmd_ready_flag := by
  have hne : u.rx_head ≠ u.rx_tail := by
    intro he
    rw [(buffered_eq_nil_iff u h).mpr he] at hq
    exact absurd hq (by simp)
  obtain ⟨h0, h1, h2⟩ := h
  simp only [UART_BUFFER_SIZE] at h0 h1 h2
  have hlen : (u.rx_head + 64 - u.rx_tail) % 64 = t.length + 1 := by
    rw [← buffered_length, hq]; rfl
  have hfst : (uart_ReadByte u).1 = ((u.rx_buffer.getD u.rx_tail 0 : Nat) : Int) := by
    simp only [uart_ReadByte, hne, if_false]
  have hbuf : (uart_ReadByte u).2.rx_buffer = u.rx_buffer := by
    simp only [uart_ReadByte, hne, if_false]; split_ifs <;> rfl
  have hhead : (uart_ReadByte u).2.rx_head = u.rx_head := by
    simp only [uart_ReadByte, hne, if_false]; split_ifs <;> rfl
  have htail : (uart_ReadByte u).2.rx_tail = (u.rx_tail + 1) % 64 := by
    simp only [uart_ReadByte, hne, if_false]; split_ifs <;> rfl
  have hcb : (uart_ReadByte u).2.uart_cmd_buffer = u.uart_cmd_buffer := by
    simp only [uart_ReadByte, hne, if_false]; split_ifs <;> rfl
  have hci : (uart_ReadByte u).2.uart_cmd_index = u.uart_cmd_index := by
    simp only [uart_ReadByte, hne, if_false]; split_ifs <;> rfl
  have hcf : (uart_ReadByte u).2.uart_cmd_ready_flag = u.uart_cmd_ready_flag := by
    simp only [uart_ReadByte, hne, if_false]; split_ifs <;> rfl
  have hq2 := hq
  unfold buffered at hq2
  simp only [UART_BUFFER_SIZE] at hq2
  rw [hlen, List.range_succ_eq_map, List.map_cons, List.map_map] at hq2
  have hb : u.rx_buffer.getD u.rx_tail 0 = b := by
    have e := (List.cons.inj hq2).1
    have e2 : (u.rx_tail + 0) % 64 = u.rx_tail := by omega
    rw [e2] at e
    exact e
  have ht := (List.cons.inj hq2).2
  refine ⟨by rw [hfst, hb], ⟨by rw [hbuf]; exact h0, by rw [hhead]; exact h1,
    by rw [htail]; show (u.rx_tail + 1) % 64 < 64; omega⟩, ?_, hcb, hci, hcf⟩
  unfold buffered
  simp only [UART_BUFFER_SIZE]
  rw [hbuf, hhead, htail]
  have hn : (u.rx_head + 64 - (u.rx_tail + 1) % 64) % 64 = t.length := by omega
  rw [hn]
  refine Eq.trans ?_ ht
  apply List.map_congr_left
  intro k _
  have hk : ((u.rx_tail + 1) % 64 + k) % 64 = (u.rx_tail + (k + 1)) % 64 := by omega
  simp only [Function.comp, hk, Nat.succ_eq_add_one]

/-- One operation: the code does to the bytes it holds what the FIFO queue of the
specification does, and returns the same value. -/
theorem ring_step_refines (u : Uart) (op : RingOp) (h : ring_ok u) :
    ring_ok (ring_step u op).1 ∧
      buffered (ring_step u op).1 = (fifo_step (buffered u) op).1 ∧
      (ring_step u op).2 = (fifo_step (buffered u) op).2 := by
  cases op with
  | write b =>
    by_cases hlt : (buffered u).length < 63
    · obtain ⟨k1, k2⟩ := callback_accept b u h hlt
      refine ⟨k1, ?_, rfl⟩
      show buffered (HAL_UART_RxCpltCallback b u) =
        if (buffered u).length < 63 then buffered u ++ [b] else buffered u
      rw [if_pos hlt, k2]
    · have hd := callback_drop b u h (by omega)
      refine ⟨?_, ?_, rfl⟩
      · show ring_ok (HAL_UART_RxCpltCallback b u)
        rw [hd]; exact h
      · show buffered (HAL_UART_RxCpltCallback b u) =
          if (buffered u).length < 63 then buffered u ++ [b] else buffered u
        rw [if_neg hlt, hd]
        rfl
  | read =>
    cases hq : buffered u with
    | nil =>
      have he := (buffered_eq_nil_iff u h).mp hq
      have hr := read_empty u he
      refine ⟨?_, ?_, ?_⟩
      · show ring_ok (uart_ReadByte u).2
        rw [hr]; exact h
      · show buffered (uart_ReadByte u).2 = []
        rw [hr]; exact hq
      · show some (uart_ReadByte u).1 = some (-1)
        rw [hr]
    | cons b t =>
      obtain ⟨k1, k2, k3, _⟩ := read_some u h b t hq
      refine ⟨k2, k3, ?_⟩
      show some (uart_ReadByte u).1 = some (b : Int)
      rw [k1]

theorem ring_run_refines (ops : List RingOp) :
    ∀ u : Uart, ring_ok u →
      ring_ok (ring_run u ops).1 ∧
        buffered (ring_run u ops).1 = (fifo_run (buffered u) ops).1 ∧
        (ring_run u ops).2 = (fifo_run (buffered u) ops).2 := by
  induction ops with
  | nil => intro u h; exact ⟨h, rfl, rfl⟩
  | cons op ops ih =>
    intro u h
    obtain ⟨k1, k2, k3⟩ := ring_step_refines u op h
    obtain ⟨i1, i2, i3⟩ := ih (ring_step u op).1 k1
    simp only [ring_run, fifo_run]
    rw [← k2, ← k3]
    exact ⟨i1, i2, by rw [i3]⟩

theorem arrive_buffered (bs : List Nat) :
    ∀ u : Uart, ring_ok u →
      ring_ok (arrive bs u) ∧ buffered (arrive bs u) = (buffered u ++ bs).take 63 := by
  induction bs with
  | nil =>
    intro u h
    refine ⟨h, ?_⟩
    have hl := buffered_length_lt u
    show buffered u = List.take 63 (buffered u ++ [])
    rw [List.append_nil, List.take_of_length_le (by omega)]
  | cons b bs ih =>
    intro u h
    have hl := buffered_length_lt u
    have hstep : arrive (b :: bs) u = arrive bs (HAL_UART_RxCpltCallback b u) := rfl
    rw [hstep]
    by_cases hlt : (buffered u).length < 63
    · obtain ⟨k1, k2⟩ := callback_accept b u h hlt
      obtain ⟨i1, i2⟩ := ih _ k1
      refine ⟨i1, ?_⟩
      rw [i2, k2, List.append_assoc]
      rfl
    · have hd := callback_drop b u h (by omega)
      have hk1 : ring_ok (HAL_UART_RxCpltCallback b u) := by rw [hd]; exact h
      have hk2 : buffered (HAL_UART_RxCpltCallback b u) = buffered u := by rw [hd]; rfl
      obtain ⟨i1, i2⟩ := ih _ hk1
      refine ⟨i1, ?_⟩
      rw [i2, hk2, List.take_append_of_le_length (by omega),
        List.take_append_of_le_length (by omega)]

theorem read_all (q : List Nat) :
    ∀ u : Uart, ring_ok u → buffered u = q →
      (ring_run u (List.replicate (q.length + 1) RingOp.read)).2 =
        q.map (fun b => (b : Int)) ++ [-1] := by
  induction q with
  | nil =>
    intro u h hq
    have hr := read_empty u ((buffered_eq_nil_iff u h).mp hq)
    show (Option.toList (some (uart_ReadByte u).1)) ++ [] = [-1]
    rw [hr]
    rfl
  | cons b t ih =>
    intro u h hq
    obtain ⟨k1, k2, k3, _⟩ := read_some u h b t hq
    have i := ih (uart_ReadByte u).2 k2 k3
    show (Option.toList (some (uart_ReadByte u).1)) ++
      (ring_run (uart_ReadByte u).2 (List.replicate (t.length + 1) RingOp.read)).2 = _
    rw [i, k1]
    rfl

/-- C15: the receive ring is a FIFO queue of capacity 63.  For a well-formed ring and
every sequence of writes (`HAL_UART_RxCpltCallback`) and reads (`uart_ReadByte`), the
values read and the bytes left in the ring are those of the FIFO queue of the
specification run on the bytes the ring holds.  A write is accepted, joining the queue at
its end, when fewer than 63 bytes are held, and is otherwise dropped with buffer, head
and tail unchanged; a read returns -1 exactly when the ring is empty and otherwise the
oldest byte, which leaves the queue.  From an empty ring, of 64 bytes written the first 63
are held, and 64 reads then return these 63 in order, followed by -1. -/
theorem ring_is_fifo (u : Uart) (ops : List RingOp) (h : ring_ok u) :
    (ring_run u ops).2 = (fifo_run (buffered u) ops).2 ∧
      buffered (ring_run u ops).1 = (fifo_run (buffered u) ops).1 ∧
      ring_ok (ring_run u ops).1 ∧
      (∀ b, (buffered u).length < 63 →
        buffered (HAL_UART_RxCpltCallback b u) = buffered u ++ [b]) ∧
      (∀ b, ¬ (buffered u).length < 63 →
        (HAL_UART_RxCpltCallback b u).rx_buffer = u.rx_buffer ∧
          (HAL_UART_RxCpltCallback b u).rx_head = u.rx_head ∧
          (HAL_UART_RxCpltCallback b u).rx_tail = u.rx_tail ∧
          buffered (HAL_UART_RxCpltCallback b u) = buffered u) ∧
      ((uart_ReadByte u).1 = -1 ↔ buffered u = []) ∧
      (∀ b t, buffered u = b :: t →
        (uart_ReadByte u).1 = (b : Int) ∧ buffered (uart_ReadByte u).2 = t) ∧
      (buffered u = [] → ∀ bs : List Nat, bs.length = 64 →
        buffered (arrive bs u) = bs.take 63 ∧
          (ring_run (arrive bs u) (List.replicate 64 RingOp.read)).2 =
            (bs.take 63).map (fun b => (b : Int)) ++ [-1]) := by
  obtain ⟨r1, r2, r3⟩ := ring_run_refines ops u h
  refine ⟨r3, r2, r1, ?_, ?_, ?_, ?_, ?_⟩
  · intro b hlt
    exact (callback_accept b u h hlt).2
  · intro b hge
    have hd := callback_drop b u h (by omega)
    rw [hd]
    exact ⟨rfl, rfl, rfl, rfl⟩
  · constructor
    · intro hm
      cases hq : buffered u with
      | nil => rfl
      | cons b t =>
        have k := (read_some u h b t hq).1
        rw [k] at hm
        omega
    · intro hq
      rw [read_empty u ((buffered_eq_nil_iff u h).mp hq)]
  · intro b t hq
    obtain ⟨k1, _, k3, _⟩ := read_some u h b t hq
    exact ⟨k1, k3⟩
  · intro hq bs hbs
    obtain ⟨a1, a2⟩ := arrive_buffered bs u h
    rw [hq, List.nil_append] at a2
    refine ⟨a2, ?_⟩
    have hlen : (bs.take 63).length = 63 := by rw [List.length_take]; omega
    have hr := read_all (bs.take 63) (arrive bs u) a1 a2
    rw [hlen] at hr
    exact hr

/-- Witness of C15: the ring of the start state is well formed and empty; after five
bytes and two reads it holds the last three. -/
theorem ring_is_fifo_witness :
    ring_ok ring_three ∧ buffered ring_three = [67, 68, 69] ∧
      (ring_run ring_three [RingOp.read, RingOp.write 70, RingOp.read]).2 = [67, 68] ∧
      buffered (ring_run ring_three [RingOp.read, RingOp.write 70, RingOp.read]).1 =
        [69, 70] :=
  have h := ring_is_fifo ring_three [RingOp.read, RingOp.write 70, RingOp.read] (by decide)
  ⟨by decide, by decide, h.1.trans (by decide), h.2.1.trans (by decide)⟩

/-! ## Line reassembly -/

theorem is_delimiter_iff (b : Nat) : is_delimiter b = true ↔ b = 13 ∨ b = 10 := by
  unfold is_delimiter
  simp only [Bool.or_eq_true, beq_iff_eq]

/-- The loop on an empty ring: the read returns -1 and the loop ends. -/
theorem process_loop_empty (f : Nat) (u : Uart) (h : ring_ok u) (hq : buffered u = []) :
    process_loop (f + 1) u = some { u with uart_rx_flag := 0 } := by
  have hr := read_empty u ((buffered_eq_nil_iff u h).mp hq)
  rw [process_loop]
  simp only [hr, if_true]

/-- The loop on a delimiter with nothing collected: the byte is skipped. -/
theorem process_loop_skip (f : Nat) (u : Uart) (b : Nat) (t : List Nat) (h : ring_ok u)
    (hq : buffered u = b :: t) (hd : is_delimiter b = true) (hi : u.uart_cmd_index = 0) :
    process_loop (f + 1) u = process_loop f (uart_ReadByte u).2 := by
  obtain ⟨k1, _, _, _, k5, _⟩ := read_some u h b t hq
  have hd2 := (is_delimiter_iff b).mp hd
  have hn1 : ¬ ((b : Int) = -1) := by omega
  have hc : (b : Int) = 13 ∨ (b : Int) = 10 := by omega
  have hz : ¬ ((uart_ReadByte u).2.uart_cmd_index > 0) := by rw [k5, hi]; decide
  rw [process_loop]
  simp only [k1, hn1, if_false, hc, if_true, hz]

/-- The loop on a delimiter after a non-empty run: the run is closed with NUL, the flag
is raised, the index returns to 0 and the loop ends. -/
theorem process_loop_complete (f : Nat) (u : Uart) (b : Nat) (t : List Nat) (h : ring_ok u)
    (hq : buffered u = b :: t) (hd : is_delimiter b = true) (hi : 0 < u.uart_cmd_index) :
    process_loop (f + 1) u =
      some { (uart_ReadByte u).2 with
        uart_cmd_buffer := u.uart_cmd_buffer.set u.uart_cmd_index 0,
        uart_cmd_ready_flag := 1, uart_cmd_index := 0 } := by
  obtain ⟨k1, _, _, k4, k5, _⟩ := read_some u h b t hq
  have hd2 := (is_delimiter_iff b).mp hd
  have hn1 : ¬ ((b : Int) = -1) := by omega
  have hc : (b : Int) = 13 ∨ (b : Int) = 10 := by omega
  have hz : (uart_ReadByte u).2.uart_cmd_index > 0 := by rw [k5]; exact hi
  rw [process_loop]
  simp only [k1, hn1, if_false, hc, if_true, hz, k4, k5]
  exact if_pos hi

/-- The loop on a byte of a line with room in the command buffer: the byte is stored and
the index advances. -/
theorem process_loop_store (f : Nat) (u : Uart) (b : Nat) (t : List Nat) (h : ring_ok u)
    (hq : buffered u = b :: t) (hd : is_delimiter b = false) (hi : u.uart_cmd_index < 31) :
    process_loop (f + 1) u =
      process_loop f { (uart_ReadByte u).2 with
        uart_cmd_buffer := u.uart_cmd_buffer.set u.uart_cmd_index (b % 256),
        uart_cmd_index := u.uart_cmd_index + 1 } := by
  obtain ⟨k1, _, _, k4, k5, _⟩ := read_some u h b t hq
  have hd2 : ¬ (b = 13 ∨ b = 10) := by
    intro hh
    rw [(is_delimiter_iff b).mpr hh] at hd
    exact absurd hd (by decide)
  have hn1 : ¬ ((b : Int) = -1) := by omega
  have hc : ¬ ((b : Int) = 13 ∨ (b : Int) = 10) := by omega
  have hz : (uart_ReadByte u).2.uart_cmd_index < UART_CMD_BUFFER_SIZE - 1 := by
    rw [k5]; exact hi
  have hv : ((b : Int) % 256).toNat = b % 256 := by omega
  rw [process_loop]
  simp only [k1, hn1, if_false, hc, hz, if_true, k4, k5, hv]
  exact if_pos hi

theorem take_succ_set (l : List Nat) (n a : Nat) (hn : n < l.length) :
    (l.set n a).take (n + 1) = l.take n ++ [a] := by
  rw [List.set_eq_take_append_cons_drop, if_pos hn, List.take_append_eq_append_take,
    List.length_take, Nat.min_eq_left (Nat.le_of_lt hn)]
  simp

/-- Leading delimiters are skipped while nothing has been collected. -/
theorem skip_delimiters (pre : List Nat) (q : List Nat) (f : Nat) :
    ∀ u : Uart, ring_ok u → buffered u = pre ++ q → u.uart_cmd_index = 0 →
      (∀ b ∈ pre, is_delimiter b = true) →
      ∃ v : Uart, process_loop (pre.length + f) u = process_loop f v ∧ ring_ok v ∧
        buffered v = q ∧ v.uart_cmd_buffer = u.uart_cmd_buffer ∧ v.uart_cmd_index = 0 ∧
        v.uart_cmd_ready_flag = u.uart_cmd_ready_flag := by
  induction pre with
  | nil =>
    intro u h hq hi _
    exact ⟨u, by rw [List.length_nil, Nat.zero_add], h, hq, rfl, hi, rfl⟩
  | cons b t ih =>
    intro u h hq hi hall
    obtain ⟨_, k2, k3, k4, k5, k6⟩ := read_some u h b (t ++ q) hq
    have hs := process_loop_skip (t.length + f) u b (t ++ q) h hq
      (hall b (List.mem_cons_self _ _)) hi
    obtain ⟨v, e, i1, i2, i3, i4, i5⟩ := ih (uart_ReadByte u).2 k2 k3 (by rw [k5, hi])
      (fun c hc => hall c (List.mem_cons_of_mem _ hc))
    refine ⟨v, ?_, i1, i2, i3.trans k4, i4, i5.trans k6⟩
    rw [List.length_cons, Nat.add_right_comm, hs, e]

/-- The bytes of a run that fits are collected in the command buffer in order. -/
theorem collect_run (line : List Nat) (q : List Nat) (f : Nat) :
    ∀ u : Uart, ring_ok u → buffered u = line ++ q → u.uart_cmd_buffer.length = 32 →
      u.uart_cmd_index + line.length ≤ 31 → (∀ b ∈ line, is_delimiter b = false) →
      ∃ v : Uart, process_loop (line.length + f) u = process_loop f v ∧ ring_ok v ∧
        buffered v = q ∧ v.uart_cmd_buffer.length = 32 ∧
        v.uart_cmd_index = u.uart_cmd_index + line.length ∧
        v.uart_cmd_buffer.take (u.uart_cmd_index + line.length) =
          u.uart_cmd_buffer.take u.uart_cmd_index ++ line.map (fun b => b % 256) ∧
        v.uart_cmd_ready_flag = u.uart_cmd_ready_flag := by
  induction line with
  | nil =>
    intro u h hq hl _ _
    exact ⟨u, by rw [List.length_nil, Nat.zero_add], h, hq, hl, rfl, by simp, rfl⟩
  | cons b t ih =>
    intro u h hq hl hi hall
    rw [List.length_cons] at hi
    obtain ⟨_, k2, k3, _, _, k6⟩ := read_some u h b (t ++ q) hq
    have hs := process_loop_store (t.length + f) u b (t ++ q) h hq
      (hall b (List.mem_cons_self _ _)) (by omega)
    have hok : ring_ok { (uart_ReadByte u).2 with
        uart_cmd_buffer := u.uart_cmd_buffer.set u.uart_cmd_index (b % 256),
        uart_cmd_index := u.uart_cmd_index + 1 } := k2
    have hbuf : buffered { (uart_ReadByte u).2 with
        uart_cmd_buffer := u.uart_cmd_buffer.set u.uart_cmd_index (b % 256),
        uart_cmd_index := u.uart_cmd_index + 1 } = t ++ q := k3
    obtain ⟨v, e, i1, i2, i3, i4, i5, i6⟩ := ih _ hok hbuf
      (by show (u.uart_cmd_buffer.set u.uart_cmd_index (b % 256)).length = 32
          rw [List.length_set]; exact hl)
      (by show u.uart_cmd_index + 1 + t.length ≤ 31; omega)
      (fun c hc => hall c (List.mem_cons_of_mem _ hc))
    refine ⟨v, ?_, i1, i2, i3, ?_, ?_, i6.trans k6⟩
    · rw [List.length_cons, Nat.add_right_comm, hs, e]
    · rw [i4, List.length_cons]
      show u.uart_cmd_index + 1 + t.length = u.uart_cmd_index + (t.length + 1)
      omega
    · have i5b : v.uart_cmd_buffer.take (u.uart_cmd_index + 1 + t.length) =
          (u.uart_cmd_buffer.set u.uart_cmd_index (b % 256)).take (u.uart_cmd_index + 1) ++
            t.map (fun b => b % 256) := i5
      have hset : (u.uart_cmd_buffer.set u.uart_cmd_index (b % 256)).take
          (u.uart_cmd_index + 1) = u.uart_cmd_buffer.take u.uart_cmd_index ++ [b % 256] := by
        exact take_succ_set _ _ _ (by omega)
      rw [List.length_cons, List.map_cons,
        show u.uart_cmd_index + (t.length + 1) = u.uart_cmd_index + 1 + t.length by omega,
        i5b, hset, List.append_assoc]
      rfl

theorem map_mod_of_lt (l : List Nat) (h : ∀ b ∈ l, b < 256) :
    l.map (fun b => b % 256) = l := by
  induction l with
  | nil => rfl
  | cons a t ih =>
    rw [List.map_cons, ih (fun b hb => h b (List.mem_cons_of_mem _ hb)),
      Nat.mod_eq_of_lt (h a (List.mem_cons_self _ _))]

/-- The C string of a buffer whose first `n` bytes are free of NUL and are followed by
NUL. -/
theorem cstr_set_zero (l line : List Nat) (n : Nat) (hn : n < l.length)
    (ht : l.take n = line) (h0 : 0 ∉ line) : cstr (l.set n 0) = line := by
  rw [List.set_eq_take_append_cons_drop, if_pos hn, ht]
  have e := cstr_line line (l.drop (n + 1)) h0
  simp only [List.append_assoc, List.singleton_append] at e
  exact e

/-- C16: line reassembly.  From an empty command buffer with no command pending, on a
well-formed ring: when the bytes held are leading delimiters, then a non-empty run `line`
of at most 31 bytes free of delimiters and NUL, then a delimiter, one call of
`uart_process_incoming_data` returns and `uart_get_command` then returns 1 with exactly
`line`, the bytes after the delimiter staying in the ring; when the bytes held are
leading delimiters and a run that no delimiter has closed yet (possibly empty), the call
returns, empties the ring, and `uart_get_command` returns 0 and leaves the caller's
buffer alone. -/
theorem line_reassembly (u : Uart) (buffer pre line : List Nat)
    (h : ring_ok u) (hl : u.uart_cmd_buffer.length = 32) (hi : u.uart_cmd_index = 0)
    (hf : u.uart_cmd_ready_flag = 0) (hpre : ∀ b ∈ pre, is_delimiter b = true)
    (hline : ∀ b ∈ line, is_delimiter b = false ∧ b ≠ 0 ∧ b < 256)
    (h31 : line.length ≤ 31) :
    (∀ d rest, line ≠ [] → is_delimiter d = true → buffered u = pre ++ line ++ d :: rest →
      ∃ v : Uart, uart_process_incoming_data u = some v ∧
        uart_get_command v buffer = (1, line, { v with uart_cmd_ready_flag := 0 }) ∧
        buffered v = rest ∧ v.uart_cmd_index = 0) ∧
      (buffered u = pre ++ line →
        ∃ v : Uart, uart_process_incoming_data u = some v ∧
          uart_get_command v buffer = (0, buffer, v) ∧ buffered v = []) := by
  have hnd : ∀ b ∈ line, is_delimiter b = false := fun b hb => (hline b hb).1
  have h0 : 0 ∉ line := fun hm => (hline 0 hm).2.1 rfl
  have hmod : line.map (fun b => b % 256) = line :=
    map_mod_of_lt line (fun b hb => (hline b hb).2.2)
  constructor
  · intro d rest hne hd hq
    have hlen := buffered_length_lt u
    rw [hq] at hlen
    simp only [List.length_append, List.length_cons] at hlen
    have hpos : 0 < line.length := List.length_pos.mpr hne
    rw [List.append_assoc] at hq
    obtain ⟨v1, e1, a1, a2, a3, a4, a5⟩ :=
      skip_delimiters pre (line ++ d :: rest) (65 - pre.length) u h hq hi hpre
    obtain ⟨v2, e2, b1, b2, b3, b4, b5, b6⟩ :=
      collect_run line (d :: rest) (65 - pre.length - line.length) v1 a1 a2
        (by rw [a3]; exact hl) (by rw [a4]; omega) hnd
    have e3 := process_loop_complete (65 - pre.length - line.length - 1) v2 d rest b1 b2 hd
      (by rw [b4, a4]; omega)
    have hfuel1 : pre.length + (65 - pre.length) = 65 := by omega
    have hfuel2 : line.length + (65 - pre.length - line.length) = 65 - pre.length := by omega
    have hfuel3 : 65 - pre.length - line.length - 1 + 1 = 65 - pre.length - line.length := by
      omega
    rw [hfuel1] at e1
    rw [hfuel2] at e2
    rw [hfuel3] at e3
    obtain ⟨_, _, k3, _⟩ := read_some v2 b1 d rest b2
    have hcmd : cstr (v2.uart_cmd_buffer.set v2.uart_cmd_index 0) = line := by
      apply cstr_set_zero _ _ _ (by rw [b3, b4, a4]; omega) _ h0
      rw [b4, b5, a4, hmod]
      simp
    refine ⟨_, (e1.trans e2).trans e3, ?_, k3, rfl⟩
    unfold uart_get_command
    simp only [ne_eq, one_ne_zero, not_false_eq_true, if_true, hcmd]
  · intro hq
    have hlen := buffered_length_lt u
    rw [hq] at hlen
    simp only [List.length_append] at hlen
    have hq2 : buffered u = pre ++ (line ++ []) := by rw [List.append_nil]; exact hq
    obtain ⟨v1, e1, a1, a2, a3, a4, a5⟩ :=
      skip_delimiters pre (line ++ []) (65 - pre.length) u h hq2 hi hpre
    obtain ⟨v2, e2, b1, b2, b3, b4, b5, b6⟩ :=
      collect_run line [] (65 - pre.length - line.length) v1 a1 a2
        (by rw [a3]; exact hl) (by rw [a4]; omega) hnd
    have e3 := process_loop_empty (65 - pre.length - line.length - 1) v2 b1 b2
    have hfuel1 : pre.length + (65 - pre.length) = 65 := by omega
    have hfuel2 : line.length + (65 - pre.length - line.length) = 65 - pre.length := by omega
    have hfuel3 : 65 - pre.length - line.length - 1 + 1 = 65 - pre.length - line.length := by
      omega
    rw [hfuel1] at e1
    rw [hfuel2] at e2
    rw [hfuel3] at e3
    have hflag : v2.uart_cmd_ready_flag = 0 := by rw [b6, a5, hf]
    refine ⟨_, (e1.trans e2).trans e3, ?_, b2⟩
    unfold uart_get_command
    simp only [hflag, ne_eq, not_true_eq_false, if_false]

/-- Witness of C16: after the bytes CR LF "Hello" CR "ab" the command is "Hello" and "ab"
stays in the ring; after LF "Hel" there is no command. -/
theorem line_reassembly_witness :
    (∃ v : Uart, uart_process_incoming_data (received "\r\nHello\rab") = some v ∧
        uart_get_command v [] = (1, bytes "Hello", { v with uart_cmd_ready_flag := 0 }) ∧
        buffered v = bytes "ab" ∧ v.uart_cmd_index = 0) ∧
      (∃ v : Uart, uart_process_incoming_data (received "\nHel") = some v ∧
        uart_get_command v [] = (0, [], v) ∧ buffered v = []) :=
  ⟨(line_reassembly (received "\r\nHello\rab") [] [13, 10] (bytes "Hello") (by decide)
      (by decide) (by decide) (by decide) (by decide) (by decide) (by decide)).1 13
      (bytes "ab") (by decide) (by decide) (by decide),
    (line_reassembly (received "\nHel") [] [10] (bytes "Hel") (by decide) (by decide)
      (by decide) (by decide) (by decide) (by decide) (by decide)).2 (by decide)⟩

/-! ## What `uart_get_command` hands over -/

/-- C17, the code at the failing input: "Hello" CR is received and reassembled, and the
command is left pending; then "ab" arrives with no delimiter and the reassembler runs
again.  `uart_get_command` now returns "abllo", the two bytes of the unfinished line over
the pending one, where fetching at once gives "Hello". -/
theorem pending_line_overwritten_by_partial :
    fetch_at_once = some (1, bytes "Hello") ∧
      fetch_after_partial = some (1, bytes "abllo") := by
  decide

/-! ## Parsing of received lines -/

/-- C18: weekday parsing in the update session.  With the cursor on the weekday, the
received line is accepted exactly when it equals one of the seven names "Mon" .. "Sun"
byte for byte; the weekday stored is then the 1-based position of the name (Mon = 1,
.., Sun = 7) and nothing else changes; any other line, such as "wed", "3" or "Wed ", is
rejected and leaves the state, the weekday included, as it was. -/
theorem weekday_parsing (s : State) (hp : s.uart_update_param = SET_DAY) :
    ((uart_store_value s).2 ≠ 0 ↔ s.uart_rx_buffer ∈ week_names) ∧
      (∀ i, i < 7 → s.uart_rx_buffer = week_names.getD i [] →
        uart_store_value s = ({ s with temp := { s.temp with day := i + 1 } }, 1)) ∧
      (s.uart_rx_buffer ∉ week_names → uart_store_value s = (s, 0)) ∧
      bytes "wed" ∉ week_names ∧ bytes "3" ∉ week_names ∧ bytes "Wed " ∉ week_names := by
  have hnames : week_names = day_names.tail := rfl
  have hacc : ∀ i, i < 7 → s.uart_rx_buffer = week_names.getD i [] →
      uart_store_value s = ({ s with temp := { s.temp with day := i + 1 } }, 1) := by
    intro i hi hl
    have hmem : s.uart_rx_buffer ∈ day_names.tail := by
      rw [hl, ← hnames]
      have h7 : i = 0 ∨ i = 1 ∨ i = 2 ∨ i = 3 ∨ i = 4 ∨ i = 5 ∨ i = 6 := by omega
      rcases h7 with h | h | h | h | h | h | h <;> subst h <;> decide
    have ha : acceptable s.uart_update_param s.uart_rx_buffer := by
      unfold acceptable; rw [hp]; simp only [SET_DAY, if_true]; exact hmem
    rw [uart_store_value_accept s ha, hp]
    have hidx : line_value SET_DAY s.uart_rx_buffer = i + 1 := by
      rw [hl]
      have h7 : i = 0 ∨ i = 1 ∨ i = 2 ∨ i = 3 ∨ i = 4 ∨ i = 5 ∨ i = 6 := by omega
      rcases h7 with h | h | h | h | h | h | h <;> subst h <;> decide
    rw [hidx]
    rfl
  have hrej : s.uart_rx_buffer ∉ week_names → uart_store_value s = (s, 0) := by
    intro hn
    apply uart_store_value_reject
    unfold acceptable; rw [hp]; simp only [SET_DAY, if_true]
    rw [← hnames]; exact hn
  refine ⟨?_, hacc, hrej, by decide, by decide, by decide⟩
  constructor
  · intro hv
    by_contra hn
    rw [hrej hn] at hv
    exact hv rfl
  · intro hmem
    obtain ⟨i, hi, hget⟩ := List.getElem_of_mem hmem
    have hi7 : i < 7 := hi
    have hl : s.uart_rx_buffer = week_names.getD i [] := by
      rw [List.getD_eq_getElem _ _ hi]; exact hget.symm
    rw [hacc i hi7 hl]
    exact Nat.one_ne_zero

/-- Witness of C18: "Wed" is accepted and stored as weekday 3. -/
theorem weekday_parsing_witness :
    weekday_wed.uart_update_param = SET_DAY ∧ weekday_wed.uart_rx_buffer = bytes "Wed" ∧
      (uart_store_value weekday_wed).2 = 1 ∧ (uart_store_value weekday_wed).1.temp.day = 3 :=
  have h := (weekday_parsing weekday_wed rfl).2.1 2 (by decide) (by decide)
  ⟨rfl, rfl, by rw [h], by rw [h]⟩

/-- C19: numeric parsing in the update session.  With the cursor on hour, minute,
second, day of the month, month or year, the received line is accepted exactly when the
value `atoi` gives for it lies in 0..23, 0..59, 0..59, 1..31, 1..12 or 0..99
respectively; that value is then stored in the field under the cursor and nothing else
changes; otherwise the state is left as it was.  `atoi` reads an optional sign and the
leading decimal digits ("12" gives 12, "-5" gives -5, "+7x" gives 7); a line without
digits parses to 0, so "abc" is rejected for day and month and accepted, storing 0, for
hour, minute, second and year. -/
theorem numeric_parsing (s : State) (hp : s.uart_update_param ≠ SET_DAY) :
    ((uart_store_value s).2 ≠ 0 ↔
        (s.uart_update_param = SET_HOUR ∧ 0 ≤ atoi s.uart_rx_buffer ∧
          atoi s.uart_rx_buffer ≤ 23) ∨
        (s.uart_update_param = SET_MIN ∧ 0 ≤ atoi s.uart_rx_buffer ∧
          atoi s.uart_rx_buffer ≤ 59) ∨
        (s.uart_update_param = SET_SEC ∧ 0 ≤ atoi s.uart_rx_buffer ∧
          atoi s.uart_rx_buffer ≤ 59) ∨
        (s.uart_update_param = SET_DATE ∧ 1 ≤ atoi s.uart_rx_buffer ∧
          atoi s.uart_rx_buffer ≤ 31) ∨
        (s.uart_update_param = SET_MONTH ∧ 1 ≤ atoi s.uart_rx_buffer ∧
          atoi s.uart_rx_buffer ≤ 12) ∨
        (s.uart_update_param = SET_YEAR ∧ 0 ≤ atoi s.uart_rx_buffer ∧
          atoi s.uart_rx_buffer ≤ 99)) ∧
      ((uart_store_value s).2 ≠ 0 →
        uart_store_value s =
          ({ s with temp := setField s.uart_update_param (atoi s.uart_rx_buffer).toNat s.temp },
            1) ∧
        ((atoi s.uart_rx_buffer).toNat : Int) = atoi s.uart_rx_buffer) ∧
      ((uart_store_value s).2 = 0 → uart_store_value s = (s, 0)) ∧
      atoi (bytes "abc") = 0 ∧
      (∀ p, acceptable p (bytes "abc") ↔
        p = SET_HOUR ∨ p = SET_MIN ∨ p = SET_SEC ∨ p = SET_YEAR) ∧
      atoi (bytes "12") = 12 ∧ atoi (bytes "-5") = -5 ∧ atoi (bytes "+7x") = 7 := by
  have hp3 : ¬ s.uart_update_param = 3 := hp
  have hacc_iff : acceptable s.uart_update_param s.uart_rx_buffer ↔
      in_bounds s.uart_update_param (atoi s.uart_rx_buffer) := by
    unfold acceptable; simp only [hp3, if_false]
  have hbounds : in_bounds s.uart_update_param (atoi s.uart_rx_buffer) ↔
      ((s.uart_update_param = SET_HOUR ∧ 0 ≤ atoi s.uart_rx_buffer ∧
          atoi s.uart_rx_buffer ≤ 23) ∨
        (s.uart_update_param = SET_MIN ∧ 0 ≤ atoi s.uart_rx_buffer ∧
          atoi s.uart_rx_buffer ≤ 59) ∨
        (s.uart_update_param = SET_SEC ∧ 0 ≤ atoi s.uart_rx_buffer ∧
          atoi s.uart_rx_buffer ≤ 59) ∨
        (s.uart_update_param = SET_DATE ∧ 1 ≤ atoi s.uart_rx_buffer ∧
          atoi s.uart_rx_buffer ≤ 31) ∨
        (s.uart_update_param = SET_MONTH ∧ 1 ≤ atoi s.uart_rx_buffer ∧
          atoi s.uart_rx_buffer ≤ 12) ∨
        (s.uart_update_param = SET_YEAR ∧ 0 ≤ atoi s.uart_rx_buffer ∧
          atoi s.uart_rx_buffer ≤ 99)) := by
    generalize atoi s.uart_rx_buffer = v
    generalize s.uart_update_param = p
    unfold in_bounds
    simp only [SET_HOUR, SET_MIN, SET_SEC, SET_DATE, SET_MONTH, SET_YEAR]
    split
    · simp
    · simp
    · simp
    · simp
    · simp
    · simp
    · rename_i h0 h1 h2 h4 h5 h6
      simp only [false_iff]
      rintro (⟨h, _⟩ | ⟨h, _⟩ | ⟨h, _⟩ | ⟨h, _⟩ | ⟨h, _⟩ | ⟨h, _⟩)
      · exact h0 h
      · exact h1 h
      · exact h2 h
      · exact h4 h
      · exact h5 h
      · exact h6 h
  have hvalid : (uart_store_value s).2 ≠ 0 ↔ acceptable s.uart_update_param s.uart_rx_buffer := by
    by_cases ha : acceptable s.uart_update_param s.uart_rx_buffer
    · rw [uart_store_value_accept s ha]; simp [ha]
    · rw [uart_store_value_reject s ha]; simp [ha]
  refine ⟨hvalid.trans (hacc_iff.trans hbounds), ?_, ?_, by decide, ?_, by decide, by decide,
    by decide⟩
  · intro hv
    have ha := hvalid.mp hv
    have hb := hacc_iff.mp ha
    refine ⟨?_, ?_⟩
    · rw [uart_store_value_accept s ha]
      unfold line_value; simp only [hp3, if_false]
    · apply Int.toNat_of_nonneg
      rcases hbounds.mp hb with h | h | h | h | h | h <;> omega
  · intro hv
    by_cases ha : acceptable s.uart_update_param s.uart_rx_buffer
    · exact absurd hv (hvalid.mpr ha)
    · exact uart_store_value_reject s ha
  · intro p
    have h0 : atoi (bytes "abc") = 0 := by decide
    unfold acceptable
    by_cases h3 : p = 3
    · subst h3; simp only [if_true]
      constructor
      · intro h; exact absurd h (by decide)
      · intro h; rcases h with h | h | h | h <;> exact absurd h (by decide)
    · simp only [h3, if_false, h0]
      unfold in_bounds
      simp only [SET_HOUR, SET_MIN, SET_SEC, SET_YEAR]
      split
      · simp
      · simp
      · simp
      · simp
      · simp
      · simp
      · rename_i h0 h1 h2 h4 h5 h6
        simp only [false_iff]
        rintro (h | h | h | h)
        · exact h0 h
        · exact h1 h
        · exact h2 h
        · exact h6 h

/-- Witness of C19: "abc" for the day of the month parses to 0 and is rejected; the record
stays as it was. -/
theorem numeric_parsing_witness :
    date_abc.uart_update_param ≠ SET_DAY ∧ date_abc.uart_update_param = SET_DATE ∧
      (uart_store_value date_abc).2 = 0 ∧ uart_store_value date_abc = (date_abc, 0) :=
  have h := numeric_parsing date_abc (by decide)
  ⟨by decide, rfl, by decide, h.2.2.1 (by decide)⟩

/-! ## Leaving an update session -/

/-- C20: abandoning an update session does not commit.  For every state in Update,
whatever has been accepted into the temporary record, a tick that sees the mode button
released ends in ViewTime and its effects contain no register write. -/
theorem abandoned_session_not_committed (s : State)
    (hm : s.current_mode = ClockMode.MODE_UPDATE_VIA_UART)
    (h0 : s.button_count_mode = 0) (h1 : 0 < s.mode_btn_last_count) :
    (clock_fsm_run s).current_mode = ClockMode.MODE_VIEW_TIME ∧
      rtcWrites (tickEffects s) = [] := by
  have hm2 : s.current_mode ≠ ClockMode.MODE_MESSAGE_DISPLAY := by rw [hm]; decide
  have hrel : mode_released s := ⟨h0, h1⟩
  have hrun : clock_fsm_run s = dispatch (pre_dispatch s) :=
    clock_fsm_run_normal s (by omega) hm2
  obtain ⟨es, ht, _, _, hc⟩ := dispatch_summary (pre_dispatch s)
  rcases pre_dispatch_summary s hm2 with ⟨hn, _⟩ | ⟨_, hmode, _, _, _, es0, ht0, _, hw0⟩
  · exact absurd hrel hn
  · have hview : (pre_dispatch s).current_mode = ClockMode.MODE_VIEW_TIME := by
      rw [hmode, hm]; rfl
    have hnot : (pre_dispatch s).current_mode ≠ ClockMode.MODE_UPDATE_VIA_UART := by
      rw [hview]; decide
    have hes0 : rtcWrites es0 = [] := by
      rcases hw0 with ⟨h, _⟩ | ⟨_, h⟩
      · exact h
      · rw [hm] at h; exact absurd h (by decide)
    rcases hc with ⟨⟨hk, _⟩, hw⟩ | ⟨hu, _⟩ | ⟨hu, _⟩
    · refine ⟨by rw [hrun, hk, hview], ?_⟩
      have he : tickEffects s = es0 ++ es := by
        apply tickEffects_eq
        rw [hrun, ht, ht0, List.append_assoc]
      rw [he, rtcWrites_append, hes0, hw]
      rfl
    · exact absurd hu hnot
    · exact absurd hu hnot

/-- Witness of C20: a session that has accepted 10:21:00 and waits for the weekday is
left by a short press; nothing is written. -/
theorem abandoned_session_not_committed_witness :
    update_released.current_mode = ClockMode.MODE_UPDATE_VIA_UART ∧
      update_released.temp.hour = 10 ∧ update_released.button_count_mode = 0 ∧
      0 < update_released.mode_btn_last_count ∧
      (clock_fsm_run update_released).current_mode = ClockMode.MODE_VIEW_TIME ∧
      rtcWrites (tickEffects update_released) = [] :=
  have h := abandoned_session_not_committed update_released (by decide) (by decide)
    (by decide)
  ⟨by decide, by decide, by decide, by decide, h.1, h.2⟩

/-! ## Leaving SetTime and entering the editors -/

/-- C21: leaving SetTime commits unconditionally.  For every state in SetTime, whatever
the temporary record holds, a tick that sees the mode button released writes the seven
values of the record as they stand at the start of the tick, each to its own register
(hour, minute, second, weekday, date, month, year), writes nothing else, and ends in
SetAlarm. -/
theorem leaving_set_time_commits (s : State)
    (hm : s.current_mode = ClockMode.MODE_SET_TIME)
    (h0 : s.button_count_mode = 0) (h1 : 0 < s.mode_btn_last_count) :
    rtcWrites (tickEffects s) = commitWrites s.temp ∧
      (clock_fsm_run s).current_mode = ClockMode.MODE_SET_ALARM := by
  have hm2 : s.current_mode ≠ ClockMode.MODE_MESSAGE_DISPLAY := by rw [hm]; decide
  have hrel : mode_released s := ⟨h0, h1⟩
  have hrun : clock_fsm_run s = dispatch (pre_dispatch s) :=
    clock_fsm_run_normal s (by omega) hm2
  obtain ⟨es, ht, _, _, hc⟩ := dispatch_summary (pre_dispatch s)
  rcases pre_dispatch_summary s hm2 with ⟨hn, _⟩ | ⟨_, hmode, _, _, _, es0, ht0, _, hw0⟩
  · exact absurd hrel hn
  · have hnext : (pre_dispatch s).current_mode = ClockMode.MODE_SET_ALARM := by
      rw [hmode, hm]; rfl
    have hnot : (pre_dispatch s).current_mode ≠ ClockMode.MODE_UPDATE_VIA_UART := by
      rw [hnext]; decide
    have hes0 : rtcWrites es0 = commitWrites s.temp := by
      rcases hw0 with ⟨_, h⟩ | ⟨h, _⟩
      · exact absurd hm h
      · exact h
    rcases hc with ⟨⟨hk, _⟩, hw⟩ | ⟨hu, _⟩ | ⟨hu, _⟩
    · refine ⟨?_, by rw [hrun, hk, hnext]⟩
      have he : tickEffects s = es0 ++ es := by
        apply tickEffects_eq
        rw [hrun, ht, ht0, List.append_assoc]
      rw [he, rtcWrites_append, hes0, hw, List.append_nil]
    · exact absurd hu hnot
    · exact absurd hu hnot

/-- Witness of C21: a record with hour 99, weekday 0 and 31 February is written as it
stands. -/
theorem leaving_set_time_commits_witness :
    set_time_released.current_mode = ClockMode.MODE_SET_TIME ∧
      set_time_released.temp = ⟨99, 21, 0, 0, 31, 2, 25⟩ ∧
      rtcWrites (tickEffects set_time_released) =
        [(RtcAddr.ADDRESS_HOUR, 99), (RtcAddr.ADDRESS_MIN, 21), (RtcAddr.ADDRESS_SEC, 0),
         (RtcAddr.ADDRESS_DAY, 0), (RtcAddr.ADDRESS_DATE, 31), (RtcAddr.ADDRESS_MONTH, 2),
         (RtcAddr.ADDRESS_YEAR, 25)] ∧
      (clock_fsm_run set_time_released).current_mode = ClockMode.MODE_SET_ALARM :=
  have h := leaving_set_time_commits set_time_released rfl rfl (by decide)
  ⟨rfl, rfl, h.1, h.2⟩

theorem handle_mode_switch_message (s : State)
    (h : s.current_mode = ClockMode.MODE_MESSAGE_DISPLAY) :
    handle_mode_switch s =
      { s with alarm_triggered := 0, current_mode := ClockMode.MODE_SET_TIME,
               ds3231 := s.rtc_now, temp := s.rtc_now, set_time_param := SET_HOUR,
               trace := s.trace ++ [Effect.rtcRead] } := by
  by_cases ha : s.alarm_triggered = 0 <;>
    simp [handle_mode_switch, h, ha, modeToNat, modeOfNat, ds3231_ReadTime, emit]

/-- C22: mode-entry initialisation.  Whenever `handle_mode_switch` ends in SetTime, the
temporary record equals the reading of the RTC and the SetTime cursor is Hour; whenever
it ends in Update, the temporary record equals the reading of the RTC and the session is
reset to cursor Hour, no request outstanding, no attempt used and 200 ticks of timeout,
whatever the state held before.  It ends in SetTime when called in ViewTime and in Update
when called in SetAlarm. -/
theorem mode_entry_initialises (s : State) :
    ((handle_mode_switch s).current_mode = ClockMode.MODE_SET_TIME →
        (handle_mode_switch s).temp = s.rtc_now ∧
        (handle_mode_switch s).set_time_param = SET_HOUR) ∧
      ((handle_mode_switch s).current_mode = ClockMode.MODE_UPDATE_VIA_UART →
        (handle_mode_switch s).temp = s.rtc_now ∧
        (handle_mode_switch s).uart_update_param = SET_HOUR ∧
        (handle_mode_switch s).uart_data_requested = 0 ∧
        (handle_mode_switch s).uart_retry_count = 0 ∧
        (handle_mode_switch s).uart_timeout_counter = 200) ∧
      (s.current_mode = ClockMode.MODE_VIEW_TIME →
        (handle_mode_switch s).current_mode = ClockMode.MODE_SET_TIME) ∧
      (s.current_mode = ClockMode.MODE_SET_ALARM →
        (handle_mode_switch s).current_mode = ClockMode.MODE_UPDATE_VIA_UART) := by
  cases hm : s.current_mode with
  | MODE_VIEW_TIME =>
    have hres := handle_mode_switch_view s hm
    have hmode : (handle_mode_switch s).current_mode = ClockMode.MODE_SET_TIME := by rw [hres]
    refine ⟨fun _ => ⟨by rw [hres], by rw [hres]⟩, fun h => ?_, fun _ => hmode, fun h => ?_⟩
    · rw [hmode] at h; exact absurd h (by decide)
    · exact absurd h (by decide)
  | MODE_SET_TIME =>
    have hres := handle_mode_switch_set_time s hm
    have hmode : (handle_mode_switch s).current_mode = ClockMode.MODE_SET_ALARM := by rw [hres]
    refine ⟨fun h => ?_, fun h => ?_, fun h => ?_, fun h => ?_⟩
    · rw [hmode] at h; exact absurd h (by decide)
    · rw [hmode] at h; exact absurd h (by decide)
    · exact absurd h (by decide)
    · exact absurd h (by decide)
  | MODE_SET_ALARM =>
    have hres := handle_mode_switch_set_alarm s hm
    have hmode : (handle_mode_switch s).current_mode = ClockMode.MODE_UPDATE_VIA_UART := by
      rw [hres]
    refine ⟨fun h => ?_, fun _ => ⟨by rw [hres], by rw [hres], by rw [hres], by rw [hres],
      by rw [hres]⟩, fun h => ?_, fun _ => hmode⟩
    · rw [hmode] at h; exact absurd h (by decide)
    · exact absurd h (by decide)
  | MODE_UPDATE_VIA_UART =>
    have hres := handle_mode_switch_update s hm
    have hmode : (handle_mode_switch s).current_mode = ClockMode.MODE_VIEW_TIME := by rw [hres]
    refine ⟨fun h => ?_, fun h => ?_, fun h => ?_, fun h => ?_⟩
    · rw [hmode] at h; exact absurd h (by decide)
    · rw [hmode] at h; exact absurd h (by decide)
    · exact absurd h (by decide)
    · exact absurd h (by decide)
  | MODE_MESSAGE_DISPLAY =>
    have hres := handle_mode_switch_message s hm
    have hmode : (handle_mode_switch s).current_mode = ClockMode.MODE_SET_TIME := by rw [hres]
    refine ⟨fun _ => ⟨by rw [hres], by rw [hres]⟩, fun h => ?_, fun h => ?_, fun h => ?_⟩
    · rw [hmode] at h; exact absurd h (by decide)
    · exact absurd h (by decide)
    · exact absurd h (by decide)

/-! ## Single ticks of the update session -/

/-- C27: retry exhaustion aborts without touching the RTC.  For every state in Update
with no request outstanding and three or more attempts used, whatever the temporary
record holds, a tick dispatched in Update (no reset, no release of the mode button) sends
only the failure notice: no prompt, no register write; the temporary record is unchanged
and the tick ends in Message with the payload "UART Timeout!". -/
theorem retry_exhaustion_aborts (s : State)
    (hm : s.current_mode = ClockMode.MODE_UPDATE_VIA_UART) (hb : s.button_count_mode ≤ 60)
    (hr : ¬ mode_released s) (hq : s.uart_data_requested = 0)
    (h3 : UART_MAX_RETRIES ≤ s.uart_retry_count) :
    tickEffects s =
        [Effect.uartSend (bytes "\r\nERROR: No response after 3 tries. Exiting.\r\n")] ∧
      prompts (tickEffects s) = [] ∧ rtcWrites (tickEffects s) = [] ∧
      (clock_fsm_run s).temp = s.temp ∧
      (clock_fsm_run s).current_mode = ClockMode.MODE_MESSAGE_DISPLAY ∧
      (clock_fsm_run s).message_buffer = bytes "UART Timeout!" := by
  have hrun := clock_fsm_run_update s hm hb hr
  have hab := handle_uart_update_mode_abort (tick_prologue s.button_count_mode s) hq h3
  rw [hab] at hrun
  have he : tickEffects s =
      [Effect.uartSend (bytes "\r\nERROR: No response after 3 tries. Exiting.\r\n")] := by
    apply tickEffects_eq
    rw [hrun]
    rfl
  rw [he, hrun]
  exact ⟨rfl, rfl, rfl, rfl, rfl, rfl⟩

/-- Witness of C27: the session on the hour with its three attempts used. -/
theorem retry_exhaustion_aborts_witness :
    retries_spent.current_mode = ClockMode.MODE_UPDATE_VIA_UART ∧
      retries_spent.uart_retry_count = 3 ∧
      rtcWrites (tickEffects retries_spent) = [] ∧
      (clock_fsm_run retries_spent).current_mode = ClockMode.MODE_MESSAGE_DISPLAY :=
  have h := retry_exhaustion_aborts retries_spent rfl (by decide) (by decide) rfl (by decide)
  ⟨rfl, rfl, h.2.2.1, h.2.2.2.2.1⟩

/-- C28: accepting a valid response.  In Update with a request outstanding, when a line
that is acceptable for the field under the cursor is pending, a tick dispatched in Update
stores the value of the line in that field and leaves the other fields of the temporary
record alone, advances the cursor by one, sets the attempts used to 0 and clears the
awaiting flag; registers are written in that tick exactly when the field was the year,
and then they are the seven writes of the commit of the stored record. -/
theorem valid_response_accepted (s : State)
    (hm : s.current_mode = ClockMode.MODE_UPDATE_VIA_UART) (hb : s.button_count_mode ≤ 60)
    (hr : ¬ mode_released s) (hq : s.uart_data_requested ≠ 0)
    (hf : s.uart.uart_cmd_ready_flag ≠ 0)
    (ha : acceptable s.uart_update_param (cstr s.uart.uart_cmd_buffer)) :
    (clock_fsm_run s).temp =
        setField s.uart_update_param
          (line_value s.uart_update_param (cstr s.uart.uart_cmd_buffer)) s.temp ∧
      (clock_fsm_run s).uart_update_param = s.uart_update_param + 1 ∧
      (clock_fsm_run s).uart_retry_count = 0 ∧
      (clock_fsm_run s).uart_data_requested = 0 ∧
      (rtcWrites (tickEffects s) ≠ [] ↔ s.uart_update_param = SET_YEAR) ∧
      (s.uart_update_param = SET_YEAR →
        rtcWrites (tickEffects s) = commitWrites (clock_fsm_run s).temp) ∧
      (s.uart_update_param ≠ SET_YEAR →
        (clock_fsm_run s).current_mode = ClockMode.MODE_UPDATE_VIA_UART) := by
  have hrun := clock_fsm_run_update s hm hb hr
  rw [handle_uart_update_mode_waiting (tick_prologue s.button_count_mode s) hq] at hrun
  have hle := acceptable_le _ _ ha
  by_cases hp : s.uart_update_param < 6
  · have hacc := uart_check_command_accept (tick_prologue s.button_count_mode s) hf ha hp
    rw [hacc] at hrun
    have he : tickEffects s =
        Effect.uartStop :: echoSends (cstr s.uart.uart_cmd_buffer) := by
      apply tickEffects_eq
      rw [hrun]
      show (s.trace ++ [Effect.uartStop]) ++ echoSends (cstr s.uart.uart_cmd_buffer) = _
      rw [List.append_assoc]; rfl
    have hne : s.uart_update_param ≠ SET_YEAR := by simp only [SET_YEAR]; omega
    rw [he, hrun]
    refine ⟨rfl, rfl, rfl, rfl, ?_, fun h => absurd h hne, fun _ => hm⟩
    constructor
    · intro h; exact absurd rfl h
    · intro h; exact absurd h hne
  · have h6 : 6 ≤ s.uart_update_param := by omega
    have hcom := uart_check_command_commit (tick_prologue s.button_count_mode s) hf ha h6
    rw [hcom] at hrun
    have he : tickEffects s =
        Effect.uartStop :: (echoSends (cstr s.uart.uart_cmd_buffer) ++
          commitEffects (stored_temp (tick_prologue s.button_count_mode s))) := by
      apply tickEffects_eq
      rw [hrun]
      show (s.trace ++ [Effect.uartStop]) ++ echoSends (cstr s.uart.uart_cmd_buffer) ++
        commitEffects (stored_temp (tick_prologue s.button_count_mode s)) = _
      rw [List.append_assoc, List.append_assoc]; rfl
    have heq : s.uart_update_param = SET_YEAR := by simp only [SET_YEAR]; omega
    rw [he, hrun]
    refine ⟨rfl, rfl, rfl, rfl, ?_, fun _ => rfl, fun h => absurd heq h⟩
    constructor
    · intro _; exact heq
    · intro _ h; exact absurd h (by simp [rtcWrites, echoSends, commitEffects])

/-- Witness of C28: "10" for the hour is stored and nothing is written; "25" for the year
is stored and the record is committed. -/
theorem valid_response_accepted_witness :
    (clock_fsm_run hour_pending).temp.hour = 10 ∧
      (clock_fsm_run hour_pending).uart_update_param = SET_MIN ∧
      rtcWrites (tickEffects hour_pending) = [] ∧
      (clock_fsm_run year_pending).temp = ⟨10, 21, 0, 3, 5, 11, 25⟩ ∧
      rtcWrites (tickEffects year_pending) = commitWrites ⟨10, 21, 0, 3, 5, 11, 25⟩ :=
  have h1 := valid_response_accepted hour_pending rfl (by decide) (by decide) (by decide)
    (by decide) (by decide)
  have h2 := valid_response_accepted year_pending rfl (by decide) (by decide) (by decide)
    (by decide) (by decide)
  have e2 : (clock_fsm_run year_pending).temp = ⟨10, 21, 0, 3, 5, 11, 25⟩ :=
    h2.1.trans (by decide)
  ⟨by rw [h1.1]; decide, h1.2.1, by
      by_contra hne
      exact absurd (h1.2.2.2.2.1.mp hne) (by decide), e2, by
      rw [h2.2.2.2.2.2.1 rfl, e2]⟩

/-! ## What each handler leaves alone -/

theorem kept_increment_setting (s : State) : kept (increment_setting s) = kept s := by
  unfold increment_setting; split <;> rfl

theorem kept_decrement_setting (s : State) : kept (decrement_setting s) = kept s := by
  unfold decrement_setting; split <;> rfl

theorem proj_on_button {α : Type} (g : State → α) (count : Nat) (f : State → State)
    (hf : ∀ s, g (f s) = g s) (s : State) : g (on_button count f s) = g s := by
  unfold on_button; split_ifs <;> first | rfl | exact hf s

theorem kept_handle_view_time_mode (s : State) : kept (handle_view_time_mode s) = kept s := by
  simp only [handle_view_time_mode]
  split_ifs <;> rfl

/-- The set-time handler touches, of these variables, only its own cursor, which stays
within Hour..Year. -/
theorem handle_set_time_mode_keeps (s : State) :
    alarm_config (handle_set_time_mode s) = alarm_config s ∧
      blink (handle_set_time_mode s) = blink s ∧
      (handle_set_time_mode s).set_alarm_param = s.set_alarm_param ∧
      (s.set_time_param ≤ 6 → (handle_set_time_mode s).set_time_param ≤ 6) := by
  have h1 := proj_on_button kept s.button_count_up increment_setting kept_increment_setting s
  have h2 := proj_on_button kept
    (on_button s.button_count_up increment_setting s).button_count_down decrement_setting
    kept_decrement_setting (on_button s.button_count_up increment_setting s)
  have h := h2.trans h1
  simp only [handle_set_time_mode]
  generalize on_button (on_button s.button_count_up increment_setting s).button_count_down
    decrement_setting (on_button s.button_count_up increment_setting s) = x at h ⊢
  have ha : alarm_config x = alarm_config s := congrArg Prod.fst h
  have hb : blink x = blink s := congrArg (fun p => p.2.1) h
  have hc : x.set_time_param = s.set_time_param := congrArg (fun p => p.2.2.1) h
  have hd : x.set_alarm_param = s.set_alarm_param := congrArg (fun p => p.2.2.2) h
  split_ifs with hs hw
  · exact ⟨ha, hb, hd, fun _ => Nat.zero_le 6⟩
  · refine ⟨ha, hb, hd, fun _ => ?_⟩
    show x.set_time_param + 1 ≤ 6
    simp only [SET_YEAR] at hw
    omega
  · exact ⟨ha, hb, hd, fun hh => by rw [hc]; exact hh⟩

theorem blink_cursor_increment_alarm_setting (s : State) :
    (blink (increment_alarm_setting s), edit_cursors (increment_alarm_setting s)) =
      (blink s, edit_cursors s) := by
  unfold increment_alarm_setting; split <;> rfl

theorem blink_cursor_decrement_alarm_setting (s : State) :
    (blink (decrement_alarm_setting s), edit_cursors (decrement_alarm_setting s)) =
      (blink s, edit_cursors s) := by
  unfold decrement_alarm_setting; split <;> rfl

/-- The set-alarm handler leaves the blink and the set-time cursor alone, and its own
cursor stays within its three values. -/
theorem handle_set_alarm_mode_keeps (s : State) :
    blink (handle_set_alarm_mode s) = blink s ∧
      (handle_set_alarm_mode s).set_time_param = s.set_time_param ∧
      (s.set_alarm_param ≤ 2 → (handle_set_alarm_mode s).set_alarm_param ≤ 2) := by
  have h0 : (blink (ds3231_ReadTime s), edit_cursors (ds3231_ReadTime s)) =
      (blink s, edit_cursors s) := rfl
  have h1 := proj_on_button (fun s => (blink s, edit_cursors s))
    (ds3231_ReadTime s).button_count_up increment_alarm_setting
    blink_cursor_increment_alarm_setting (ds3231_ReadTime s)
  have h2 := proj_on_button (fun s => (blink s, edit_cursors s))
    (on_button (ds3231_ReadTime s).button_count_up increment_alarm_setting
      (ds3231_ReadTime s)).button_count_down decrement_alarm_setting
    blink_cursor_decrement_alarm_setting
    (on_button (ds3231_ReadTime s).button_count_up increment_alarm_setting (ds3231_ReadTime s))
  have h := h2.trans (h1.trans h0)
  simp only [handle_set_alarm_mode]
  generalize on_button (on_button (ds3231_ReadTime s).button_count_up increment_alarm_setting
      (ds3231_ReadTime s)).button_count_down decrement_alarm_setting
    (on_button (ds3231_ReadTime s).button_count_up increment_alarm_setting
      (ds3231_ReadTime s)) = x at h ⊢
  have hb : blink x = blink s := congrArg Prod.fst h
  have hc : x.set_time_param = s.set_time_param := congrArg (fun p => p.2.1) h
  have hd : x.set_alarm_param = s.set_alarm_param := congrArg (fun p => p.2.2) h
  split_ifs
  · refine ⟨hb, hc, fun _ => ?_⟩
    show (x.set_alarm_param + 1) % 3 ≤ 2
    omega
  · exact ⟨hb, hc, fun hh => by rw [hd]; exact hh⟩

/-- The command poll leaves alarm, blink and the local cursors alone; the cursor of the
session advances by at most one, and only off Year when the mode becomes Message. -/
theorem uart_check_command_keeps (m : State) :
    kept (uart_check_command m) = kept m ∧
      (m.uart_update_param ≤ 6 → (uart_check_command m).uart_update_param ≤ 7) ∧
      (m.uart_update_param ≤ 6 → m.current_mode = ClockMode.MODE_UPDATE_VIA_UART →
        (uart_check_command m).current_mode = ClockMode.MODE_UPDATE_VIA_UART →
        (uart_check_command m).uart_update_param ≤ 6) := by
  rcases uart_check_command_cases m with ⟨_, _, h⟩ | ⟨_, _, h⟩ | ⟨_, _, h⟩ | ⟨_, _, hp, h⟩ |
    ⟨_, _, hp, h⟩ <;> rw [h]
  · exact ⟨rfl, fun hh => Nat.le_succ_of_le hh, fun hh _ _ => hh⟩
  · exact ⟨rfl, fun hh => Nat.le_succ_of_le hh, fun hh _ _ => hh⟩
  · exact ⟨rfl, fun hh => Nat.le_succ_of_le hh, fun hh _ _ => hh⟩
  · refine ⟨rfl, fun _ => ?_, fun _ _ _ => ?_⟩
    · show m.uart_update_param + 1 ≤ 7
      omega
    · show m.uart_update_param + 1 ≤ 6
      omega
  · refine ⟨rfl, fun _ => ?_, fun _ _ hh => ?_⟩
    · show m.uart_update_param + 1 ≤ 7
      omega
    · have hmsg : (after_commit m).current_mode = ClockMode.MODE_MESSAGE_DISPLAY := rfl
      rw [hmsg] at hh
      exact absurd hh (by decide)

theorem handle_uart_update_mode_keeps (s : State) :
    kept (handle_uart_update_mode s) = kept s ∧
      (s.uart_update_param ≤ 6 → (handle_uart_update_mode s).uart_update_param ≤ 7) ∧
      (s.uart_update_param ≤ 6 → s.current_mode = ClockMode.MODE_UPDATE_VIA_UART →
        (handle_uart_update_mode s).current_mode = ClockMode.MODE_UPDATE_VIA_UART →
        (handle_uart_update_mode s).uart_update_param ≤ 6) := by
  rcases handle_uart_update_mode_cases s with ⟨_, _, h⟩ | ⟨_, _, h⟩ | ⟨_, h⟩ <;> rw [h]
  · exact ⟨rfl, fun hh => Nat.le_succ_of_le hh, fun hh _ _ => hh⟩
  · obtain ⟨k1, k2, k3⟩ := uart_check_command_keeps (after_request s)
    exact ⟨k1, k2, k3⟩
  · exact uart_check_command_keeps s

/-- The mode switch leaves alarm configuration and blink alone; a cursor is either left
as it was or set to its first value, and on entering Update the session cursor is Hour. -/
theorem handle_mode_switch_keeps (s : State) :
    alarm_config (handle_mode_switch s) = alarm_config s ∧
      blink (handle_mode_switch s) = blink s ∧
      ((handle_mode_switch s).set_time_param = s.set_time_param ∨
        (handle_mode_switch s).set_time_param = 0) ∧
      ((handle_mode_switch s).set_alarm_param = s.set_alarm_param ∨
        (handle_mode_switch s).set_alarm_param = 0) ∧
      ((handle_mode_switch s).uart_update_param = s.uart_update_param ∨
        (handle_mode_switch s).uart_update_param = 0) ∧
      ((handle_mode_switch s).current_mode = ClockMode.MODE_UPDATE_VIA_UART →
        (handle_mode_switch s).uart_update_param = 0) := by
  cases hm : s.current_mode with
  | MODE_VIEW_TIME =>
    rw [handle_mode_switch_view s hm]
    exact ⟨rfl, rfl, Or.inr rfl, Or.inl rfl, Or.inl rfl, fun h => absurd h (by simp)⟩
  | MODE_SET_TIME =>
    rw [handle_mode_switch_set_time s hm]
    exact ⟨rfl, rfl, Or.inl rfl, Or.inr rfl, Or.inl rfl, fun h => absurd h (by simp)⟩
  | MODE_SET_ALARM =>
    rw [handle_mode_switch_set_alarm s hm]
    exact ⟨rfl, rfl, Or.inl rfl, Or.inl rfl, Or.inr rfl, fun _ => rfl⟩
  | MODE_UPDATE_VIA_UART =>
    rw [handle_mode_switch_update s hm]
    exact ⟨rfl, rfl, Or.inl rfl, Or.inl rfl, Or.inl rfl, fun h => absurd h (by simp)⟩
  | MODE_MESSAGE_DISPLAY =>
    rw [handle_mode_switch_message s hm]
    exact ⟨rfl, rfl, Or.inr rfl, Or.inl rfl, Or.inl rfl, fun h => absurd h (by simp)⟩

theorem handle_message_display_mode_keeps (s : State) :
    kept (handle_message_display_mode s) = kept s ∧
      (handle_message_display_mode s).uart_update_param = s.uart_update_param ∧
      ((handle_message_display_mode s).current_mode = s.current_mode ∨
        (handle_message_display_mode s).current_mode = ClockMode.MODE_VIEW_TIME) := by
  unfold handle_message_display_mode
  split_ifs
  · exact ⟨rfl, rfl, Or.inl rfl⟩
  · exact ⟨rfl, rfl, Or.inr rfl⟩

/-! ## What a tick leaves alone -/

theorem dispatch_keeps (x : State) :
    blink (dispatch x) = blink x ∧
      (x.current_mode ≠ ClockMode.MODE_SET_ALARM →
        alarm_config (dispatch x) = alarm_config x) ∧
      (CursorsOk x → CursorsOk (dispatch x)) := by
  cases hm : x.current_mode with
  | MODE_VIEW_TIME =>
    have hd : dispatch x = handle_view_time_mode x := by unfold dispatch; rw [hm]
    have hk := kept_handle_view_time_mode x
    have he := eraseEdit_handle_view_time_mode x
    rw [hd]
    refine ⟨congrArg (fun p => p.2.1) hk, fun _ => congrArg Prod.fst hk, fun hc => ?_⟩
    have h1 : (handle_view_time_mode x).set_time_param = x.set_time_param :=
      congrArg (fun p => p.2.2.1) hk
    have h2 : (handle_view_time_mode x).set_alarm_param = x.set_alarm_param :=
      congrArg (fun p => p.2.2.2) hk
    have h3 : (handle_view_time_mode x).uart_update_param = x.uart_update_param := by
      have e := congrArg (fun y : State => y.uart_update_param) he; exact e
    have h4 := mode_of_eraseEdit _ _ he
    exact ⟨by rw [h1]; exact hc.set_time, by rw [h2]; exact hc.set_alarm,
      by rw [h3]; exact hc.update, fun hu => by rw [h3]; exact hc.in_update (h4 ▸ hu)⟩
  | MODE_SET_TIME =>
    have hd : dispatch x = handle_set_time_mode x := by unfold dispatch; rw [hm]
    obtain ⟨k1, k2, k3, k4⟩ := handle_set_time_mode_keeps x
    have he := eraseEdit_handle_set_time_mode x
    rw [hd]
    refine ⟨k2, fun _ => k1, fun hc => ?_⟩
    have h3 : (handle_set_time_mode x).uart_update_param = x.uart_update_param := by
      have e := congrArg (fun y : State => y.uart_update_param) he; exact e
    have h4 := mode_of_eraseEdit _ _ he
    exact ⟨k4 hc.set_time, by rw [k3]; exact hc.set_alarm,
      by rw [h3]; exact hc.update, fun hu => by rw [h3]; exact hc.in_update (h4 ▸ hu)⟩
  | MODE_SET_ALARM =>
    have hd : dispatch x = handle_set_alarm_mode x := by unfold dispatch; rw [hm]
    obtain ⟨k1, k2, k3⟩ := handle_set_alarm_mode_keeps x
    have he := eraseEdit_handle_set_alarm_mode x
    rw [hd]
    refine ⟨k1, fun h => absurd rfl h, fun hc => ?_⟩
    have h3 : (handle_set_alarm_mode x).uart_update_param = x.uart_update_param := by
      have e := congrArg (fun y : State => y.uart_update_param) he; exact e
    have h4 := mode_of_eraseEdit _ _ he
    exact ⟨by rw [k2]; exact hc.set_time, k3 hc.set_alarm,
      by rw [h3]; exact hc.update, fun hu => by rw [h3]; exact hc.in_update (h4 ▸ hu)⟩
  | MODE_UPDATE_VIA_UART =>
    have hd : dispatch x = handle_uart_update_mode x := dispatch_update x hm
    obtain ⟨k1, k2, k3⟩ := handle_uart_update_mode_keeps x
    rw [hd]
    refine ⟨congrArg (fun p => p.2.1) k1, fun _ => congrArg Prod.fst k1, fun hc => ?_⟩
    have h1 : (handle_uart_update_mode x).set_time_param = x.set_time_param :=
      congrArg (fun p => p.2.2.1) k1
    have h2 : (handle_uart_update_mode x).set_alarm_param = x.set_alarm_param :=
      congrArg (fun p => p.2.2.2) k1
    have hp := hc.in_update hm
    exact ⟨by rw [h1]; exact hc.set_time, by rw [h2]; exact hc.set_alarm, k2 hp,
      fun hu => k3 hp hm hu⟩
  | MODE_MESSAGE_DISPLAY =>
    have hd : dispatch x = x := by unfold dispatch; rw [hm]
    rw [hd]
    exact ⟨rfl, fun _ => rfl, fun hc => hc⟩

theorem cursors_ok_of_fields (a b : State) (h1 : a.set_time_param = b.set_time_param)
    (h2 : a.set_alarm_param = b.set_alarm_param)
    (h3 : a.uart_update_param = b.uart_update_param)
    (h4 : a.current_mode = ClockMode.MODE_UPDATE_VIA_UART →
      b.current_mode = ClockMode.MODE_UPDATE_VIA_UART)
    (hc : CursorsOk b) : CursorsOk a :=
  ⟨by rw [h1]; exact hc.set_time, by rw [h2]; exact hc.set_alarm, by rw [h3]; exact hc.update,
    fun hu => by rw [h3]; exact hc.in_update (h4 hu)⟩

theorem tick_prologue_keeps (c : Nat) (x : State) :
    alarm_config (tick_prologue c x) = alarm_config x ∧
      blink (tick_prologue c x) =
        ((x.blink_counter + 1) % 10, if (x.blink_counter + 1) % 10 < 5 then 1 else 0) ∧
      (CursorsOk x → CursorsOk (tick_prologue c x)) :=
  ⟨rfl, rfl, fun hc => cursors_ok_of_fields _ x rfl rfl rfl (fun h => h) hc⟩

theorem cursors_ok_handle_mode_switch (s : State) (hc : CursorsOk s) :
    CursorsOk (handle_mode_switch s) := by
  obtain ⟨_, _, k3, k4, k5, k6⟩ := handle_mode_switch_keeps s
  obtain ⟨c1, c2, c3, _⟩ := hc
  simp only [SET_YEAR] at c1 c3
  generalize handle_mode_switch s = x at *
  refine ⟨?_, ?_, ?_, fun hu => ?_⟩
  · simp only [SET_YEAR]; rcases k3 with e | e <;> rw [e] <;> omega
  · rcases k4 with e | e <;> rw [e] <;> omega
  · simp only [SET_YEAR]; rcases k5 with e | e <;> rw [e] <;> omega
  · simp only [SET_YEAR]; rw [k6 hu]; omega

theorem pre_dispatch_keeps (s : State) :
    alarm_config (pre_dispatch s) = alarm_config s ∧
      blink (pre_dispatch s) =
        ((s.blink_counter + 1) % 10, if (s.blink_counter + 1) % 10 < 5 then 1 else 0) ∧
      (CursorsOk s → CursorsOk (pre_dispatch s)) := by
  unfold pre_dispatch
  by_cases hr : mode_released s
  · rw [if_pos hr]
    obtain ⟨k1, k2, _⟩ := handle_mode_switch_keeps s
    have hcs := cursors_ok_handle_mode_switch s
    obtain ⟨p1, p2, p3⟩ := tick_prologue_keeps s.button_count_mode (handle_mode_switch s)
    have e1 : (handle_mode_switch s).blink_counter = s.blink_counter := congrArg Prod.fst k2
    generalize handle_mode_switch s = x at *
    refine ⟨p1.trans k1, ?_, fun hc => p3 (hcs hc)⟩
    rw [p2, e1]
  · rw [if_neg hr]
    exact tick_prologue_keeps s.button_count_mode s

/-- A tick that is neither a reset nor spent in the message display advances the blink
counter by one modulo 10 and sets the flag from the new counter. -/
theorem blink_normal_tick (s : State) (hb : s.button_count_mode ≤ 60)
    (hm : s.current_mode ≠ ClockMode.MODE_MESSAGE_DISPLAY) :
    (clock_fsm_run s).blink_counter = (s.blink_counter + 1) % 10 ∧
      (clock_fsm_run s).blink_flag = if (s.blink_counter + 1) % 10 < 5 then 1 else 0 := by
  have hrun : clock_fsm_run s = dispatch (pre_dispatch s) := clock_fsm_run_normal s hb hm
  have h := (dispatch_keeps (pre_dispatch s)).1.trans (pre_dispatch_keeps s).2.1
  rw [← hrun] at h
  exact ⟨congrArg Prod.fst h, congrArg Prod.snd h⟩

theorem cursors_ok_message (y : State)
    (hm : y.current_mode = ClockMode.MODE_MESSAGE_DISPLAY ∨
      y.current_mode = ClockMode.MODE_VIEW_TIME) (hc : CursorsOk y) :
    CursorsOk (handle_message_display_mode y) := by
  obtain ⟨k1, k2, k3⟩ := handle_message_display_mode_keeps y
  have e1 : (handle_message_display_mode y).set_time_param = y.set_time_param :=
    congrArg (fun p => p.2.2.1) k1
  have e2 : (handle_message_display_mode y).set_alarm_param = y.set_alarm_param :=
    congrArg (fun p => p.2.2.2) k1
  refine cursors_ok_of_fields _ y e1 e2 k2 (fun hu => ?_) hc
  rcases k3 with e | e
  · rw [e] at hu
    rcases hm with h | h <;> rw [h] at hu <;> exact absurd hu (by decide)
  · rw [e] at hu; exact absurd hu (by decide)

/-- One tick keeps the cursors valid. -/
theorem cursors_ok_clock_fsm_run (s : State) (hc : CursorsOk s) :
    CursorsOk (clock_fsm_run s) := by
  by_cases hreset : 60 < s.button_count_mode
  · rw [clock_fsm_run_reset s hreset]
    exact ⟨hc.set_time, hc.set_alarm, hc.update, fun hu => absurd hu (by simp)⟩
  · have hb : s.button_count_mode ≤ 60 := by omega
    by_cases hm : s.current_mode = ClockMode.MODE_MESSAGE_DISPLAY
    · rw [clock_fsm_run_message s hb hm]
      by_cases hr : mode_released s
      · rw [if_pos hr]
        exact cursors_ok_message
          { s with current_mode := ClockMode.MODE_VIEW_TIME, mode_btn_last_count := 0 }
          (Or.inr rfl)
          (cursors_ok_of_fields _ s rfl rfl rfl (fun hu => absurd hu (by simp)) hc)
      · rw [if_neg hr]
        exact cursors_ok_message { s with mode_btn_last_count := s.button_count_mode }
          (Or.inl hm) (cursors_ok_of_fields _ s rfl rfl rfl (fun hu => hu) hc)
    · rw [clock_fsm_run_normal s hb hm]
      exact (dispatch_keeps (pre_dispatch s)).2.2 ((pre_dispatch_keeps s).2.2 hc)

theorem cursors_ok_tick (s : State) (i : Input) (hc : CursorsOk s) : CursorsOk (tick s i) := by
  apply cursors_ok_clock_fsm_run
  exact ⟨hc.set_time, hc.set_alarm, hc.update, hc.in_update⟩

theorem cursors_ok_reachable (s : State) (h : Reachable s) : CursorsOk s := by
  induction h with
  | start => exact ⟨by decide, by decide, by decide, fun _ => by decide⟩
  | step s i _ ih => exact cursors_ok_tick s i ih

/-! ## Cursors, blink and alarm configuration over ticks -/

/-- C23, counterexample to the claim as stated: the run from program start that enters
Update and answers all seven prompts is reachable and ends, in Message, with the cursor
of the update session at 7, one past Year (6). -/
theorem update_cursor_past_year :
    Reachable (run init full_session) ∧ (run init full_session).uart_update_param = 7 ∧
      SET_YEAR = 6 ∧
      (run init full_session).current_mode = ClockMode.MODE_MESSAGE_DISPLAY :=
  ⟨reachable_run full_session init Reachable.start, by decide, rfl, by decide⟩

/-- C23, amended: in every state reachable from the start state the SetTime cursor is one
of the seven values 0..6 and the SetAlarm cursor one of the three values 0..2; the cursor
of the update session is one of 0..6 whenever the mode is Update, and in the other modes
it is at most 7, one past Year, the value a committed session leaves behind until Update
is entered again. -/
theorem cursors_valid (s : State) (h : Reachable s) :
    s.set_time_param ≤ 6 ∧ s.set_alarm_param ≤ 2 ∧ s.uart_update_param ≤ 7 ∧
      (s.current_mode = ClockMode.MODE_UPDATE_VIA_UART → s.uart_update_param ≤ 6) ∧
      (s.uart_update_param = 7 → s.current_mode ≠ ClockMode.MODE_UPDATE_VIA_UART) := by
  obtain ⟨c1, c2, c3, c4⟩ := cursors_ok_reachable s h
  simp only [SET_YEAR] at c1 c3 c4
  refine ⟨c1, c2, c3, c4, fun h7 hu => ?_⟩
  have := c4 hu
  omega

/-- Witness of C23: the state entered by three short presses of the mode button is
reachable, in Update, with the session cursor on the hour. -/
theorem cursors_valid_witness :
    Reachable reached_update ∧
      reached_update.current_mode = ClockMode.MODE_UPDATE_VIA_UART ∧
      reached_update.uart_update_param ≤ 6 :=
  have hr : Reachable reached_update := reachable_run _ init Reachable.start
  ⟨hr, by decide, (cursors_valid reached_update hr).2.2.2.1 (by decide)⟩

theorem flags_on_normal (is : List Input) :
    ∀ s : State, normal_run s is = true → flags_on s is = on_count s.blink_counter is.length := by
  induction is with
  | nil => intro s _; rfl
  | cons i t ih =>
    intro s hn
    simp only [normal_run, Bool.and_eq_true, decide_eq_true_eq] at hn
    obtain ⟨⟨hb, hm⟩, ht⟩ := hn
    have hb2 : (feed i s).button_count_mode ≤ 60 := hb
    have hm2 : (feed i s).current_mode ≠ ClockMode.MODE_MESSAGE_DISPLAY := hm
    obtain ⟨k1, k2⟩ := blink_normal_tick (feed i s) hb2 hm2
    have e1 : (tick s i).blink_counter = (s.blink_counter + 1) % 10 := k1
    have e2 : (tick s i).blink_flag = if (s.blink_counter + 1) % 10 < 5 then 1 else 0 := k2
    simp only [flags_on, List.length_cons, on_count]
    rw [ih (tick s i) ht, e1, e2]
    by_cases h5 : (s.blink_counter + 1) % 10 < 5 <;> simp [h5]

theorem on_count_ten (c : Nat) : on_count c 10 = 5 := by
  have h : on_count c 10 =
      (if (c + 1) % 10 < 5 then 1 else 0) + on_count ((c + 1) % 10) 9 := rfl
  rw [h]
  have hd : (c + 1) % 10 < 10 := Nat.mod_lt _ (by decide)
  generalize (c + 1) % 10 = d at hd
  interval_cases d <;> rfl

/-- C24, counterexample to the claim as stated: in the message display the blink counter
does not advance (it stays at 2 where 3 is due) and over 10 consecutive ticks the flag is
on at all 10; on a tick that performs the reset the counter does not advance either. -/
theorem blink_frozen_in_message_and_reset :
    message_showing.current_mode = ClockMode.MODE_MESSAGE_DISPLAY ∧
      message_showing.blink_counter = 2 ∧
      (tick message_showing quiet_input).blink_counter = 2 ∧
      flags_on message_showing (List.replicate 10 quiet_input) = 10 ∧
      RESET_LONG_PRESS_DURATION < held_sixty_one.button_count_mode ∧
      held_sixty_one.blink_counter = 0 ∧
      (clock_fsm_run held_sixty_one).blink_counter = 0 := by
  decide

/-- C24, amended: on every tick of `clock_fsm_run` that is neither a long-press reset nor
spent in the message display, the blink counter advances by one modulo 10 and the blink
flag is on exactly when the new counter is below 5; over any 10 consecutive such ticks
the flag is on at the end of exactly 5 of them; on a reset tick and on a tick spent in the
message display the counter and the flag keep their values. -/
theorem blink_on_normal_ticks (s : State) (is : List Input) (hlen : is.length = 10)
    (hn : normal_run s is = true) :
    (∀ x : State, x.button_count_mode ≤ RESET_LONG_PRESS_DURATION →
        x.current_mode ≠ ClockMode.MODE_MESSAGE_DISPLAY →
        (clock_fsm_run x).blink_counter = (x.blink_counter + 1) % 10 ∧
        ((clock_fsm_run x).blink_flag ≠ 0 ↔ (clock_fsm_run x).blink_counter < 5)) ∧
      flags_on s is = 5 ∧
      (∀ x : State, RESET_LONG_PRESS_DURATION < x.button_count_mode ∨
        x.current_mode = ClockMode.MODE_MESSAGE_DISPLAY →
        (clock_fsm_run x).blink_counter = x.blink_counter ∧
        (clock_fsm_run x).blink_flag = x.blink_flag) := by
  refine ⟨?_, ?_, ?_⟩
  · intro x hb hm
    obtain ⟨k1, k2⟩ := blink_normal_tick x hb hm
    refine ⟨k1, ?_⟩
    rw [k1, k2]
    split_ifs with h
    · exact ⟨fun _ => h, fun _ => by decide⟩
    · exact ⟨fun hh => absurd rfl hh, fun hh => absurd hh h⟩
  · rw [flags_on_normal is s hn, hlen]
    exact on_count_ten _
  · intro x hx
    have key : blink (clock_fsm_run x) = blink x := by
      by_cases hreset : 60 < x.button_count_mode
      · rw [clock_fsm_run_reset x hreset]
        rfl
      · have hm : x.current_mode = ClockMode.MODE_MESSAGE_DISPLAY := by
          rcases hx with h | h
          · exact absurd h hreset
          · exact h
        rw [clock_fsm_run_message x (by omega) hm]
        by_cases hr : mode_released x
        · rw [if_pos hr]
          exact congrArg (fun p => p.2.1) (handle_message_display_mode_keeps
            { x with current_mode := ClockMode.MODE_VIEW_TIME, mode_btn_last_count := 0 }).1
        · rw [if_neg hr]
          exact congrArg (fun p => p.2.1) (handle_message_display_mode_keeps
            { x with mode_btn_last_count := x.button_count_mode }).1
    exact ⟨congrArg Prod.fst key, congrArg Prod.snd key⟩

/-- Witness of C24: ten quiet ticks in ViewTime from program start. -/
theorem blink_on_normal_ticks_witness :
    normal_run viewing (List.replicate 10 quiet_input) = true ∧
      flags_on viewing (List.replicate 10 quiet_input) = 5 :=
  ⟨by decide, (blink_on_normal_ticks viewing (List.replicate 10 quiet_input) rfl
    (by decide)).2.1⟩

/-- C25: the alarm configuration is changed only in SetAlarm.  On every tick that is not
a long-press reset and whose handler runs in ViewTime, SetTime, Update or Message (the
mode after the mode switch of that tick, if there is one), alarm hour, alarm minute and
the enabled flag are after the tick what they were before, whatever the buttons and the
serial line bring; and the mode switch itself leaves them as they are in every mode. -/
theorem alarm_config_frame (s : State) (hb : s.button_count_mode ≤ RESET_LONG_PRESS_DURATION)
    (hd : dispatched_mode s ≠ ClockMode.MODE_SET_ALARM) :
    (clock_fsm_run s).alarm_hour = s.alarm_hour ∧
      (clock_fsm_run s).alarm_min = s.alarm_min ∧
      (clock_fsm_run s).alarm_enabled = s.alarm_enabled ∧
      (∀ x : State, alarm_config (handle_mode_switch x) = alarm_config x) := by
  have key : alarm_config (clock_fsm_run s) = alarm_config s := by
    by_cases hm : s.current_mode = ClockMode.MODE_MESSAGE_DISPLAY
    · rw [clock_fsm_run_message s hb hm]
      by_cases hr : mode_released s
      · rw [if_pos hr]
        exact congrArg Prod.fst (handle_message_display_mode_keeps
          { s with current_mode := ClockMode.MODE_VIEW_TIME, mode_btn_last_count := 0 }).1
      · rw [if_neg hr]
        exact congrArg Prod.fst (handle_message_display_mode_keeps
          { s with mode_btn_last_count := s.button_count_mode }).1
    · rw [clock_fsm_run_normal s hb hm]
      have hd2 : (pre_dispatch s).current_mode ≠ ClockMode.MODE_SET_ALARM := by
        unfold dispatched_mode at hd
        rw [if_neg hm] at hd
        exact hd
      exact ((dispatch_keeps (pre_dispatch s)).2.1 hd2).trans (pre_dispatch_keeps s).1
  have e1 : (clock_fsm_run s).alarm_hour = s.alarm_hour := congrArg Prod.fst key
  have e2 : (clock_fsm_run s).alarm_min = s.alarm_min := congrArg (fun p => p.2.1) key
  have e3 : (clock_fsm_run s).alarm_enabled = s.alarm_enabled := congrArg (fun p => p.2.2) key
  exact ⟨e1, e2, e3, fun x => (handle_mode_switch_keeps x).1⟩

/-- Witness of C25: the tick that leaves an update session for ViewTime keeps the alarm at
06:00, disabled. -/
theorem alarm_config_frame_witness :
    dispatched_mode update_released = ClockMode.MODE_VIEW_TIME ∧
      (clock_fsm_run update_released).alarm_hour = 6 ∧
      (clock_fsm_run update_released).alarm_min = 0 ∧
      (clock_fsm_run update_released).alarm_enabled = 0 :=
  have h := alarm_config_frame update_released (by decide) (by decide)
  ⟨by decide, h.1, h.2.1, h.2.2.1⟩

/-! ## The record a session commits -/

/-- The register writes of a session answered field by field are the seven of the commit
of the record the answers stand for. -/
theorem session_commit_writes (s : State) (a0 a1 a2 a3 a4 a5 a6 : Answer)
    (hs : Sess s SET_HOUR 0 0 UART_TIMEOUT_PERIOD)
    (h0 : a0.ok SET_HOUR) (h1 : a1.ok SET_MIN) (h2 : a2.ok SET_SEC) (h3 : a3.ok SET_DAY)
    (h4 : a4.ok SET_DATE) (h5 : a5.ok SET_MONTH) (h6 : a6.ok SET_YEAR) :
    rtcWrites (run s (session_inputs a0 a1 a2 a3 a4 a5 a6)).trace =
      rtcWrites s.trace ++ commitWrites (session_record a0 a1 a2 a3 a4 a5 a6) := by
  obtain ⟨⟨c1, s1⟩, t1, w1, _⟩ := answer_run s 0 _ a0 hs h0 (by decide)
  obtain ⟨⟨c2, s2⟩, t2, w2, _⟩ := answer_run _ 1 _ a1 s1 h1 (by decide)
  obtain ⟨⟨c3, s3⟩, t3, w3, _⟩ := answer_run _ 2 _ a2 s2 h2 (by decide)
  obtain ⟨⟨c4, s4⟩, t4, w4, _⟩ := answer_run _ 3 _ a3 s3 h3 (by decide)
  obtain ⟨⟨c5, s5⟩, t5, w5, _⟩ := answer_run _ 4 _ a4 s4 h4 (by decide)
  obtain ⟨⟨c6, s6⟩, t6, w6, _⟩ := answer_run _ 5 _ a5 s5 h5 (by decide)
  obtain ⟨_, _, _, w7, _, _⟩ := answer_commit _ _ a6 s6 h6
  have hall : run s (session_inputs a0 a1 a2 a3 a4 a5 a6) =
      run (run (run (run (run (run (run s a0.inputs) a1.inputs) a2.inputs) a3.inputs)
        a4.inputs) a5.inputs) a6.inputs := by
    unfold session_inputs
    simp only [run_append]
  have hrec : setField 6 (line_value 6 a6.line)
      (run (run (run (run (run (run s a0.inputs) a1.inputs) a2.inputs) a3.inputs)
        a4.inputs) a5.inputs).temp = session_record a0 a1 a2 a3 a4 a5 a6 := by
    rw [t6, t5, t4, t3, t2, t1]
    rfl
  rw [hall, w7, hrec, w6, w5, w4, w3, w2, w1]

/-- The value of an acceptable numeric line lies within the bounds of its field. -/
theorem line_value_bounds (p : Nat) (l : List Nat) (hp : p ≠ 3) (h : acceptable p l) :
    (p = 0 → line_value p l ≤ 23) ∧ (p = 1 → line_value p l ≤ 59) ∧
      (p = 2 → line_value p l ≤ 59) ∧
      (p = 4 → 1 ≤ line_value p l ∧ line_value p l ≤ 31) ∧
      (p = 5 → 1 ≤ line_value p l ∧ line_value p l ≤ 12) ∧
      (p = 6 → line_value p l ≤ 99) := by
  unfold acceptable at h
  unfold line_value
  simp only [hp, if_false] at h ⊢
  unfold in_bounds at h
  refine ⟨fun e => ?_, fun e => ?_, fun e => ?_, fun e => ?_, fun e => ?_, fun e => ?_⟩ <;>
    subst e <;> simp only at h <;> omega

/-- The value of an acceptable weekday line is the index, 1 to 7, of its name. -/
theorem weekday_value_bounds (l : List Nat) (h : acceptable 3 l) :
    1 ≤ line_value 3 l ∧ line_value 3 l ≤ 7 := by
  have hm : l ∈ day_names.tail := h
  obtain ⟨i, hi, hget⟩ := List.getElem_of_mem hm
  have hi7 : i < 7 := hi
  have hl : l = day_names.tail.getD i [] := by
    rw [List.getD_eq_getElem _ _ hi]; exact hget.symm
  have h7 : i = 0 ∨ i = 1 ∨ i = 2 ∨ i = 3 ∨ i = 4 ∨ i = 5 ∨ i = 6 := by omega
  rw [hl]
  rcases h7 with e | e | e | e | e | e | e <;> subst e <;> decide

/-- C29, counterexample to the claim as stated: the session answered with "10", "21",
"0", "Wed", "31", "2", "25" commits day 31 with month 2 and year 25, and February of
year 25 has 28 days. -/
theorem session_commits_february_31 :
    Sess session_start SET_HOUR 0 0 UART_TIMEOUT_PERIOD ∧
      rtcWrites (run session_start february_answers).trace =
        commitWrites ⟨10, 21, 0, 3, 31, 2, 25⟩ ∧
      (run session_start february_answers).current_mode = ClockMode.MODE_MESSAGE_DISPLAY ∧
      (run session_start february_answers).message_buffer = bytes "Update Complete!" ∧
      get_max_date 2 25 = 28 ∧ ¬ in_range ⟨10, 21, 0, 3, 31, 2, 25⟩ :=
  ⟨⟨rfl, rfl, rfl, rfl, rfl, rfl, rfl⟩, by decide, by decide, by decide, by decide,
    by decide⟩

/-- C29, amended: the record committed by a successful update session has every field
within the fixed bounds of that field: hour 0..23, minute and second 0..59, weekday 1..7,
day 1..31, month 1..12, year 0..99.  The day is not checked against the month and year:
the committed record is in range with respect to its own month and year exactly when the
day received does not exceed `get_max_date` of the month and year received. -/
theorem committed_record_bounds (s : State) (a0 a1 a2 a3 a4 a5 a6 : Answer)
    (hs : Sess s SET_HOUR 0 0 UART_TIMEOUT_PERIOD)
    (h0 : a0.ok SET_HOUR) (h1 : a1.ok SET_MIN) (h2 : a2.ok SET_SEC) (h3 : a3.ok SET_DAY)
    (h4 : a4.ok SET_DATE) (h5 : a5.ok SET_MONTH) (h6 : a6.ok SET_YEAR) :
    rtcWrites (run s (session_inputs a0 a1 a2 a3 a4 a5 a6)).trace =
        rtcWrites s.trace ++ commitWrites (session_record a0 a1 a2 a3 a4 a5 a6) ∧
      (session_record a0 a1 a2 a3 a4 a5 a6).hour ≤ 23 ∧
      (session_record a0 a1 a2 a3 a4 a5 a6).min ≤ 59 ∧
      (session_record a0 a1 a2 a3 a4 a5 a6).sec ≤ 59 ∧
      (1 ≤ (session_record a0 a1 a2 a3 a4 a5 a6).day ∧
        (session_record a0 a1 a2 a3 a4 a5 a6).day ≤ 7) ∧
      (1 ≤ (session_record a0 a1 a2 a3 a4 a5 a6).date ∧
        (session_record a0 a1 a2 a3 a4 a5 a6).date ≤ 31) ∧
      (1 ≤ (session_record a0 a1 a2 a3 a4 a5 a6).month ∧
        (session_record a0 a1 a2 a3 a4 a5 a6).month ≤ 12) ∧
      (session_record a0 a1 a2 a3 a4 a5 a6).year ≤ 99 ∧
      (in_range (session_record a0 a1 a2 a3 a4 a5 a6) ↔
        (session_record a0 a1 a2 a3 a4 a5 a6).date ≤
          get_max_date (session_record a0 a1 a2 a3 a4 a5 a6).month
            (session_record a0 a1 a2 a3 a4 a5 a6).year) := by
  have b0 := (line_value_bounds 0 a0.line (by decide) h0.2.2.2.2.2).1 rfl
  have b1 := (line_value_bounds 1 a1.line (by decide) h1.2.2.2.2.2).2.1 rfl
  have b2 := (line_value_bounds 2 a2.line (by decide) h2.2.2.2.2.2).2.2.1 rfl
  have b3 := weekday_value_bounds a3.line h3.2.2.2.2.2
  have b4 := (line_value_bounds 4 a4.line (by decide) h4.2.2.2.2.2).2.2.2.1 rfl
  have b5 := (line_value_bounds 5 a5.line (by decide) h5.2.2.2.2.2).2.2.2.2.1 rfl
  have b6 := (line_value_bounds 6 a6.line (by decide) h6.2.2.2.2.2).2.2.2.2.2 rfl
  refine ⟨session_commit_writes s a0 a1 a2 a3 a4 a5 a6 hs h0 h1 h2 h3 h4 h5 h6,
    b0, b1, b2, b3, b4, b5, b6, ?_⟩
  constructor
  · intro hr
    exact hr.2.2.2.2.1.2
  · intro hd
    exact ⟨b0, b1, b2, b3, ⟨b4.1, hd⟩, b5, b6⟩

/-- Witness of C29: the lines "10", "21", "0", "Wed", "5", "11", "25", each at once. -/
theorem committed_record_bounds_witness :
    Sess session_start SET_HOUR 0 0 UART_TIMEOUT_PERIOD ∧
      session_record (answer_after 0 "10") (answer_after 0 "21") (answer_after 0 "0")
        (answer_after 0 "Wed") (answer_after 0 "5") (answer_after 0 "11")
        (answer_after 0 "25") = ⟨10, 21, 0, 3, 5, 11, 25⟩ ∧
      rtcWrites (run session_start (session_inputs (answer_after 0 "10") (answer_after 0 "21")
        (answer_after 0 "0") (answer_after 0 "Wed") (answer_after 0 "5") (answer_after 0 "11")
        (answer_after 0 "25"))).trace = commitWrites ⟨10, 21, 0, 3, 5, 11, 25⟩ :=
  have hs : Sess session_start SET_HOUR 0 0 UART_TIMEOUT_PERIOD :=
    ⟨rfl, rfl, rfl, rfl, rfl, rfl, rfl⟩
  have hok : ∀ (p : Nat) (str : String), 0 ∉ bytes str → acceptable p (bytes str) →
      (answer_after 0 str).ok p :=
    fun p str h0 ha => ⟨fun i hi => absurd hi (List.not_mem_nil i), Nat.zero_le _, rfl, rfl,
      h0, ha⟩
  have h := committed_record_bounds session_start (answer_after 0 "10") (answer_after 0 "21")
    (answer_after 0 "0") (answer_after 0 "Wed") (answer_after 0 "5") (answer_after 0 "11")
    (answer_after 0 "25") hs (hok 0 "10" (by decide) (by decide))
    (hok 1 "21" (by decide) (by decide)) (hok 2 "0" (by decide) (by decide))
    (hok 3 "Wed" (by decide) (by decide)) (hok 4 "5" (by decide) (by decide))
    (hok 5 "11" (by decide) (by decide)) (hok 6 "25" (by decide) (by decide))
  ⟨hs, by decide, h.1.trans (by decide)⟩

/-! ## Listener discipline -/

/-- C26, the code at the failing inputs: both runs are reachable from program start; in
the first the session is left by a short press while the first response is awaited, in
the second it is interrupted by the long-press reset; in both the receiver is still armed
when Update is entered again, and the entry banner is transmitted with the listener open.
A session that is answered to the end keeps the discipline. -/
theorem banner_sent_with_listener_open :
    Reachable (run init abandon_and_reenter) ∧
      listener_closed_at_prompts false (run init abandon_and_reenter).trace = false ∧
      Reachable (run init reset_and_reenter) ∧
      listener_closed_at_prompts false (run init reset_and_reenter).trace = false ∧
      listener_closed_at_prompts false (run init full_session).trace = true :=
  ⟨reachable_run _ init Reachable.start, by decide, reachable_run _ init Reachable.start,
    by decide, by decide⟩

/-! ## Duration of a field slot -/

/-- A line that is not acceptable arrives while a response is awaited. -/
theorem tick_reject_waiting (s : State) (i : Input) (p r c : Nat) (l : List Nat)
    (hs : Sess s p 1 r c) (hb : i.button_count_mode = 0) (hl : i.line = some l)
    (h0 : 0 ∉ l) (ha : ¬ acceptable p l) :
    Sess (tick s i) p 0 r c := by
  obtain ⟨hm, hpp, hreq, hret, hc, hf, hlast⟩ := hs
  obtain ⟨u1, u2⟩ := feed_uart_some i s l hl h0
  have hx : uart_check_command (tick_prologue 0 (feed i s)) =
      after_reject (tick_prologue 0 (feed i s)) := by
    apply uart_check_command_reject
    · show (feed i s).uart.uart_cmd_ready_flag ≠ 0
      rw [u1]; decide
    · show ¬ acceptable s.uart_update_param (cstr (feed i s).uart.uart_cmd_buffer)
      rw [u2, hpp]; exact ha
  rw [tick_session s i hm hlast hb,
    handle_uart_update_mode_waiting _ (by show s.uart_data_requested ≠ 0; omega), hx]
  exact ⟨hm, hpp, rfl, hret, hc, rfl, rfl⟩

/-- A line that is not acceptable is already pending on the tick that issues the
request. -/
theorem tick_reject_request (s : State) (i : Input) (p r c : Nat) (l : List Nat)
    (hs : Sess s p 0 r c) (hr : r < 3) (hb : i.button_count_mode = 0) (hl : i.line = some l)
    (h0 : 0 ∉ l) (ha : ¬ acceptable p l) :
    Sess (tick s i) p 0 (r + 1) UART_TIMEOUT_PERIOD := by
  obtain ⟨hm, hpp, hreq, hret, hc, hf, hlast⟩ := hs
  obtain ⟨u1, u2⟩ := feed_uart_some i s l hl h0
  have hx : uart_check_command (after_request (tick_prologue 0 (feed i s))) =
      after_reject (after_request (tick_prologue 0 (feed i s))) := by
    apply uart_check_command_reject
    · show (feed i s).uart.uart_cmd_ready_flag ≠ 0
      rw [u1]; decide
    · show ¬ acceptable s.uart_update_param (cstr (feed i s).uart.uart_cmd_buffer)
      rw [u2, hpp]; exact ha
  have hmod : (s.uart_retry_count + 1) % 256 = r + 1 := by omega
  rw [tick_session s i hm hlast hb,
    handle_uart_update_mode_request _ (by exact hreq) (by show s.uart_retry_count < 3; omega),
    hx]
  exact ⟨hm, hpp, rfl, hmod, rfl, rfl, rfl⟩

theorem slot_of_sess (s : State) (p req r c : Nat) (hs : Sess s p req r c)
    (hreq : req = 0 ∨ req = 1) : Slot s p :=
  ⟨hs.mode, hs.param, hs.flag, hs.last, by rw [hs.requested]; exact hreq⟩

theorem slot_bound_of_sess (s : State) (p req r c : Nat) (hs : Sess s p req r c) :
    slot_bound s = if req = 0 then (3 - r) * 201 + 1 else c + 1 + (3 - r) * 201 + 1 := by
  unfold slot_bound
  rw [hs.requested, hs.retry, hs.counter]

/-- One unanswered tick of a field slot: either the session is given up on this tick,
or the slot goes on and the bound on what is left of it has gone down by at least one,
and by exactly one when the tick brought no line. -/
theorem slot_step (s : State) (i : Input) (p : Nat) (hs : Slot s p) (hu : Unanswered p i) :
    ((tick s i).current_mode = ClockMode.MODE_MESSAGE_DISPLAY ∧
        (tick s i).message_buffer = bytes "UART Timeout!" ∧ slot_bound s = 1) ∨
      (Slot (tick s i) p ∧ slot_bound (tick s i) + 1 ≤ slot_bound s ∧
        (i.line = none → slot_bound (tick s i) + 1 = slot_bound s)) := by
  obtain ⟨hm, hp, hf, hl, hreq⟩ := hs
  obtain ⟨hb, hline⟩ := hu
  rcases hreq with hreq | hreq
  · have hsess : Sess s p 0 s.uart_retry_count s.uart_timeout_counter :=
      ⟨hm, hp, hreq, rfl, rfl, hf, hl⟩
    have hbound := slot_bound_of_sess s p 0 _ _ hsess
    rw [if_pos rfl] at hbound
    by_cases hr : s.uart_retry_count < 3
    · cases hline_eq : i.line with
      | none =>
        obtain ⟨k, _⟩ := tick_request s i p _ _ hsess hr ⟨hb, hline_eq⟩
        have hb2 := slot_bound_of_sess _ p 1 _ _ k
        rw [if_neg (by decide)] at hb2
        refine Or.inr ⟨slot_of_sess _ p 1 _ _ k (Or.inr rfl), ?_, fun _ => ?_⟩ <;>
          rw [hb2, hbound] <;> omega
      | some l =>
        rw [hline_eq] at hline
        have k := tick_reject_request s i p _ _ l hsess hr hb hline_eq hline.1 hline.2
        have hb2 := slot_bound_of_sess _ p 0 _ _ k
        rw [if_pos rfl] at hb2
        refine Or.inr ⟨slot_of_sess _ p 0 _ _ k (Or.inl rfl), ?_, fun h => ?_⟩
        · rw [hb2, hbound]; omega
        · exact absurd h (by simp)
    · left
      have hx : tick s i = after_abort (tick_prologue 0 (feed i s)) := by
        rw [tick_session s i hm hl hb]
        exact handle_uart_update_mode_abort _ (by exact hreq)
          (by show 3 ≤ s.uart_retry_count; omega)
      rw [hx]
      refine ⟨rfl, rfl, ?_⟩
      rw [hbound]
      have : 3 - s.uart_retry_count = 0 := by omega
      rw [this]
  · have hsess : Sess s p 1 s.uart_retry_count s.uart_timeout_counter :=
      ⟨hm, hp, hreq, rfl, rfl, hf, hl⟩
    have hbound := slot_bound_of_sess s p 1 _ _ hsess
    rw [if_neg (by decide)] at hbound
    cases hline_eq : i.line with
    | none =>
      cases hc : s.uart_timeout_counter with
      | zero =>
        rw [hc] at hsess hbound
        obtain ⟨k, _⟩ := tick_timeout s i p _ hsess ⟨hb, hline_eq⟩
        have hb2 := slot_bound_of_sess _ p 0 _ _ k
        rw [if_pos rfl] at hb2
        refine Or.inr ⟨slot_of_sess _ p 0 _ _ k (Or.inl rfl), ?_, fun _ => ?_⟩ <;>
          rw [hb2, hbound] <;> omega
      | succ c =>
        rw [hc] at hsess hbound
        obtain ⟨k, _⟩ := tick_wait s i p _ c hsess ⟨hb, hline_eq⟩
        have hb2 := slot_bound_of_sess _ p 1 _ _ k
        rw [if_neg (by decide)] at hb2
        refine Or.inr ⟨slot_of_sess _ p 1 _ _ k (Or.inr rfl), ?_, fun _ => ?_⟩ <;>
          rw [hb2, hbound] <;> omega
    | some l =>
      rw [hline_eq] at hline
      have k := tick_reject_waiting s i p _ _ l hsess hb hline_eq hline.1 hline.2
      have hb2 := slot_bound_of_sess _ p 0 _ _ k
      rw [if_pos rfl] at hb2
      refine Or.inr ⟨slot_of_sess _ p 0 _ _ k (Or.inl rfl), ?_, fun h => ?_⟩
      · rw [hb2, hbound]; omega
      · exact absurd h (by simp)

theorem slot_bound_pos (s : State) : 1 ≤ slot_bound s := by
  unfold slot_bound; split_ifs <;> omega

/-- An unanswered field slot is given up within its bound. -/
theorem slot_run (p : Nat) (n : Nat) :
    ∀ (s : State) (is : List Input), Slot s p → slot_bound s ≤ n → n ≤ is.length →
      (∀ i ∈ is, Unanswered p i) →
      ∃ k, 1 ≤ k ∧ k ≤ n ∧
        (run s (is.take k)).current_mode = ClockMode.MODE_MESSAGE_DISPLAY ∧
        (run s (is.take k)).message_buffer = bytes "UART Timeout!" ∧
        ∀ j, j < k → (run s (is.take j)).current_mode = ClockMode.MODE_UPDATE_VIA_UART := by
  induction n with
  | zero =>
    intro s is _ hb _ _
    have := slot_bound_pos s
    omega
  | succ n ih =>
    intro s is hs hb hlen hall
    match is, hlen, hall with
    | [], hlen, _ => simp at hlen
    | i :: t, hlen, hall =>
      have hi := hall i (List.mem_cons_self _ _)
      rcases slot_step s i p hs hi with ⟨h1, h2, _⟩ | ⟨h1, h2, _⟩
      · refine ⟨1, le_refl 1, by omega, h1, h2, fun j hj => ?_⟩
        have hj0 : j = 0 := by omega
        rw [hj0]
        exact hs.mode
      · obtain ⟨k, k1, k2, k3, k4, k5⟩ := ih (tick s i) t h1 (by omega)
          (by simp only [List.length_cons] at hlen; omega)
          (fun j hj => hall j (List.mem_cons_of_mem _ hj))
        refine ⟨k + 1, by omega, by omega, ?_, ?_, fun j hj => ?_⟩
        · rw [List.take_succ_cons, run_cons]; exact k3
        · rw [List.take_succ_cons, run_cons]; exact k4
        · cases j with
          | zero => exact hs.mode
          | succ j =>
            rw [List.take_succ_cons, run_cons]
            exact k5 j (by omega)

/-- A silent field slot lasts exactly as long as its bound: before the last tick of the
bound the mode is still Update. -/
theorem silent_slot_run (p : Nat) (n : Nat) :
    ∀ (s : State) (is : List Input), Slot s p → n < slot_bound s → is.length = n →
      (∀ i ∈ is, Quiet i) →
      Slot (run s is) p ∧ slot_bound (run s is) + n = slot_bound s := by
  induction n with
  | zero =>
    intro s is hs _ hlen _
    rw [List.length_eq_zero.mp hlen]
    exact ⟨hs, rfl⟩
  | succ n ih =>
    intro s is hs hb hlen hall
    match is, hlen, hall with
    | i :: t, hlen, hall =>
      have hq := hall i (List.mem_cons_self _ _)
      have hu : Unanswered p i := by
        refine ⟨hq.1, ?_⟩
        rw [hq.2]
        trivial
      rcases slot_step s i p hs hu with ⟨_, _, h3⟩ | ⟨h1, _, h3⟩
      · omega
      · have he := h3 hq.2
        obtain ⟨k1, k2⟩ := ih (tick s i) t h1 (by omega)
          (by simp only [List.length_cons] at hlen; omega)
          (fun j hj => hall j (List.mem_cons_of_mem _ hj))
        rw [run_cons]
        exact ⟨k1, by omega⟩

/-- C30, counterexample to the claim as stated: from the session state entered from
program start, whose first tick issues the first prompt for the hour, with no line ever
received the mode is still Update after each of the first 603 ticks, in particular after
600; the failure message is reached on tick 604. -/
theorem silent_field_exceeds_600 :
    Sess session_start SET_HOUR 0 0 UART_TIMEOUT_PERIOD ∧
      (∀ n, n ≤ 603 →
        (run session_start (List.replicate n quiet_input)).current_mode =
          ClockMode.MODE_UPDATE_VIA_UART) ∧
      (run session_start (List.replicate 604 quiet_input)).current_mode =
        ClockMode.MODE_MESSAGE_DISPLAY := by
  have hs : Sess session_start SET_HOUR 0 0 UART_TIMEOUT_PERIOD :=
    ⟨rfl, rfl, rfl, rfl, rfl, rfl, rfl⟩
  have hslot : Slot session_start SET_HOUR := slot_of_sess _ _ _ _ _ hs (Or.inl rfl)
  have hbound : slot_bound session_start = 604 := by
    rw [slot_bound_of_sess _ _ _ _ _ hs]
    rfl
  have hq : ∀ n, ∀ i ∈ List.replicate n quiet_input, Quiet i :=
    fun n i hi => by rw [List.eq_of_mem_replicate hi]; decide
  have hrun : ∀ n, n ≤ 603 →
      Slot (run session_start (List.replicate n quiet_input)) SET_HOUR ∧
        slot_bound (run session_start (List.replicate n quiet_input)) + n = 604 := by
    intro n hn
    have h := silent_slot_run SET_HOUR n session_start (List.replicate n quiet_input) hslot
      (by rw [hbound]; omega) (List.length_replicate _ _) (hq n)
    rw [hbound] at h
    exact h
  refine ⟨hs, fun n hn => (hrun n hn).1.mode, ?_⟩
  obtain ⟨h1, h2⟩ := hrun 603 (le_refl _)
  have hsplit : List.replicate 604 quiet_input =
      List.replicate 603 quiet_input ++ [quiet_input] := by
    rw [show (604 : Nat) = 603 + 1 from rfl, List.replicate_succ']
  rw [hsplit, run_append, run_cons, run_nil]
  have hu : Unanswered SET_HOUR quiet_input := by decide
  rcases slot_step _ quiet_input SET_HOUR h1 hu with ⟨k, _, _⟩ | ⟨_, k, _⟩
  · exact k
  · have := slot_bound_pos (tick (run session_start (List.replicate 603 quiet_input)) quiet_input)
    omega

/-- C30, amended: from a session state whose next tick issues the first prompt for a
field (no request outstanding, no attempt used), if the field is never accepted, by
silence, by rejected lines or by any mixture, and the mode button is left alone, the
failure message "UART Timeout!" is reached within 3 × (200 + 1) + 1 = 604 ticks, the mode
being Update until then; with silence alone the mode is still Update after each of the
first 603 ticks. -/
theorem field_slot_bounded (s : State) (p c : Nat) (is : List Input)
    (hs : Sess s p 0 0 c) (hu : ∀ i ∈ is, Unanswered p i) (hlen : 604 ≤ is.length) :
    (∃ k, 1 ≤ k ∧ k ≤ 604 ∧
        (run s (is.take k)).current_mode = ClockMode.MODE_MESSAGE_DISPLAY ∧
        (run s (is.take k)).message_buffer = bytes "UART Timeout!" ∧
        ∀ j, j < k → (run s (is.take j)).current_mode = ClockMode.MODE_UPDATE_VIA_UART) ∧
      ((∀ i ∈ is, Quiet i) → ∀ j, j ≤ 603 →
        (run s (is.take j)).current_mode = ClockMode.MODE_UPDATE_VIA_UART) := by
  have hslot : Slot s p := slot_of_sess _ _ _ _ _ hs (Or.inl rfl)
  have hbound : slot_bound s = 604 := by
    rw [slot_bound_of_sess s p 0 0 c hs]
    rfl
  refine ⟨slot_run p 604 s is hslot (by omega) hlen hu, fun hq j hj => ?_⟩
  have h := silent_slot_run p j s (is.take j) hslot (by omega)
    (by rw [List.length_take]; omega) (quiet_take is j hq)
  exact h.1.mode

/-- Witness of C30: 302 silent ticks followed by 302 ticks that each bring the rejected
line "99". -/
theorem field_slot_bounded_witness :
    Sess session_start SET_HOUR 0 0 UART_TIMEOUT_PERIOD ∧
      (∃ k, 1 ≤ k ∧ k ≤ 604 ∧
        (run session_start (silence_then_garbage.take k)).current_mode =
          ClockMode.MODE_MESSAGE_DISPLAY ∧
        (run session_start (silence_then_garbage.take k)).message_buffer =
          bytes "UART Timeout!" ∧
        ∀ j, j < k → (run session_start (silence_then_garbage.take j)).current_mode =
          ClockMode.MODE_UPDATE_VIA_UART) :=
  have hs : Sess session_start SET_HOUR 0 0 UART_TIMEOUT_PERIOD :=
    ⟨rfl, rfl, rfl, rfl, rfl, rfl, rfl⟩
  have hu : ∀ i ∈ silence_then_garbage, Unanswered SET_HOUR i := by
    intro i hi
    unfold silence_then_garbage at hi
    rcases List.mem_append.mp hi with h | h <;> rw [List.eq_of_mem_replicate h] <;> decide
  have hlen : 604 ≤ silence_then_garbage.length := by
    unfold silence_then_garbage
    rw [List.length_append, List.length_replicate, List.length_replicate]
  ⟨hs, (field_slot_bounded session_start SET_HOUR UART_TIMEOUT_PERIOD silence_then_garbage
    hs hu hlen).1⟩

/-! ## The reset short-circuits the tick -/

/-- C35: the reset check short-circuits the tick.  On a tick with the mode button held
for more than 60 ticks, every variable other than the mode, the message payload and
countdown, the alarm configuration and the tracking of the mode button is after the tick
what it was before: in particular blink counter and flag, the cursors of SetTime and
SetAlarm, the temporary record, the session variables of Update (cursor, awaiting flag,
attempts, timeout) and the alarm-active flag with its countdown.  The effects of the tick
are the seven register writes of the default time and nothing else. -/
theorem reset_short_circuits (s : State) (h : RESET_LONG_PRESS_DURATION < s.button_count_mode) :
    eraseReset (clock_fsm_run s) = eraseReset s ∧
      blink (clock_fsm_run s) = blink s ∧
      edit_cursors (clock_fsm_run s) = edit_cursors s ∧
      (clock_fsm_run s).temp = s.temp ∧
      (clock_fsm_run s).uart_update_param = s.uart_update_param ∧
      (clock_fsm_run s).uart_data_requested = s.uart_data_requested ∧
      (clock_fsm_run s).uart_retry_count = s.uart_retry_count ∧
      (clock_fsm_run s).uart_timeout_counter = s.uart_timeout_counter ∧
      (clock_fsm_run s).alarm_triggered = s.alarm_triggered ∧
      (clock_fsm_run s).alarm_display_counter = s.alarm_display_counter ∧
      tickEffects s =
        [Effect.rtcWrite RtcAddr.ADDRESS_YEAR 25, Effect.rtcWrite RtcAddr.ADDRESS_MONTH 11,
         Effect.rtcWrite RtcAddr.ADDRESS_DATE 5, Effect.rtcWrite RtcAddr.ADDRESS_DAY 3,
         Effect.rtcWrite RtcAddr.ADDRESS_HOUR 10, Effect.rtcWrite RtcAddr.ADDRESS_MIN 21,
         Effect.rtcWrite RtcAddr.ADDRESS_SEC 0] ∧
      (clock_fsm_run s).current_mode = ClockMode.MODE_MESSAGE_DISPLAY ∧
      (clock_fsm_run s).message_buffer = bytes "System Reset!" ∧
      (clock_fsm_run s).message_display_counter = MESSAGE_DISPLAY_PERIOD ∧
      alarm_config (clock_fsm_run s) = (6, 0, 0) ∧
      (clock_fsm_run s).button_count_mode = 0 ∧ (clock_fsm_run s).mode_btn_last_count = 0 := by
  have hrun := clock_fsm_run_reset s h
  have he : tickEffects s =
      [Effect.rtcWrite RtcAddr.ADDRESS_YEAR 25, Effect.rtcWrite RtcAddr.ADDRESS_MONTH 11,
       Effect.rtcWrite RtcAddr.ADDRESS_DATE 5, Effect.rtcWrite RtcAddr.ADDRESS_DAY 3,
       Effect.rtcWrite RtcAddr.ADDRESS_HOUR 10, Effect.rtcWrite RtcAddr.ADDRESS_MIN 21,
       Effect.rtcWrite RtcAddr.ADDRESS_SEC 0] := by
    apply tickEffects_eq
    rw [hrun]
  rw [he, hrun]
  exact ⟨rfl, rfl, rfl, rfl, rfl, rfl, rfl, rfl, rfl, rfl, rfl, rfl, rfl, rfl, rfl, rfl, rfl⟩

/-- Witness of C35: a reset that interrupts an update session while the alarm rings. -/
theorem reset_short_circuits_witness :
    RESET_LONG_PRESS_DURATION < busy_reset.button_count_mode ∧
      (clock_fsm_run busy_reset).uart_data_requested = 1 ∧
      (clock_fsm_run busy_reset).uart_timeout_counter = 77 ∧
      (clock_fsm_run busy_reset).alarm_triggered = 1 ∧
      (clock_fsm_run busy_reset).blink_counter = 7 ∧
      (clock_fsm_run busy_reset).current_mode = ClockMode.MODE_MESSAGE_DISPLAY :=
  have h := reset_short_circuits busy_reset (by decide)
  ⟨by decide, h.2.2.2.2.2.1, h.2.2.2.2.2.2.2.1, h.2.2.2.2.2.2.2.2.1,
    congrArg Prod.fst h.2.1, h.2.2.2.2.2.2.2.2.2.2.2.1⟩

/-! ## Steps of the editors -/

theorem setField_getField_inc (p : Nat) (t : TimeRec) :
    setField p (getField p (inc_temp p t)) t = inc_temp p t := by
  unfold setField getField inc_temp
  split <;> rfl

theorem setField_getField_dec (p : Nat) (t : TimeRec) :
    setField p (getField p (dec_temp p t)) t = dec_temp p t := by
  unfold setField getField dec_temp
  split <;> rfl

/-- C31: `increment_setting` and `decrement_setting` change only the field of the
temporary record under the cursor, and for a record in range the new value of that field
is in range: hour 0..23, minute and second 0..59, weekday 1..7, month 1..12, year 0..99,
and day 1..`get_max_date` of the month and year of the same record.  In February the day
steps up from 28 (29 when the year is a multiple of 4) to 1 and down from 1 to 28
(29). -/
theorem setting_steps_selected_field (s : State) (f : State → State)
    (hf : f = increment_setting ∨ f = decrement_setting) (h : in_range s.temp) :
    f s =
        { s with temp := setField s.set_time_param (getField s.set_time_param (f s).temp) s.temp } ∧
      field_ok s.set_time_param (f s).temp ∧
      (s.set_time_param = SET_DATE → s.temp.month = 2 →
        (increment_setting s).temp.date =
          (if s.temp.date = (if s.temp.year % 4 = 0 then 29 else 28) then 1
            else s.temp.date + 1) ∧
        (decrement_setting s).temp.date =
          (if s.temp.date = 1 then (if s.temp.year % 4 = 0 then 29 else 28)
            else s.temp.date - 1)) := by
  have hok := field_ok_of_in_range s.set_time_param s.temp h
  refine ⟨?_, ?_, ?_⟩
  · rcases hf with e | e <;> rw [e]
    · rw [temp_increment_setting, setField_getField_inc]
      exact increment_setting_eq s
    · rw [temp_decrement_setting, setField_getField_dec]
      exact decrement_setting_eq s
  · rcases hf with e | e <;> rw [e]
    · have k := field_ok_increment_setting s hok
      rw [increment_setting_eq] at k ⊢
      exact k
    · have k := field_ok_decrement_setting s hok
      rw [decrement_setting_eq] at k ⊢
      exact k
  · intro hp hm
    obtain ⟨_, _, _, _, ⟨d1, d2⟩, _, _⟩ := h
    rw [temp_increment_setting, temp_decrement_setting, hp]
    have hmax : get_max_date s.temp.month s.temp.year =
        if s.temp.year % 4 = 0 then 29 else 28 := by
      unfold get_max_date; rw [if_pos hm]
    rw [hmax] at d2
    constructor
    · show s.temp.date % get_max_date s.temp.month s.temp.year + 1 = _
      rw [hmax]
      split_ifs at d2 ⊢ <;> omega
    · show dec_wrap s.temp.date (get_max_date s.temp.month s.temp.year) = _
      rw [hmax]
      unfold dec_wrap
      simp only []
      split_ifs at d2 ⊢ <;> omega

/-- Witness of C31: on 28 February 2025 the day steps up to 1 and down to 27. -/
theorem setting_steps_selected_field_witness :
    in_range february_28.temp ∧
      (increment_setting february_28).temp = ⟨10, 21, 0, 5, 1, 2, 25⟩ ∧
      (decrement_setting february_28).temp = ⟨10, 21, 0, 5, 27, 2, 25⟩ ∧
      field_ok SET_DATE (increment_setting february_28).temp :=
  have h := setting_steps_selected_field february_28 increment_setting (Or.inl rfl) (by decide)
  ⟨by decide, by decide, by decide, h.2.1⟩

theorem on_button_steps (c : Nat) (f : State → State) (s : State) :
    on_button c f s = if steps c then f s else s := by
  unfold on_button steps
  simp only [LONG_PRESS_DURATION, AUTO_INCREMENT_PERIOD]
  by_cases h1 : c = 1
  · simp [h1]
  · by_cases h40 : c > 40
    · by_cases h4 : c % 4 = 0 <;> simp [h1, h40, h4]
    · simp [h1, h40]

theorem buttons_increment_setting (s : State) :
    (increment_setting s).button_count_down = s.button_count_down := by
  have e := congrArg (fun x : State => x.button_count_down) (eraseEdit_increment_setting s)
  exact e

theorem alarm_config_increment_alarm_setting (x y : State)
    (h : alarm_config x = alarm_config y) (hp : x.set_alarm_param = y.set_alarm_param) :
    alarm_config (increment_alarm_setting x) = alarm_config (increment_alarm_setting y) ∧
      (increment_alarm_setting x).set_alarm_param =
        (increment_alarm_setting y).set_alarm_param := by
  simp only [alarm_config, Prod.mk.injEq] at h
  obtain ⟨a, b, c⟩ := h
  unfold increment_alarm_setting
  rw [hp]
  split <;> simp [alarm_config, a, b, c, hp]

theorem alarm_config_decrement_alarm_setting (x y : State)
    (h : alarm_config x = alarm_config y) (hp : x.set_alarm_param = y.set_alarm_param) :
    alarm_config (decrement_alarm_setting x) = alarm_config (decrement_alarm_setting y) := by
  simp only [alarm_config, Prod.mk.injEq] at h
  obtain ⟨a, b, c⟩ := h
  unfold decrement_alarm_setting
  rw [hp]
  split <;> simp [alarm_config, a, b, c]

theorem buttons_increment_alarm_setting (s : State) :
    (increment_alarm_setting s).button_count_down = s.button_count_down := by
  have e := congrArg (fun x : State => x.button_count_down)
    (eraseEdit_increment_alarm_setting s)
  exact e

theorem alarm_config_inc (x : State) :
    alarm_config (increment_alarm_setting x) = alarm_inc x.set_alarm_param (alarm_config x) ∧
      (increment_alarm_setting x).set_alarm_param = x.set_alarm_param := by
  unfold increment_alarm_setting alarm_inc
  split <;> first
    | (split <;> simp_all [alarm_config, lnot])
    | simp_all [alarm_config, lnot]

theorem alarm_config_dec (x : State) :
    alarm_config (decrement_alarm_setting x) = alarm_dec x.set_alarm_param (alarm_config x) := by
  unfold decrement_alarm_setting alarm_dec
  split <;> first
    | (split <;> simp_all [alarm_config, lnot])
    | simp_all [alarm_config, lnot]

/-- C33: step and auto-repeat.  A held-count `c` makes a step exactly when `c = 1`, or
`c` is above 40 and a multiple of 4: no count from 2 to 43 does, 44 is the first of a
held press.  In SetTime the temporary record after the handler is the record with the
field under the cursor stepped up once (`inc_temp`: hour modulo 24, minute and second
modulo 60, and so on) when the count of UP makes a step, then stepped down once
(`dec_temp`) when the count of DOWN does, and is untouched when neither does.  In
SetAlarm the alarm configuration after the handler is the configuration with the field
under the cursor stepped up once (`alarm_inc`: hour plus 1 modulo 24, minute plus 1
modulo 60, enable flag toggled) when the count of UP makes a step, then stepped down once
(`alarm_dec`) when the count of DOWN does.  These are also the results of one call of
`increment_setting`, `decrement_setting`, `increment_alarm_setting` and
`decrement_alarm_setting` under the same conditions. -/
theorem step_and_auto_repeat (s : State) :
    (∀ (c : Nat) (f : State → State) (x : State),
        on_button c f x = if c = 1 ∨ (40 < c ∧ c % 4 = 0) then f x else x) ∧
      (handle_set_time_mode s).temp =
        (edit_step s.button_count_up s.button_count_down increment_setting
          decrement_setting s).temp ∧
      alarm_config (handle_set_alarm_mode s) =
        alarm_config (edit_step s.button_count_up s.button_count_down
          increment_alarm_setting decrement_alarm_setting s) ∧
      (¬ steps s.button_count_up → ¬ steps s.button_count_down →
        (handle_set_time_mode s).temp = s.temp ∧
        alarm_config (handle_set_alarm_mode s) = alarm_config s) ∧
      steps 1 ∧ (∀ c, 2 ≤ c → c ≤ 43 → ¬ steps c) ∧ steps 44 ∧
      (handle_set_time_mode s).temp =
        stepped_time s.button_count_up s.button_count_down s.set_time_param s.temp ∧
      alarm_config (handle_set_alarm_mode s) =
        stepped_alarm s.button_count_up s.button_count_down s.set_alarm_param
          (alarm_config s) ∧
      (steps s.button_count_up → ¬ steps s.button_count_down →
        (handle_set_time_mode s).temp = inc_temp s.set_time_param s.temp ∧
        alarm_config (handle_set_alarm_mode s) =
          alarm_inc s.set_alarm_param (alarm_config s)) ∧
      (¬ steps s.button_count_up → steps s.button_count_down →
        (handle_set_time_mode s).temp = dec_temp s.set_time_param s.temp ∧
        alarm_config (handle_set_alarm_mode s) =
          alarm_dec s.set_alarm_param (alarm_config s)) ∧
      (∀ c : Nat × Nat × Nat,
        alarm_inc SET_ALARM_HOUR c = ((c.1 + 1) % 24, c.2.1, c.2.2) ∧
        alarm_inc SET_ALARM_MIN c = (c.1, (c.2.1 + 1) % 60, c.2.2) ∧
        alarm_inc SET_ALARM_ENABLE c = (c.1, c.2.1, if c.2.2 = 0 then 1 else 0) ∧
        alarm_dec SET_ALARM_HOUR c = ((c.1 + 23) % 24, c.2.1, c.2.2) ∧
        alarm_dec SET_ALARM_MIN c = (c.1, (c.2.1 + 59) % 60, c.2.2) ∧
        alarm_dec SET_ALARM_ENABLE c = (c.1, c.2.1, if c.2.2 = 0 then 1 else 0)) := by
  have hob : ∀ (c : Nat) (f : State → State) (x : State),
      on_button c f x = if c = 1 ∨ (40 < c ∧ c % 4 = 0) then f x else x :=
    fun c f x => on_button_steps c f x
  have htime : (handle_set_time_mode s).temp =
      (edit_step s.button_count_up s.button_count_down increment_setting
        decrement_setting s).temp := by
    have hd : (on_button s.button_count_up increment_setting s).button_count_down =
        s.button_count_down := by
      rw [on_button_steps]
      split_ifs
      · exact buttons_increment_setting s
      · rfl
    have hx : (handle_set_time_mode s).temp =
        (on_button (on_button s.button_count_up increment_setting s).button_count_down
          decrement_setting (on_button s.button_count_up increment_setting s)).temp := by
      simp only [handle_set_time_mode]
      split_ifs <;> rfl
    rw [hx, hd, on_button_steps, on_button_steps]
    rfl
  have halarm : alarm_config (handle_set_alarm_mode s) =
      alarm_config (edit_step s.button_count_up s.button_count_down
        increment_alarm_setting decrement_alarm_setting s) := by
    have hd : (on_button (ds3231_ReadTime s).button_count_up increment_alarm_setting
        (ds3231_ReadTime s)).button_count_down = s.button_count_down := by
      rw [on_button_steps]
      split_ifs
      · exact buttons_increment_alarm_setting (ds3231_ReadTime s)
      · rfl
    have hx : alarm_config (handle_set_alarm_mode s) =
        alarm_config (on_button (on_button (ds3231_ReadTime s).button_count_up
          increment_alarm_setting (ds3231_ReadTime s)).button_count_down
          decrement_alarm_setting (on_button (ds3231_ReadTime s).button_count_up
            increment_alarm_setting (ds3231_ReadTime s))) := by
      simp only [handle_set_alarm_mode]
      split_ifs <;> rfl
    rw [hx, hd, on_button_steps, on_button_steps]
    have hu : (ds3231_ReadTime s).button_count_up = s.button_count_up := rfl
    rw [hu]
    unfold edit_step
    simp only []
    by_cases h1 : steps s.button_count_up <;> by_cases h2 : steps s.button_count_down <;>
      simp only [h1, h2, if_true, if_false]
    · have k := alarm_config_increment_alarm_setting (ds3231_ReadTime s) s rfl rfl
      exact alarm_config_decrement_alarm_setting _ _ k.1 k.2
    · exact (alarm_config_increment_alarm_setting (ds3231_ReadTime s) s rfl rfl).1
    · exact alarm_config_decrement_alarm_setting (ds3231_ReadTime s) s rfl rfl
    · rfl
  have htime2 : (handle_set_time_mode s).temp =
      stepped_time s.button_count_up s.button_count_down s.set_time_param s.temp := by
    rw [htime]
    unfold edit_step stepped_time
    simp only []
    by_cases h1 : steps s.button_count_up <;> by_cases h2 : steps s.button_count_down <;>
      simp only [h1, h2, if_true, if_false]
    · rw [temp_decrement_setting, temp_increment_setting, increment_setting_eq]
    · exact temp_increment_setting s
    · exact temp_decrement_setting s
  have halarm2 : alarm_config (handle_set_alarm_mode s) =
      stepped_alarm s.button_count_up s.button_count_down s.set_alarm_param
        (alarm_config s) := by
    rw [halarm]
    unfold edit_step stepped_alarm
    simp only []
    by_cases h1 : steps s.button_count_up <;> by_cases h2 : steps s.button_count_down <;>
      simp only [h1, h2, if_true, if_false]
    · rw [alarm_config_dec, (alarm_config_inc s).1, (alarm_config_inc s).2]
    · exact (alarm_config_inc s).1
    · exact alarm_config_dec s
  refine ⟨hob, htime, halarm, ?_, by decide, ?_, by decide, htime2, halarm2, ?_, ?_, ?_⟩
  · intro h1 h2
    rw [htime, halarm]
    unfold edit_step
    simp only [h1, h2, if_false, and_self]
  · intro c h2 h43
    unfold steps
    simp only [LONG_PRESS_DURATION, AUTO_INCREMENT_PERIOD]
    omega
  · intro h1 h2
    rw [htime2, halarm2]
    unfold stepped_time stepped_alarm
    simp only [h1, h2, if_true, if_false, and_self]
  · intro h1 h2
    rw [htime2, halarm2]
    unfold stepped_time stepped_alarm
    simp only [h1, h2, if_true, if_false, and_self]
  · intro c
    exact ⟨rfl, rfl, rfl, rfl, rfl, rfl⟩

/-- Witness of C33: with the alarm minute at 59, UP at count 1 and at count 44 steps the
minute to 0, at counts 2, 40 and 43 it does not; DOWN at count 1 steps it to 58; with the
second at 59, UP at count 44 steps the second to 0 and DOWN at count 48 to 58. -/
theorem step_and_auto_repeat_witness :
    alarm_config (alarm_held 0 0) = (6, 59, 0) ∧
      alarm_config (handle_set_alarm_mode (alarm_held 1 0)) = (6, 0, 0) ∧
      alarm_config (handle_set_alarm_mode (alarm_held 44 0)) = (6, 0, 0) ∧
      alarm_config (handle_set_alarm_mode (alarm_held 2 0)) = (6, 59, 0) ∧
      alarm_config (handle_set_alarm_mode (alarm_held 40 0)) = (6, 59, 0) ∧
      alarm_config (handle_set_alarm_mode (alarm_held 43 0)) = (6, 59, 0) ∧
      alarm_config (handle_set_alarm_mode (alarm_held 0 1)) = (6, 58, 0) ∧
      (handle_set_time_mode (second_held 44 0)).temp = ⟨10, 21, 0, 3, 5, 11, 25⟩ ∧
      (handle_set_time_mode (second_held 0 48)).temp = ⟨10, 21, 58, 3, 5, 11, 25⟩ ∧
      (handle_set_time_mode (second_held 43 0)).temp = ⟨10, 21, 59, 3, 5, 11, 25⟩ :=
  ⟨rfl,
    (step_and_auto_repeat (alarm_held 1 0)).2.2.2.2.2.2.2.2.1,
    (step_and_auto_repeat (alarm_held 44 0)).2.2.2.2.2.2.2.2.1,
    (step_and_auto_repeat (alarm_held 2 0)).2.2.2.2.2.2.2.2.1,
    (step_and_auto_repeat (alarm_held 40 0)).2.2.2.2.2.2.2.2.1,
    (step_and_auto_repeat (alarm_held 43 0)).2.2.2.2.2.2.2.2.1,
    (step_and_auto_repeat (alarm_held 0 1)).2.2.2.2.2.2.2.2.1,
    (step_and_auto_repeat (second_held 44 0)).2.2.2.2.2.2.2.1,
    (step_and_auto_repeat (second_held 0 48)).2.2.2.2.2.2.2.1,
    (step_and_auto_repeat (second_held 43 0)).2.2.2.2.2.2.2.1⟩

/-! ## The cursor of the editors -/

theorem nav_increment_setting (s : State) : nav (increment_setting s) = nav s := by
  unfold increment_setting; split <;> rfl

theorem nav_decrement_setting (s : State) : nav (decrement_setting s) = nav s := by
  unfold decrement_setting; split <;> rfl

theorem nav_increment_alarm_setting (s : State) :
    nav (increment_alarm_setting s) = nav s := by
  unfold increment_alarm_setting; split <;> rfl

theorem nav_decrement_alarm_setting (s : State) :
    nav (decrement_alarm_setting s) = nav s := by
  unfold decrement_alarm_setting; split <;> rfl

/-- The set-time handler moves its cursor on a first tick of CONFIRM and on no other; it
leaves the mode and the tracking of the mode button alone. -/
theorem handle_set_time_mode_cursor (s : State) :
    (handle_set_time_mode s).set_time_param =
        (if s.button_count_save = 1 then
          (if s.set_time_param + 1 > SET_YEAR then SET_HOUR else s.set_time_param + 1)
        else s.set_time_param) ∧
      (handle_set_time_mode s).current_mode = s.current_mode ∧
      (handle_set_time_mode s).mode_btn_last_count = s.mode_btn_last_count := by
  have h1 := proj_on_button nav s.button_count_up increment_setting nav_increment_setting s
  have h2 := proj_on_button nav
    (on_button s.button_count_up increment_setting s).button_count_down decrement_setting
    nav_decrement_setting (on_button s.button_count_up increment_setting s)
  have h := h2.trans h1
  simp only [handle_set_time_mode]
  generalize on_button (on_button s.button_count_up increment_setting s).button_count_down
    decrement_setting (on_button s.button_count_up increment_setting s) = x at h ⊢
  have ha : x.button_count_save = s.button_count_save := congrArg Prod.fst h
  have hb : x.current_mode = s.current_mode := congrArg (fun p => p.2.1) h
  have hc : x.mode_btn_last_count = s.mode_btn_last_count := congrArg (fun p => p.2.2.1) h
  have hd : x.set_time_param = s.set_time_param := congrArg (fun p => p.2.2.2.1) h
  rw [← ha, ← hb, ← hc, ← hd]
  split_ifs <;> exact ⟨rfl, rfl, rfl⟩

/-- The set-alarm handler moves its cursor on a first tick of CONFIRM and on no other. -/
theorem handle_set_alarm_mode_cursor (s : State) :
    (handle_set_alarm_mode s).set_alarm_param =
        (if s.button_count_save = 1 then (s.set_alarm_param + 1) % 3
        else s.set_alarm_param) ∧
      (handle_set_alarm_mode s).current_mode = s.current_mode ∧
      (handle_set_alarm_mode s).mode_btn_last_count = s.mode_btn_last_count := by
  have h0 : nav (ds3231_ReadTime s) = nav s := rfl
  have h1 := proj_on_button nav (ds3231_ReadTime s).button_count_up increment_alarm_setting
    nav_increment_alarm_setting (ds3231_ReadTime s)
  have h2 := proj_on_button nav
    (on_button (ds3231_ReadTime s).button_count_up increment_alarm_setting
      (ds3231_ReadTime s)).button_count_down decrement_alarm_setting
    nav_decrement_alarm_setting
    (on_button (ds3231_ReadTime s).button_count_up increment_alarm_setting (ds3231_ReadTime s))
  have h := h2.trans (h1.trans h0)
  simp only [handle_set_alarm_mode]
  generalize on_button (on_button (ds3231_ReadTime s).button_count_up increment_alarm_setting
      (ds3231_ReadTime s)).button_count_down decrement_alarm_setting
    (on_button (ds3231_ReadTime s).button_count_up increment_alarm_setting
      (ds3231_ReadTime s)) = x at h ⊢
  have ha : x.button_count_save = s.button_count_save := congrArg Prod.fst h
  have hb : x.current_mode = s.current_mode := congrArg (fun p => p.2.1) h
  have hc : x.mode_btn_last_count = s.mode_btn_last_count := congrArg (fun p => p.2.2.1) h
  have hd : x.set_alarm_param = s.set_alarm_param := congrArg (fun p => p.2.2.2.2) h
  rw [← ha, ← hb, ← hc, ← hd]
  split_ifs <;> exact ⟨rfl, rfl, rfl⟩

/-- A tick in an editor that sees no activity of the mode button is the handler of the
editor after the prologue. -/
theorem tick_editor (s : State) (i : Input)
    (hm : s.current_mode = ClockMode.MODE_SET_TIME ∨ s.current_mode = ClockMode.MODE_SET_ALARM)
    (hl : s.mode_btn_last_count = 0) (hb : i.button_count_mode = 0) :
    tick s i =
      (if s.current_mode = ClockMode.MODE_SET_TIME then
        handle_set_time_mode (tick_prologue 0 (feed i s))
      else handle_set_alarm_mode (tick_prologue 0 (feed i s))) := by
  have hmode : (feed i s).current_mode = s.current_mode := rfl
  have hcount : (feed i s).button_count_mode = 0 := hb
  have hrel : ¬ mode_released (feed i s) := by
    intro hh
    have h2 : (feed i s).mode_btn_last_count > 0 := hh.2
    have h3 : (feed i s).mode_btn_last_count = 0 := hl
    omega
  unfold tick
  rw [clock_fsm_run_normal (feed i s) (by rw [hcount]; decide)
    (by rw [hmode]; rcases hm with e | e <;> rw [e] <;> decide)]
  rw [if_neg hrel, hcount]
  have hd : (tick_prologue 0 (feed i s)).current_mode = s.current_mode := rfl
  unfold dispatch
  rw [hd]
  rcases hm with e | e <;> rw [e] <;> rfl

/-- One tick of the set-time editor with the mode button at rest. -/
theorem set_time_tick (s : State) (i : Input)
    (hm : s.current_mode = ClockMode.MODE_SET_TIME) (hl : s.mode_btn_last_count = 0)
    (hb : i.button_count_mode = 0) (hp : s.set_time_param ≤ SET_YEAR) :
    (tick s i).current_mode = ClockMode.MODE_SET_TIME ∧ (tick s i).mode_btn_last_count = 0 ∧
      (tick s i).set_time_param =
        (s.set_time_param + if i.button_count_save = 1 then 1 else 0) % 7 := by
  rw [tick_editor s i (Or.inl hm) hl hb, if_pos hm]
  obtain ⟨h1, h2, h3⟩ := handle_set_time_mode_cursor (tick_prologue 0 (feed i s))
  rw [h1, h2, h3]
  refine ⟨hm, rfl, ?_⟩
  have e1 : (tick_prologue 0 (feed i s)).button_count_save = i.button_count_save := rfl
  have e2 : (tick_prologue 0 (feed i s)).set_time_param = s.set_time_param := rfl
  rw [e1, e2]
  simp only [SET_YEAR, SET_HOUR] at hp ⊢
  split_ifs <;> omega

/-- One tick of the alarm editor with the mode button at rest. -/
theorem set_alarm_tick (s : State) (i : Input)
    (hm : s.current_mode = ClockMode.MODE_SET_ALARM) (hl : s.mode_btn_last_count = 0)
    (hb : i.button_count_mode = 0) (hp : s.set_alarm_param ≤ SET_ALARM_ENABLE) :
    (tick s i).current_mode = ClockMode.MODE_SET_ALARM ∧ (tick s i).mode_btn_last_count = 0 ∧
      (tick s i).set_alarm_param =
        (s.set_alarm_param + if i.button_count_save = 1 then 1 else 0) % 3 := by
  have hne : s.current_mode ≠ ClockMode.MODE_SET_TIME := by rw [hm]; decide
  rw [tick_editor s i (Or.inr hm) hl hb, if_neg hne]
  obtain ⟨h1, h2, h3⟩ := handle_set_alarm_mode_cursor (tick_prologue 0 (feed i s))
  rw [h1, h2, h3]
  refine ⟨hm, rfl, ?_⟩
  have e1 : (tick_prologue 0 (feed i s)).button_count_save = i.button_count_save := rfl
  have e2 : (tick_prologue 0 (feed i s)).set_alarm_param = s.set_alarm_param := rfl
  rw [e1, e2]
  simp only [SET_ALARM_ENABLE] at hp ⊢
  split_ifs <;> omega

theorem confirm_presses_cons (i : Input) (is : List Input) :
    confirm_presses (i :: is) =
      (if i.button_count_save = 1 then 1 else 0) + confirm_presses is := by
  unfold confirm_presses
  rw [List.countP_cons]
  by_cases h : i.button_count_save = 1
  · simp [h]; omega
  · simp [h]

theorem set_time_run (is : List Input) :
    ∀ s : State, s.current_mode = ClockMode.MODE_SET_TIME → s.mode_btn_last_count = 0 →
      (∀ j ∈ is, j.button_count_mode = 0) → s.set_time_param ≤ SET_YEAR →
      (run s is).current_mode = ClockMode.MODE_SET_TIME ∧
        (run s is).set_time_param = (s.set_time_param + confirm_presses is) % 7 := by
  induction is with
  | nil =>
    intro s hm _ _ hp
    simp only [SET_YEAR] at hp
    refine ⟨hm, ?_⟩
    show s.set_time_param = (s.set_time_param + 0) % 7
    omega
  | cons i t ih =>
    intro s hm hl hb hp
    obtain ⟨h1, h2, h3⟩ := set_time_tick s i hm hl (hb i (List.mem_cons_self _ _)) hp
    have hp2 : (tick s i).set_time_param ≤ SET_YEAR := by
      rw [h3]; simp only [SET_YEAR]; omega
    obtain ⟨h4, h5⟩ := ih (tick s i) h1 h2 (fun j hj => hb j (List.mem_cons_of_mem _ hj)) hp2
    rw [run_cons]
    refine ⟨h4, ?_⟩
    rw [h5, h3, confirm_presses_cons]
    omega

theorem set_alarm_run (is : List Input) :
    ∀ s : State, s.current_mode = ClockMode.MODE_SET_ALARM → s.mode_btn_last_count = 0 →
      (∀ j ∈ is, j.button_count_mode = 0) → s.set_alarm_param ≤ SET_ALARM_ENABLE →
      (run s is).current_mode = ClockMode.MODE_SET_ALARM ∧
        (run s is).set_alarm_param = (s.set_alarm_param + confirm_presses is) % 3 := by
  induction is with
  | nil =>
    intro s hm _ _ hp
    simp only [SET_ALARM_ENABLE] at hp
    refine ⟨hm, ?_⟩
    show s.set_alarm_param = (s.set_alarm_param + 0) % 3
    omega
  | cons i t ih =>
    intro s hm hl hb hp
    obtain ⟨h1, h2, h3⟩ := set_alarm_tick s i hm hl (hb i (List.mem_cons_self _ _)) hp
    have hp2 : (tick s i).set_alarm_param ≤ SET_ALARM_ENABLE := by
      rw [h3]; simp only [SET_ALARM_ENABLE]; omega
    obtain ⟨h4, h5⟩ := ih (tick s i) h1 h2 (fun j hj => hb j (List.mem_cons_of_mem _ hj)) hp2
    rw [run_cons]
    refine ⟨h4, ?_⟩
    rw [h5, h3, confirm_presses_cons]
    omega

/-- C32: CONFIRM steps the cursor cyclically.  The set-time handler moves its cursor to
the next field, and from Year back to Hour, on a tick with the CONFIRM held-count equal
to 1 and leaves it on a tick with any other count; the set-alarm handler does the same
with its three fields.  Over any run of ticks in SetTime (SetAlarm) with the mode button
at rest the cursor is the starting field moved on by the number of such presses modulo 7
(modulo 3): seven (three) presses return to the starting field, and no press leaves it
where it is. -/
theorem confirm_cycles_cursor (s : State) (is : List Input)
    (hl : s.mode_btn_last_count = 0) (hb : ∀ j ∈ is, j.button_count_mode = 0) :
    (∀ x : State,
        (handle_set_time_mode x).set_time_param =
          (if x.button_count_save = 1 then
            (if x.set_time_param + 1 > SET_YEAR then SET_HOUR else x.set_time_param + 1)
          else x.set_time_param) ∧
        (handle_set_alarm_mode x).set_alarm_param =
          (if x.button_count_save = 1 then (x.set_alarm_param + 1) % 3
          else x.set_alarm_param)) ∧
      (s.current_mode = ClockMode.MODE_SET_TIME → s.set_time_param ≤ SET_YEAR →
        (run s is).current_mode = ClockMode.MODE_SET_TIME ∧
        (run s is).set_time_param = (s.set_time_param + confirm_presses is) % 7 ∧
        (confirm_presses is = 7 → (run s is).set_time_param = s.set_time_param) ∧
        (confirm_presses is = 0 → (run s is).set_time_param = s.set_time_param)) ∧
      (s.current_mode = ClockMode.MODE_SET_ALARM → s.set_alarm_param ≤ SET_ALARM_ENABLE →
        (run s is).current_mode = ClockMode.MODE_SET_ALARM ∧
        (run s is).set_alarm_param = (s.set_alarm_param + confirm_presses is) % 3 ∧
        (confirm_presses is = 3 → (run s is).set_alarm_param = s.set_alarm_param) ∧
        (confirm_presses is = 0 → (run s is).set_alarm_param = s.set_alarm_param)) := by
  refine ⟨fun x => ⟨(handle_set_time_mode_cursor x).1, (handle_set_alarm_mode_cursor x).1⟩,
    ?_, ?_⟩
  · intro hm hp
    obtain ⟨h1, h2⟩ := set_time_run is s hm hl hb hp
    simp only [SET_YEAR] at hp
    refine ⟨h1, h2, ?_, ?_⟩ <;> intro hk <;> rw [h2, hk] <;> omega
  · intro hm hp
    obtain ⟨h1, h2⟩ := set_alarm_run is s hm hl hb hp
    simp only [SET_ALARM_ENABLE] at hp
    refine ⟨h1, h2, ?_, ?_⟩ <;> intro hk <;> rw [h2, hk] <;> omega

/-- Witness of C32: seven presses of CONFIRM bring the cursor from the second back to the
second. -/
theorem confirm_cycles_cursor_witness :
    editing_second.mode_btn_last_count = 0 ∧
      (∀ j ∈ seven_confirms, j.button_count_mode = 0) ∧
      (run editing_second seven_confirms).set_time_param = SET_SEC ∧
      (run editing_second [confirm_input]).set_time_param = SET_DAY ∧
      (run editing_alarm_minute [confirm_input, confirm_input]).set_alarm_param =
        SET_ALARM_HOUR :=
  ⟨rfl, by decide,
    ((confirm_cycles_cursor editing_second seven_confirms rfl (by decide)).2.1 rfl
      (by decide)).2.2.1 (by decide),
    by decide, by decide⟩

/-! ## Duration of the message display -/

/-- One tick of the message display with the mode button at rest: the countdown steps
down while it is positive, and the mode changes to ViewTime when the tick finds it at
zero. -/
theorem message_tick (s : State) (i : Input)
    (hm : s.current_mode = ClockMode.MODE_MESSAGE_DISPLAY) (hl : s.mode_btn_last_count = 0)
    (hb : i.button_count_mode = 0) :
    (tick s i).mode_btn_last_count = 0 ∧
      (0 < s.message_display_counter →
        (tick s i).current_mode = ClockMode.MODE_MESSAGE_DISPLAY ∧
        (tick s i).message_display_counter = s.message_display_counter - 1) ∧
      (s.message_display_counter = 0 →
        (tick s i).current_mode = ClockMode.MODE_VIEW_TIME ∧
        (tick s i).message_display_counter = 0) := by
  have hmode : (feed i s).current_mode = ClockMode.MODE_MESSAGE_DISPLAY := hm
  have hcount : (feed i s).button_count_mode = 0 := hb
  have hrel : ¬ mode_released (feed i s) := by
    intro hh
    have h2 : (feed i s).mode_btn_last_count > 0 := hh.2
    have h3 : (feed i s).mode_btn_last_count = 0 := hl
    omega
  unfold tick
  rw [clock_fsm_run_message (feed i s) (by rw [hcount]; decide) hmode, if_neg hrel]
  unfold handle_message_display_mode
  have hc : ({ feed i s with mode_btn_last_count := (feed i s).button_count_mode } :
      State).message_display_counter = s.message_display_counter := rfl
  rw [hc]
  refine ⟨?_, ?_, ?_⟩
  · split_ifs <;> exact hcount
  · intro hpos
    rw [if_pos hpos]
    exact ⟨hm, rfl⟩
  · intro hz
    rw [if_neg (by omega)]
    exact ⟨rfl, hz⟩

theorem message_run (is : List Input) :
    ∀ s : State, s.current_mode = ClockMode.MODE_MESSAGE_DISPLAY →
      s.mode_btn_last_count = 0 → (∀ j ∈ is, j.button_count_mode = 0) →
      is.length ≤ s.message_display_counter →
      (run s is).current_mode = ClockMode.MODE_MESSAGE_DISPLAY ∧
        (run s is).mode_btn_last_count = 0 ∧
        (run s is).message_display_counter = s.message_display_counter - is.length := by
  induction is with
  | nil => intro s hm hl _ _; exact ⟨hm, hl, rfl⟩
  | cons i t ih =>
    intro s hm hl hb hlen
    simp only [List.length_cons] at hlen
    obtain ⟨h1, h2, _⟩ := message_tick s i hm hl (hb i (List.mem_cons_self _ _))
    obtain ⟨h3, h4⟩ := h2 (by omega)
    obtain ⟨h5, h6, h7⟩ := ih (tick s i) h3 h1
      (fun j hj => hb j (List.mem_cons_of_mem _ hj)) (by rw [h4]; omega)
    rw [run_cons]
    refine ⟨h5, h6, ?_⟩
    rw [h7, h4, List.length_cons]
    omega

/-- The message display ends on the tick after the one that brings the countdown to
zero. -/
theorem message_ends (s : State) (is : List Input) (i : Input)
    (hm : s.current_mode = ClockMode.MODE_MESSAGE_DISPLAY) (hl : s.mode_btn_last_count = 0)
    (hb : ∀ j ∈ is, j.button_count_mode = 0) (hi : i.button_count_mode = 0)
    (hlen : is.length = s.message_display_counter) :
    (run s is).current_mode = ClockMode.MODE_MESSAGE_DISPLAY ∧
      (run s is).message_display_counter = 0 ∧
      (run s (is ++ [i])).current_mode = ClockMode.MODE_VIEW_TIME := by
  obtain ⟨h1, h2, h3⟩ := message_run is s hm hl hb (by omega)
  have h0 : (run s is).message_display_counter = 0 := by rw [h3]; omega
  refine ⟨h1, h0, ?_⟩
  rw [run_append, run_cons, run_nil]
  exact ((message_tick (run s is) i h1 h2 hi).2.2 h0).1

theorem reset_tick_enters_message (s : State) :
    (tick s held_input).current_mode = ClockMode.MODE_MESSAGE_DISPLAY ∧
      (tick s held_input).message_display_counter = MESSAGE_DISPLAY_PERIOD ∧
      (tick s held_input).mode_btn_last_count = 0 := by
  unfold tick
  have hc : RESET_LONG_PRESS_DURATION < (feed held_input s).button_count_mode := by
    show 60 < 61
    decide
  rw [clock_fsm_run_reset (feed held_input s) hc]
  exact ⟨rfl, rfl, rfl⟩

/-- C34, counterexample to the claim as stated: after the reset that enters the message
display, with all buttons at rest, the 60th tick brings the countdown to zero and the
mode is still Message after it; the mode is ViewTime after the 61st. -/
theorem message_lasts_sixty_one_ticks :
    (run init (reset_then_rest 0)).current_mode = ClockMode.MODE_MESSAGE_DISPLAY ∧
      (run init (reset_then_rest 0)).message_display_counter = 60 ∧
      (run init (reset_then_rest 60)).current_mode = ClockMode.MODE_MESSAGE_DISPLAY ∧
      (run init (reset_then_rest 60)).message_display_counter = 0 ∧
      (run init (reset_then_rest 61)).current_mode = ClockMode.MODE_VIEW_TIME := by
  obtain ⟨h1, h2, h3⟩ := reset_tick_enters_message init
  have hq : ∀ j ∈ List.replicate 60 quiet_input, j.button_count_mode = 0 := by
    intro j hj
    rw [List.eq_of_mem_replicate hj]; rfl
  obtain ⟨k1, k2, k3⟩ := message_ends (tick init held_input) (List.replicate 60 quiet_input)
    quiet_input h1 h3 hq rfl (by rw [h2, List.length_replicate])
  have e60 : run init (reset_then_rest 60) =
      run (tick init held_input) (List.replicate 60 quiet_input) := by
    unfold reset_then_rest; rw [run_cons]
  have e61 : run init (reset_then_rest 61) =
      run (tick init held_input) (List.replicate 60 quiet_input ++ [quiet_input]) := by
    unfold reset_then_rest
    rw [run_cons, List.replicate_succ' 60 quiet_input]
  have e0 : run init (reset_then_rest 0) = tick init held_input := by
    unfold reset_then_rest
    rw [List.replicate_zero, run_cons, run_nil]
  rw [e0, e60, e61]
  exact ⟨h1, h2, k1, k2, k3⟩

/-- C34, as the code has it: entering the message display sets the countdown to 60.  From
a state in Message with countdown `c`, with the mode button untouched, the mode is still
Message after each of the following `c` ticks, the `c`-th of which brings the countdown
to zero, and the mode becomes ViewTime on the tick after that, the `c + 1`-st (the 61st
after entry). -/
theorem message_duration (s : State) (is : List Input)
    (hm : s.current_mode = ClockMode.MODE_MESSAGE_DISPLAY) (hl : s.mode_btn_last_count = 0)
    (hb : ∀ j ∈ is, j.button_count_mode = 0)
    (hlen : is.length = s.message_display_counter + 1) :
    (∀ (m : List Nat) (col : Color) (u : Option (List Nat)) (x : State),
        (enter_message_display_mode m col u x).current_mode = ClockMode.MODE_MESSAGE_DISPLAY ∧
        (enter_message_display_mode m col u x).message_display_counter = 60) ∧
      (∀ n, n ≤ s.message_display_counter →
        (run s (is.take n)).current_mode = ClockMode.MODE_MESSAGE_DISPLAY ∧
        (run s (is.take n)).message_display_counter = s.message_display_counter - n) ∧
      (run s is).current_mode = ClockMode.MODE_VIEW_TIME := by
  refine ⟨?_, ?_, ?_⟩
  · intro m col u x
    unfold enter_message_display_mode
    cases u <;> exact ⟨rfl, rfl⟩
  · intro n hn
    have hbt : ∀ j ∈ is.take n, j.button_count_mode = 0 :=
      fun j hj => hb j (List.mem_of_mem_take hj)
    have hl2 : (is.take n).length = n := by
      rw [List.length_take]; omega
    obtain ⟨h1, _, h3⟩ := message_run (is.take n) s hm hl hbt (by omega)
    rw [hl2] at h3
    exact ⟨h1, h3⟩
  · have hne : is ≠ [] := by
      intro e; rw [e] at hlen; simp at hlen
    have hsplit : is = is.dropLast ++ [is.getLast hne] := (List.dropLast_append_getLast hne).symm
    have hbd : ∀ j ∈ is.dropLast, j.button_count_mode = 0 :=
      fun j hj => hb j (List.mem_of_mem_dropLast hj)
    have hk := message_ends s is.dropLast (is.getLast hne) hm hl hbd
      (hb _ (List.getLast_mem hne)) (by rw [List.length_dropLast]; omega)
    rw [hsplit]
    exact hk.2.2

/-- Witness of C34: the message of the retry check, entered with the countdown at 60,
is left on the 61st tick. -/
theorem message_duration_witness :
    message_entered.current_mode = ClockMode.MODE_MESSAGE_DISPLAY ∧
      message_entered.message_display_counter = 60 ∧
      (run message_entered (List.replicate 61 quiet_input)).current_mode =
        ClockMode.MODE_VIEW_TIME :=
  ⟨rfl, rfl,
    (message_duration message_entered (List.replicate 61 quiet_input) rfl rfl
      (fun j hj => by rw [List.eq_of_mem_replicate hj]; rfl) (by decide)).2.2⟩

/-! ## One call of the line reassembler, in full -/

theorem process_loop_drop (f : Nat) (u : Uart) (b : Nat) (t : List Nat) (h : ring_ok u)
    (hq : buffered u = b :: t) (hd : is_delimiter b = false) (hi : 31 ≤ u.uart_cmd_index) :
    process_loop (f + 1) u = process_loop f (uart_ReadByte u).2 := by
  obtain ⟨h1, _, _, _, h5, _⟩ := read_some u h b t hq
  have hb : ¬ (b = 13 ∨ b = 10) := by
    rw [← is_delimiter_iff]; rw [hd]; decide
  have e : process_loop (f + 1) u =
      (if (uart_ReadByte u).1 = -1 then some (uart_ReadByte u).2
      else if (uart_ReadByte u).1 = 13 ∨ (uart_ReadByte u).1 = 10 then
        if (uart_ReadByte u).2.uart_cmd_index > 0 then
          some { (uart_ReadByte u).2 with
            uart_cmd_buffer :=
              (uart_ReadByte u).2.uart_cmd_buffer.set (uart_ReadByte u).2.uart_cmd_index 0,
            uart_cmd_ready_flag := 1, uart_cmd_index := 0 }
        else process_loop f (uart_ReadByte u).2
      else if (uart_ReadByte u).2.uart_cmd_index < UART_CMD_BUFFER_SIZE - 1 then
        process_loop f
          { (uart_ReadByte u).2 with
            uart_cmd_buffer := (uart_ReadByte u).2.uart_cmd_buffer.set
              (uart_ReadByte u).2.uart_cmd_index ((uart_ReadByte u).1 % 256).toNat,
            uart_cmd_index := (uart_ReadByte u).2.uart_cmd_index + 1 }
      else process_loop f (uart_ReadByte u).2) := rfl
  rw [e, h1, h5]
  rw [if_neg (by omega), if_neg (by omega), if_neg (by simp only [UART_CMD_BUFFER_SIZE]; omega)]

theorem read_rx_buffer (u : Uart) : (uart_ReadByte u).2.rx_buffer = u.rx_buffer := by
  unfold uart_ReadByte
  by_cases h : u.rx_head = u.rx_tail
  · rw [if_pos h]
  · rw [if_neg h]
    simp only []
    split_ifs <;> rfl

theorem line_parts_skip (b : Nat) (t : List Nat) (hd : is_delimiter b = true) :
    line_body 0 (b :: t) = line_body 0 t ∧ line_tail 0 (b :: t) = line_tail 0 t ∧
      skipped 0 (b :: t) = b :: skipped 0 t := by
  unfold line_body line_tail after_skip skipped
  simp [hd]

theorem line_parts_complete (idx b : Nat) (t : List Nat) (hd : is_delimiter b = true)
    (hi : 0 < idx) :
    line_body idx (b :: t) = [] ∧ line_tail idx (b :: t) = b :: t ∧
      skipped idx (b :: t) = [] := by
  have hne : idx ≠ 0 := by omega
  unfold line_body line_tail after_skip skipped
  simp [hd, hne]

theorem line_parts_collect (idx j b : Nat) (t : List Nat) (hd : is_delimiter b = false)
    (hj : 0 < j) :
    line_body idx (b :: t) = b :: line_body j t ∧ line_tail idx (b :: t) = line_tail j t ∧
      skipped idx (b :: t) = [] ∧ skipped j t = [] := by
  have hne : j ≠ 0 := by omega
  unfold line_body line_tail after_skip skipped
  by_cases h0 : idx = 0 <;> simp [hd, hne, h0]

/-- The buffered bytes are the delimiters passed over, the bytes collected and the rest,
which is empty or starts with the delimiter that completes the line. -/
theorem line_parts (idx : Nat) (q : List Nat) :
    q = skipped idx q ++ line_body idx q ++ line_tail idx q ∧
      (∀ b ∈ skipped idx q, is_delimiter b = true) ∧
      (∀ b ∈ line_body idx q, is_delimiter b = false) ∧
      (∀ d rest, line_tail idx q = d :: rest → is_delimiter d = true) ∧
      (idx = 0 → line_tail idx q ≠ [] → line_body idx q ≠ []) := by
  induction q generalizing idx with
  | nil =>
    unfold skipped line_body line_tail after_skip
    by_cases h0 : idx = 0 <;> simp [h0]
  | cons b t ih =>
    by_cases hd : is_delimiter b = true
    · by_cases h0 : idx = 0
      · subst h0
        obtain ⟨e1, e2, e3⟩ := line_parts_skip b t hd
        obtain ⟨k1, k2, k3, k4, k5⟩ := ih 0
        rw [e1, e2, e3]
        refine ⟨?_, ?_, k3, k4, k5⟩
        · rw [List.cons_append, List.cons_append, ← k1]
        · intro x hx
          rcases List.mem_cons.mp hx with e | e
          · rw [e]; exact hd
          · exact k2 x e
      · obtain ⟨e1, e2, e3⟩ := line_parts_complete idx b t hd (by omega)
        rw [e1, e2, e3]
        refine ⟨rfl, ?_, ?_, ?_, ?_⟩
        · intro x hx; cases hx
        · intro x hx; cases hx
        · intro d rest hdr
          injection hdr with hh _
          rw [← hh]; exact hd
        · intro hz; exact absurd hz h0
    · have hd2 : is_delimiter b = false := by
        cases hh : is_delimiter b
        · rfl
        · exact absurd hh hd
      obtain ⟨e1, e2, e3, e4⟩ := line_parts_collect idx 1 b t hd2 (by decide)
      obtain ⟨k1, _, k3, k4, _⟩ := ih 1
      rw [e1, e2, e3]
      rw [e4] at k1
      refine ⟨?_, ?_, ?_, k4, ?_⟩
      · rw [List.nil_append, List.cons_append]
        rw [List.nil_append] at k1
        rw [← k1]
      · intro x hx; cases hx
      · intro x hx
        rcases List.mem_cons.mp hx with e | e
        · rw [e]; exact hd2
        · exact k3 x e
      · intro _ _ hnil
        cases hnil

theorem line_body_pos (i j : Nat) (q : List Nat) (hi : 0 < i) (hj : 0 < j) :
    line_body i q = line_body j q ∧ line_tail i q = line_tail j q := by
  have h1 : i ≠ 0 := by omega
  have h2 : j ≠ 0 := by omega
  unfold line_body line_tail after_skip
  rw [if_neg h1, if_neg h2]
  exact ⟨rfl, rfl⟩

/-- One call of the loop with fuel beyond the number of buffered bytes returns, and the
state it returns is determined by the parts of the buffered bytes. -/
theorem process_loop_outcome (q : List Nat) :
    ∀ (u : Uart) (f : Nat), ring_ok u → buffered u = q → q.length < f →
      ∃ v : Uart, process_loop f u = some v ∧ ring_ok v ∧ v.rx_buffer = u.rx_buffer ∧
        buffered v = (line_tail u.uart_cmd_index q).drop 1 ∧
        v.uart_cmd_ready_flag =
          (if line_tail u.uart_cmd_index q = [] then u.uart_cmd_ready_flag else 1) ∧
        v.uart_cmd_index =
          (if line_tail u.uart_cmd_index q = [] then
            (stored u.uart_cmd_buffer u.uart_cmd_index q).2 else 0) ∧
        v.uart_cmd_buffer =
          (if line_tail u.uart_cmd_index q = [] then
            (stored u.uart_cmd_buffer u.uart_cmd_index q).1
          else (stored u.uart_cmd_buffer u.uart_cmd_index q).1.set
            (stored u.uart_cmd_buffer u.uart_cmd_index q).2 0) := by
  induction q with
  | nil =>
    intro u f h hq hf
    obtain ⟨g, rfl⟩ : ∃ g, f = g + 1 := ⟨f - 1, by simp at hf; omega⟩
    refine ⟨{ u with uart_rx_flag := 0 }, process_loop_empty g u h hq, h, rfl, ?_⟩
    have e1 : line_tail u.uart_cmd_index [] = [] := by
      unfold line_tail after_skip; split <;> rfl
    have e2 : stored u.uart_cmd_buffer u.uart_cmd_index [] =
        (u.uart_cmd_buffer, u.uart_cmd_index) := by
      unfold stored line_body after_skip; split <;> rfl
    rw [e1, e2]
    exact ⟨hq, rfl, rfl, rfl⟩
  | cons b t ih =>
    intro u f h hq hf
    obtain ⟨g, rfl⟩ : ∃ g, f = g + 1 := ⟨f - 1, by simp at hf; omega⟩
    have hg : t.length < g := by simp at hf; omega
    obtain ⟨r1, r2, r3, r4, r5, r6⟩ := read_some u h b t hq
    have rbuf : (uart_ReadByte u).2.rx_buffer = u.rx_buffer := read_rx_buffer u
    by_cases hd : is_delimiter b = true
    · by_cases h0 : u.uart_cmd_index = 0
      · obtain ⟨v, k1, k2, k3, k4, k5, k6, k7⟩ := ih (uart_ReadByte u).2 g r2 r3 hg
        obtain ⟨e1, e2, _⟩ := line_parts_skip b t hd
        refine ⟨v, ?_, k2, k3.trans rbuf, ?_, ?_, ?_, ?_⟩
        · rw [process_loop_skip g u b t h hq hd h0]; exact k1
        all_goals rw [h0]
        · rw [e2]; rw [r5, h0] at k4; exact k4
        · rw [e2]; rw [r5, r6, h0] at k5; exact k5
        · rw [e2]; unfold stored at k6 ⊢; rw [e1]; rw [r4, r5, h0] at k6; exact k6
        · rw [e2]; unfold stored at k7 ⊢; rw [e1]; rw [r4, r5, h0] at k7; exact k7
      · obtain ⟨e1, e2, _⟩ := line_parts_complete u.uart_cmd_index b t hd (by omega)
        refine ⟨_, process_loop_complete g u b t h hq hd (by omega), r2, rbuf, ?_, ?_, ?_, ?_⟩
        · rw [e2]; exact r3
        · rw [e2]; rfl
        · rw [e2]; rfl
        · rw [e2]; unfold stored; rw [e1]; rfl
    · have hd2 : is_delimiter b = false := by
        cases hh : is_delimiter b
        · rfl
        · exact absurd hh hd
      by_cases h31 : u.uart_cmd_index < 31
      · obtain ⟨e1, e2, _, _⟩ := line_parts_collect u.uart_cmd_index (u.uart_cmd_index + 1) b t
          hd2 (by omega)
        have hs : stored u.uart_cmd_buffer u.uart_cmd_index (b :: t) =
            stored (u.uart_cmd_buffer.set u.uart_cmd_index (b % 256)) (u.uart_cmd_index + 1)
              t := by
          unfold stored
          rw [e1, List.foldl_cons]
          unfold store_byte
          simp only [UART_CMD_BUFFER_SIZE]
          rw [if_pos h31]
        obtain ⟨v, k1, k2, k3, k4, k5, k6, k7⟩ := ih
          { (uart_ReadByte u).2 with
            uart_cmd_buffer := u.uart_cmd_buffer.set u.uart_cmd_index (b % 256),
            uart_cmd_index := u.uart_cmd_index + 1 } g r2 r3 hg
        refine ⟨v, ?_, k2, k3.trans rbuf, ?_, ?_, ?_, ?_⟩
        · rw [process_loop_store g u b t h hq hd2 h31]; exact k1
        · rw [e2]; exact k4
        · rw [e2]; exact k5.trans (by rw [r6])
        · rw [e2, hs]; exact k6
        · rw [e2, hs]; exact k7
      · obtain ⟨e1, e2, _, _⟩ := line_parts_collect u.uart_cmd_index u.uart_cmd_index b t
          hd2 (by omega)
        have hs : stored u.uart_cmd_buffer u.uart_cmd_index (b :: t) =
            stored u.uart_cmd_buffer u.uart_cmd_index t := by
          unfold stored
          rw [e1, List.foldl_cons]
          unfold store_byte
          simp only [UART_CMD_BUFFER_SIZE]
          rw [if_neg h31]
        obtain ⟨v, k1, k2, k3, k4, k5, k6, k7⟩ := ih (uart_ReadByte u).2 g r2 r3 hg
        rw [r4, r5] at k6 k7
        rw [r5] at k4 k5
        rw [r6] at k5
        refine ⟨v, ?_, k2, k3.trans rbuf, ?_, ?_, ?_, ?_⟩
        · rw [process_loop_drop g u b t h hq hd2 (by omega)]; exact k1
        · rw [e2]; exact k4
        · rw [e2]; exact k5
        · rw [e2, hs]; exact k6
        · rw [e2, hs]; exact k7

/-! ## Termination of the line reassembler -/

set_option maxRecDepth 8192

/-- More fuel does not change what the loop returns. -/
theorem process_loop_mono :
    ∀ (f : Nat) (u v : Uart), process_loop f u = some v →
      ∀ g, f ≤ g → process_loop g u = some v := by
  intro f
  induction f with
  | zero => intro u v h; cases h
  | succ f ih =>
    intro u v h g hg
    obtain ⟨k, rfl⟩ : ∃ k, g = k + 1 := ⟨g - 1, by omega⟩
    have hk : f ≤ k := by omega
    simp only [process_loop] at h ⊢
    split_ifs at h ⊢
    · exact h
    · exact h
    · exact ih _ _ h k hk
    · exact ih _ _ h k hk
    · exact ih _ _ h k hk

/-- C37: `uart_process_incoming_data` terminates.  For every well-formed ring and every
state of the command buffer, with no arrival during the call, the call returns, and so
does the loop with any fuel above the number of buffered bytes, with the same result.
The buffered bytes are the delimiters passed over, the bytes collected and a rest; the
bytes left in the ring are a final part of those buffered at entry.  When the rest is
empty, the call stops with the ring empty and the ready flag as it was; otherwise the
rest starts with the delimiter that completes the first non-empty line, the call stops
there with the ready flag set and the index at 0, and every later byte is still in the
ring. -/
theorem reassembler_terminates (u : Uart) (h : ring_ok u) :
    ∃ v : Uart, uart_process_incoming_data u = some v ∧
      (∀ f, (buffered u).length < f → process_loop f u = some v) ∧ ring_ok v ∧
      buffered u = skipped u.uart_cmd_index (buffered u) ++
        line_body u.uart_cmd_index (buffered u) ++ line_tail u.uart_cmd_index (buffered u) ∧
      (∀ b ∈ skipped u.uart_cmd_index (buffered u), is_delimiter b = true) ∧
      (∀ b ∈ line_body u.uart_cmd_index (buffered u), is_delimiter b = false) ∧
      buffered v = (line_tail u.uart_cmd_index (buffered u)).drop 1 ∧
      (buffered v).length ≤ (buffered u).length ∧
      (line_tail u.uart_cmd_index (buffered u) = [] →
        buffered v = [] ∧ v.uart_cmd_ready_flag = u.uart_cmd_ready_flag) ∧
      (∀ d rest, line_tail u.uart_cmd_index (buffered u) = d :: rest →
        is_delimiter d = true ∧ buffered v = rest ∧ v.uart_cmd_ready_flag = 1 ∧
        v.uart_cmd_index = 0 ∧
        (u.uart_cmd_index = 0 → line_body u.uart_cmd_index (buffered u) ≠ [])) := by
  have hlen : (buffered u).length < UART_BUFFER_SIZE + 1 := by
    have := buffered_length_lt u
    simp only [UART_BUFFER_SIZE]; omega
  obtain ⟨v, k1, k2, _, k4, k5, k6, _⟩ :=
    process_loop_outcome (buffered u) u (UART_BUFFER_SIZE + 1) h rfl hlen
  obtain ⟨p1, p2, p3, p4, p5⟩ := line_parts u.uart_cmd_index (buffered u)
  refine ⟨v, k1, ?_, k2, p1, p2, p3, k4, ?_, ?_, ?_⟩
  · intro f hf
    obtain ⟨w, j1, _⟩ := process_loop_outcome (buffered u) u f h rfl hf
    rcases Nat.le_total f (UART_BUFFER_SIZE + 1) with hle | hle
    · have j2 := process_loop_mono f u w j1 _ hle
      have j3 : process_loop (UART_BUFFER_SIZE + 1) u = some v := k1
      rw [j2] at j3
      rw [j1, j3]
    · exact process_loop_mono _ u v k1 f hle
  · rw [k4, List.length_drop]
    have e := congrArg List.length p1
    rw [List.length_append] at e
    omega
  · intro hnil
    rw [k4, k5, hnil, if_pos rfl]
    exact ⟨rfl, rfl⟩
  · intro d rest hdr
    have hne : line_tail u.uart_cmd_index (buffered u) ≠ [] := by
      rw [hdr]; exact List.cons_ne_nil _ _
    rw [k4, k5, k6, if_neg hne, if_neg hne, hdr]
    exact ⟨p4 d rest hdr, rfl, rfl, rfl, fun h0 => p5 h0 hne⟩

/-- Witness of C37: two empty lines are passed over, the line of 40 bytes is completed,
and the four bytes that follow stay in the ring. -/
theorem reassembler_terminates_witness :
    ring_ok (received line_of_40) ∧
      ∃ v : Uart, uart_process_incoming_data (received line_of_40) = some v ∧
        buffered v = bytes "next" ∧ v.uart_cmd_ready_flag = 1 :=
  have h := reassembler_terminates (received line_of_40) (by decide)
  ⟨by decide, h.choose, h.choose_spec.1,
    (h.choose_spec.2.2.2.2.2.2.2.2.2 10 (bytes "next") (by decide)).2.1,
    (h.choose_spec.2.2.2.2.2.2.2.2.2 10 (bytes "next") (by decide)).2.2.1⟩

/-! ## Lines longer than the command buffer -/

theorem line_parts_of_line (line : List Nat) (d : Nat) (rest : List Nat)
    (hd : is_delimiter d = true) :
    ∀ j, 0 < j → (∀ b ∈ line, is_delimiter b = false) →
      line_body j (line ++ d :: rest) = line ∧ line_tail j (line ++ d :: rest) = d :: rest := by
  induction line with
  | nil =>
    intro j hj _
    obtain ⟨e1, e2, _⟩ := line_parts_complete j d rest hd hj
    exact ⟨e1, e2⟩
  | cons b t ih =>
    intro j hj hl
    obtain ⟨e1, e2, _⟩ := line_parts_collect j j b (t ++ d :: rest)
      (hl b (List.mem_cons_self _ _)) hj
    obtain ⟨k1, k2⟩ := ih j hj (fun x hx => hl x (List.mem_cons_of_mem _ hx))
    rw [List.cons_append, e1, e2, k1, k2]
    exact ⟨rfl, rfl⟩

theorem line_parts_of_buffered (pre line : List Nat) (d : Nat) (rest : List Nat)
    (hpre : ∀ b ∈ pre, is_delimiter b = true) (hline : ∀ b ∈ line, is_delimiter b = false)
    (hne : line ≠ []) (hd : is_delimiter d = true) :
    line_body 0 (pre ++ line ++ d :: rest) = line ∧
      line_tail 0 (pre ++ line ++ d :: rest) = d :: rest := by
  induction pre with
  | nil =>
    rw [List.nil_append]
    cases line with
    | nil => exact absurd rfl hne
    | cons b t =>
      obtain ⟨e1, e2, _⟩ := line_parts_collect 0 1 b (t ++ d :: rest)
        (hline b (List.mem_cons_self _ _)) (by decide)
      obtain ⟨k1, k2⟩ := line_parts_of_line t d rest hd 1 (by decide)
        (fun x hx => hline x (List.mem_cons_of_mem _ hx))
      rw [List.cons_append, e1, e2, k1, k2]
      exact ⟨rfl, rfl⟩
  | cons p ps ih =>
    obtain ⟨e1, e2, _⟩ := line_parts_skip p (ps ++ line ++ d :: rest)
      (hpre p (List.mem_cons_self _ _))
    rw [List.cons_append, List.cons_append, e1, e2]
    exact ih (fun x hx => hpre x (List.mem_cons_of_mem _ hx))

/-- The store branch over a run of bytes: the index stops at 31 and the buffer holds, up
to the index, what it held followed by the bytes, cut at 31. -/
theorem foldl_store_byte (line : List Nat) :
    ∀ (cmd : List Nat) (idx : Nat), cmd.length = 32 → idx ≤ 31 →
      (line.foldl store_byte (cmd, idx)).1.length = 32 ∧
        (line.foldl store_byte (cmd, idx)).2 = min (idx + line.length) 31 ∧
        (line.foldl store_byte (cmd, idx)).1.take (min (idx + line.length) 31) =
          (cmd.take idx ++ line.map (fun b => b % 256)).take 31 := by
  induction line with
  | nil =>
    intro cmd idx hl hi
    refine ⟨hl, ?_, ?_⟩
    · show idx = min (idx + 0) 31
      omega
    · show cmd.take (min (idx + 0) 31) = _
      have e : min (idx + 0) 31 = idx := by omega
      rw [e, List.map_nil, List.append_nil, List.take_take]
      have e2 : min 31 idx = idx := by omega
      rw [e2]
  | cons b t ih =>
    intro cmd idx hl hi
    by_cases h31 : idx < 31
    · have hs : store_byte (cmd, idx) b = (cmd.set idx (b % 256), idx + 1) := by
        unfold store_byte
        simp only [UART_CMD_BUFFER_SIZE]
        rw [if_pos h31]
      obtain ⟨k1, k2, k3⟩ := ih (cmd.set idx (b % 256)) (idx + 1)
        (by rw [List.length_set]; exact hl) (by omega)
      rw [List.foldl_cons, hs]
      have e : idx + (b :: t).length = idx + 1 + t.length := by
        rw [List.length_cons]; omega
      rw [e]
      refine ⟨k1, k2, ?_⟩
      rw [k3, take_succ_set cmd idx (b % 256) (by omega), List.map_cons, List.append_assoc]
      rfl
    · have hs : store_byte (cmd, idx) b = (cmd, idx) := by
        unfold store_byte
        simp only [UART_CMD_BUFFER_SIZE]
        rw [if_neg h31]
      obtain ⟨k1, k2, k3⟩ := ih cmd idx hl hi
      rw [List.foldl_cons, hs]
      have e1 : min (idx + (b :: t).length) 31 = 31 := by
        rw [List.length_cons]; omega
      have e2 : min (idx + t.length) 31 = 31 := by omega
      rw [e2] at k2 k3
      rw [e1]
      refine ⟨k1, k2, ?_⟩
      have hlen : 31 ≤ (cmd.take idx).length := by
        rw [List.length_take]; omega
      rw [k3, List.take_append_of_le_length hlen, List.take_append_of_le_length hlen]

/-- A line that is all in the ring, of any length, is delivered as its first 31 bytes. -/
theorem truncating_reassembly (u : Uart) (buffer pre line : List Nat) (d : Nat)
    (rest : List Nat) (h : ring_ok u) (hl : u.uart_cmd_buffer.length = 32)
    (hi : u.uart_cmd_index = 0) (hpre : ∀ b ∈ pre, is_delimiter b = true)
    (hline : ∀ b ∈ line, is_delimiter b = false ∧ b ≠ 0 ∧ b < 256) (hne : line ≠ [])
    (hd : is_delimiter d = true) (hq : buffered u = pre ++ line ++ d :: rest) :
    ∃ v : Uart, uart_process_incoming_data u = some v ∧
      uart_get_command v buffer = (1, line.take 31, { v with uart_cmd_ready_flag := 0 }) ∧
      buffered v = rest ∧ v.uart_cmd_index = 0 := by
  have hlen : (buffered u).length < UART_BUFFER_SIZE + 1 := by
    have := buffered_length_lt u
    simp only [UART_BUFFER_SIZE]; omega
  obtain ⟨v, k1, _, _, k4, k5, k6, k7⟩ :=
    process_loop_outcome (buffered u) u (UART_BUFFER_SIZE + 1) h rfl hlen
  obtain ⟨e1, e2⟩ := line_parts_of_buffered pre line d rest hpre (fun b hb => (hline b hb).1)
    hne hd
  rw [hq, hi] at k4 k5 k6 k7
  have hne2 : d :: rest ≠ [] := List.cons_ne_nil _ _
  rw [e2] at k4 k5 k6 k7
  rw [if_neg hne2] at k5 k6 k7
  unfold stored at k7
  rw [e1] at k7
  obtain ⟨s1, s2, s3⟩ := foldl_store_byte line u.uart_cmd_buffer 0 hl (by decide)
  rw [s2] at k7
  rw [List.take_zero, List.nil_append, map_mod_of_lt line (fun b hb => (hline b hb).2.2)] at s3
  have hn : min (0 + line.length) 31 < (List.foldl store_byte (u.uart_cmd_buffer, 0) line).1.length :=
    by rw [s1]; omega
  have h0 : 0 ∉ line.take 31 := fun hm => (hline 0 (List.mem_of_mem_take hm)).2.1 rfl
  have hc := cstr_set_zero _ (line.take 31) _ hn s3 h0
  refine ⟨v, k1, ?_, k4, k6⟩
  unfold uart_get_command
  rw [k5, if_pos (by decide), k7, hc]

/-- C36, counterexample to the claim as stated: a line of 32 bytes is not delivered
unmodified; the command handed over is its first 31 bytes.  Nor is a line that contains
a NUL byte: of "a", NUL, "b" the command handed over is "a".  An empty line, a lone
delimiter, is not handed over at all: the fetch returns 0. -/
theorem line_of_32_bytes_truncated :
    (bytes "0123456789abcdefghijklmnopqrstuv").length = 32 ∧
      (∃ v : Uart, uart_process_incoming_data (received line_of_32) = some v ∧
        (uart_get_command v []).1 = 1 ∧
        (uart_get_command v []).2.1 = bytes "0123456789abcdefghijklmnopqrstu" ∧
        (uart_get_command v []).2.1 ≠ bytes "0123456789abcdefghijklmnopqrstuv") ∧
      (uart_process_incoming_data (arrive line_with_nul init.uart)).map
        (fun v => uart_get_command v []) =
        (uart_process_incoming_data (arrive line_with_nul init.uart)).map
          (fun v => (1, [97], { v with uart_cmd_ready_flag := 0 })) ∧
      (uart_process_incoming_data (arrive line_with_nul init.uart)).isSome = true ∧
      (uart_process_incoming_data (arrive [13] init.uart)).map
        (fun v => (uart_get_command v []).1) = some 0 := by
  refine ⟨by decide, ?_, by decide, by decide, by decide⟩
  obtain ⟨v, k1, k2, _⟩ := truncating_reassembly (received line_of_32) [] []
    (bytes "0123456789abcdefghijklmnopqrstuv") 13 [] (by decide) (by decide) (by decide)
    (fun b hb => by cases hb) (by decide) (by decide) (by decide) (by decide)
  refine ⟨v, k1, ?_⟩
  rw [k2]
  refine ⟨rfl, ?_, ?_⟩
  · show List.take 31 (bytes "0123456789abcdefghijklmnopqrstuv") =
      bytes "0123456789abcdefghijklmnopqrstu"
    decide
  · show List.take 31 (bytes "0123456789abcdefghijklmnopqrstuv") ≠
      bytes "0123456789abcdefghijklmnopqrstuv"
    decide

/-! ## The command handed over fits the buffer of the FSM -/

theorem callback_fields (b : Nat) (u : Uart) :
    ((HAL_UART_RxCpltCallback b u).rx_buffer = u.rx_buffer ∨
        (HAL_UART_RxCpltCallback b u).rx_buffer = u.rx_buffer.set u.rx_head b) ∧
      (HAL_UART_RxCpltCallback b u).uart_cmd_buffer = u.uart_cmd_buffer ∧
      (HAL_UART_RxCpltCallback b u).uart_cmd_index = u.uart_cmd_index := by
  unfold HAL_UART_RxCpltCallback
  simp only []
  split_ifs
  · exact ⟨Or.inr rfl, rfl, rfl⟩
  · exact ⟨Or.inl rfl, rfl, rfl⟩

theorem callback_ring_ok (b : Nat) (u : Uart) (h : ring_ok u) :
    ring_ok (HAL_UART_RxCpltCallback b u) := by
  by_cases hlt : (buffered u).length < 63
  · exact (callback_accept b u h hlt).1
  · rw [callback_drop b u h (by omega)]
    exact h

theorem mem_buffered (u : Uart) (hb : ∀ b ∈ u.rx_buffer, b < 256) :
    ∀ b ∈ buffered u, b < 256 := by
  intro b hmem
  unfold buffered at hmem
  obtain ⟨k, _, rfl⟩ := List.mem_map.mp hmem
  rw [List.getD_eq_getElem?_getD]
  cases hk : u.rx_buffer[(u.rx_tail + k) % UART_BUFFER_SIZE]? with
  | none => simp
  | some x =>
    simp only [Option.getD_some]
    exact hb x (List.getElem?_mem hk)

theorem cmd_ok_store_byte (cmd : List Nat) (idx b : Nat) (h : CmdOk cmd idx)
    (hd : is_delimiter b = false) (hb : b < 256) :
    CmdOk (store_byte (cmd, idx) b).1 (store_byte (cmd, idx) b).2 := by
  obtain ⟨h1, h2, h3, h4⟩ := h
  simp only [UART_CMD_BUFFER_SIZE] at h1 h2 h3
  unfold store_byte
  simp only [UART_CMD_BUFFER_SIZE]
  by_cases h31 : idx < 31
  · rw [if_pos h31]
    refine ⟨by rw [List.length_set]; exact h1, by show idx + 1 ≤ 31; omega, ?_, ?_⟩
    · show (cmd.set idx (b % 256)).getD 31 1 = 0
      rw [List.getD_eq_getElem?_getD, List.getElem?_set_ne (by omega),
        ← List.getD_eq_getElem?_getD]
      exact h3
    · intro x hx
      rcases List.mem_or_eq_of_mem_set hx with e | e
      · exact h4 x e
      · rw [e, Nat.mod_eq_of_lt hb]; exact hd
  · rw [if_neg h31]
    exact ⟨h1, h2, h3, h4⟩

theorem cmd_ok_foldl (line : List Nat) :
    ∀ (cmd : List Nat) (idx : Nat), CmdOk cmd idx →
      (∀ b ∈ line, is_delimiter b = false ∧ b < 256) →
      CmdOk (line.foldl store_byte (cmd, idx)).1 (line.foldl store_byte (cmd, idx)).2 := by
  induction line with
  | nil => intro cmd idx h _; exact h
  | cons b t ih =>
    intro cmd idx h hl
    rw [List.foldl_cons]
    have hb := hl b (List.mem_cons_self _ _)
    exact ih _ _ (cmd_ok_store_byte cmd idx b h hb.1 hb.2)
      (fun x hx => hl x (List.mem_cons_of_mem _ hx))

theorem cmd_ok_terminate (cmd : List Nat) (idx : Nat) (h : CmdOk cmd idx) :
    CmdOk (cmd.set idx 0) 0 := by
  obtain ⟨h1, h2, h3, h4⟩ := h
  simp only [UART_CMD_BUFFER_SIZE] at h1 h2 h3
  refine ⟨by rw [List.length_set]; exact h1, Nat.zero_le _, ?_, ?_⟩
  · show (cmd.set idx 0).getD 31 1 = 0
    rw [List.getD_eq_getElem?_getD]
    by_cases e : idx = 31
    · rw [e, List.getElem?_set_self (by omega)]
      rfl
    · rw [List.getElem?_set_ne e, ← List.getD_eq_getElem?_getD]
      exact h3
  · intro x hx
    rcases List.mem_or_eq_of_mem_set hx with e | e
    · exact h4 x e
    · rw [e]; rfl

/-- A call of the reassembler keeps the invariant of `uart.c`. -/
theorem process_keeps_inv (u v : Uart) (h : UartInv u)
    (hv : uart_process_incoming_data u = some v) : UartInv v := by
  obtain ⟨h1, h2, h3⟩ := h
  have hlen : (buffered u).length < UART_BUFFER_SIZE + 1 := by
    have := buffered_length_lt u
    simp only [UART_BUFFER_SIZE]; omega
  obtain ⟨w, k1, k2, k3, _, _, k6, k7⟩ :=
    process_loop_outcome (buffered u) u (UART_BUFFER_SIZE + 1) h1 rfl hlen
  have e : v = w := by
    have k : uart_process_incoming_data u = some w := k1
    rw [hv] at k
    exact Option.some.inj k
  subst e
  obtain ⟨p1, _, p3, _, _⟩ := line_parts u.uart_cmd_index (buffered u)
  have hbody : ∀ b ∈ line_body u.uart_cmd_index (buffered u),
      is_delimiter b = false ∧ b < 256 := by
    intro b hb
    refine ⟨p3 b hb, mem_buffered u h2 b ?_⟩
    rw [p1]
    exact List.mem_append_left _ (List.mem_append_right _ hb)
  have hs := cmd_ok_foldl _ u.uart_cmd_buffer u.uart_cmd_index h3 hbody
  refine ⟨k2, by rw [k3]; exact h2, ?_⟩
  rw [k6, k7]
  by_cases hn : line_tail u.uart_cmd_index (buffered u) = []
  · rw [if_pos hn, if_pos hn]
    exact hs
  · rw [if_neg hn, if_neg hn]
    exact cmd_ok_terminate _ _ hs

/-- Every reachable state of `uart.c` satisfies the invariant. -/
theorem uart_inv_reachable (u : Uart) (h : UartReachable u) : UartInv u := by
  induction h with
  | start =>
    refine ⟨by decide, by decide, by decide, by decide, by decide, by decide⟩
  | arrival u b _ hb ih =>
    obtain ⟨h1, h2, h3⟩ := ih
    obtain ⟨c1, c2, c3⟩ := callback_fields b u
    refine ⟨callback_ring_ok b u h1, ?_, by rw [c2, c3]; exact h3⟩
    rcases c1 with e | e <;> rw [e]
    · exact h2
    · intro x hx
      rcases List.mem_or_eq_of_mem_set hx with e2 | e2
      · exact h2 x e2
      · rw [e2]; exact hb
  | process u v _ hv ih => exact process_keeps_inv u v ih hv
  | fetch u buffer _ ih =>
    unfold uart_get_command
    split_ifs
    · exact ih
    · exact ih

theorem reachable_arrive (bs : List Nat) :
    ∀ u : Uart, UartReachable u → (∀ b ∈ bs, b < 256) → UartReachable (arrive bs u) := by
  induction bs with
  | nil => intro u h _; exact h
  | cons b t ih =>
    intro u h hb
    exact ih _ (UartReachable.arrival u b h (hb b (List.mem_cons_self _ _)))
      (fun x hx => hb x (List.mem_cons_of_mem _ hx))

/-- The C string in a sound command buffer has at most 31 bytes, none a delimiter. -/
theorem cstr_of_cmd_ok (cmd : List Nat) (idx : Nat) (h : CmdOk cmd idx) :
    (cstr cmd).length ≤ 31 ∧ ∀ b ∈ cstr cmd, b ≠ 13 ∧ b ≠ 10 := by
  obtain ⟨h1, _, h3, h4⟩ := h
  simp only [UART_CMD_BUFFER_SIZE] at h1 h3
  constructor
  · by_contra hgt
    have hpre : cstr cmd <+: cmd := List.takeWhile_prefix _
    have hle : (cstr cmd).length ≤ cmd.length := hpre.length_le
    have heq : cstr cmd = cmd := hpre.eq_of_length (by omega)
    have hmem : cmd.getD 31 1 ∈ cmd := by
      rw [List.getD_eq_getElem?_getD, List.getElem?_eq_getElem (by omega)]
      exact List.getElem_mem _
    rw [h3, ← heq] at hmem
    have := List.mem_takeWhile_imp hmem
    simp at this
  · intro b hb
    have hm : b ∈ cmd := (List.takeWhile_prefix _).subset hb
    have hd := h4 b hm
    constructor
    · intro e; rw [e] at hd; exact absurd hd (by decide)
    · intro e; rw [e] at hd; exact absurd hd (by decide)

/-- C38: the command hand-over never exceeds the 32-byte receive buffer of the FSM.  In
every state reachable by arrivals of bytes, calls of `uart_process_incoming_data` and
calls of `uart_get_command`, the command buffer has its 32 cells, the index is at most 31
and the last cell holds NUL; the string of the command buffer, which is what
`uart_get_command` copies when it returns 1, has at most 31 bytes, so that with its
terminator it fits 32 cells, and contains neither a carriage return nor a line feed. -/
theorem hand_over_fits (u : Uart) (buffer : List Nat) (h : UartReachable u) :
    u.uart_cmd_buffer.length = 32 ∧ u.uart_cmd_index ≤ 31 ∧
      u.uart_cmd_buffer.getD 31 1 = 0 ∧
      ((uart_get_command u buffer).1 = 1 →
        (uart_get_command u buffer).2.1 = cstr u.uart_cmd_buffer) ∧
      (cstr u.uart_cmd_buffer).length + 1 ≤ UART_RX_BUFFER_SIZE ∧
      (∀ b ∈ cstr u.uart_cmd_buffer, b ≠ 13 ∧ b ≠ 10) := by
  obtain ⟨_, _, hc⟩ := uart_inv_reachable u h
  obtain ⟨c1, c2⟩ := cstr_of_cmd_ok _ _ hc
  obtain ⟨h1, h2, h3, _⟩ := hc
  refine ⟨h1, h2, h3, ?_, by simp only [UART_RX_BUFFER_SIZE]; omega, c2⟩
  unfold uart_get_command
  split_ifs
  · intro _; rfl
  · intro e; exact absurd e (by decide)

/-- Witness of C38: after "Hi" CR has arrived and been reassembled, the command handed
over is "Hi". -/
theorem hand_over_fits_witness :
    UartReachable hi_completed ∧ (uart_get_command hi_completed []).1 = 1 ∧
      (uart_get_command hi_completed []).2.1 = bytes "Hi" ∧
      (cstr hi_completed.uart_cmd_buffer).length + 1 ≤ UART_RX_BUFFER_SIZE :=
  have hr : UartReachable hi_completed :=
    UartReachable.process (received "Hi\r") hi_completed
      (reachable_arrive (bytes "Hi\r") init.uart UartReachable.start (by decide)) (by decide)
  ⟨hr, by decide, by decide, (hand_over_fits hi_completed [] hr).2.2.2.2.1⟩

/-! ## Lines over several polls -/

set_option maxRecDepth 65536

/-- One call of the loop reads a first part `c` of the buffered bytes, and the command
buffer, index and flag it leaves are those after the loop body has run on the bytes of
`c` in order. -/
theorem process_consumes (q : List Nat) :
    ∀ (u : Uart) (f : Nat), ring_ok u → buffered u = q → q.length < f →
      ∃ (v : Uart) (c : List Nat), process_loop f u = some v ∧ ring_ok v ∧
        q = c ++ buffered v ∧ cmd_state v = c.foldl consume_byte (cmd_state u) := by
  induction q with
  | nil =>
    intro u f h hq hf
    obtain ⟨g, rfl⟩ : ∃ g, f = g + 1 := ⟨f - 1, by simp at hf; omega⟩
    exact ⟨{ u with uart_rx_flag := 0 }, [], process_loop_empty g u h hq, h, hq.symm, rfl⟩
  | cons b t ih =>
    intro u f h hq hf
    obtain ⟨g, rfl⟩ : ∃ g, f = g + 1 := ⟨f - 1, by simp at hf; omega⟩
    have hg : t.length < g := by simp at hf; omega
    obtain ⟨_, r2, r3, r4, r5, r6⟩ := read_some u h b t hq
    have hcs : cmd_state (uart_ReadByte u).2 = cmd_state u := by
      unfold cmd_state; rw [r4, r5, r6]
    by_cases hd : is_delimiter b = true
    · by_cases h0 : u.uart_cmd_index = 0
      · obtain ⟨v, c, k1, k2, k3, k4⟩ := ih (uart_ReadByte u).2 g r2 r3 hg
        refine ⟨v, b :: c, ?_, k2, by rw [List.cons_append, ← k3], ?_⟩
        · rw [process_loop_skip g u b t h hq hd h0]; exact k1
        · rw [k4, hcs, List.foldl_cons]
          have e : consume_byte (cmd_state u) b = cmd_state u := by
            unfold consume_byte
            rw [if_pos hd, if_neg (by show ¬ u.uart_cmd_index > 0; omega)]
          rw [e]
      · refine ⟨_, [b], process_loop_complete g u b t h hq hd (by omega), r2, ?_, ?_⟩
        · show b :: t = [b] ++ buffered (uart_ReadByte u).2
          rw [r3]; rfl
        · show (u.uart_cmd_buffer.set u.uart_cmd_index 0, 0, 1) = consume_byte (cmd_state u) b
          unfold consume_byte
          rw [if_pos hd, if_pos (by show u.uart_cmd_index > 0; omega)]
          rfl
    · have hd2 : is_delimiter b = false := by
        cases hh : is_delimiter b
        · rfl
        · exact absurd hh hd
      by_cases h31 : u.uart_cmd_index < 31
      · obtain ⟨v, c, k1, k2, k3, k4⟩ := ih
          { (uart_ReadByte u).2 with
            uart_cmd_buffer := u.uart_cmd_buffer.set u.uart_cmd_index (b % 256),
            uart_cmd_index := u.uart_cmd_index + 1 } g r2 r3 hg
        refine ⟨v, b :: c, ?_, k2, by rw [List.cons_append, ← k3], ?_⟩
        · rw [process_loop_store g u b t h hq hd2 h31]; exact k1
        · rw [k4, List.foldl_cons]
          have e : consume_byte (cmd_state u) b =
              (u.uart_cmd_buffer.set u.uart_cmd_index (b % 256), u.uart_cmd_index + 1,
                u.uart_cmd_ready_flag) := by
            unfold consume_byte
            rw [if_neg (by rw [hd2]; decide)]
            simp only [UART_CMD_BUFFER_SIZE]
            rw [if_pos (by show u.uart_cmd_index < 31; exact h31)]
            rfl
          rw [e]
          unfold cmd_state
          rw [r6]
      · obtain ⟨v, c, k1, k2, k3, k4⟩ := ih (uart_ReadByte u).2 g r2 r3 hg
        refine ⟨v, b :: c, ?_, k2, by rw [List.cons_append, ← k3], ?_⟩
        · rw [process_loop_drop g u b t h hq hd2 (by omega)]; exact k1
        · rw [k4, hcs, List.foldl_cons]
          have e : consume_byte (cmd_state u) b = cmd_state u := by
            unfold consume_byte
            rw [if_neg (by rw [hd2]; decide)]
            simp only [UART_CMD_BUFFER_SIZE]
            rw [if_neg (by show ¬ u.uart_cmd_index < 31; exact h31)]
          rw [e]

/-- A poll of a well-formed ring returns, and the bytes it has read are a first part of
those buffered. -/
theorem poll_consumes (u : Uart) (h : ring_ok u) :
    ∃ v : Uart, uart_process_incoming_data u = some v ∧ ring_ok v ∧
      buffered u = consumed_by u v ++ buffered v ∧
      cmd_state v = (consumed_by u v).foldl consume_byte (cmd_state u) := by
  have hlen : (buffered u).length < UART_BUFFER_SIZE + 1 := by
    have := buffered_length_lt u
    simp only [UART_BUFFER_SIZE]; omega
  obtain ⟨v, c, k1, k2, k3, k4⟩ := process_consumes (buffered u) u _ h rfl hlen
  have e : consumed_by u v = c := by
    unfold consumed_by
    have hl := congrArg List.length k3
    rw [List.length_append] at hl
    have e2 : (buffered u).length - (buffered v).length = c.length := by omega
    rw [e2]
    nth_rewrite 1 [k3]
    exact List.take_left' rfl
  refine ⟨v, k1, k2, ?_, ?_⟩
  · rw [e]; exact k3
  · rw [e]; exact k4

/-! ### The loop body on streams of bytes -/

theorem consume_byte_length (c : List Nat × Nat × Nat) (b : Nat) :
    (consume_byte c b).1.length = c.1.length := by
  unfold consume_byte
  split_ifs <;> first | rfl | exact List.length_set _ _ _

theorem foldl_consume_length (l : List Nat) :
    ∀ c : List Nat × Nat × Nat, (l.foldl consume_byte c).1.length = c.1.length := by
  induction l with
  | nil => intro c; rfl
  | cons b t ih => intro c; rw [List.foldl_cons, ih, consume_byte_length]

/-- What the loop body does to buffer and index does not depend on the flag. -/
theorem consume_byte_flag (c e : List Nat × Nat × Nat) (b : Nat) (h1 : c.1 = e.1)
    (h2 : c.2.1 = e.2.1) :
    (consume_byte c b).1 = (consume_byte e b).1 ∧
      (consume_byte c b).2.1 = (consume_byte e b).2.1 := by
  unfold consume_byte
  rw [h1, h2]
  split_ifs <;> first | exact ⟨rfl, rfl⟩ | exact ⟨h1, h2⟩

theorem foldl_consume_flag (l : List Nat) :
    ∀ c e : List Nat × Nat × Nat, c.1 = e.1 → c.2.1 = e.2.1 →
      (l.foldl consume_byte c).1 = (l.foldl consume_byte e).1 ∧
        (l.foldl consume_byte c).2.1 = (l.foldl consume_byte e).2.1 := by
  induction l with
  | nil => intro c e h1 h2; exact ⟨h1, h2⟩
  | cons b t ih =>
    intro c e h1 h2
    obtain ⟨k1, k2⟩ := consume_byte_flag c e b h1 h2
    exact ih _ _ k1 k2

/-- After a delimiter the index is 0. -/
theorem consume_delimiter_index (c : List Nat × Nat × Nat) (d : Nat)
    (hd : is_delimiter d = true) : (consume_byte c d).2.1 = 0 := by
  unfold consume_byte
  rw [if_pos hd]
  split_ifs with h
  · rfl
  · omega

theorem consume_complete (c : List Nat × Nat × Nat) (d : Nat) (hd : is_delimiter d = true)
    (hgt : 0 < c.2.1) : consume_byte c d = (c.1.set c.2.1 0, 0, 1) := by
  unfold consume_byte
  rw [if_pos hd, if_pos hgt]

/-- At the start of a line the index is 0. -/
theorem line_start_index (before : List Nat) (c : List Nat × Nat × Nat) (h0 : c.2.1 = 0)
    (hs : line_start before = true) : (before.foldl consume_byte c).2.1 = 0 := by
  rcases List.eq_nil_or_concat before with e | ⟨j, d0, e⟩
  · rw [e]; exact h0
  · rw [List.concat_eq_append] at e
    rw [e] at hs ⊢
    unfold line_start at hs
    rw [List.getLast?_concat] at hs
    rw [List.foldl_append, List.foldl_cons, List.foldl_nil]
    exact consume_delimiter_index _ d0 hs

/-- On bytes that are no delimiters the loop body is the store branch. -/
theorem foldl_consume_line (line : List Nat) (hl : ∀ b ∈ line, is_delimiter b = false) :
    ∀ c : List Nat × Nat × Nat,
      (line.foldl consume_byte c).1 = (line.foldl store_byte (c.1, c.2.1)).1 ∧
        (line.foldl consume_byte c).2.1 = (line.foldl store_byte (c.1, c.2.1)).2 ∧
        (line.foldl consume_byte c).2.2 = c.2.2 := by
  induction line with
  | nil => intro c; exact ⟨rfl, rfl, rfl⟩
  | cons b t ih =>
    intro c
    have hb := hl b (List.mem_cons_self _ _)
    have e : consume_byte c b =
        ((store_byte (c.1, c.2.1) b).1, (store_byte (c.1, c.2.1) b).2, c.2.2) := by
      unfold consume_byte store_byte
      rw [if_neg (by rw [hb]; decide)]
      split_ifs <;> rfl
    obtain ⟨k1, k2, k3⟩ := ih (fun x hx => hl x (List.mem_cons_of_mem _ hx)) (consume_byte c b)
    rw [List.foldl_cons, List.foldl_cons, k1, k2, k3, e]
    exact ⟨rfl, rfl, rfl⟩

theorem cstr_append_zero (a r : List Nat) : cstr (a ++ 0 :: r) = cstr a := by
  unfold cstr
  induction a with
  | nil => rfl
  | cons x t ih =>
    by_cases hx : x = 0
    · subst hx; rfl
    · have hb : (x != 0) = true := by simpa using hx
      rw [List.cons_append, List.takeWhile_cons, List.takeWhile_cons, hb]
      simp only [if_true]
      rw [ih]

theorem cstr_of_no_nul (a : List Nat) (h : 0 ∉ a) : cstr a = a := by
  have e := cstr_line a [] h
  rw [List.append_nil, ← List.append_nil (a ++ [0])] at e
  have e2 := cstr_append_zero a []
  rw [← e2]
  simpa using e

/-- The command buffer after the bytes of a stream that ends with a line and its
delimiter: index 0, flag set, and as a string the first 31 bytes of the line, up to the
first NUL among them. -/
theorem consume_line (before line : List Nat) (d : Nat) (c : List Nat × Nat × Nat)
    (hlen : c.1.length = 32) (h0 : c.2.1 = 0) (hs : line_start before = true)
    (hne : line ≠ []) (hl : ∀ b ∈ line, is_delimiter b = false ∧ b < 256)
    (hd : is_delimiter d = true) :
    0 < ((before ++ line).foldl consume_byte c).2.1 ∧
      ((before ++ line ++ [d]).foldl consume_byte c).2.1 = 0 ∧
      ((before ++ line ++ [d]).foldl consume_byte c).2.2 = 1 ∧
      cstr ((before ++ line ++ [d]).foldl consume_byte c).1 = cstr (line.take 31) := by
  have i1 := line_start_index before c h0 hs
  have l1 : (before.foldl consume_byte c).1.length = 32 := by
    rw [foldl_consume_length]; exact hlen
  obtain ⟨k1, k2, _⟩ := foldl_consume_line line (fun b hb => (hl b hb).1)
    (before.foldl consume_byte c)
  rw [i1] at k1 k2
  obtain ⟨s1, s2, s3⟩ := foldl_store_byte line (before.foldl consume_byte c).1 0 l1
    (by decide)
  rw [List.take_zero, List.nil_append, map_mod_of_lt line (fun b hb => (hl b hb).2)] at s3
  have hpos : 0 < line.length := List.length_pos.mpr hne
  have hidx : ((before ++ line).foldl consume_byte c).2.1 = min (0 + line.length) 31 := by
    rw [List.foldl_append, k2, s2]
  have hcmd : ((before ++ line).foldl consume_byte c).1 =
      (line.foldl store_byte ((before.foldl consume_byte c).1, 0)).1 := by
    rw [List.foldl_append, k1]
  have hgt : 0 < ((before ++ line).foldl consume_byte c).2.1 := by
    rw [hidx]; omega
  have hfin : (before ++ line ++ [d]).foldl consume_byte c =
      (((before ++ line).foldl consume_byte c).1.set
        ((before ++ line).foldl consume_byte c).2.1 0, 0, 1) := by
    rw [List.foldl_append, List.foldl_cons, List.foldl_nil]
    exact consume_complete _ d hd hgt
  refine ⟨hgt, by rw [hfin], by rw [hfin], ?_⟩
  rw [hfin]
  show cstr (((before ++ line).foldl consume_byte c).1.set
    ((before ++ line).foldl consume_byte c).2.1 0) = _
  rw [hidx, hcmd, List.set_eq_take_append_cons_drop, if_pos (by rw [s1]; omega), s3,
    cstr_append_zero]

/-! ### Runs of events -/

theorem uart_events_append (es fs : List UartEvent) :
    ∀ (u : Uart) (acc : List Nat),
      uart_events u acc (es ++ fs) =
        (uart_events u acc es).bind (fun r => uart_events r.1 r.2 fs) := by
  induction es with
  | nil => intro u acc; rfl
  | cons e t ih =>
    intro u acc
    cases e with
    | arrival b => exact ih _ _
    | poll =>
      show (match uart_process_incoming_data u with
        | some v => uart_events v (acc ++ consumed_by u v) (t ++ fs)
        | none => none) = (match uart_process_incoming_data u with
        | some v => uart_events v (acc ++ consumed_by u v) t
        | none => none).bind _
      cases uart_process_incoming_data u with
      | none => rfl
      | some v => exact ih _ _
    | fetch => exact ih _ _

theorem fetch_fields (u : Uart) (buffer : List Nat) :
    (uart_get_command u buffer).2.2.uart_cmd_buffer = u.uart_cmd_buffer ∧
      (uart_get_command u buffer).2.2.uart_cmd_index = u.uart_cmd_index ∧
      (UartInv u → UartInv (uart_get_command u buffer).2.2) := by
  unfold uart_get_command
  split_ifs
  · exact ⟨rfl, rfl, fun h => h⟩
  · exact ⟨rfl, rfl, fun h => h⟩

theorem callback_keeps_inv (b : Nat) (u : Uart) (hb : b < 256) (h : UartInv u) :
    UartInv (HAL_UART_RxCpltCallback b u) := by
  obtain ⟨h1, h2, h3⟩ := h
  obtain ⟨c1, c2, c3⟩ := callback_fields b u
  refine ⟨callback_ring_ok b u h1, ?_, by rw [c2, c3]; exact h3⟩
  rcases c1 with e | e <;> rw [e]
  · exact h2
  · intro x hx
    rcases List.mem_or_eq_of_mem_set hx with e2 | e2
    · exact h2 x e2
    · rw [e2]; exact hb

/-- A run of events returns; buffer and index of the command at its end are those after
the loop body has run on the bytes the polls have read, which are bytes. -/
theorem uart_events_consume (es : List UartEvent) :
    ∀ (u : Uart) (acc : List Nat), UartInv u → (∀ e ∈ es, e.typed = true) →
      ∃ (v : Uart) (rest : List Nat), uart_events u acc es = some (v, acc ++ rest) ∧
        UartInv v ∧ (∀ b ∈ rest, b < 256) ∧
        v.uart_cmd_buffer = (rest.foldl consume_byte (cmd_state u)).1 ∧
        v.uart_cmd_index = (rest.foldl consume_byte (cmd_state u)).2.1 := by
  induction es with
  | nil =>
    intro u acc h _
    refine ⟨u, [], ?_, h, fun b hb => absurd hb (List.not_mem_nil b), rfl, rfl⟩
    rw [List.append_nil]
    rfl
  | cons e t ih =>
    intro u acc h ht
    have ht2 : ∀ x ∈ t, x.typed = true := fun x hx => ht x (List.mem_cons_of_mem _ hx)
    have he := ht e (List.mem_cons_self _ _)
    cases e with
    | arrival b =>
      have hb : b < 256 := by
        unfold UartEvent.typed at he
        exact of_decide_eq_true he
      obtain ⟨v, rest, k1, k2, k3, k4, k5⟩ := ih (HAL_UART_RxCpltCallback b u) acc
        (callback_keeps_inv b u hb h) ht2
      obtain ⟨_, c2, c3⟩ := callback_fields b u
      obtain ⟨f1, f2⟩ := foldl_consume_flag rest (cmd_state (HAL_UART_RxCpltCallback b u))
        (cmd_state u) c2 c3
      exact ⟨v, rest, k1, k2, k3, k4.trans f1, k5.trans f2⟩
    | poll =>
      obtain ⟨w, p1, p2, p3, p4⟩ := poll_consumes u h.1
      have hw : UartInv w := process_keeps_inv u w h p1
      obtain ⟨v, rest, k1, k2, k3, k4, k5⟩ := ih w (acc ++ consumed_by u w) hw ht2
      refine ⟨v, consumed_by u w ++ rest, ?_, k2, ?_, ?_, ?_⟩
      · show (match uart_process_incoming_data u with
          | some v => uart_events v (acc ++ consumed_by u v) t
          | none => none) = _
        rw [p1, ← List.append_assoc]
        exact k1
      · intro b hb
        rcases List.mem_append.mp hb with hc | hc
        · apply mem_buffered u h.2.1
          rw [p3]
          exact List.mem_append_left _ hc
        · exact k3 b hc
      · rw [k4, List.foldl_append, p4]
      · rw [k5, List.foldl_append, p4]
    | fetch =>
      obtain ⟨g1, g2, g3⟩ := fetch_fields u []
      obtain ⟨v, rest, k1, k2, k3, k4, k5⟩ := ih (uart_get_command u []).2.2 acc (g3 h) ht2
      obtain ⟨f1, f2⟩ := foldl_consume_flag rest (cmd_state (uart_get_command u []).2.2)
        (cmd_state u) g1 g2
      exact ⟨v, rest, k1, k2, k3, k4.trans f1, k5.trans f2⟩

theorem uart_inv_init : UartInv init.uart := uart_inv_reachable init.uart UartReachable.start

/-- C36, as the code has it.  In every run of `uart.c` from program start, by arrivals
of bytes, polls and fetches in any order, let the bytes the polls have read from the ring
end with a line and its delimiter: a non-empty run of bytes that are no delimiters, at
the start of the stream or after a delimiter.  Then the command buffer holds, as a
string, the first 31 bytes of the line up to the first NUL among them, which is a leading
part of the line: the line itself when it has at most 31 bytes and no NUL, its first 31
bytes when it is longer and they hold no NUL.  The index is back at 0, and the poll that
reads the delimiter completes the command: after it the ready flag is set and
`uart_get_command` returns 1 with that string. -/
theorem over_long_lines (es : List UartEvent) (ht : ∀ e ∈ es, e.typed = true) :
    ∃ (v : Uart) (consumed : List Nat), uart_events init.uart [] es = some (v, consumed) ∧
      ∀ (before line : List Nat) (d : Nat), consumed = before ++ line ++ [d] →
        line_start before = true → line ≠ [] → (∀ b ∈ line, is_delimiter b = false) →
        is_delimiter d = true →
        v.uart_cmd_index = 0 ∧
        cstr v.uart_cmd_buffer = cstr (line.take 31) ∧
        (∃ r, cstr v.uart_cmd_buffer ++ r = line) ∧
        (0 ∉ line → line.length ≤ 31 → cstr v.uart_cmd_buffer = line) ∧
        (0 ∉ line → 31 < line.length →
          cstr v.uart_cmd_buffer = line.take 31 ∧ (cstr v.uart_cmd_buffer).length = 31 ∧
          cstr v.uart_cmd_buffer ≠ line) ∧
        (∀ (es2 : List UartEvent) (w : Uart) (c2 : List Nat),
          es = es2 ++ [UartEvent.poll] → uart_events init.uart [] es2 = some (w, c2) →
          c2 ≠ consumed →
          v.uart_cmd_ready_flag = 1 ∧
          ∀ buffer : List Nat, uart_get_command v buffer =
            (1, cstr (line.take 31), { v with uart_cmd_ready_flag := 0 })) := by
  obtain ⟨v, rest, k1, _, k3, k4, k5⟩ := uart_events_consume es init.uart [] uart_inv_init ht
  rw [List.nil_append] at k1
  refine ⟨v, rest, k1, ?_⟩
  intro before line d hc hs hne hl hd
  have hl2 : ∀ b ∈ line, is_delimiter b = false ∧ b < 256 := by
    intro b hb
    refine ⟨hl b hb, k3 b ?_⟩
    rw [hc]
    exact List.mem_append_left _ (List.mem_append_right _ hb)
  obtain ⟨m1, m2, _, m4⟩ := consume_line before line d (cmd_state init.uart) (by decide) rfl
    hs hne hl2 hd
  rw [hc] at k4 k5
  have hidx : v.uart_cmd_index = 0 := k5.trans m2
  have hstr : cstr v.uart_cmd_buffer = cstr (line.take 31) := by rw [k4]; exact m4
  have hpre : cstr (line.take 31) <+: line :=
    (List.takeWhile_prefix _).trans (List.take_prefix 31 line)
  refine ⟨hidx, hstr, ?_, ?_, ?_, ?_⟩
  · rw [hstr]; exact hpre
  · intro h0 hle
    rw [hstr, List.take_of_length_le hle]
    exact cstr_of_no_nul line h0
  · intro h0 hlt
    have h0t : 0 ∉ line.take 31 := fun hm => h0 (List.mem_of_mem_take hm)
    have e : cstr v.uart_cmd_buffer = line.take 31 := by
      rw [hstr]; exact cstr_of_no_nul _ h0t
    have hlen : (line.take 31).length = 31 := by
      rw [List.length_take]; omega
    refine ⟨e, by rw [e]; exact hlen, ?_⟩
    rw [e]
    intro ee
    have := congrArg List.length ee
    rw [hlen] at this
    omega
  · intro es2 w c2 hes h2 hne2
    have ht2 : ∀ e ∈ es2, e.typed = true := by
      intro e he
      apply ht e
      rw [hes]
      exact List.mem_append_left _ he
    obtain ⟨w2, rest2, j1, j2, _, j4, j5⟩ :=
      uart_events_consume es2 init.uart [] uart_inv_init ht2
    rw [List.nil_append, h2] at j1
    have jw : w = w2 := congrArg Prod.fst (Option.some.inj j1)
    have jc : c2 = rest2 := congrArg Prod.snd (Option.some.inj j1)
    subst jw
    subst jc
    obtain ⟨v2, p1, _, _, p4⟩ := poll_consumes w j2.1
    have hrun : uart_events init.uart [] es = some (v2, c2 ++ consumed_by w v2) := by
      rw [hes, uart_events_append, h2]
      show (match uart_process_incoming_data w with
        | some v => uart_events v (c2 ++ consumed_by w v) []
        | none => none) = _
      rw [p1]
      rfl
    rw [k1] at hrun
    have hv : v = v2 := congrArg Prod.fst (Option.some.inj hrun)
    have hr : rest = c2 ++ consumed_by w v2 := congrArg Prod.snd (Option.some.inj hrun)
    subst hv
    have hcne : consumed_by w v ≠ [] := by
      intro e
      rw [e, List.append_nil] at hr
      exact hne2 hr.symm
    obtain ⟨cc, x, hx⟩ : ∃ cc x, consumed_by w v = cc ++ [x] := by
      rcases List.eq_nil_or_concat (consumed_by w v) with e | ⟨L, b, e⟩
      · exact absurd e hcne
      · exact ⟨L, b, by rw [e, List.concat_eq_append]⟩
    have hsplit : c2 ++ cc = before ++ line ∧ [x] = [d] := by
      apply List.append_inj'
      · rw [List.append_assoc, ← hx, ← hr, hc]
      · rfl
    have hxd : x = d := by
      have := hsplit.2
      injection this
    have hbefore : 0 < (cc.foldl consume_byte (cmd_state w)).2.1 := by
      obtain ⟨_, f2⟩ := foldl_consume_flag cc (cmd_state w)
        (c2.foldl consume_byte (cmd_state init.uart)) j4 j5
      rw [f2, ← List.foldl_append, hsplit.1]
      exact m1
    have hfin : cmd_state v =
        ((cc.foldl consume_byte (cmd_state w)).1.set
          (cc.foldl consume_byte (cmd_state w)).2.1 0, 0, 1) := by
      rw [p4, hx, List.foldl_append, List.foldl_cons, List.foldl_nil, hxd]
      exact consume_complete _ d hd hbefore
    have hflag : v.uart_cmd_ready_flag = 1 := congrArg (fun c => c.2.2) hfin
    refine ⟨hflag, fun buffer => ?_⟩
    unfold uart_get_command
    rw [hflag, if_pos (by decide), hstr]

/-- Witness of C36: an empty line, then a line of 70 bytes that arrives in two halves
with a poll after each and a fetch in between, then its delimiter: the polls have read
all 72 bytes, and the command handed over is the first 31 bytes of the line. -/
theorem over_long_lines_witness :
    (∀ e ∈ long_line_run, e.typed = true) ∧ line_of_70.length = 70 ∧
      ∃ v : Uart, (uart_events init.uart [] long_line_run).map Prod.fst = some v ∧
        (uart_events init.uart [] long_line_run).map Prod.snd =
          some ([13] ++ line_of_70 ++ [10]) ∧
        v.uart_cmd_index = 0 ∧ v.uart_cmd_ready_flag = 1 ∧
        uart_get_command v [] =
          (1, bytes "0123456789abcdefghijklmnopqrstu", { v with uart_cmd_ready_flag := 0 }) := by
  have hsnd : (uart_events init.uart [] long_line_run).map Prod.snd =
      some ([13] ++ line_of_70 ++ [10]) := by decide
  obtain ⟨v, consumed, h1, h2⟩ := over_long_lines long_line_run (by decide)
  have hc : consumed = [13] ++ line_of_70 ++ [10] := by
    rw [h1] at hsnd
    exact Option.some.inj hsnd
  obtain ⟨a1, _, _, _, _, a6⟩ := h2 [13] line_of_70 10 hc (by decide) (by decide) (by decide)
    (by decide)
  have hlast : long_line_run = long_line_run.dropLast ++ [UartEvent.poll] := by decide
  have hsnd2 : (uart_events init.uart [] long_line_run.dropLast).map Prod.snd =
      some ([13] ++ line_of_70) := by decide
  cases hw : uart_events init.uart [] long_line_run.dropLast with
  | none => rw [hw] at hsnd2; cases hsnd2
  | some r =>
    rw [hw] at hsnd2
    have hr2 : r.2 = [13] ++ line_of_70 := Option.some.inj hsnd2
    obtain ⟨b1, b2⟩ := a6 long_line_run.dropLast r.1 r.2 hlast hw
      (by rw [hr2, hc]; decide)
    refine ⟨by decide, by decide, v, by rw [h1]; rfl, hsnd, a1, b1, ?_⟩
    rw [b2 []]
    rfl

/-! ## Lab 4: the update session -/

namespace Lab4

/-- In Update a tick without a new press of the mode button is the handler after the
blink. -/
theorem lab4_tick_update (s : State) (i : Input)
    (hm : s.current_mode = ClockMode.MODE_UPDATE_VIA_UART) (hb : i.button_count_mode ≠ 1) :
    tick s i = handle_uart_update_mode (blink_update (feed i s)) := by
  have hc : (feed i s).button_count_mode ≠ 1 := hb
  have hmode : (feed i s).current_mode = ClockMode.MODE_UPDATE_VIA_UART := hm
  simp only [tick, clock_fsm_run, handle_mode_switch, hc, if_false, blink_update, hmode]

theorem lab4_prompt_fields (s : State) :
    (uart_send_prompt s).current_mode = s.current_mode ∧
      (uart_send_prompt s).uart_update_param = s.uart_update_param ∧
      (uart_send_prompt s).temp = s.temp ∧ (uart_send_prompt s).uart = s.uart ∧
      (uart_send_prompt s).uart_rx_buffer = s.uart_rx_buffer ∧
      rtcWrites (uart_send_prompt s).trace = rtcWrites s.trace := by
  unfold uart_send_prompt
  split <;> refine ⟨rfl, rfl, rfl, rfl, rfl, ?_⟩ <;>
    first
      | rfl
      | (show rtcWrites (s.trace ++ [_]) = _
         rw [rtcWrites_append]
         exact List.append_nil _)

theorem lab4_in_bounds_high (p : Nat) (v : Int) (h : 6 < p) : ¬ in_bounds p v := by
  obtain ⟨k, rfl⟩ : ∃ k, p = k + 7 := ⟨p - 7, by omega⟩
  exact id

/-- The stored value, field by field, is the record of `store_line`. -/
theorem lab4_store_value (y : State) :
    uart_store_value (uart_parse_num_from_string y.uart_rx_buffer) y =
      { y with temp := store_line y.uart_update_param y.temp y.uart_rx_buffer } := by
  unfold uart_store_value uart_parse_num_from_string
  split
  case h_8 h0 h1 h2 h3 h4 h5 h6 =>
    have hp : 6 < y.uart_update_param := by
      rcases hk : y.uart_update_param with _ | _ | _ | _ | _ | _ | _ | k
      · exact absurd hk h0
      · exact absurd hk h1
      · exact absurd hk h2
      · exact absurd hk h3
      · exact absurd hk h4
      · exact absurd hk h5
      · exact absurd hk h6
      · omega
    unfold store_line
    rw [if_neg (lab4_in_bounds_high _ _ hp)]
  all_goals
    rename_i heq
    have e := congrArg (fun p => store_line p y.temp y.uart_rx_buffer) heq
    beta_reduce at e
    rw [e]
    unfold store_line
    simp only [in_bounds, setField]
    split_ifs <;> rfl

theorem lab4_take_next (y : State) (hp : y.uart_update_param < 6) :
    uart_take_command y =
      { y with temp := store_line y.uart_update_param y.temp y.uart_rx_buffer,
               uart_update_param := y.uart_update_param + 1, uart_data_requested := 0,
               trace := y.trace ++ echoSends y.uart_rx_buffer } := by
  have h : ¬ (SET_YEAR < y.uart_update_param + 1) := by simp only [SET_YEAR]; omega
  have e := lab4_store_value y
  unfold uart_take_command
  simp only []
  rw [e]
  simp [uart_Rs232SendString, emit, h, echoSends]

theorem lab4_take_last (y : State) (hp : 6 ≤ y.uart_update_param) :
    uart_take_command y =
      { y with temp := store_line y.uart_update_param y.temp y.uart_rx_buffer,
               uart_update_param := y.uart_update_param + 1, uart_data_requested := 0,
               current_mode := ClockMode.MODE_VIEW_TIME,
               trace := y.trace ++ echoSends y.uart_rx_buffer ++
                 commitEffects4 (store_line y.uart_update_param y.temp y.uart_rx_buffer) } := by
  have h : SET_YEAR < y.uart_update_param + 1 := by simp only [SET_YEAR]; omega
  have e := lab4_store_value y
  unfold uart_take_command
  simp only []
  rw [e]
  simp [uart_Rs232SendString, emit, h, echoSends, write_temp, ds3231_Write, commitEffects4]

theorem rtcWrites_commitEffects4 (t : TimeRec) :
    rtcWrites (commitEffects4 t) = commitWrites t := rfl

/-- The state from which the handler polls: after the prompt, if one was due. -/
theorem lab4_polled (x : State) :
    ∃ y : State,
      handle_uart_update_mode x =
        (if (uart_get_command y.uart y.uart_rx_buffer).1 ≠ 0 then
          uart_take_command
            { y with uart_rx_buffer := (uart_get_command y.uart y.uart_rx_buffer).2.1,
                     uart := (uart_get_command y.uart y.uart_rx_buffer).2.2 }
        else y) ∧
      y.current_mode = x.current_mode ∧ y.uart_update_param = x.uart_update_param ∧
      y.temp = x.temp ∧ y.uart = x.uart ∧ rtcWrites y.trace = rtcWrites x.trace := by
  obtain ⟨a1, a2, a3, a4, _, a6⟩ := lab4_prompt_fields x
  by_cases hr : x.uart_data_requested = 0
  · refine ⟨{ uart_send_prompt x with uart_data_requested := 1 }, ?_, a1, a2, a3, a4, a6⟩
    unfold handle_uart_update_mode
    simp only [hr, if_true]
  · refine ⟨x, ?_, rfl, rfl, rfl, rfl, rfl⟩
    unfold handle_uart_update_mode
    simp only [hr, if_false]

/-- A tick of the session that brings no line: the prompt is sent if it was due and the
session waits, however long. -/
theorem lab4_tick_quiet (s : State) (i : Input) (p q : Nat) (hs : Sess s p q)
    (hb : i.button_count_mode ≠ 1) (hl : i.line = none) :
    (∃ q2, Sess (tick s i) p q2) ∧ (tick s i).temp = s.temp ∧
      rtcWrites (tick s i).trace = rtcWrites s.trace := by
  obtain ⟨hm, hp, _, hf⟩ := hs
  rw [lab4_tick_update s i hm hb]
  have hu : (blink_update (feed i s)).uart = s.uart := feed_uart_none i s hl
  obtain ⟨y, e, y1, y2, y3, y4, y5⟩ := lab4_polled (blink_update (feed i s))
  have hf2 : y.uart.uart_cmd_ready_flag = 0 := by rw [y4, hu]; exact hf
  have hg : (uart_get_command y.uart y.uart_rx_buffer).1 = 0 := by
    unfold uart_get_command ClockFsm.uart_get_command
    rw [hf2]; rfl
  rw [e, hg, if_neg (by decide)]
  exact ⟨⟨_, y1.trans hm, y2.trans hp, rfl, hf2⟩, y3, y5⟩

/-- A tick of the session that brings a line: the value is stored if it is in bounds and
the cursor advances in either case; after the year the record is written to the RTC and
the mode is ViewTime. -/
theorem lab4_tick_line (s : State) (i : Input) (p q : Nat) (l : List Nat) (hs : Sess s p q)
    (hb : i.button_count_mode ≠ 1) (hl : i.line = some l) (h0 : 0 ∉ l) :
    (tick s i).temp = store_line p s.temp l ∧ (tick s i).uart_update_param = p + 1 ∧
      (p < 6 → Sess (tick s i) (p + 1) 0 ∧
        rtcWrites (tick s i).trace = rtcWrites s.trace) ∧
      (6 ≤ p → (tick s i).current_mode = ClockMode.MODE_VIEW_TIME ∧
        rtcWrites (tick s i).trace =
          rtcWrites s.trace ++ commitWrites (store_line p s.temp l)) := by
  obtain ⟨hm, hp, _, _⟩ := hs
  rw [lab4_tick_update s i hm hb]
  obtain ⟨u1, u2⟩ := feed_uart_some i s l hl h0
  obtain ⟨y, e, y1, y2, y3, y4, y5⟩ := lab4_polled (blink_update (feed i s))
  have hu : (blink_update (feed i s)).uart = (feed i s).uart := rfl
  have hf2 : y.uart.uart_cmd_ready_flag = 1 := by rw [y4, hu]; exact u1
  have hc : cstr y.uart.uart_cmd_buffer = l := by rw [y4, hu]; exact u2
  have hg : uart_get_command y.uart y.uart_rx_buffer =
      (1, l, { y.uart with uart_cmd_ready_flag := 0 }) := by
    unfold uart_get_command ClockFsm.uart_get_command
    rw [hf2, if_pos (by decide), hc]
  have hne : (1, l, ({ y.uart with uart_cmd_ready_flag := 0 } : Uart)).1 ≠ 0 :=
    Nat.one_ne_zero
  have hy2 : y.uart_update_param = p := y2.trans hp
  have hy3 : y.temp = s.temp := y3
  have hy5 : rtcWrites y.trace = rtcWrites s.trace := y5
  rw [e, hg, if_pos hne]
  by_cases h6 : p < 6
  · rw [lab4_take_next _ (by show y.uart_update_param < 6; omega)]
    refine ⟨?_, ?_, fun _ => ⟨⟨y1.trans hm, ?_, rfl, rfl⟩, ?_⟩, fun h => absurd h (by omega)⟩
    · show store_line y.uart_update_param y.temp l = _
      rw [hy2, hy3]
    · show y.uart_update_param + 1 = p + 1
      rw [hy2]
    · show y.uart_update_param + 1 = p + 1
      rw [hy2]
    · show rtcWrites (y.trace ++ echoSends l) = _
      rw [rtcWrites_append, rtcWrites_echoSends, List.append_nil, hy5]
  · rw [lab4_take_last _ (by show 6 ≤ y.uart_update_param; omega)]
    refine ⟨?_, ?_, fun h => absurd h h6, fun _ => ⟨rfl, ?_⟩⟩
    · show store_line y.uart_update_param y.temp l = _
      rw [hy2, hy3]
    · show y.uart_update_param + 1 = p + 1
      rw [hy2]
    · show rtcWrites (y.trace ++ echoSends l ++ commitEffects4
        (store_line y.uart_update_param y.temp l)) = _
      rw [rtcWrites_append, rtcWrites_append, rtcWrites_echoSends, List.append_nil,
        rtcWrites_commitEffects4, hy5, hy2, hy3]

theorem lab4_run_cons (s : State) (i : Input) (is : List Input) :
    run s (i :: is) = run (tick s i) is := rfl

theorem lab4_run_append (s : State) (is js : List Input) :
    run s (is ++ js) = run (run s is) js := by
  unfold run
  rw [List.foldl_append]

/-- A run of the session while fewer than seven lines have come in: the cursor has
advanced by the number of lines, the record is the one loaded with the lines stored field
by field, and nothing has been written to the RTC. -/
theorem lab4_session_run (is : List Input) :
    ∀ (s : State) (p q : Nat), Sess s p q → (∀ i ∈ is, Plain i) →
      p + (lines is).length ≤ 6 →
      (∃ q2, Sess (run s is) (p + (lines is).length) q2) ∧
        (run s is).temp = record_after p s.temp (lines is) ∧
        rtcWrites (run s is).trace = rtcWrites s.trace := by
  induction is with
  | nil => intro s p q hs _ _; exact ⟨⟨q, hs⟩, rfl, rfl⟩
  | cons i t ih =>
    intro s p q hs hpl hlen
    obtain ⟨hb, hnul⟩ := hpl i (List.mem_cons_self _ _)
    have hpt : ∀ j ∈ t, Plain j := fun j hj => hpl j (List.mem_cons_of_mem _ hj)
    rw [lab4_run_cons]
    cases hl : i.line with
    | none =>
      have el : lines (i :: t) = lines t := by
        unfold lines; rw [List.filterMap_cons, hl]
      rw [el] at hlen ⊢
      obtain ⟨⟨q2, h1⟩, h2, h3⟩ := lab4_tick_quiet s i p q hs hb hl
      obtain ⟨k1, k2, k3⟩ := ih (tick s i) p q2 h1 hpt hlen
      exact ⟨k1, by rw [k2, h2], by rw [k3, h3]⟩
    | some l =>
      have el : lines (i :: t) = l :: lines t := by
        unfold lines; rw [List.filterMap_cons, hl]
      rw [el] at hlen ⊢
      rw [List.length_cons] at hlen ⊢
      have h0 : 0 ∉ l := by
        rw [hl] at hnul; exact hnul
      obtain ⟨h1, _, h3, _⟩ := lab4_tick_line s i p q l hs hb hl h0
      obtain ⟨h4, h5⟩ := h3 (by omega)
      obtain ⟨k1, k2, k3⟩ := ih (tick s i) (p + 1) 0 h4 hpt (by omega)
      have ea : p + 1 + (lines t).length = p + ((lines t).length + 1) := by omega
      rw [ea] at k1
      refine ⟨k1, ?_, by rw [k3, h5]⟩
      rw [k2, h1]
      rfl

theorem record_after_append (ls : List (List Nat)) :
    ∀ (p : Nat) (t : TimeRec) (l : List Nat),
      record_after p t (ls ++ [l]) = store_line (p + ls.length) (record_after p t ls) l := by
  induction ls with
  | nil => intro p t l; rfl
  | cons a r ih =>
    intro p t l
    show record_after (p + 1) (store_line p t a) (r ++ [l]) = _
    rw [ih, List.length_cons]
    have e : p + 1 + r.length = p + (r.length + 1) := by omega
    rw [e]
    rfl

/-- C39, counterexample to the claim as stated: the non-numeric line "abc" received for
the hour does not leave the hour at the value loaded, 12; it is parsed as 0, which is in
range for the hour, and 0 is stored. -/
theorem lab4_non_numeric_hour_stored :
    session_start.temp.hour = 12 ∧
      (run session_start [quiet_input, line_input "abc"]).temp.hour = 0 ∧
      (run session_start [quiet_input, line_input "abc"]).uart_update_param = SET_MIN := by
  decide

/-- C39, as the code has it: in the update handler of Lab 4 every received command
advances the cursor whether or not its value is in range.  A value out of range leaves
the field at the value loaded from the RTC on entry; a non-numeric line is parsed as 0,
which is stored for hour, minute, second and year and leaves weekday, day and month.
There is no retry and no timeout: ticks without a line leave the session where it is,
however many they are.  Nothing is written while fewer than seven commands have come in,
and the seventh command commits the record and returns to ViewTime.  The weekday is taken
as a number 1..7, not as a day name. -/
theorem lab4_update_session (s : State) (is : List Input) (last : Input) (l : List Nat)
    (q : Nat) (hs : Sess s SET_HOUR q) (hp : ∀ i ∈ is, Plain i)
    (hn : (lines is).length = 6) (hb : last.button_count_mode ≠ 1)
    (hl : last.line = some l) (h0 : 0 ∉ l) :
    (∀ x : State, x.current_mode = ClockMode.MODE_SET_ALARM → x.button_count_mode = 1 →
        (handle_mode_switch x).current_mode = ClockMode.MODE_UPDATE_VIA_UART ∧
        (handle_mode_switch x).temp = x.rtc_now ∧
        (handle_mode_switch x).uart_update_param = SET_HOUR ∧
        (handle_mode_switch x).uart_data_requested = 0) ∧
      (∀ n, (run s (is.take n)).current_mode = ClockMode.MODE_UPDATE_VIA_UART ∧
        (run s (is.take n)).uart_update_param = (lines (is.take n)).length ∧
        (run s (is.take n)).temp = record_after SET_HOUR s.temp (lines (is.take n)) ∧
        rtcWrites (run s (is.take n)).trace = rtcWrites s.trace) ∧
      (run s (is ++ [last])).current_mode = ClockMode.MODE_VIEW_TIME ∧
      (run s (is ++ [last])).temp = record_after SET_HOUR s.temp (lines is ++ [l]) ∧
      rtcWrites (run s (is ++ [last])).trace =
        rtcWrites s.trace ++ commitWrites (record_after SET_HOUR s.temp (lines is ++ [l])) ∧
      (∀ (p : Nat) (t : TimeRec) (c : List Nat),
        store_line p t c =
          if in_bounds p (atoi c) then setField p (atoi c).toNat t else t) ∧
      (∀ t : TimeRec, store_line SET_HOUR t (bytes "abc") = { t with hour := 0 } ∧
        store_line SET_MIN t (bytes "abc") = { t with min := 0 } ∧
        store_line SET_SEC t (bytes "abc") = { t with sec := 0 } ∧
        store_line SET_YEAR t (bytes "abc") = { t with year := 0 } ∧
        store_line SET_DAY t (bytes "abc") = t ∧ store_line SET_DATE t (bytes "abc") = t ∧
        store_line SET_MONTH t (bytes "abc") = t ∧
        store_line SET_DAY t (bytes "3") = { t with day := 3 } ∧
        store_line SET_DAY t (bytes "Wed") = t) := by
  have main : (run s (is ++ [last])).current_mode = ClockMode.MODE_VIEW_TIME ∧
      (run s (is ++ [last])).temp = record_after SET_HOUR s.temp (lines is ++ [l]) ∧
      rtcWrites (run s (is ++ [last])).trace =
        rtcWrites s.trace ++
          commitWrites (record_after SET_HOUR s.temp (lines is ++ [l])) := by
    obtain ⟨⟨q2, k1⟩, k2, k3⟩ := lab4_session_run is s SET_HOUR q hs hp
      (by simp only [SET_HOUR]; omega)
    rw [hn] at k1
    obtain ⟨j1, _, _, j4⟩ := lab4_tick_line (run s is) last (SET_HOUR + 6) q2 l k1 hb hl h0
    obtain ⟨j5, j6⟩ := j4 (by simp only [SET_HOUR]; omega)
    have er : run s (is ++ [last]) = tick (run s is) last := by
      rw [lab4_run_append]; rfl
    have et : record_after SET_HOUR s.temp (lines is ++ [l]) =
        store_line (SET_HOUR + 6) (run s is).temp l := by
      rw [record_after_append, hn, k2]
    rw [er, et]
    refine ⟨j5, j1, ?_⟩
    rw [j6, k3]
  refine ⟨?_, ?_, main.1, main.2.1, main.2.2, fun p t c => rfl, fun t => ?_⟩
  · intro x hm hc
    by_cases ha : x.alarm_triggered = 0 <;>
      simp [handle_mode_switch, hm, hc, ha, modeToNat, modeOfNat, ds3231_ReadTime, emit,
        uart_Rs232SendString]
  · intro n
    have hpt : ∀ i ∈ is.take n, Plain i := fun i hi => hp i (List.mem_of_mem_take hi)
    have hlen : (lines (is.take n)).length ≤ 6 := by
      have hsub : (lines (is.take n)).Sublist (lines is) :=
        (List.take_sublist n is).filterMap _
      have := hsub.length_le
      omega
    obtain ⟨⟨q2, k1⟩, k2, k3⟩ := lab4_session_run (is.take n) s SET_HOUR q hs hpt
      (by simp only [SET_HOUR]; omega)
    obtain ⟨m1, m2, _, _⟩ := k1
    refine ⟨m1, ?_, k2, k3⟩
    rw [m2]
    simp only [SET_HOUR]; omega
  · refine ⟨?_, ?_, ?_, ?_, ?_, ?_, ?_, ?_, ?_⟩ <;> rfl

/-- Witness of C39: seven lines, each after two ticks without one: "abc" is stored as
hour 0, "75", "-1", "9", "0" and "13" leave minute, second, weekday, day and month as
loaded, "xyz" is stored as year 0, and the record is written. -/
theorem lab4_update_session_witness :
    Sess session_start SET_HOUR 0 ∧ (∀ i ∈ garbage_head, Plain i) ∧
      (lines garbage_head).length = 6 ∧
      (run session_start (garbage_head ++ [line_input "xyz"])).current_mode =
        ClockMode.MODE_VIEW_TIME ∧
      rtcWrites (run session_start (garbage_head ++ [line_input "xyz"])).trace =
        commitWrites ⟨0, 34, 56, 3, 15, 6, 0⟩ :=
  have h := lab4_update_session session_start garbage_head (line_input "xyz") (bytes "xyz") 0
    ⟨rfl, rfl, rfl, rfl⟩ (by decide) (by decide) (by decide) rfl (by decide)
  ⟨⟨rfl, rfl, rfl, rfl⟩, by decide, by decide, h.2.2.1, h.2.2.2.2.1⟩

end Lab4

end ClockFsm

/-! ## Lab 3: the cycle of the traffic lights in normal mode -/

namespace TrafficFsm

theorem wrap32_id (x : Int) (h1 : -2147483648 ≤ x) (h2 : x ≤ 2147483647) : wrap32 x = x := by
  unfold wrap32; omega

theorem wrap32_sum (G Y R : Int) (hG : 1 ≤ G) (hY : 1 ≤ Y) (hR : 1 ≤ R)
    (hsum : G + Y + R ≤ 2147483647) : wrap32 (wrap32 (G + Y) + R) = G + Y + R := by
  rw [wrap32_id (G + Y) (by omega) (by omega), wrap32_id (G + Y + R) (by omega) hsum]

/-- The lights after the decrements and the transition, by state, when nothing wraps. -/
theorem step_lights (x : Vars) (h1 : 1 ≤ x.r1_timer) (h1m : x.r1_timer ≤ 2147483647)
    (h2 : 1 ≤ x.r2_timer) (h2m : x.r2_timer ≤ 2147483647) :
    lights (transition (count_down x)) =
      match x.traffic_state with
      | Traffic_State_t.STATE_R1_GREEN_R2_RED =>
        if x.r1_timer = 1 then
          (Traffic_State_t.STATE_R1_YELLOW_R2_RED, x.period_yellow, x.r2_timer - 1)
        else (Traffic_State_t.STATE_R1_GREEN_R2_RED, x.r1_timer - 1, x.r2_timer - 1)
      | Traffic_State_t.STATE_R1_YELLOW_R2_RED =>
        if x.r1_timer = 1 then
          (Traffic_State_t.STATE_ALL_RED_1, x.period_red, x.r2_timer - 1)
        else (Traffic_State_t.STATE_R1_YELLOW_R2_RED, x.r1_timer - 1, x.r2_timer - 1)
      | Traffic_State_t.STATE_ALL_RED_1 =>
        if x.r1_timer = 1 then
          (Traffic_State_t.STATE_R1_RED_R2_GREEN,
            wrap32 (wrap32 (x.period_green + x.period_yellow) + x.period_red), x.period_green)
        else (Traffic_State_t.STATE_ALL_RED_1, x.r1_timer - 1, x.r2_timer - 1)
      | Traffic_State_t.STATE_R1_RED_R2_GREEN =>
        if x.r2_timer = 1 then
          (Traffic_State_t.STATE_R1_RED_R2_YELLOW, x.r1_timer - 1, x.period_yellow)
        else (Traffic_State_t.STATE_R1_RED_R2_GREEN, x.r1_timer - 1, x.r2_timer - 1)
      | Traffic_State_t.STATE_R1_RED_R2_YELLOW =>
        if x.r2_timer = 1 then
          (Traffic_State_t.STATE_ALL_RED_2, x.r1_timer - 1, x.period_red)
        else (Traffic_State_t.STATE_R1_RED_R2_YELLOW, x.r1_timer - 1, x.r2_timer - 1)
      | Traffic_State_t.STATE_ALL_RED_2 =>
        if x.r2_timer = 1 then
          (Traffic_State_t.STATE_R1_GREEN_R2_RED, x.period_green,
            wrap32 (wrap32 (x.period_green + x.period_yellow) + x.period_red))
        else (Traffic_State_t.STATE_ALL_RED_2, x.r1_timer - 1, x.r2_timer - 1) := by
  have e1 : wrap32 (x.r1_timer - 1) = x.r1_timer - 1 := wrap32_id _ (by omega) (by omega)
  have e2 : wrap32 (x.r2_timer - 1) = x.r2_timer - 1 := wrap32_id _ (by omega) (by omega)
  cases hs : x.traffic_state <;> simp only [transition, count_down, hs, lights, e1, e2] <;>
    split_ifs <;> first | rfl | (exfalso; omega)

theorem expected_green (G Y R k : Int) (h : k < G) :
    expected G Y R k = (Traffic_State_t.STATE_R1_GREEN_R2_RED, G - k, G + Y + R - k) := by
  unfold expected; rw [if_pos h]

theorem expected_yellow (G Y R k : Int) (h1 : G ≤ k) (h : k < G + Y) :
    expected G Y R k = (Traffic_State_t.STATE_R1_YELLOW_R2_RED, G + Y - k, G + Y + R - k) := by
  unfold expected; rw [if_neg (by omega), if_pos h]

theorem expected_red (G Y R k : Int) (hY : 0 ≤ Y) (h1 : G + Y ≤ k)
    (h : k < G + Y + R) :
    expected G Y R k = (Traffic_State_t.STATE_ALL_RED_1, G + Y + R - k, G + Y + R - k) := by
  unfold expected; rw [if_neg (by omega), if_neg (by omega), if_pos h]

theorem expected_green2 (G Y R k : Int) (hY : 0 ≤ Y) (hR : 0 ≤ R)
    (h1 : G + Y + R ≤ k)
    (h : k < G + Y + R + G) :
    expected G Y R k =
      (Traffic_State_t.STATE_R1_RED_R2_GREEN, 2 * (G + Y + R) - k, G + Y + R + G - k) := by
  unfold expected
  rw [if_neg (by omega), if_neg (by omega), if_neg (by omega), if_pos h]

theorem expected_yellow2 (G Y R k : Int) (hG : 0 ≤ G) (hR : 0 ≤ R)
    (h1 : G + Y + R + G ≤ k) (h : k < G + Y + R + G + Y) :
    expected G Y R k =
      (Traffic_State_t.STATE_R1_RED_R2_YELLOW, 2 * (G + Y + R) - k,
        G + Y + R + G + Y - k) := by
  unfold expected
  rw [if_neg (by omega), if_neg (by omega), if_neg (by omega), if_neg (by omega), if_pos h]

theorem expected_red2 (G Y R k : Int) (hG : 0 ≤ G) (hY : 0 ≤ Y) (hR : 0 ≤ R)
    (h1 : G + Y + R + G + Y ≤ k) :
    expected G Y R k =
      (Traffic_State_t.STATE_ALL_RED_2, 2 * (G + Y + R) - k, 2 * (G + Y + R) - k) := by
  unfold expected
  rw [if_neg (by omega), if_neg (by omega), if_neg (by omega), if_neg (by omega),
    if_neg (by omega)]

/-- One one-second step of the lights, `k` seconds into the cycle. -/
theorem transition_expected (x : Vars) (G Y R k : Int) (hG : 1 ≤ G) (hY : 1 ≤ Y)
    (hR : 1 ≤ R) (hsum : G + Y + R ≤ 2147483647) (hk0 : 0 ≤ k) (hk : k < 2 * (G + Y + R))
    (pg : x.period_green = G) (py : x.period_yellow = Y) (pr : x.period_red = R)
    (hl : lights x = expected G Y R k) :
    lights (transition (count_down x)) =
      expected G Y R (if k + 1 = 2 * (G + Y + R) then 0 else k + 1) := by
  have hw := wrap32_sum G Y R hG hY hR hsum
  by_cases c1 : k < G
  · rw [expected_green G Y R k c1] at hl
    simp only [lights, Prod.mk.injEq] at hl
    obtain ⟨hs, hr1, hr2⟩ := hl
    have hnext : (if k + 1 = 2 * (G + Y + R) then (0 : Int) else k + 1) = k + 1 :=
      if_neg (by omega)
    rw [step_lights x (by omega) (by omega) (by omega) (by omega), hs]
    simp only []
    rw [hnext, hr1, hr2, py]
    by_cases e : G - k = 1
    · rw [if_pos e, expected_yellow G Y R (k + 1) (by omega) (by omega)]
      simp only [Prod.mk.injEq, true_and]
      constructor <;> omega
    · rw [if_neg e, expected_green G Y R (k + 1) (by omega)]
      simp only [Prod.mk.injEq, true_and]
      constructor <;> omega
  by_cases c2 : k < G + Y
  · rw [expected_yellow G Y R k (by omega) c2] at hl
    simp only [lights, Prod.mk.injEq] at hl
    obtain ⟨hs, hr1, hr2⟩ := hl
    have hnext : (if k + 1 = 2 * (G + Y + R) then (0 : Int) else k + 1) = k + 1 :=
      if_neg (by omega)
    rw [step_lights x (by omega) (by omega) (by omega) (by omega), hs]
    simp only []
    rw [hnext, hr1, hr2, pr]
    by_cases e : G + Y - k = 1
    · rw [if_pos e, expected_red G Y R (k + 1) (by omega) (by omega) (by omega)]
      simp only [Prod.mk.injEq, true_and]
      constructor <;> omega
    · rw [if_neg e, expected_yellow G Y R (k + 1) (by omega) (by omega)]
      simp only [Prod.mk.injEq, true_and]
      constructor <;> omega
  by_cases c3 : k < G + Y + R
  · rw [expected_red G Y R k (by omega) (by omega) c3] at hl
    simp only [lights, Prod.mk.injEq] at hl
    obtain ⟨hs, hr1, hr2⟩ := hl
    have hnext : (if k + 1 = 2 * (G + Y + R) then (0 : Int) else k + 1) = k + 1 :=
      if_neg (by omega)
    rw [step_lights x (by omega) (by omega) (by omega) (by omega), hs]
    simp only []
    rw [hnext, hr1, hr2, pg, py, pr, hw]
    by_cases e : G + Y + R - k = 1
    · rw [if_pos e, expected_green2 G Y R (k + 1) (by omega) (by omega) (by omega) (by omega)]
      simp only [Prod.mk.injEq, true_and]
      constructor <;> omega
    · rw [if_neg e, expected_red G Y R (k + 1) (by omega) (by omega) (by omega)]
      simp only [Prod.mk.injEq, true_and]
      constructor <;> omega
  by_cases c4 : k < G + Y + R + G
  · rw [expected_green2 G Y R k (by omega) (by omega) (by omega) c4] at hl
    simp only [lights, Prod.mk.injEq] at hl
    obtain ⟨hs, hr1, hr2⟩ := hl
    have hnext : (if k + 1 = 2 * (G + Y + R) then (0 : Int) else k + 1) = k + 1 :=
      if_neg (by omega)
    rw [step_lights x (by omega) (by omega) (by omega) (by omega), hs]
    simp only []
    rw [hnext, hr1, hr2, py]
    by_cases e : G + Y + R + G - k = 1
    · rw [if_pos e,
        expected_yellow2 G Y R (k + 1) (by omega) (by omega) (by omega) (by omega)]
      simp only [Prod.mk.injEq, true_and]
      constructor <;> omega
    · rw [if_neg e, expected_green2 G Y R (k + 1) (by omega) (by omega) (by omega) (by omega)]
      simp only [Prod.mk.injEq, true_and]
      constructor <;> omega
  by_cases c5 : k < G + Y + R + G + Y
  · rw [expected_yellow2 G Y R k (by omega) (by omega) (by omega) c5] at hl
    simp only [lights, Prod.mk.injEq] at hl
    obtain ⟨hs, hr1, hr2⟩ := hl
    have hnext : (if k + 1 = 2 * (G + Y + R) then (0 : Int) else k + 1) = k + 1 :=
      if_neg (by omega)
    rw [step_lights x (by omega) (by omega) (by omega) (by omega), hs]
    simp only []
    rw [hnext, hr1, hr2, pr]
    by_cases e : G + Y + R + G + Y - k = 1
    · rw [if_pos e, expected_red2 G Y R (k + 1) (by omega) (by omega) (by omega) (by omega)]
      simp only [Prod.mk.injEq, true_and]
      constructor <;> omega
    · rw [if_neg e,
        expected_yellow2 G Y R (k + 1) (by omega) (by omega) (by omega) (by omega)]
      simp only [Prod.mk.injEq, true_and]
      constructor <;> omega
  · rw [expected_red2 G Y R k (by omega) (by omega) (by omega) (by omega)] at hl
    simp only [lights, Prod.mk.injEq] at hl
    obtain ⟨hs, hr1, hr2⟩ := hl
    rw [step_lights x (by omega) (by omega) (by omega) (by omega), hs]
    simp only []
    rw [hr1, hr2, pg, py, pr, hw]
    by_cases e : 2 * (G + Y + R) - k = 1
    · have hnext : (if k + 1 = 2 * (G + Y + R) then (0 : Int) else k + 1) = 0 :=
        if_pos (by omega)
      rw [if_pos e, hnext, expected_green G Y R 0 (by omega)]
      simp only [Prod.mk.injEq, true_and]
      constructor <;> omega
    · have hnext : (if k + 1 = 2 * (G + Y + R) then (0 : Int) else k + 1) = k + 1 :=
        if_neg (by omega)
      rw [if_neg e, hnext,
        expected_red2 G Y R (k + 1) (by omega) (by omega) (by omega) (by omega)]
      simp only [Prod.mk.injEq, true_and]
      constructor <;> omega

theorem transition_frame (y : Vars) :
    (transition y).current_mode = y.current_mode ∧
      (transition y).second_counter = y.second_counter ∧
      (transition y).period_green = y.period_green ∧
      (transition y).period_yellow = y.period_yellow ∧
      (transition y).period_red = y.period_red := by
  unfold transition
  split <;> split_ifs <;> exact ⟨rfl, rfl, rfl, rfl, rfl⟩

/-- A tick in normal mode with no button held runs the normal-mode step on a state with
50 ms more on the counter and the same lights and periods. -/
theorem idle_tick_normal (s : Vars) (hm : s.current_mode = System_Mode_t.MODE_NORMAL) :
    ∃ x : Vars, idle_tick s = fsm_normal_mode_run x ∧
      x.current_mode = System_Mode_t.MODE_NORMAL ∧
      x.second_counter = wrap32 (s.second_counter + 50) ∧ lights x = lights s ∧
      x.period_green = s.period_green ∧ x.period_yellow = s.period_yellow ∧
      x.period_red = s.period_red := by
  unfold idle_tick fsm_traffic_run
  simp only []
  by_cases hb : wrap32 (s.blink_counter + 50) ≥ 250
  · simp only [hb, if_true, Nat.zero_ne_one, if_false, hm]
    exact ⟨_, rfl, rfl, rfl, rfl, rfl, rfl, rfl⟩
  · simp only [hb, if_false, Nat.zero_ne_one, hm, if_true]
    exact ⟨_, rfl, rfl, rfl, rfl, rfl, rfl, rfl⟩

/-- A tick before the second is full changes neither the lights nor the periods. -/
theorem idle_tick_wait (s : Vars) (hm : s.current_mode = System_Mode_t.MODE_NORMAL)
    (hc0 : 0 ≤ s.second_counter) (hc : s.second_counter < 950) :
    (idle_tick s).current_mode = System_Mode_t.MODE_NORMAL ∧
      (idle_tick s).second_counter = s.second_counter + 50 ∧
      lights (idle_tick s) = lights s ∧ (idle_tick s).period_green = s.period_green ∧
      (idle_tick s).period_yellow = s.period_yellow ∧
      (idle_tick s).period_red = s.period_red := by
  obtain ⟨x, e, x1, x2, x3, x4, x5, x6⟩ := idle_tick_normal s hm
  rw [wrap32_id _ (by omega) (by omega)] at x2
  have hlt : x.second_counter < 1000 := by omega
  rw [e]
  unfold fsm_normal_mode_run
  rw [if_pos hlt]
  exact ⟨x1, x2, x3, x4, x5, x6⟩

/-- The tick that completes the second takes the one-second step. -/
theorem idle_tick_fire (s : Vars) (G Y R k : Int) (hG : 1 ≤ G) (hY : 1 ≤ Y) (hR : 1 ≤ R)
    (hsum : G + Y + R ≤ 2147483647) (hk0 : 0 ≤ k) (hk : k < 2 * (G + Y + R))
    (hm : s.current_mode = System_Mode_t.MODE_NORMAL) (hc : s.second_counter = 950)
    (pg : s.period_green = G) (py : s.period_yellow = Y) (pr : s.period_red = R)
    (hl : lights s = expected G Y R k) :
    Cycling (idle_tick s) G Y R (if k + 1 = 2 * (G + Y + R) then 0 else k + 1) := by
  obtain ⟨x, e, x1, x2, x3, x4, x5, x6⟩ := idle_tick_normal s hm
  rw [wrap32_id _ (by omega) (by omega)] at x2
  have hge : ¬ x.second_counter < 1000 := by omega
  rw [e]
  unfold fsm_normal_mode_run
  rw [if_neg hge]
  obtain ⟨f1, f2, f3, f4, f5⟩ := transition_frame (count_down { x with second_counter := 0 })
  have hx := transition_expected { x with second_counter := 0 } G Y R k hG hY hR hsum hk0 hk
    (x4.trans pg) (x5.trans py) (x6.trans pr) (x3.trans hl)
  exact ⟨f1.trans x1, f2, f3.trans (x4.trans pg), f4.trans (x5.trans py),
    f5.trans (x6.trans pr), hx⟩

theorem idle_ticks_wait (s : Vars) (hm : s.current_mode = System_Mode_t.MODE_NORMAL)
    (hc : s.second_counter = 0) :
    ∀ j : Nat, j ≤ 19 →
      (idle_tick^[j] s).current_mode = System_Mode_t.MODE_NORMAL ∧
        (idle_tick^[j] s).second_counter = 50 * (j : Int) ∧
        lights (idle_tick^[j] s) = lights s ∧
        (idle_tick^[j] s).period_green = s.period_green ∧
        (idle_tick^[j] s).period_yellow = s.period_yellow ∧
        (idle_tick^[j] s).period_red = s.period_red := by
  intro j
  induction j with
  | zero => intro _; exact ⟨hm, hc, rfl, rfl, rfl, rfl⟩
  | succ j ih =>
    intro hj
    obtain ⟨h1, h2, h3, h4, h5, h6⟩ := ih (by omega)
    rw [Function.iterate_succ_apply']
    obtain ⟨k1, k2, k3, k4, k5, k6⟩ := idle_tick_wait (idle_tick^[j] s) h1 (by omega) (by omega)
    refine ⟨k1, ?_, k3.trans h3, k4.trans h4, k5.trans h5, k6.trans h6⟩
    rw [k2, h2]
    push_cast
    omega

/-- One second with no button held moves the lights one second on in the cycle. -/
theorem one_second_cycling (s : Vars) (G Y R k : Int) (hG : 1 ≤ G) (hY : 1 ≤ Y)
    (hR : 1 ≤ R) (hsum : G + Y + R ≤ 2147483647) (hk0 : 0 ≤ k) (hk : k < 2 * (G + Y + R))
    (h : Cycling s G Y R k) :
    Cycling (one_second s) G Y R (if k + 1 = 2 * (G + Y + R) then 0 else k + 1) := by
  obtain ⟨hm, hc, pg, py, pr, hl⟩ := h
  obtain ⟨h1, h2, h3, h4, h5, h6⟩ := idle_ticks_wait s hm hc 19 (by omega)
  have e : one_second s = idle_tick (idle_tick^[19] s) := by
    unfold one_second
    exact Function.iterate_succ_apply' idle_tick 19 s
  rw [e]
  exact idle_tick_fire _ G Y R k hG hY hR hsum hk0 hk h1 (by rw [h2]; rfl) (h4.trans pg)
    (h5.trans py) (h6.trans pr) (h3.trans hl)

theorem succ_emod (a m : Int) (hm : 0 < m) :
    (a + 1) % m = if a % m + 1 = m then 0 else a % m + 1 := by
  have h0 := Int.emod_nonneg a (by omega : m ≠ 0)
  have h1 := Int.emod_lt_of_pos a hm
  have e : (a + 1) % m = (a % m + 1) % m := by
    rw [Int.add_emod, Int.add_emod (a % m) 1 m, Int.emod_emod]
  rw [e]
  by_cases hh : a % m + 1 = m
  · rw [if_pos hh, hh, Int.emod_self]
  · rw [if_neg hh]
    exact Int.emod_eq_of_lt (by omega) (by omega)

/-- From initialisation, after any number of seconds in normal mode the lights are where
the cycle has them. -/
theorem seconds_cycling (s : Vars) (hG : 1 ≤ s.period_green) (hY : 1 ≤ s.period_yellow)
    (hR : 1 ≤ s.period_red)
    (hsum : s.period_green + s.period_yellow + s.period_red ≤ 2147483647) (n : Nat) :
    Cycling (seconds n (fsm_traffic_init s)) s.period_green s.period_yellow s.period_red
      ((n : Int) % (2 * (s.period_green + s.period_yellow + s.period_red))) := by
  induction n with
  | zero =>
    refine ⟨rfl, rfl, rfl, rfl, rfl, ?_⟩
    have e0 : ((0 : Nat) : Int) % (2 * (s.period_green + s.period_yellow + s.period_red)) = 0 :=
      Int.zero_emod _
    rw [e0, expected_green _ _ _ 0 (by omega)]
    show (Traffic_State_t.STATE_R1_GREEN_R2_RED, s.period_green,
      wrap32 (wrap32 (s.period_green + s.period_yellow) + s.period_red)) = _
    rw [wrap32_sum _ _ _ hG hY hR hsum]
    simp only [Prod.mk.injEq, true_and]
    constructor <;> omega
  | succ n ih =>
    have hpos : 0 < 2 * (s.period_green + s.period_yellow + s.period_red) := by omega
    have e : seconds (n + 1) (fsm_traffic_init s) =
        one_second (seconds n (fsm_traffic_init s)) := by
      unfold seconds
      exact Function.iterate_succ_apply' one_second n _
    have hk := one_second_cycling _ _ _ _ _ hG hY hR hsum
      (Int.emod_nonneg _ (by omega)) (Int.emod_lt_of_pos _ hpos) ih
    rw [e]
    have ec : ((n + 1 : Nat) : Int) = (n : Int) + 1 := by push_cast; rfl
    rw [ec, succ_emod _ _ hpos]
    exact hk

/-- The lights of the cycle: both countdowns are at least 1, and in the all-red states
they are equal. -/
theorem expected_bounds (G Y R k : Int) (hY : 1 ≤ Y) (hR : 1 ≤ R)
    (hk : k < 2 * (G + Y + R)) :
    1 ≤ (expected G Y R k).2.1 ∧ 1 ≤ (expected G Y R k).2.2 ∧
      ((expected G Y R k).1 = Traffic_State_t.STATE_ALL_RED_1 ∨
        (expected G Y R k).1 = Traffic_State_t.STATE_ALL_RED_2 →
        (expected G Y R k).2.1 = (expected G Y R k).2.2) := by
  unfold expected
  split_ifs <;> refine ⟨?_, ?_, ?_⟩ <;>
    first
      | (simp only []; omega)
      | (intro h; rcases h with h | h <;> first | rfl | cases h)

/-- C40: the traffic-light FSM in normal mode.  With the green, yellow and red periods
`G`, `Y`, `R` each at least 1 (and their sum an `int`), from `fsm_traffic_init` and with
no button held, after `n` seconds the state and the two countdowns are those of the cycle
R1_GREEN_R2_RED for `G` seconds, R1_YELLOW_R2_RED for `Y`, ALL_RED_1 for `R`,
R1_RED_R2_GREEN for `G`, R1_RED_R2_YELLOW for `Y`, ALL_RED_2 for `R`, and back, at
`n` modulo `2 (G + Y + R)`.  After every one-second step both timers are at least 1.  In
ALL_RED_1 and in ALL_RED_2 the two timers are equal, so that when the decrement of the
next step brings the route-1 timer to 0 in ALL_RED_1 the route-2 timer is 0 as well, and
symmetrically in ALL_RED_2. -/
theorem normal_mode_cycle (s : Vars) (n : Nat) (hG : 1 ≤ s.period_green)
    (hY : 1 ≤ s.period_yellow) (hR : 1 ≤ s.period_red)
    (hsum : s.period_green + s.period_yellow + s.period_red ≤ 2147483647) :
    lights (seconds n (fsm_traffic_init s)) =
        expected s.period_green s.period_yellow s.period_red
          ((n : Int) % (2 * (s.period_green + s.period_yellow + s.period_red))) ∧
      1 ≤ (seconds n (fsm_traffic_init s)).r1_timer ∧
      1 ≤ (seconds n (fsm_traffic_init s)).r2_timer ∧
      ((count_down (seconds n (fsm_traffic_init s))).traffic_state =
          Traffic_State_t.STATE_ALL_RED_1 →
        (count_down (seconds n (fsm_traffic_init s))).r1_timer = 0 →
        (count_down (seconds n (fsm_traffic_init s))).r2_timer = 0) ∧
      ((count_down (seconds n (fsm_traffic_init s))).traffic_state =
          Traffic_State_t.STATE_ALL_RED_2 →
        (count_down (seconds n (fsm_traffic_init s))).r2_timer = 0 →
        (count_down (seconds n (fsm_traffic_init s))).r1_timer = 0) ∧
      lights (seconds (n + (2 * (s.period_green + s.period_yellow + s.period_red)).toNat)
          (fsm_traffic_init s)) = lights (seconds n (fsm_traffic_init s)) := by
  have hpos : 0 < 2 * (s.period_green + s.period_yellow + s.period_red) := by omega
  obtain ⟨_, _, _, _, _, hl⟩ := seconds_cycling s hG hY hR hsum n
  obtain ⟨_, _, _, _, _, hl2⟩ := seconds_cycling s hG hY hR hsum
    (n + (2 * (s.period_green + s.period_yellow + s.period_red)).toNat)
  obtain ⟨b1, b2, b3⟩ := expected_bounds s.period_green s.period_yellow s.period_red
    ((n : Int) % (2 * (s.period_green + s.period_yellow + s.period_red))) hY hR
    (Int.emod_lt_of_pos _ hpos)
  rw [← hl] at b1 b2 b3
  have c1 : 1 ≤ (seconds n (fsm_traffic_init s)).r1_timer := b1
  have c2 : 1 ≤ (seconds n (fsm_traffic_init s)).r2_timer := b2
  have c3 : (seconds n (fsm_traffic_init s)).traffic_state = Traffic_State_t.STATE_ALL_RED_1 ∨
      (seconds n (fsm_traffic_init s)).traffic_state = Traffic_State_t.STATE_ALL_RED_2 →
      (seconds n (fsm_traffic_init s)).r1_timer = (seconds n (fsm_traffic_init s)).r2_timer := b3
  refine ⟨hl, c1, c2, ?_, ?_, ?_⟩
  · intro hs h0
    have e := c3 (Or.inl hs)
    show wrap32 ((seconds n (fsm_traffic_init s)).r2_timer - 1) = 0
    rw [← e]
    exact h0
  · intro hs h0
    have e := c3 (Or.inr hs)
    show wrap32 ((seconds n (fsm_traffic_init s)).r1_timer - 1) = 0
    rw [e]
    exact h0
  · rw [hl2, hl]
    congr 1
    have ec : ((n + (2 * (s.period_green + s.period_yellow + s.period_red)).toNat : Nat) : Int) =
        (n : Int) + 2 * (s.period_green + s.period_yellow + s.period_red) := by
      push_cast
      rw [Int.toNat_of_nonneg (by omega)]
    rw [ec, Int.add_emod_self]

/-- Witness of C40: with the periods 5, 2, 2 of program start, 9 seconds after
initialisation route 2 turns green with 5 seconds to go and route 1 has 9 seconds of
red. -/
theorem normal_mode_cycle_witness :
    (1 : Int) ≤ boot.period_green ∧ (1 : Int) ≤ boot.period_yellow ∧
      (1 : Int) ≤ boot.period_red ∧
      lights (seconds 9 (fsm_traffic_init boot)) =
        (Traffic_State_t.STATE_R1_RED_R2_GREEN, 9, 5) ∧
      lights (seconds 18 (fsm_traffic_init boot)) = lights (fsm_traffic_init boot) :=
  ⟨by decide, by decide, by decide,
    (normal_mode_cycle boot 9 (by decide) (by decide) (by decide) (by decide)).1,
    (normal_mode_cycle boot 0 (by decide) (by decide) (by decide)
      (by decide)).2.2.2.2.2⟩

end TrafficFsm

namespace ClockFsm

end ClockFsm
